import Mathlib

/-!
# Per-device MSI descriptor store and allocation engine (kernel/irq/msi.c)

A shallow embedding of the MSI core of `kernel/irq/msi.c`.

* Machine integers are natural numbers or integers; `unsigned int` arithmetic
  that can wrap is written with an explicit `% 2 ^ 32`.
* The per-device state is passed explicitly.  Everything outside the file
  (the interrupt-domain hierarchy, the memory allocator, sysfs, the callback
  tables) is a parameter: its answers are read from an environment `env`, and
  the calls made to it are recorded in a trace.
* A `NULL` dereference is the result `none`.
-/

namespace MSI

/-! ## Constants -/

/-- Error numbers used by the MSI core (include/uapi/asm-generic/errno-base.h). -/
def ENOMEM : Int := 12
def EBUSY : Int := 16
def EEXIST : Int := 17
def ENODEV : Int := 19
def EINVAL : Int := 22
def ENOSPC : Int := 28
def ERANGE : Int := 34

/-- Modelled from the spec: `MSI_MAX_INDEX` of include/linux/msi.h, which is not
part of the sources; the spec fixes `MAX_HWSIZE = MSI_MAX_INDEX + 1` to 65536. -/
def MSI_MAX_INDEX : Nat := 65535

/-- Modelled from the spec: `MSI_ANY_INDEX` of include/linux/msi.h, the `ANY`
index of the spec, the largest `unsigned int`. -/
def MSI_ANY_INDEX : Nat := 2 ^ 32 - 1

/-- Modelled from the spec: `MSI_MAX_DEVICE_IRQDOMAINS` of include/linux/msi.h,
the number `N` of domain slots of a device (default and secondary). -/
def MSI_MAX_DEVICE_IRQDOMAINS : Nat := 2

/-- Modelled from the spec: `MSI_DEFAULT_DOMAIN` of include/linux/msi.h,
`DEFAULT_DOMAIN_ID = 0`. -/
def MSI_DEFAULT_DOMAIN : Nat := 0

/-- The largest `unsigned long` (64 bit). -/
def ULONG_MAX : Nat := 2 ^ 64 - 1

/-- Invalid Xarray index which is outside of any searchable range. -/
def MSI_XA_MAX_INDEX : Nat := ULONG_MAX - 1

/-- The maximum domain size. -/
def MSI_XA_DOMAIN_SIZE : Nat := MSI_MAX_INDEX + 1

def VIRQ_CAN_RESERVE : Nat := 1
def VIRQ_ACTIVATE : Nat := 2

/-! ## Data model -/

/-- The fields of `struct msi_desc` the core reads or writes. -/
structure msi_desc where
  irq : Nat
  nvec_used : Nat
  msi_index : Nat
  affinity : Option (List Nat)
  is_msix : Bool
  can_mask : Bool
  icookie : Nat
  sysfs_attrs : Bool
deriving DecidableEq, Repr

inductive msi_desc_filter where
  | MSI_DESC_ALL
  | MSI_DESC_NOTASSOCIATED
  | MSI_DESC_ASSOCIATED
deriving DecidableEq, Repr

/-- The bus tokens of `enum irq_domain_bus_token`. -/
inductive irq_domain_bus_token where
  | DOMAIN_BUS_ANY
  | DOMAIN_BUS_WIRED
  | DOMAIN_BUS_GENERIC_MSI
  | DOMAIN_BUS_PCI_MSI
  | DOMAIN_BUS_PLATFORM_MSI
  | DOMAIN_BUS_NEXUS
  | DOMAIN_BUS_IPI
  | DOMAIN_BUS_FSL_MC_MSI
  | DOMAIN_BUS_TI_SCI_INTA_MSI
  | DOMAIN_BUS_WAKEUP
  | DOMAIN_BUS_VMD_MSI
  | DOMAIN_BUS_PCI_DEVICE_MSI
  | DOMAIN_BUS_PCI_DEVICE_MSIX
  | DOMAIN_BUS_DMAR
  | DOMAIN_BUS_AMDVI
  | DOMAIN_BUS_DEVICE_MSI
  | DOMAIN_BUS_WIRED_TO_MSI
deriving DecidableEq, Repr

/-- Modelled from the spec: the sparse, ordered descriptor store.  The kernel
xarray (lib/xarray.c) is not part of the sources; the spec describes it as a
sparse mapping from index to descriptor with unique keys and ordered key
iteration.  It is a list of (index, descriptor) pairs in ascending index order. -/
abbrev xarray := List (Nat × msi_desc)

/-- The representation invariant of a store: strictly ascending keys. -/
def xa_wf (xa : xarray) : Prop := xa.Pairwise (fun a b => a.1 < b.1)

instance (xa : xarray) : Decidable (xa_wf xa) := by
  unfold xa_wf; infer_instance

/-- The bits of `msi_domain_info::flags` the core tests (`info->flags & MSI_FLAG_X`). -/
structure msi_flags where
  ACTIVATE_EARLY : Bool
  MUST_REACTIVATE : Bool
  DEV_SYSFS : Bool
  ALLOC_SIMPLE_MSI_DESCS : Bool
  FREE_MSI_DESCS : Bool
  NO_MASK : Bool
deriving DecidableEq, Repr

/-- The callbacks of `struct msi_domain_ops` which the allocation engine looks at.
`msi_prepare` is the value the callback returns for a vector count.  The two
overrides replace the core allocation and free loops; they act on the
descriptor store of the domain.  `prepare_desc` and `set_desc` only write to
the allocation info handed to the hierarchy and are not represented. -/
structure msi_domain_ops where
  msi_prepare : Nat → Int
  domain_alloc_irqs : Option (Nat → xarray → Int × xarray)
  domain_free_irqs : Option (xarray → xarray)
  msi_post_free : Bool

structure msi_domain_info where
  flags : msi_flags
  hwsize : Nat
  bus_token : irq_domain_bus_token
  ops : msi_domain_ops
  alloc_data : Bool

/-- The callback of `struct msi_parent_ops` the core calls when a device domain
is created: `init_dev_msi_info` is handed the info of the domain to be created
and may adjust it; `none` is the answer `false`. -/
structure msi_parent_ops where
  init_dev_msi_info : msi_domain_info → Option msi_domain_info

/-- The fields of `struct irq_domain` the core reads: the flag bits
`IRQ_DOMAIN_FLAG_MSI_PARENT` and `IRQ_DOMAIN_FLAG_MSI_DEVICE`, the bus token, the
MSI info and the parent callbacks (`none` is the `NULL` pointer).  Domains are
handled through pointers; `id` stands for the address of the domain, so that two
pointers are equal when the ids are. -/
structure irq_domain where
  is_msi_parent : Bool
  is_msi_device : Bool
  bus_token : irq_domain_bus_token
  host_data : msi_domain_info
  msi_parent_ops : Option msi_parent_ops
  id : Nat

structure msi_dev_domain where
  store : xarray
  domain : Option irq_domain

/-- MSI per device data. -/
structure msi_device_data where
  __domains : Nat → msi_dev_domain
  __iter_idx : Nat

/-- MSI internal management control structure. -/
structure msi_ctrl where
  domid : Nat
  first : Nat
  last : Nat
  nirqs : Nat
deriving DecidableEq, Repr

/-- The parts of `struct msi_domain_template` which end up in the info of a
device domain: the callbacks and the info. -/
structure msi_domain_template where
  ops : msi_domain_ops
  info : msi_domain_info

/-- The result of `msi_domain_alloc_irq_at`: the index (or a negative error code)
and the interrupt number. -/
structure msi_map where
  index : Int
  virq : Nat
deriving DecidableEq, Repr

/-- The fields of `struct device` (and of the enclosing `pci_dev`) the core reads. -/
structure device where
  is_pci : Bool
  msi_enabled : Bool
  msi_domain : Option irq_domain
  msi_data : Option msi_device_data

/-- The per-interrupt state kept by the hierarchy (`struct irq_data`), as far as
the core reads or writes it. -/
structure irq_data where
  activated : Bool
  can_reserve : Bool
  affinity_managed : Bool
  managed_shutdown : Bool
  affinity_online : Bool
deriving DecidableEq, Repr

/-- What the core does to the world outside the descriptor store. -/
inductive event where
  | free_desc (d : msi_desc)
  | warn_leak (index : Nat)
  | irq_alloc (nvec : Nat) (ret : Int)
  | irq_activate (irq : Nat) (reserve : Bool)
  | irq_deactivate (irq : Nat)
  | irq_free (irq : Nat) (nvec : Nat)
  | post_free
deriving DecidableEq, Repr

/-- The answers of the external collaborators.  Those which can be asked several
times by one operation are indexed by the number of calls made so far, so that
any behaviour of the outside world along a run can be represented.  The last
six are asked at most once by an operation: whether `devres_alloc`, `kmemdup`
and `irq_domain_create_hierarchy` succeed, what `msi_sysfs_create_group`
returns, whether the firmware node of a new device domain exists (the named
node allocated for it or, with `MSI_FLAG_USE_DEV_FWNODE`, the node of the
device), and the address of the domain `irq_domain_create_hierarchy` creates. -/
structure env where
  config_pci_msi : Bool
  kzalloc_ok : Nat → Bool
  irq_alloc_ret : Nat → Nat → Int
  new_irqd : Nat → irq_data
  activate_ret : Nat → Bool → Int
  sysfs_populate_ret : Nat → Int
  devres_alloc_ok : Bool
  sysfs_create_group_ret : Int
  kmemdup_ok : Bool
  fwnode_ok : Bool
  create_hierarchy_ok : Bool
  new_domain_id : Nat

/-- The state the locked operations work on: the device data, the interrupt
data of the hierarchy, the call counters of the environment and the trace. -/
structure kstate where
  md : msi_device_data
  irqd : Nat → Option irq_data
  n_kzalloc : Nat
  n_irq_alloc : Nat
  trace : List event

/-! ## The descriptor store -/

/-- Modelled from the spec: `xa_load`, the single-index lookup. -/
def xa_load : xarray → Nat → Option msi_desc
  | [], _ => none
  | (k, d) :: rest, index => if k = index then some d else xa_load rest index

/-- Modelled from the spec: `xa_store`, which puts a descriptor under an index,
keeping the keys ordered and replacing what was there. -/
def xa_store : xarray → Nat → msi_desc → xarray
  | [], index, d => [(index, d)]
  | (k, e) :: rest, index, d =>
    if index < k then (index, d) :: (k, e) :: rest
    else if index = k then (index, d) :: rest
    else (k, e) :: xa_store rest index d

/-- Modelled from the spec: `xa_erase`, which removes the entry of an index. -/
def xa_erase (xa : xarray) (index : Nat) : xarray :=
  xa.filter (fun e => e.1 != index)

/-- Modelled from the spec: `insert_at`, the kernel `xa_insert`: fails with
`IndexTaken` (the xarray reports an occupied slot as `-EBUSY`) and never
overwrites. -/
def xa_insert (xa : xarray) (index : Nat) (d : msi_desc) : Int × xarray :=
  if (xa_load xa index).isSome then (-EBUSY, xa) else (0, xa_store xa index d)

/-- The lowest free index among `n` candidates starting at `i`. -/
def xa_find_free (xa : xarray) : Nat → Nat → Option Nat
  | _, 0 => none
  | i, n + 1 => if (xa_load xa i).isNone then some i else xa_find_free xa (i + 1) n

/-- Modelled from the spec: `insert_any`, the kernel `xa_alloc` with the limit
`[min, max]`: stores the descriptor at the lowest free index of the limit and
returns that index, or fails with `NoSpace`. -/
def xa_alloc (xa : xarray) (d : msi_desc) (min max : Nat) : Int × Nat × xarray :=
  match xa_find_free xa min (max + 1 - min) with
  | some i => (0, i, xa_store xa i d)
  | none => (-ENOSPC, 0, xa)

/-- Modelled from the spec: the entries visited by `xa_for_each_range`, the
present entries with `first <= index <= last`, in ascending index order. -/
def xa_range (xa : xarray) (first last : Nat) : xarray :=
  xa.filter (fun e => decide (first ≤ e.1) && decide (e.1 ≤ last))

def msi_desc_match (desc : msi_desc) : msi_desc_filter → Bool
  | .MSI_DESC_ALL => true
  | .MSI_DESC_NOTASSOCIATED => desc.irq == 0
  | .MSI_DESC_ASSOCIATED => desc.irq != 0

/-! ## Device data, domains -/

def set_store (md : msi_device_data) (domid : Nat) (xa : xarray) : msi_device_data :=
  { md with __domains := fun d =>
      if d = domid then { md.__domains d with store := xa } else md.__domains d }

def set_domain (md : msi_device_data) (domid : Nat) (dom : Option irq_domain) :
    msi_device_data :=
  { md with __domains := fun d =>
      if d = domid then { md.__domains d with domain := dom } else md.__domains d }

def msi_get_device_domain (md : msi_device_data) (domid : Nat) : Option irq_domain :=
  if domid ≥ MSI_MAX_DEVICE_IRQDOMAINS then none
  else
    match (md.__domains domid).domain with
    | none => none
    | some domain => if domain.is_msi_parent then none else some domain

def msi_domain_get_hwsize (md : msi_device_data) (domid : Nat) : Nat :=
  match msi_get_device_domain md domid with
  | some domain => domain.host_data.hwsize
  | none => MSI_XA_DOMAIN_SIZE

def __msi_unlock_descs (md : msi_device_data) : msi_device_data :=
  { md with __iter_idx := MSI_XA_MAX_INDEX }

/-! ## Device data set-up, device domains

`devres_alloc` hands out zeroed memory, so that the cursor of new device data is
0 and its slots are empty.  A `NULL` dereference is the result `none`:
`irq_domain_is_msi_parent` and the descriptor guard read through their pointer
without a check. -/

def msi_setup_device_data (e : env) (dev : device) : Int × device :=
  match dev.msi_data with
  | some _ => (0, dev)
  | none =>
    if ¬ e.devres_alloc_ok then (-ENOMEM, dev)
    else if e.sysfs_create_group_ret ≠ 0 then (e.sysfs_create_group_ret, dev)
    else
      let global : Option irq_domain :=
        match dev.msi_domain with
        | some domain => if ¬ domain.is_msi_parent then some domain else none
        | none => none
      let md : msi_device_data :=
        { __domains := fun d =>
            { store := [], domain := if d = MSI_DEFAULT_DOMAIN then global else none },
          __iter_idx := 0 }
      (0, { dev with msi_data := some md })

/-- The parameter `msi_device` is the bit `IRQ_DOMAIN_FLAG_MSI_DEVICE` of `flags`:
the callers pass either 0 or that bit.  The callbacks of the model are never
`NULL`, so that `msi_domain_update_dom_ops` and `msi_domain_update_chip_ops` have
nothing to fill in.  The new domain carries the flags handed in and
`IRQ_DOMAIN_FLAG_MSI`, the bus token of the info and the info itself. -/
def __msi_create_irq_domain (e : env) (info : msi_domain_info) (msi_device : Bool) :
    Option irq_domain :=
  if info.hwsize > MSI_XA_DOMAIN_SIZE then none
  else
    let info1 := if info.hwsize = 0 then { info with hwsize := MSI_XA_DOMAIN_SIZE } else info
    if ¬ e.create_hierarchy_ok then none
    else
      some { is_msi_parent := false, is_msi_device := msi_device,
             bus_token := info1.bus_token, host_data := info1, msi_parent_ops := none,
             id := e.new_domain_id }

def msi_create_irq_domain (e : env) (info : msi_domain_info) : Option irq_domain :=
  __msi_create_irq_domain e info false

/-- What a `return` does once the descriptor guard is taken: the result, with the
device data unlocked. -/
def guard_return (dev : device) (ret : Bool) (md : msi_device_data) : Option (Bool × device) :=
  some (ret, { dev with msi_data := some (__msi_unlock_descs md) })

def msi_create_device_irq_domain (e : env) (dev : device) (domid : Nat)
    (template : msi_domain_template) (hwsize : Nat) : Option (Bool × device) :=
  match dev.msi_domain with
  | none => none
  | some parent =>
    if ¬ parent.is_msi_parent then some (false, dev)
    else if domid ≥ MSI_MAX_DEVICE_IRQDOMAINS then some (false, dev)
    else if ¬ e.kmemdup_ok then some (false, dev)
    else
      let info : msi_domain_info :=
        { template.info with hwsize := hwsize, ops := template.ops, alloc_data := true }
      match parent.msi_parent_ops with
      | none => none
      | some pops =>
        if ¬ e.fwnode_ok then some (false, dev)
        else
          let s := msi_setup_device_data e dev
          if s.1 ≠ 0 then some (false, s.2)
          else
            match s.2.msi_data with
            | none => none
            | some md =>
              if (msi_get_device_domain md domid).isSome then guard_return s.2 false md
              else
                match pops.init_dev_msi_info info with
                | none => guard_return s.2 false md
                | some info1 =>
                  match __msi_create_irq_domain e info1 true with
                  | none => guard_return s.2 false md
                  | some domain =>
                    let md1 := set_domain md domid (some domain)
                    if domain.host_data.ops.msi_prepare hwsize ≠ 0 then
                      guard_return s.2 false (set_domain md1 domid none)
                    else guard_return s.2 true md1

def msi_remove_device_irq_domain (dev : device) (domid : Nat) : Option device :=
  match dev.msi_data with
  | none => none
  | some md =>
    match msi_get_device_domain md domid with
    | none => some { dev with msi_data := some (__msi_unlock_descs md) }
    | some domain =>
      if ¬ domain.is_msi_device then some { dev with msi_data := some (__msi_unlock_descs md) }
      else some { dev with msi_data := some (__msi_unlock_descs (set_domain md domid none)) }

def msi_match_device_irq_domain (dev : device) (domid : Nat) (bus_token : irq_domain_bus_token) :
    Option (Bool × device) :=
  match dev.msi_data with
  | none => none
  | some md =>
    match msi_get_device_domain md domid with
    | some domain =>
      if domain.is_msi_device then
        guard_return dev (decide (domain.host_data.bus_token = bus_token)) md
      else guard_return dev false md
    | none => guard_return dev false md

/-! ## Iteration -/

def msi_find_desc (md : msi_device_data) (domid : Nat) (filter : msi_desc_filter) :
    Option msi_desc × msi_device_data :=
  match (xa_range (md.__domains domid).store md.__iter_idx ULONG_MAX).find?
      (fun e => msi_desc_match e.2 filter) with
  | some (idx, desc) => (some desc, { md with __iter_idx := idx })
  | none => (none, { md with __iter_idx := MSI_XA_MAX_INDEX })

def msi_domain_first_desc (dev : device) (domid : Nat) (filter : msi_desc_filter) :
    Option msi_desc × device :=
  match dev.msi_data with
  | none => (none, dev)
  | some md =>
    if domid ≥ MSI_MAX_DEVICE_IRQDOMAINS then (none, dev)
    else
      let r := msi_find_desc { md with __iter_idx := 0 } domid filter
      (r.1, { dev with msi_data := some r.2 })

def msi_next_desc (dev : device) (domid : Nat) (filter : msi_desc_filter) :
    Option msi_desc × device :=
  match dev.msi_data with
  | none => (none, dev)
  | some md =>
    if domid ≥ MSI_MAX_DEVICE_IRQDOMAINS then (none, dev)
    else if md.__iter_idx ≥ MSI_MAX_INDEX then (none, dev)
    else
      let r := msi_find_desc { md with __iter_idx := md.__iter_idx + 1 } domid filter
      (r.1, { dev with msi_data := some r.2 })

/-- The cursor `dev->msi.data->__iter_idx`. -/
def cursor (dev : device) : Nat :=
  match dev.msi_data with
  | some md => md.__iter_idx
  | none => 0

/-- The loop `for (d = msi_next_desc(..); d; d = msi_next_desc(..))` continuing an
iteration: the descriptors returned by at most `fuel` further calls, each with
the value of the cursor when it was returned. -/
def msi_next_descs : Nat → device → Nat → msi_desc_filter → List (Nat × msi_desc) × device
  | 0, dev, _, _ => ([], dev)
  | fuel + 1, dev, domid, filter =>
    match msi_next_desc dev domid filter with
    | (none, dev1) => ([], dev1)
    | (some d, dev1) =>
      let r := msi_next_descs fuel dev1 domid filter
      ((cursor dev1, d) :: r.1, r.2)

/-- A whole walk: `msi_domain_first_desc`, then `msi_next_desc` until it returns
`NULL`; `fuel` bounds the number of `msi_next_desc` calls. -/
def msi_walk (fuel : Nat) (dev : device) (domid : Nat) (filter : msi_desc_filter) :
    List (Nat × msi_desc) × device :=
  match msi_domain_first_desc dev domid filter with
  | (none, dev1) => ([], dev1)
  | (some d, dev1) =>
    let r := msi_next_descs fuel dev1 domid filter
    ((cursor dev1, d) :: r.1, r.2)

/-- The value and the state `msi_domain_get_virq` leaves: the lookup runs under
the descriptor guard, whose release invalidates the cursor. -/
def msi_domain_get_virq (dev : device) (domid : Nat) (index : Nat) : Nat × device :=
  match dev.msi_data with
  | none => (0, dev)
  | some md =>
    if index > MSI_MAX_INDEX ∨ domid ≥ MSI_MAX_DEVICE_IRQDOMAINS then (0, dev)
    else
      let pcimsi := if dev.is_pci ∧ domid = MSI_DEFAULT_DOMAIN then dev.msi_enabled else false
      let virq :=
        match xa_load (md.__domains domid).store (if pcimsi then 0 else index) with
        | some desc =>
          if desc.irq ≠ 0 then
            if ¬ pcimsi then desc.irq
            else if index < desc.nvec_used then (desc.irq + index) % 2 ^ 32
            else 0
          else 0
        | none => 0
      (virq, { dev with msi_data := some (__msi_unlock_descs md) })

/-! ## Descriptor allocation, insertion and removal

The functions below run with the descriptor mutex held: `dev->msi.data` is
the `md` of the state, and `dev` supplies the other fields of the device. -/

def msi_alloc_desc (e : env) (ks : kstate) (nvec : Nat) (affinity : Option (List Nat)) :
    Option msi_desc × kstate :=
  let ks1 := { ks with n_kzalloc := ks.n_kzalloc + 1 }
  if ¬ e.kzalloc_ok ks.n_kzalloc then (none, ks1)
  else
    let desc : msi_desc :=
      { irq := 0, nvec_used := nvec % 2 ^ 16, msi_index := 0, affinity := none,
        is_msix := false, can_mask := false, icookie := 0, sysfs_attrs := false }
    match affinity with
    | none => (some desc, ks1)
    | some a =>
      let ks2 := { ks1 with n_kzalloc := ks1.n_kzalloc + 1 }
      if ¬ e.kzalloc_ok ks1.n_kzalloc then (none, ks2)
      else (some { desc with affinity := some (a.take nvec) }, ks2)

def msi_free_desc (ks : kstate) (desc : msi_desc) : kstate :=
  { ks with trace := ks.trace ++ [event.free_desc desc] }

def msi_insert_desc (ks : kstate) (desc : msi_desc) (domid : Nat) (index : Nat) :
    Int × kstate :=
  let xa := (ks.md.__domains domid).store
  let hwsize := msi_domain_get_hwsize ks.md domid
  if index = MSI_ANY_INDEX then
    let r := xa_alloc xa desc 0 ((hwsize + 2 ^ 32 - 1) % 2 ^ 32)
    if r.1 ≠ 0 then (r.1, msi_free_desc ks desc)
    else
      let xa1 := xa_store r.2.2 r.2.1 { desc with msi_index := r.2.1 }
      (0, { ks with md := set_store ks.md domid xa1 })
  else if index ≥ hwsize then (-ERANGE, msi_free_desc ks desc)
  else
    let desc1 := { desc with msi_index := index }
    let r := xa_insert xa index desc1
    if r.1 ≠ 0 then (r.1, msi_free_desc ks desc1)
    else (0, { ks with md := set_store ks.md domid r.2 })

def msi_domain_insert_msi_desc (e : env) (ks : kstate) (domid : Nat) (init_desc : msi_desc) :
    Int × kstate :=
  match msi_alloc_desc e ks init_desc.nvec_used init_desc.affinity with
  | (none, ks1) => (-ENOMEM, ks1)
  | (some desc, ks1) =>
    msi_insert_desc ks1
      { desc with is_msix := init_desc.is_msix, can_mask := init_desc.can_mask }
      domid init_desc.msi_index

def msi_ctrl_valid (dev : device) (md : msi_device_data) (ctrl : msi_ctrl) : Bool :=
  if ctrl.domid ≥ MSI_MAX_DEVICE_IRQDOMAINS ∨
      (dev.msi_domain.isSome ∧ (md.__domains ctrl.domid).domain.isNone) then false
  else
    let hwsize := msi_domain_get_hwsize md ctrl.domid
    if ctrl.first > ctrl.last ∨ ctrl.first ≥ hwsize ∨ ctrl.last ≥ hwsize then false
    else true

/-- The body of the loop of `msi_domain_free_descs`, run over the entries of the
range: erase the index, then leak the descriptor with a warning when it is
still associated, and free it otherwise. -/
def free_descs_loop (domid : Nat) : xarray → kstate → kstate
  | [], ks => ks
  | (idx, desc) :: rest, ks =>
    let xa1 := xa_erase (ks.md.__domains domid).store idx
    let ks1 := { ks with md := set_store ks.md domid xa1 }
    if msi_desc_match desc .MSI_DESC_ASSOCIATED then
      free_descs_loop domid rest { ks1 with trace := ks1.trace ++ [event.warn_leak idx] }
    else
      free_descs_loop domid rest (msi_free_desc ks1 desc)

def msi_domain_free_descs (dev : device) (ks : kstate) (ctrl : msi_ctrl) : kstate :=
  if ¬ msi_ctrl_valid dev ks.md ctrl then ks
  else
    free_descs_loop ctrl.domid
      (xa_range (ks.md.__domains ctrl.domid).store ctrl.first ctrl.last) ks

def msi_domain_free_msi_descs_range (dev : device) (ks : kstate) (domid first last : Nat) :
    kstate :=
  msi_domain_free_descs dev ks { domid := domid, first := first, last := last, nirqs := 0 }

/-- The loop of `msi_domain_add_simple_msi_descs`: `n` is the number of indices
left, `idx` the current one. -/
def add_simple_loop (e : env) (domid : Nat) : Nat → Nat → kstate → Int × kstate
  | 0, _, ks => (0, ks)
  | n + 1, idx, ks =>
    match msi_alloc_desc e ks 1 none with
    | (none, ks1) => (-ENOMEM, ks1)
    | (some desc, ks1) =>
      let r := msi_insert_desc ks1 desc domid idx
      if r.1 ≠ 0 then r else add_simple_loop e domid n (idx + 1) r.2

def msi_domain_add_simple_msi_descs (e : env) (dev : device) (ks : kstate) (ctrl : msi_ctrl) :
    Int × kstate :=
  if ¬ msi_ctrl_valid dev ks.md ctrl then (-EINVAL, ks)
  else
    let r := add_simple_loop e ctrl.domid (ctrl.last + 1 - ctrl.first) ctrl.first ks
    if r.1 ≠ 0 then (r.1, msi_domain_free_descs dev r.2 ctrl) else (0, r.2)

/-! ## The interrupt-domain hierarchy (external collaborator) -/

def set_irqd (ks : kstate) (irq : Nat) (d : Option irq_data) : kstate :=
  { ks with irqd := fun i => if i = irq then d else ks.irqd i }

/-- Modelled from the spec: the hierarchy `alloc(count, arg)`, the kernel
`__irq_domain_alloc_irqs` (kernel/irq/irqdomain.c is not part of the sources).
The result is the first interrupt number or a negative error; on success the
interrupt data of the `nvec` interrupts exist. -/
def __irq_domain_alloc_irqs (e : env) (ks : kstate) (nvec : Nat) : Int × kstate :=
  let ret := e.irq_alloc_ret ks.n_irq_alloc nvec
  let ks1 := { ks with n_irq_alloc := ks.n_irq_alloc + 1,
                       trace := ks.trace ++ [event.irq_alloc nvec ret] }
  if ret < 0 then (ret, ks1)
  else
    (ret, { ks1 with irqd := fun i =>
              if ret.toNat ≤ i ∧ i < ret.toNat + nvec then some (e.new_irqd i) else ks1.irqd i })

/-- Modelled from the spec: the hierarchy `free(virq, count)`, the kernel
`irq_domain_free_irqs`: the interrupt data of the range are gone afterwards. -/
def irq_domain_free_irqs (ks : kstate) (virq nr_irqs : Nat) : kstate :=
  { ks with trace := ks.trace ++ [event.irq_free virq nr_irqs],
            irqd := fun i => if virq ≤ i ∧ i < virq + nr_irqs then none else ks.irqd i }

/-- Modelled from the spec: the hierarchy `activate(irqd, reserve)`, the kernel
`irq_domain_activate_irq`: on success the interrupt is marked activated. -/
def irq_domain_activate_irq (e : env) (ks : kstate) (irq : Nat) (irqd : irq_data)
    (reserve : Bool) : Int × kstate :=
  let ret := e.activate_ret irq reserve
  let ks1 := { ks with trace := ks.trace ++ [event.irq_activate irq reserve] }
  if ret ≠ 0 then (ret, ks1) else (0, set_irqd ks1 irq (some { irqd with activated := true }))

/-- Modelled from the spec: the hierarchy `deactivate(irqd)`, the kernel
`irq_domain_deactivate_irq`: the interrupt is no longer activated. -/
def irq_domain_deactivate_irq (ks : kstate) (irq : Nat) (irqd : irq_data) : kstate :=
  set_irqd { ks with trace := ks.trace ++ [event.irq_deactivate irq] } irq
    (some { irqd with activated := false })

/-- Modelled from the spec: "bind `virq + i` to the descriptor", the kernel
`irq_set_msi_desc_off`: the descriptor stored under `idx` records the base
interrupt number when the offset is 0. -/
def irq_set_msi_desc_off (ks : kstate) (domid idx : Nat) (desc : msi_desc) (virq i : Nat) :
    msi_desc × kstate :=
  if i = 0 then
    let desc1 := { desc with irq := virq }
    let xa1 := xa_store (ks.md.__domains domid).store idx desc1
    (desc1, { ks with md := set_store ks.md domid xa1 })
  else (desc, ks)

/-! ## The allocation engine -/

def is_pci_family : irq_domain_bus_token → Bool
  | .DOMAIN_BUS_PCI_MSI => true
  | .DOMAIN_BUS_PCI_DEVICE_MSI => true
  | .DOMAIN_BUS_PCI_DEVICE_MSIX => true
  | .DOMAIN_BUS_VMD_MSI => true
  | _ => false

/-- The result is `none` when the first descriptor of the default domain is
dereferenced but does not exist.  `msi_first_desc(dev, filter)` is
`msi_domain_first_desc(dev, MSI_DEFAULT_DOMAIN, filter)`, whose guards hold
here, so that it is `msi_find_desc` from the cursor 0. -/
def msi_check_reservation_mode (domain : irq_domain) (info : msi_domain_info)
    (md : msi_device_data) : Option Bool × msi_device_data :=
  if ¬ is_pci_family domain.bus_token then (some false, md)
  else if ¬ info.flags.MUST_REACTIVATE then (some false, md)
  else if info.flags.NO_MASK then (some false, md)
  else
    let r := msi_find_desc { md with __iter_idx := 0 } MSI_DEFAULT_DOMAIN .MSI_DESC_ALL
    match r.1 with
    | none => (none, r.2)
    | some desc => (some (desc.is_msix || desc.can_mask), r.2)

def msi_handle_pci_fail (e : env) (domain : irq_domain) (desc : msi_desc) (allocated : Nat) :
    Int :=
  if ¬ (is_pci_family domain.bus_token ∧ e.config_pci_msi) then -ENOSPC
  else if desc.nvec_used > 1 then 1
  else if allocated ≠ 0 then (allocated : Int) else -ENOSPC

/-- The result is `none` when the interrupt has no interrupt data. -/
def msi_init_virq (e : env) (ks : kstate) (virq : Nat) (vflags : Nat) :
    Option (Int × kstate) :=
  match ks.irqd virq with
  | none => none
  | some irqd =>
    let irqd1 := if vflags &&& VIRQ_CAN_RESERVE = 0 then { irqd with can_reserve := false }
                 else irqd
    if vflags &&& VIRQ_CAN_RESERVE = 0 ∧ vflags &&& VIRQ_ACTIVATE ≠ 0 ∧
        irqd1.affinity_managed ∧ ¬ irqd1.affinity_online then
      some (0, set_irqd ks virq (some { irqd1 with managed_shutdown := true }))
    else
      let ks1 := set_irqd ks virq (some irqd1)
      if vflags &&& VIRQ_ACTIVATE = 0 then some (0, ks1)
      else
        let r := irq_domain_activate_irq e ks1 virq irqd1 (vflags &&& VIRQ_CAN_RESERVE ≠ 0)
        if r.1 ≠ 0 then some r
        else if vflags &&& VIRQ_CAN_RESERVE ≠ 0 then
          match r.2.irqd virq with
          | none => none
          | some irqd2 => some (0, set_irqd r.2 virq (some { irqd2 with activated := false }))
        else some (0, r.2)

/-- The loop over the `nvec_used` vectors of a descriptor in
`__msi_domain_alloc_irqs`: `n` vectors are left, `i` is the current one. -/
def init_vectors (e : env) (domid idx virq vflags : Nat) :
    Nat → Nat → msi_desc → kstate → Option (Int × msi_desc × kstate)
  | 0, _, desc, ks => some (0, desc, ks)
  | n + 1, i, desc, ks =>
    let b := irq_set_msi_desc_off ks domid idx desc virq i
    match msi_init_virq e b.2 (virq + i) vflags with
    | none => none
    | some r =>
      if r.1 ≠ 0 then some (r.1, b.1, r.2)
      else init_vectors e domid idx virq vflags n (i + 1) b.1 r.2

/-- The `msi_sysfs_populate_desc` of a configuration with sysfs: the
attributes are attached on success and removed again on failure. -/
def msi_sysfs_populate_desc (e : env) (ks : kstate) (domid idx : Nat) (desc : msi_desc) :
    Int × kstate :=
  let ret := e.sysfs_populate_ret desc.irq
  let desc1 := { desc with sysfs_attrs := decide (ret = 0) }
  let xa1 := xa_store (ks.md.__domains domid).store idx desc1
  (ret, { ks with md := set_store ks.md domid xa1 })

/-- The loop of `__msi_domain_alloc_irqs` over the entries of the range. -/
def alloc_irqs_loop (e : env) (domain : irq_domain) (ctrl : msi_ctrl) (vflags : Nat) :
    xarray → Nat → kstate → Option (Int × kstate)
  | [], _, ks => some (0, ks)
  | (idx, desc) :: rest, allocated, ks =>
    if ¬ msi_desc_match desc .MSI_DESC_NOTASSOCIATED then
      alloc_irqs_loop e domain ctrl vflags rest allocated ks
    else if allocated ≥ ctrl.nirqs then some (-EINVAL, ks)
    else
      let a := __irq_domain_alloc_irqs e ks desc.nvec_used
      if a.1 < 0 then some (msi_handle_pci_fail e domain desc allocated, a.2)
      else
        match init_vectors e ctrl.domid idx a.1.toNat vflags desc.nvec_used 0 desc a.2 with
        | none => none
        | some r =>
          if r.1 ≠ 0 then some (r.1, r.2.2)
          else if domain.host_data.flags.DEV_SYSFS then
            let p := msi_sysfs_populate_desc e r.2.2 ctrl.domid idx r.2.1
            if p.1 ≠ 0 then some p
            else alloc_irqs_loop e domain ctrl vflags rest (allocated + 1) p.2
          else alloc_irqs_loop e domain ctrl vflags rest (allocated + 1) r.2.2

def populate_alloc_info (domain : irq_domain) (nirqs : Nat) : Int :=
  if ¬ domain.host_data.alloc_data then domain.host_data.ops.msi_prepare nirqs else 0

def __msi_domain_alloc_irqs (e : env) (domain : irq_domain) (ks : kstate) (ctrl : msi_ctrl) :
    Option (Int × kstate) :=
  let info := domain.host_data
  let ret := populate_alloc_info domain ctrl.nirqs
  if ret ≠ 0 then some (ret, ks)
  else
    let vflags := if info.flags.ACTIVATE_EARLY then 0 ||| VIRQ_ACTIVATE else 0
    match msi_check_reservation_mode domain info ks.md with
    | (none, _) => none
    | (some can_reserve, md1) =>
      let vflags := if can_reserve then vflags ||| VIRQ_CAN_RESERVE else vflags
      alloc_irqs_loop e domain ctrl vflags
        (xa_range (ks.md.__domains ctrl.domid).store ctrl.first ctrl.last) 0
        { ks with md := md1 }

def msi_domain_alloc_simple_msi_descs (e : env) (dev : device) (info : msi_domain_info)
    (ks : kstate) (ctrl : msi_ctrl) : Int × kstate :=
  if ¬ info.flags.ALLOC_SIMPLE_MSI_DESCS then (0, ks)
  else msi_domain_add_simple_msi_descs e dev ks ctrl

def __msi_domain_alloc_locked (e : env) (dev : device) (ks : kstate) (ctrl : msi_ctrl) :
    Option (Int × kstate) :=
  if ¬ msi_ctrl_valid dev ks.md ctrl then some (-EINVAL, ks)
  else
    match msi_get_device_domain ks.md ctrl.domid with
    | none => some (-ENODEV, ks)
    | some domain =>
      let r := msi_domain_alloc_simple_msi_descs e dev domain.host_data ks ctrl
      if r.1 ≠ 0 then some r
      else
        match domain.host_data.ops.domain_alloc_irqs with
        | some f =>
          let o := f ctrl.nirqs (r.2.md.__domains ctrl.domid).store
          some (o.1, { r.2 with md := set_store r.2.md ctrl.domid o.2 })
        | none => __msi_domain_alloc_irqs e domain r.2 ctrl

/-! ## The free protocol -/

/-- The loop "make sure all interrupts are deactivated" over the vectors of a
descriptor: `n` vectors are left, `i` is the current one. -/
def deactivate_vectors (irq : Nat) : Nat → Nat → kstate → kstate
  | 0, _, ks => ks
  | n + 1, i, ks =>
    let v := (irq + i) % 2 ^ 32
    match ks.irqd v with
    | some irqd =>
      if irqd.activated then deactivate_vectors irq n (i + 1) (irq_domain_deactivate_irq ks v irqd)
      else deactivate_vectors irq n (i + 1) ks
    | none => deactivate_vectors irq n (i + 1) ks

/-- The loop of `__msi_domain_free_irqs` over the entries of the range. -/
def free_irqs_loop (domain : irq_domain) (domid : Nat) : xarray → kstate → kstate
  | [], ks => ks
  | (idx, desc) :: rest, ks =>
    if ¬ msi_desc_match desc .MSI_DESC_ASSOCIATED then free_irqs_loop domain domid rest ks
    else
      let ks1 := deactivate_vectors desc.irq desc.nvec_used 0 ks
      let ks2 := irq_domain_free_irqs ks1 desc.irq desc.nvec_used
      let desc1 := if domain.host_data.flags.DEV_SYSFS then { desc with sysfs_attrs := false }
                   else desc
      let xa1 := xa_store (ks2.md.__domains domid).store idx { desc1 with irq := 0 }
      free_irqs_loop domain domid rest { ks2 with md := set_store ks2.md domid xa1 }

def __msi_domain_free_irqs (domain : irq_domain) (ks : kstate) (ctrl : msi_ctrl) : kstate :=
  free_irqs_loop domain ctrl.domid
    (xa_range (ks.md.__domains ctrl.domid).store ctrl.first ctrl.last) ks

def msi_domain_free_locked (dev : device) (ks : kstate) (ctrl : msi_ctrl) : kstate :=
  if ¬ msi_ctrl_valid dev ks.md ctrl then ks
  else
    match msi_get_device_domain ks.md ctrl.domid with
    | none => ks
    | some domain =>
      let ks1 :=
        match domain.host_data.ops.domain_free_irqs with
        | some f =>
          let xa1 := f (ks.md.__domains ctrl.domid).store
          { ks with md := set_store ks.md ctrl.domid xa1 }
        | none => __msi_domain_free_irqs domain ks ctrl
      let ks2 := if domain.host_data.ops.msi_post_free
                 then { ks1 with trace := ks1.trace ++ [event.post_free] } else ks1
      if domain.host_data.flags.FREE_MSI_DESCS then msi_domain_free_descs dev ks2 ctrl
      else ks2

def msi_domain_alloc_locked (e : env) (dev : device) (ks : kstate) (ctrl : msi_ctrl) :
    Option (Int × kstate) :=
  match __msi_domain_alloc_locked e dev ks ctrl with
  | none => none
  | some r => if r.1 ≠ 0 then some (r.1, msi_domain_free_locked dev r.2 ctrl) else some r

def msi_domain_alloc_irqs_range_locked (e : env) (dev : device) (ks : kstate)
    (domid first last : Nat) : Option (Int × kstate) :=
  msi_domain_alloc_locked e dev ks
    { domid := domid, first := first, last := last,
      nirqs := (last + 1 + 2 ^ 32 - first) % 2 ^ 32 }

/-- The unlocked entry point: the guard takes the descriptor mutex, and
releasing it invalidates the cursor. -/
def msi_domain_alloc_irqs_range (e : env) (dev : device) (ks : kstate)
    (domid first last : Nat) : Option (Int × kstate) :=
  match msi_domain_alloc_irqs_range_locked e dev ks domid first last with
  | none => none
  | some r => some (r.1, { r.2 with md := __msi_unlock_descs r.2.md })

def msi_domain_alloc_irqs_all_locked (e : env) (dev : device) (ks : kstate)
    (domid nirqs : Nat) : Option (Int × kstate) :=
  msi_domain_alloc_locked e dev ks
    { domid := domid, first := 0,
      last := (msi_domain_get_hwsize ks.md domid + 2 ^ 32 - 1) % 2 ^ 32, nirqs := nirqs }

def msi_domain_free_irqs_range_locked (dev : device) (ks : kstate) (domid first last : Nat) :
    kstate :=
  msi_domain_free_locked dev ks { domid := domid, first := first, last := last, nirqs := 0 }

def msi_domain_free_irqs_range (dev : device) (ks : kstate) (domid first last : Nat) :
    kstate :=
  let ks1 := msi_domain_free_irqs_range_locked dev ks domid first last
  { ks1 with md := __msi_unlock_descs ks1.md }

def msi_domain_free_irqs_all_locked (dev : device) (ks : kstate) (domid : Nat) : kstate :=
  msi_domain_free_irqs_range_locked dev ks domid 0
    ((msi_domain_get_hwsize ks.md domid + 2 ^ 32 - 1) % 2 ^ 32)

def msi_domain_free_irqs_all (dev : device) (ks : kstate) (domid : Nat) : kstate :=
  let ks1 := msi_domain_free_irqs_all_locked dev ks domid
  { ks1 with md := __msi_unlock_descs ks1.md }

/-- The index under which `msi_insert_desc` has stored the descriptor, which the
caller reads as `desc->msi_index`. -/
def inserted_index (ks : kstate) (desc : msi_desc) (domid index : Nat) : Nat :=
  if index = MSI_ANY_INDEX then
    (xa_alloc (ks.md.__domains domid).store desc 0
      ((msi_domain_get_hwsize ks.md domid + 2 ^ 32 - 1) % 2 ^ 32)).2.1
  else index

/-- The result is `none` on a `NULL` dereference further down and when the
descriptor is gone from the store when its fields are read for the map. -/
def __msi_domain_alloc_irq_at (e : env) (dev : device) (ks : kstate) (domid index : Nat)
    (affdesc : Option (List Nat)) (icookie : Option Nat) : Option (msi_map × kstate) :=
  match msi_get_device_domain ks.md domid with
  | none => some ({ index := -ENODEV, virq := 0 }, ks)
  | some domain =>
    match msi_alloc_desc e ks 1 affdesc with
    | (none, ks1) => some ({ index := -ENOMEM, virq := 0 }, ks1)
    | (some desc, ks1) =>
      let desc1 := match icookie with
        | some c => { desc with icookie := c }
        | none => desc
      let r := msi_insert_desc ks1 desc1 domid index
      if r.1 ≠ 0 then some ({ index := r.1, virq := 0 }, r.2)
      else
        let idx := inserted_index ks1 desc1 domid index
        let ctrl : msi_ctrl := { domid := domid, first := idx, last := idx, nirqs := 1 }
        match __msi_domain_alloc_irqs e domain r.2 ctrl with
        | none => none
        | some a =>
          if a.1 ≠ 0 then
            some ({ index := a.1, virq := 0 }, msi_domain_free_locked dev a.2 ctrl)
          else
            match xa_load (a.2.md.__domains domid).store idx with
            | some d => some ({ index := (d.msi_index : Int), virq := d.irq }, a.2)
            | none => none

def msi_domain_alloc_irq_at (e : env) (dev : device) (ks : kstate) (domid index : Nat)
    (affdesc : Option (List Nat)) (icookie : Option Nat) : Option (msi_map × kstate) :=
  match __msi_domain_alloc_irq_at e dev ks domid index affdesc icookie with
  | none => none
  | some r => some (r.1, { r.2 with md := __msi_unlock_descs r.2.md })

/-- What `msi_domain_free_descs` does with an entry of the range once it is
erased: a warning and a leak when it is still associated, `msi_free_desc`
otherwise. -/
def free_descs_event (e : Nat × msi_desc) : event :=
  if msi_desc_match e.2 .MSI_DESC_ASSOCIATED then event.warn_leak e.1
  else event.free_desc e.2

/-- Repeated pairs: `n` times `msi_domain_alloc_irqs_range` followed by
`msi_domain_free_irqs_range` with the same arguments.  The result is `none` when
an allocation does not return 0. -/
def alloc_free_pairs (e : env) (dev : device) (domid first last : Nat) :
    Nat → kstate → Option kstate
  | 0, ks => some ks
  | n + 1, ks =>
    match msi_domain_alloc_irqs_range e dev ks domid first last with
    | none => none
    | some r =>
      if r.1 = 0 then
        alloc_free_pairs e dev domid first last n
          (msi_domain_free_irqs_range dev r.2 domid first last)
      else none

/-- The conversion of an `unsigned int` to `int`. -/
def int_of_uint (v : Nat) : Int :=
  if v % 2 ^ 32 < 2 ^ 31 then ((v % 2 ^ 32 : Nat) : Int) else ((v % 2 ^ 32 : Nat) : Int) - 2 ^ 32

/-- The cookie of a wired interrupt, `((u64)type << 32) | hwirq`. -/
def wired_cookie (hwirq type : Nat) : Nat :=
  ((type <<< 32) % 2 ^ 64) ||| hwirq

/-- The parameter `domain_dev` is `domain->dev`.  The function takes the
descriptor guard itself: `ks.md` are the device data of that device, and the
cursor is invalidated when the guard is released.  The result is `none` when
`__msi_domain_alloc_irq_at` dereferences `NULL`. -/
def msi_device_domain_alloc_wired (e : env) (domain : irq_domain) (domain_dev : Option device)
    (ks : kstate) (hwirq type : Nat) : Option (Int × kstate) :=
  match domain_dev with
  | none => some (-EINVAL, ks)
  | some dev =>
    if domain.bus_token ≠ .DOMAIN_BUS_WIRED_TO_MSI then some (-EINVAL, ks)
    else
      let icookie := wired_cookie (hwirq % 2 ^ 32) (type % 2 ^ 32)
      let held : Bool :=
        match msi_get_device_domain ks.md MSI_DEFAULT_DOMAIN with
        | some d => decide (d.id = domain.id)
        | none => false
      if held = false then some (-EINVAL, { ks with md := __msi_unlock_descs ks.md })
      else
        match __msi_domain_alloc_irq_at e dev ks MSI_DEFAULT_DOMAIN MSI_ANY_INDEX none
            (some icookie) with
        | none => none
        | some r =>
          some (if r.1.index ≥ 0 then int_of_uint r.1.virq else r.1.index,
                { r.2 with md := __msi_unlock_descs r.2.md })

/-! ## The allocation callback of the MSI domain -/

/-- What `msi_domain_alloc` does to the hierarchy and to the callbacks. -/
inductive alloc_event where
  | alloc_irqs_parent (virq nr_irqs : Nat)
  | msi_init (virq hwirq : Nat)
  | msi_free (virq : Nat)
  | free_irqs_top (virq nr_irqs : Nat)
deriving DecidableEq, Repr

/-- What `msi_domain_alloc` reads: the hardware interrupt `ops->get_hwirq` returns,
the mapping of the domain (`irq_find_mapping`, 0 when there is none), whether the
domain has a parent and what `irq_domain_alloc_irqs_parent` returns, what
`ops->msi_init` returns for an interrupt and a hardware interrupt, and whether
`ops->msi_free` is set. -/
structure alloc_ops where
  get_hwirq : Nat
  irq_find_mapping : Nat → Nat
  parent : Bool
  irq_domain_alloc_irqs_parent : Int
  msi_init : Nat → Nat → Int
  msi_free : Bool

/-- The loop `for (i--; i >= 0; i--) ops->msi_free(domain, info, virq + i)`, entered
with `i` after the decrement plus one. -/
def msi_free_down (virq : Nat) : Nat → List alloc_event
  | 0 => []
  | i + 1 => alloc_event.msi_free ((virq + i) % 2 ^ 32) :: msi_free_down virq i

/-- The loop of `msi_domain_alloc` over the interrupts: `n` are left, `i` is the
current one. -/
def msi_init_loop (o : alloc_ops) (virq nr_irqs hwirq : Nat) :
    Nat → Nat → List alloc_event → Int × List alloc_event
  | 0, _, tr => (0, tr)
  | n + 1, i, tr =>
    let ret := o.msi_init ((virq + i) % 2 ^ 32) ((hwirq + i) % 2 ^ 64)
    let tr1 := tr ++ [alloc_event.msi_init ((virq + i) % 2 ^ 32) ((hwirq + i) % 2 ^ 64)]
    if ret < 0 then
      (ret, tr1 ++ (if o.msi_free then msi_free_down virq i else []) ++
        [alloc_event.free_irqs_top virq nr_irqs])
    else msi_init_loop o virq nr_irqs hwirq n (i + 1) tr1

def msi_domain_alloc (o : alloc_ops) (virq nr_irqs : Nat) : Int × List alloc_event :=
  let hwirq := o.get_hwirq
  if o.irq_find_mapping hwirq > 0 then (-EEXIST, [])
  else
    let tr := if o.parent then [alloc_event.alloc_irqs_parent virq nr_irqs] else []
    if o.parent ∧ o.irq_domain_alloc_irqs_parent < 0 then (o.irq_domain_alloc_irqs_parent, tr)
    else msi_init_loop o virq nr_irqs hwirq nr_irqs 0 tr

/-! ## Runs of public operations -/

/-- The device together with the state of the hierarchy, the call counters and
the trace, between two operations. -/
structure msi_world where
  dev : device
  irqd : Nat → Option irq_data
  n_kzalloc : Nat
  n_irq_alloc : Nat
  trace : List event

/-- The state an operation works on once it holds the descriptor mutex; `none`
when the device has no MSI device data, which taking the mutex dereferences. -/
def world_lock (w : msi_world) : Option kstate :=
  match w.dev.msi_data with
  | none => none
  | some md =>
    some { md := md, irqd := w.irqd, n_kzalloc := w.n_kzalloc, n_irq_alloc := w.n_irq_alloc,
           trace := w.trace }

/-- The world an operation leaves behind. -/
def world_of (w : msi_world) (ks : kstate) : msi_world :=
  { dev := { w.dev with msi_data := some ks.md }, irqd := ks.irqd, n_kzalloc := ks.n_kzalloc,
    n_irq_alloc := ks.n_irq_alloc, trace := ks.trace }

/-- The operations on a device, with their arguments. -/
inductive msi_call where
  | setup_device_data
  | create_device_irq_domain (domid : Nat) (template : msi_domain_template) (hwsize : Nat)
  | remove_device_irq_domain (domid : Nat)
  | insert_msi_desc (domid : Nat) (init_desc : msi_desc)
  | free_msi_descs_range (domid first last : Nat)
  | alloc_irq_at (domid index : Nat) (affdesc : Option (List Nat)) (icookie : Option Nat)
  | alloc_irqs_range (domid first last : Nat)
  | alloc_irqs_all_locked (domid nirqs : Nat)
  | free_irqs_range (domid first last : Nat)
  | free_irqs_all (domid : Nat)

/-- One operation, in an environment; `none` when it dereferences `NULL`. -/
def msi_call_step (e : env) (w : msi_world) : msi_call → Option msi_world
  | .setup_device_data => some { w with dev := (msi_setup_device_data e w.dev).2 }
  | .create_device_irq_domain domid template hwsize =>
    (msi_create_device_irq_domain e w.dev domid template hwsize).map
      (fun r => { w with dev := r.2 })
  | .remove_device_irq_domain domid =>
    (msi_remove_device_irq_domain w.dev domid).map (fun d => { w with dev := d })
  | .insert_msi_desc domid init_desc =>
    (world_lock w).map (fun ks => world_of w (msi_domain_insert_msi_desc e ks domid init_desc).2)
  | .free_msi_descs_range domid first last =>
    (world_lock w).map
      (fun ks => world_of w (msi_domain_free_msi_descs_range w.dev ks domid first last))
  | .alloc_irq_at domid index affdesc icookie =>
    (world_lock w).bind (fun ks =>
      (msi_domain_alloc_irq_at e w.dev ks domid index affdesc icookie).map
        (fun r => world_of w r.2))
  | .alloc_irqs_range domid first last =>
    (world_lock w).bind (fun ks =>
      (msi_domain_alloc_irqs_range e w.dev ks domid first last).map (fun r => world_of w r.2))
  | .alloc_irqs_all_locked domid nirqs =>
    (world_lock w).bind (fun ks =>
      (msi_domain_alloc_irqs_all_locked e w.dev ks domid nirqs).map (fun r => world_of w r.2))
  | .free_irqs_range domid first last =>
    (world_lock w).map (fun ks => world_of w (msi_domain_free_irqs_range w.dev ks domid first last))
  | .free_irqs_all domid =>
    (world_lock w).map (fun ks => world_of w (msi_domain_free_irqs_all w.dev ks domid))

/-- A sequence of operations, each in its own environment. -/
def msi_run : List (env × msi_call) → msi_world → Option msi_world
  | [], w => some w
  | (e, c) :: rest, w =>
    match msi_call_step e w c with
    | none => none
    | some w1 => msi_run rest w1

/-! ## Notions used to state the theorems -/

/-- The interrupt binding of the index `j` of a store: `none` when the index is
free, the `irq` of its descriptor otherwise. -/
def irq_of (xa : xarray) (j : Nat) : Option Nat :=
  (xa_load xa j).map (fun d => d.irq)

/-- The device data `md1` differs from `md` at most in the cursor and in the
entries with an index in `[first, last]` of the store of `domid`. -/
def md_frame (domid first last : Nat) (md md1 : msi_device_data) : Prop :=
  (∀ d, (md1.__domains d).domain = (md.__domains d).domain) ∧
  (∀ d, d ≠ domid → (md1.__domains d).store = (md.__domains d).store) ∧
  (∀ j, ¬ (first ≤ j ∧ j ≤ last) →
    xa_load (md1.__domains domid).store j = xa_load (md.__domains domid).store j)

/-- Two stores have the same occupied indices. -/
def same_keys (xa xa1 : xarray) : Prop :=
  ∀ j, (xa_load xa1 j).isSome = (xa_load xa j).isSome

/-- The descriptor `__msi_domain_free_irqs` leaves behind for an associated one. -/
def cleared_desc (domain : irq_domain) (desc : msi_desc) : msi_desc :=
  { (if domain.host_data.flags.DEV_SYSFS then { desc with sysfs_attrs := false } else desc)
    with irq := 0 }

/-- The effect of one iteration of `__msi_domain_free_irqs` on the store. -/
def clear_irq_step (domain : irq_domain) (xa : xarray) (e : Nat × msi_desc) : xarray :=
  if msi_desc_match e.2 .MSI_DESC_ASSOCIATED then xa_store xa e.1 (cleared_desc domain e.2)
  else xa

/-- The interrupt with number `v` is activated. -/
def is_activated (irqd : Nat → Option irq_data) (v : Nat) : Bool :=
  match irqd v with
  | some x => x.activated
  | none => false

/-- The arguments of a hierarchy free recorded in the trace. -/
def free_args : event → Option (Nat × Nat)
  | .irq_free irq nvec => some (irq, nvec)
  | _ => none

/-- The arguments of the hierarchy free an entry of the store calls for. -/
def assoc_args (e : Nat × msi_desc) : Option (Nat × Nat) :=
  if e.2.irq ≠ 0 then some (e.2.irq, e.2.nvec_used) else none

/-- The effect of the loop of `msi_domain_add_simple_msi_descs` with result `r`:
nothing changes outside the `n` indices from `idx` on of the store of `domid`; when
the result is 0 these indices were all free and now hold unassociated
descriptors. -/
def add_simple_post (domid n idx : Nat) (ks : kstate) (r : Int × kstate) : Prop :=
  (∀ d, (r.2.md.__domains d).domain = (ks.md.__domains d).domain) ∧
  (∀ d, d ≠ domid → (r.2.md.__domains d).store = (ks.md.__domains d).store) ∧
  (∀ j, ¬ (idx ≤ j ∧ j < idx + n) →
    xa_load (r.2.md.__domains domid).store j = xa_load (ks.md.__domains domid).store j) ∧
  (r.1 = 0 → ∀ j, idx ≤ j → j < idx + n →
    xa_load (ks.md.__domains domid).store j = none ∧
    irq_of (r.2.md.__domains domid).store j = some 0)

/-- The device data `md1` is `md` up to the cursor and the contents of the
descriptors with an index in `[first, last]` of the store of `domid`: no index is
added or removed. -/
def store_upd (domid first last : Nat) (md md1 : msi_device_data) : Prop :=
  md_frame domid first last md md1 ∧
  same_keys (md.__domains domid).store (md1.__domains domid).store

/-- The domain of the slot, when there is one, uses the core allocation and free
loops: it has neither a `domain_alloc_irqs` nor a `domain_free_irqs` override. -/
def core_paths (md : msi_device_data) (domid : Nat) : Prop :=
  match msi_get_device_domain md domid with
  | some domain =>
    domain.host_data.ops.domain_alloc_irqs.isNone = true ∧
    domain.host_data.ops.domain_free_irqs.isNone = true
  | none => True

instance (md : msi_device_data) (domid : Nat) : Decidable (core_paths md domid) := by
  unfold core_paths; split <;> infer_instance

/-- The domain of the slot, when there is one, sets both or neither of
`MSI_FLAG_ALLOC_SIMPLE_MSI_DESCS` and `MSI_FLAG_FREE_MSI_DESCS`. -/
def paired_flags (md : msi_device_data) (domid : Nat) : Prop :=
  match msi_get_device_domain md domid with
  | some domain =>
    domain.host_data.flags.ALLOC_SIMPLE_MSI_DESCS = domain.host_data.flags.FREE_MSI_DESCS
  | none => True

instance (md : msi_device_data) (domid : Nat) : Decidable (paired_flags md domid) := by
  unfold paired_flags; split <;> infer_instance

/-- The device with `md` as its MSI device data. -/
def with_data (dev : device) (md : msi_device_data) : device :=
  { dev with msi_data := some md }

/-- The index of the descriptor `msi_domain_get_virq` looks at. -/
def virq_key (dev : device) (domid index : Nat) : Nat :=
  if (if dev.is_pci ∧ domid = MSI_DEFAULT_DOMAIN then dev.msi_enabled else false) = true then 0
  else index

/-- The invariant of a store under the bound `h`: the keys are distinct, every
descriptor is stored under its `msi_index`, and that is below `h`. -/
def store_inv (h : Nat) (xa : xarray) : Prop :=
  xa_wf xa ∧ ∀ k d, xa_load xa k = some d → d.msi_index = k ∧ k < h

/-- The invariant of device data under the bounds `H`: every store satisfies
`store_inv`, and every hardware size is at least 1, at most the bound of its
domain id, which is at most `MSI_XA_DOMAIN_SIZE`. -/
def kinv (H : Nat → Nat) (md : msi_device_data) : Prop :=
  ∀ d, store_inv (H d) (md.__domains d).store ∧
    1 ≤ msi_domain_get_hwsize md d ∧ msi_domain_get_hwsize md d ≤ H d ∧
    H d ≤ MSI_XA_DOMAIN_SIZE

/-- The device data `md1` have the domains of `md`. -/
def same_domains (md md1 : msi_device_data) : Prop :=
  ∀ d, (md1.__domains d).domain = (md.__domains d).domain

/-- The device data `md1` satisfy the invariant under `H` and have the domains of
`md`. -/
def kpres (H : Nat → Nat) (md md1 : msi_device_data) : Prop :=
  kinv H md1 ∧ same_domains md md1

/-- The global domain of the device, when it is not an MSI parent, has a
hardware size as `__msi_create_irq_domain` leaves it. -/
def global_ok (dev : device) : Prop :=
  ∀ domain, dev.msi_domain = some domain → domain.is_msi_parent = false →
    1 ≤ domain.host_data.hwsize ∧ domain.host_data.hwsize ≤ MSI_XA_DOMAIN_SIZE

/-- No slot of the device holds a domain with a `domain_alloc_irqs` or a
`domain_free_irqs` override. -/
def world_core (w : msi_world) : Prop :=
  match w.dev.msi_data with
  | none => True
  | some md => ∀ d, d < MSI_MAX_DEVICE_IRQDOMAINS → core_paths md d

instance (w : msi_world) : Decidable (world_core w) := by
  unfold world_core; split <;> infer_instance

/-- The call, if it creates a device domain, does so for a domain id whose store
is empty. -/
def call_fresh (w : msi_world) : msi_call → Prop
  | .create_device_irq_domain domid _ _ =>
    match w.dev.msi_data with
    | none => True
    | some md => (md.__domains domid).store = []
  | _ => True

instance (w : msi_world) (c : msi_call) : Decidable (call_fresh w c) := by
  unfold call_fresh; split
  · split <;> infer_instance
  · infer_instance

/-- No state of the run has a domain with an override in a slot. -/
def run_core : List (env × msi_call) → msi_world → Prop
  | [], w => world_core w
  | (e, c) :: rest, w =>
    world_core w ∧
    match msi_call_step e w c with
    | none => True
    | some w1 => run_core rest w1

/-- Every device domain of the run is created for a domain id whose store is
empty. -/
def run_fresh : List (env × msi_call) → msi_world → Prop
  | [], _ => True
  | (e, c) :: rest, w =>
    call_fresh w c ∧
    match msi_call_step e w c with
    | none => True
    | some w1 => run_fresh rest w1

/-- Whether a run satisfies `run_core` can be computed. -/
def run_core_decidable :
    (calls : List (env × msi_call)) → (w : msi_world) → Decidable (run_core calls w)
  | [], w => by unfold run_core; infer_instance
  | (e, c) :: rest, w => by
    unfold run_core
    have : Decidable (match msi_call_step e w c with
        | none => True
        | some w1 => run_core rest w1) := by
      split
      · infer_instance
      · exact run_core_decidable rest _
    infer_instance

instance (calls : List (env × msi_call)) (w : msi_world) : Decidable (run_core calls w) :=
  run_core_decidable calls w

/-- Whether a run satisfies `run_fresh` can be computed. -/
def run_fresh_decidable :
    (calls : List (env × msi_call)) → (w : msi_world) → Decidable (run_fresh calls w)
  | [], _ => by unfold run_fresh; infer_instance
  | (e, c) :: rest, w => by
    unfold run_fresh
    have : Decidable (match msi_call_step e w c with
        | none => True
        | some w1 => run_fresh rest w1) := by
      split
      · infer_instance
      · exact run_fresh_decidable rest _
    infer_instance

instance (calls : List (env × msi_call)) (w : msi_world) : Decidable (run_fresh calls w) :=
  run_fresh_decidable calls w

/-- The stores of the device satisfy the invariant under the bound
`MSI_XA_DOMAIN_SIZE`. -/
def world_weak (w : msi_world) : Prop :=
  ∀ md, w.dev.msi_data = some md → kinv (fun _ => MSI_XA_DOMAIN_SIZE) md

/-- The stores of the device satisfy the invariant under the hardware sizes of
their domain ids. -/
def world_strong (w : msi_world) : Prop :=
  ∀ md, w.dev.msi_data = some md → kinv (msi_domain_get_hwsize md) md

/-- The device data `msi_setup_device_data` installs on a device without any:
empty stores, the cursor 0, and in slot 0 the global domain of the device
unless that is an MSI parent. -/
def new_device_data (dev : device) : msi_device_data :=
  { __domains := fun d =>
      { store := [],
        domain := if d = MSI_DEFAULT_DOMAIN then
            (match dev.msi_domain with
             | some domain => if ¬ domain.is_msi_parent then some domain else none
             | none => none)
          else none },
    __iter_idx := 0 }

/-- The conventions of the collaborators: the hierarchy hands out interrupt
numbers which are positive and fit an `int`, and errors are negative. -/
def env_conv (e : env) : Prop :=
  (∀ n nvec, e.irq_alloc_ret n nvec ≠ 0 ∧ e.irq_alloc_ret n nvec < 2 ^ 31) ∧
  (∀ irq b, e.activate_ret irq b ≤ 0) ∧
  (∀ irq, e.sysfs_populate_ret irq ≤ 0)

/-- The descriptor `msi_domain_add_simple_msi_descs` puts at an index: one
vector, no affinity, no interrupt. -/
def simple_desc (index : Nat) : msi_desc :=
  { irq := 0, nvec_used := 1, msi_index := index, affinity := none, is_msix := false,
    can_mask := false, icookie := 0, sysfs_attrs := false }

/-- What `__msi_domain_alloc_irq_at` with the result `r` has done to the state
`ks`: either it has failed before anything was inserted, and the device data are
as before; or a descriptor was inserted at the free index `i` (the lowest free one
for `MSI_ANY_INDEX`, the requested one otherwise), and then either the interrupt
allocation has failed and the free protocol has run on `i`, or the descriptor of
`i` is bound to the interrupt of the map. -/
def alloc_irq_at_post (ks : kstate) (domid index : Nat) (icookie : Option Nat)
    (domain : irq_domain) (r : msi_map × kstate) : Prop :=
  (r.1.index < 0 ∧ r.1.virq = 0 ∧ r.2.md = ks.md) ∨
  ∃ i, i < msi_domain_get_hwsize ks.md domid ∧
    xa_load (ks.md.__domains domid).store i = none ∧
    (index = MSI_ANY_INDEX → ∀ m, m < i → xa_load (ks.md.__domains domid).store m ≠ none) ∧
    (index ≠ MSI_ANY_INDEX → i = index) ∧
    ((r.1.index < 0 ∧ r.1.virq = 0 ∧
        (domain.host_data.ops.domain_free_irqs = none →
          md_frame domid i i ks.md r.2.md ∧
          irq_of (r.2.md.__domains domid).store i =
            if domain.host_data.flags.FREE_MSI_DESCS = true then none else some 0)) ∨
      (r.1.index = (i : Int) ∧ r.1.virq ≠ 0 ∧ r.1.virq < 2 ^ 31 ∧
        md_frame domid i i ks.md r.2.md ∧
        ∃ d, xa_load (r.2.md.__domains domid).store i = some d ∧ d.irq = r.1.virq ∧
          d.msi_index = i ∧ d.nvec_used = 1 ∧ d.icookie = icookie.getD 0))

/-- No descriptor with an index in `[first, last]` of the store is associated. -/
def range_unbound (xa : xarray) (first last : Nat) : Prop :=
  ∀ j, first ≤ j → j ≤ last → ∀ x, xa_load xa j = some x → x.irq = 0

/-! ## Concrete states used to evaluate the model -/

def ex_ops : msi_domain_ops :=
  { msi_prepare := fun _ => 0, domain_alloc_irqs := none, domain_free_irqs := none,
    msi_post_free := false }

def ex_flags : msi_flags :=
  { ACTIVATE_EARLY := false, MUST_REACTIVATE := false, DEV_SYSFS := false,
    ALLOC_SIMPLE_MSI_DESCS := false, FREE_MSI_DESCS := false, NO_MASK := false }

/-- A device domain of hardware size 32 with the given flags and callbacks. -/
def ex_domain (flags : msi_flags) (ops : msi_domain_ops) : irq_domain :=
  { is_msi_parent := false, is_msi_device := true,
    bus_token := .DOMAIN_BUS_DEVICE_MSI,
    host_data := { flags := flags, hwsize := 32, bus_token := .DOMAIN_BUS_DEVICE_MSI,
                   ops := ops, alloc_data := true },
    msi_parent_ops := none, id := 1 }

/-- An MSI-parent domain, as found in `dev->msi.domain`. -/
def ex_parent : irq_domain :=
  { is_msi_parent := true, is_msi_device := false,
    bus_token := .DOMAIN_BUS_GENERIC_MSI,
    host_data := { flags := ex_flags, hwsize := 0, bus_token := .DOMAIN_BUS_GENERIC_MSI,
                   ops := ex_ops, alloc_data := false },
    msi_parent_ops := some { init_dev_msi_info := fun info => some info }, id := 0 }

/-- A single-vector descriptor with the given interrupt and index. -/
def ex_desc (irq index : Nat) : msi_desc :=
  { irq := irq, nvec_used := 1, msi_index := index, affinity := none,
    is_msix := false, can_mask := false, icookie := 0, sysfs_attrs := false }

/-- Device data whose slot 0 holds the given store and domain; the other slots
are empty. -/
def ex_md (xa : xarray) (dom : Option irq_domain) : msi_device_data :=
  { __domains := fun d => if d = 0 then { store := xa, domain := dom }
                          else { store := [], domain := none },
    __iter_idx := MSI_XA_MAX_INDEX }

def ex_dev (pci enabled : Bool) (xa : xarray) (dom : Option irq_domain) : device :=
  { is_pci := pci, msi_enabled := enabled, msi_domain := some ex_parent,
    msi_data := some (ex_md xa dom) }

def ex_ks (xa : xarray) (dom : Option irq_domain) : kstate :=
  { md := ex_md xa dom, irqd := fun _ => none, n_kzalloc := 0, n_irq_alloc := 0, trace := [] }

/-- A store with entries at 0, 2 and 5, the ones at 2 and 5 associated. -/
def ex_store : xarray := [(0, ex_desc 0 0), (2, ex_desc 7 2), (5, ex_desc 9 5)]

/-- An environment in which memory allocation, activation and sysfs succeed and
the hierarchy answers `ret` to every allocation; new interrupts are not managed. -/
def ex_env (ret : Int) : env :=
  { config_pci_msi := true, kzalloc_ok := fun _ => true, irq_alloc_ret := fun _ _ => ret,
    new_irqd := fun _ =>
      { activated := false, can_reserve := true, affinity_managed := false,
        managed_shutdown := false, affinity_online := true },
    activate_ret := fun _ _ => 0, sysfs_populate_ret := fun _ => 0,
    devres_alloc_ok := true, sysfs_create_group_ret := 0, kmemdup_ok := true,
    fwnode_ok := true, create_hierarchy_ok := true, new_domain_id := 3 }

/-- Callbacks with both overrides: the allocation override binds interrupt 7 to the
descriptor of index 0 and reports `-ENOSPC`, the free override does nothing. -/
def ex_override_ops : msi_domain_ops :=
  { msi_prepare := fun _ => 0,
    domain_alloc_irqs := some (fun _ xa => (-ENOSPC, xa_store xa 0 (ex_desc 7 0))),
    domain_free_irqs := some (fun xa => xa),
    msi_post_free := false }

/-- A store whose index 0 is bound to interrupt 5 and whose index 1 is not bound. -/
def ex_bound_store : xarray := [(0, ex_desc 5 0), (1, ex_desc 0 1)]

/-- A store without any associated descriptor. -/
def ex_unbound_store : xarray := [(0, ex_desc 0 0), (1, ex_desc 0 1)]

/-- A store with a two-vector descriptor bound to interrupts 40 and 41, an
unassociated descriptor, and a descriptor bound to interrupt 50. -/
def ex_assoc_store : xarray :=
  [(0, { ex_desc 40 0 with nvec_used := 2 }), (1, ex_desc 0 1), (2, ex_desc 50 2)]

/-- Interrupt data in which 40 and 50 are activated and 41 is not. -/
def ex_irqd : Nat → Option irq_data := fun v =>
  if v = 40 ∨ v = 50 then
    some { activated := true, can_reserve := false, affinity_managed := false,
           managed_shutdown := false, affinity_online := true }
  else if v = 41 then
    some { activated := false, can_reserve := false, affinity_managed := false,
           managed_shutdown := false, affinity_online := true }
  else none

/-- Flags of a PCI device domain which activates early and must be reactivated. -/
def ex_pci_flags : msi_flags :=
  { ex_flags with ACTIVATE_EARLY := true, MUST_REACTIVATE := true }

/-- A PCI/MSI device domain of hardware size 32 with these flags. -/
def ex_pci_domain : irq_domain :=
  { is_msi_parent := false, is_msi_device := true,
    bus_token := .DOMAIN_BUS_PCI_DEVICE_MSI,
    host_data := { flags := ex_pci_flags, hwsize := 32,
                   bus_token := .DOMAIN_BUS_PCI_DEVICE_MSI, ops := ex_ops, alloc_data := true },
    msi_parent_ops := none, id := 2 }

/-- A store with one unassociated, maskable descriptor of four vectors. -/
def ex_multi_store : xarray := [(0, { ex_desc 0 0 with nvec_used := 4, can_mask := true })]

/-- Interrupt data of a managed interrupt none of whose CPUs is online. -/
def ex_managed_irqd : irq_data :=
  { activated := false, can_reserve := true, affinity_managed := true,
    managed_shutdown := false, affinity_online := false }

/-- An MSI-parent whose `init_dev_msi_info` rejects every device domain. -/
def ex_rejecting_parent : irq_domain :=
  { ex_parent with msi_parent_ops := some { init_dev_msi_info := fun _ => none } }

/-- A device without MSI device data below the given domain. -/
def ex_new_dev (domain : Option irq_domain) : device :=
  { is_pci := false, msi_enabled := false, msi_domain := domain, msi_data := none }

/-- The world of a device before any operation. -/
def ex_world (dev : device) : msi_world :=
  { dev := dev, irqd := fun _ => none, n_kzalloc := 0, n_irq_alloc := 0, trace := [] }

/-- A template for device domains without special flags or callbacks. -/
def ex_template : msi_domain_template :=
  { ops := ex_ops,
    info := { flags := ex_flags, hwsize := 0, bus_token := .DOMAIN_BUS_DEVICE_MSI,
              ops := ex_ops, alloc_data := false } }

/-- A run: set-up, a device domain of 32 entries for domain id 0, a descriptor at
index 5, and interrupts for the indices 0 to 7. -/
def ex_calls : List (env × msi_call) :=
  [(ex_env 0, .setup_device_data),
   (ex_env 0, .create_device_irq_domain 0 ex_template 32),
   (ex_env 0, .insert_msi_desc 0 (ex_desc 0 5)),
   (ex_env 40, .alloc_irqs_range 0 0 7)]

/-- A run which inserts a descriptor at index 50 before the device domain of 32
entries is created. -/
def ex_late_calls : List (env × msi_call) :=
  [(ex_env 0, .setup_device_data),
   (ex_env 0, .insert_msi_desc 0 (ex_desc 0 50)),
   (ex_env 0, .create_device_irq_domain 0 ex_template 32)]

/-- Flags of a domain whose descriptors the core allocates and frees. -/
def ex_managed_flags : msi_flags :=
  { ex_flags with ALLOC_SIMPLE_MSI_DESCS := true, FREE_MSI_DESCS := true }

/-- A wire-to-MSI device domain of hardware size 32. -/
def ex_wired_domain : irq_domain :=
  { is_msi_parent := false, is_msi_device := true,
    bus_token := .DOMAIN_BUS_WIRED_TO_MSI,
    host_data := { flags := ex_managed_flags, hwsize := 32,
                   bus_token := .DOMAIN_BUS_WIRED_TO_MSI, ops := ex_ops, alloc_data := true },
    msi_parent_ops := none, id := 4 }

/-- Callbacks of an MSI domain with a parent whose `msi_init` fails for
interrupt 12 and whose hardware interrupt 100 is not mapped. -/
def ex_alloc_ops : alloc_ops :=
  { get_hwirq := 100, irq_find_mapping := fun _ => 0, parent := true,
    irq_domain_alloc_irqs_parent := 0,
    msi_init := fun virq _ => if virq = 12 then -EINVAL else 0, msi_free := true }

/-! ## Facts about the descriptor store -/

theorem xa_load_eq_some_of_mem {xa : xarray} (h : xa_wf xa) {k : Nat} {d : msi_desc}
    (hm : (k, d) ∈ xa) : xa_load xa k = some d := by
  induction xa with
  | nil => cases hm
  | cons a rest ih =>
    obtain ⟨k1, d1⟩ := a
    have hw := List.pairwise_cons.mp h
    rcases List.mem_cons.mp hm with heq | hin
    · cases heq; simp [xa_load]
    · have hlt : k1 < k := hw.1 (k, d) hin
      have hne : ¬ k1 = k := by omega
      simp [xa_load, hne, ih hw.2 hin]

theorem mem_of_xa_load_eq_some {xa : xarray} {k : Nat} {d : msi_desc}
    (h : xa_load xa k = some d) : (k, d) ∈ xa := by
  induction xa with
  | nil => simp [xa_load] at h
  | cons a rest ih =>
    obtain ⟨k1, d1⟩ := a
    by_cases hk : k1 = k
    · simp [xa_load, hk] at h
      subst hk; subst h; exact List.mem_cons_self _ _
    · simp [xa_load, hk] at h
      exact List.mem_cons_of_mem _ (ih h)

theorem xa_load_eq_none_iff {xa : xarray} {k : Nat} :
    xa_load xa k = none ↔ ∀ e ∈ xa, e.1 ≠ k := by
  induction xa with
  | nil => simp [xa_load]
  | cons a rest ih =>
    obtain ⟨k1, d1⟩ := a
    by_cases hk : k1 = k
    · simp [xa_load, hk]
    · simp [xa_load, hk, ih]

theorem xa_load_store_same (xa : xarray) (i : Nat) (d : msi_desc) :
    xa_load (xa_store xa i d) i = some d := by
  induction xa with
  | nil => simp [xa_store, xa_load]
  | cons a rest ih =>
    obtain ⟨k, e⟩ := a
    by_cases h1 : i < k
    · simp [xa_store, h1, xa_load]
    · by_cases h2 : i = k
      · simp [xa_store, h2, xa_load]
      · have h3 : ¬ k = i := fun h => h2 h.symm
        simp [xa_store, h1, h2, xa_load, h3, ih]

theorem xa_load_store_other (xa : xarray) (i j : Nat) (d : msi_desc) (hne : j ≠ i) :
    xa_load (xa_store xa i d) j = xa_load xa j := by
  induction xa with
  | nil =>
    have h3 : ¬ i = j := fun h => hne h.symm
    simp [xa_store, xa_load, h3]
  | cons a rest ih =>
    obtain ⟨k, e⟩ := a
    have h3 : ¬ i = j := fun h => hne h.symm
    by_cases h1 : i < k
    · simp [xa_store, h1, xa_load, h3]
    · by_cases h2 : i = k
      · subst h2
        simp [xa_store, xa_load, h3]
      · simp [xa_store, h1, h2, xa_load, ih]

theorem xa_store_keys {xa : xarray} {i : Nat} {d : msi_desc} {e : Nat × msi_desc}
    (h : e ∈ xa_store xa i d) : e = (i, d) ∨ e ∈ xa := by
  induction xa with
  | nil => simp [xa_store] at h; exact Or.inl h
  | cons a rest ih =>
    obtain ⟨k, c⟩ := a
    by_cases h1 : i < k
    · simp [xa_store, h1] at h
      rcases h with h | h | h
      · exact Or.inl h
      · exact Or.inr (by simp [h])
      · exact Or.inr (List.mem_cons_of_mem _ h)
    · by_cases h2 : i = k
      · simp [xa_store, h1, h2] at h
        rcases h with h | h
        · exact Or.inl (by rw [h, h2])
        · exact Or.inr (List.mem_cons_of_mem _ h)
      · simp [xa_store, h1, h2] at h
        rcases h with h | h
        · exact Or.inr (by simp [h])
        · rcases ih h with h | h
          · exact Or.inl h
          · exact Or.inr (List.mem_cons_of_mem _ h)

theorem xa_wf_store {xa : xarray} (h : xa_wf xa) (i : Nat) (d : msi_desc) :
    xa_wf (xa_store xa i d) := by
  induction xa with
  | nil => simp [xa_store, xa_wf]
  | cons a rest ih =>
    obtain ⟨k, c⟩ := a
    have hw := List.pairwise_cons.mp h
    by_cases h1 : i < k
    · simp only [xa_store, h1, if_true]
      refine List.pairwise_cons.mpr ⟨?_, h⟩
      intro b hb
      rcases List.mem_cons.mp hb with hb | hb
      · subst hb; exact h1
      · have := hw.1 b hb
        show i < b.1
        omega
    · by_cases h2 : i = k
      · simp only [xa_store, h1, h2, if_true, if_false, lt_self_iff_false]
        exact List.pairwise_cons.mpr ⟨fun b hb => hw.1 b hb, hw.2⟩
      · simp only [xa_store, h1, h2, if_false]
        refine List.pairwise_cons.mpr ⟨?_, ih hw.2⟩
        intro b hb
        rcases xa_store_keys hb with hb | hb
        · subst hb
          show k < i
          omega
        · exact hw.1 b hb

theorem xa_wf_erase {xa : xarray} (h : xa_wf xa) (i : Nat) : xa_wf (xa_erase xa i) :=
  List.Pairwise.filter _ h

theorem xa_load_erase (xa : xarray) (i j : Nat) :
    xa_load (xa_erase xa i) j = if j = i then none else xa_load xa j := by
  induction xa with
  | nil => simp [xa_erase, xa_load]
  | cons a rest ih =>
    obtain ⟨k, c⟩ := a
    unfold xa_erase at ih ⊢
    by_cases hk : k = i
    · subst hk
      by_cases hj : j = k
      · subst hj; simp [xa_load, ih]
      · have : ¬ k = j := fun h => hj h.symm
        simp [xa_load, ih, hj, this]
    · by_cases hj : j = i
      · subst hj
        simp [List.filter_cons, hk, xa_load, ih]
      · by_cases hkj : k = j
        · subst hkj
          simp [List.filter_cons, hk, xa_load]
        · simp [List.filter_cons, hk, xa_load, hkj, ih, hj]

theorem xa_wf_range {xa : xarray} (h : xa_wf xa) (first last : Nat) :
    xa_wf (xa_range xa first last) :=
  List.Pairwise.filter _ h

theorem mem_xa_range {xa : xarray} {first last : Nat} {e : Nat × msi_desc} :
    e ∈ xa_range xa first last ↔ e ∈ xa ∧ first ≤ e.1 ∧ e.1 ≤ last := by
  simp [xa_range, List.mem_filter]

/-! ## Iteration -/

theorem filter_of_find_eq_none {p : Nat × msi_desc → Bool} {M : xarray}
    (h : M.find? p = none) : M.filter p = [] := by
  rw [List.filter_eq_nil_iff]
  intro a ha
  have := List.find?_eq_none.mp h a ha
  simpa using this

theorem filter_of_find_eq_some {p : Nat × msi_desc → Bool} {M : xarray} (hw : xa_wf M)
    {x : Nat × msi_desc} (h : M.find? p = some x) :
    M.filter p = x :: (M.filter (fun e => decide (x.1 < e.1))).filter p ∧
      (M.filter (fun e => decide (x.1 < e.1))).length < M.length := by
  induction M with
  | nil => simp at h
  | cons a t ih =>
    have hc := List.pairwise_cons.mp hw
    have htail : t.filter (fun e => decide (a.1 < e.1)) = t := by
      rw [List.filter_eq_self]
      intro b hb
      simpa using hc.1 b hb
    by_cases hp : p a = true
    · have hx : a = x := by simpa [List.find?_cons, hp] using h
      subst hx
      constructor
      · simp [List.filter_cons, hp, htail]
      · simp [List.filter_cons, htail]
    · have hp2 : p a = false := by simpa using hp
      have hf : t.find? p = some x := by simpa [List.find?_cons, hp2] using h
      have hxt : x ∈ t := List.mem_of_find?_eq_some hf
      have hlt : a.1 < x.1 := hc.1 x hxt
      have hnot : ¬ x.1 < a.1 := by omega
      obtain ⟨h1, h2⟩ := ih hc.2 hf
      constructor
      · simp only [List.filter_cons, hp2, hnot, decide_False]
        simpa using h1
      · simp only [List.filter_cons, hnot, decide_False, List.length_cons]
        simp at h2 ⊢
        omega

theorem xa_range_from (L : xarray) (k : Nat) (hkeys : ∀ e ∈ L, e.1 ≤ MSI_MAX_INDEX) :
    xa_range L (k + 1) ULONG_MAX = L.filter (fun e => decide (k < e.1)) := by
  unfold xa_range
  apply List.filter_congr
  intro e he
  have h1 := hkeys e he
  have h2 : e.1 ≤ ULONG_MAX := by
    have : MSI_MAX_INDEX ≤ ULONG_MAX := by decide
    omega
  simp [h2, Nat.succ_le_iff]

theorem xa_range_all (L : xarray) (hkeys : ∀ e ∈ L, e.1 ≤ MSI_MAX_INDEX) :
    xa_range L 0 ULONG_MAX = L := by
  unfold xa_range
  rw [List.filter_eq_self]
  intro e he
  have h1 := hkeys e he
  have h2 : e.1 ≤ ULONG_MAX := by
    have : MSI_MAX_INDEX ≤ ULONG_MAX := by decide
    omega
  simp [h2]

theorem msi_next_descs_eq (L : xarray) (domid : Nat) (filter : msi_desc_filter)
    (hdom : domid < MSI_MAX_DEVICE_IRQDOMAINS) (hwf : xa_wf L)
    (hkeys : ∀ e ∈ L, e.1 ≤ MSI_MAX_INDEX) :
    ∀ (fuel : Nat) (dev : device) (md : msi_device_data),
      dev.msi_data = some md → (md.__domains domid).store = L →
      (L.filter (fun e => decide (md.__iter_idx < e.1))).length ≤ fuel →
      (msi_next_descs fuel dev domid filter).1 =
        (L.filter (fun e => decide (md.__iter_idx < e.1))).filter
          (fun e => msi_desc_match e.2 filter) := by
  intro fuel
  induction fuel with
  | zero =>
    intro dev md _ _ hlen
    have : L.filter (fun e => decide (md.__iter_idx < e.1)) = [] :=
      List.eq_nil_of_length_eq_zero (Nat.le_zero.mp hlen)
    simp [msi_next_descs, this]
  | succ fuel ih =>
    intro dev md hmd hL hlen
    have hd : ¬ domid ≥ MSI_MAX_DEVICE_IRQDOMAINS := by omega
    by_cases hk : md.__iter_idx ≥ MSI_MAX_INDEX
    · have hnil : L.filter (fun e => decide (md.__iter_idx < e.1)) = [] := by
        rw [List.filter_eq_nil_iff]
        intro e he
        have := hkeys e he
        simp
        omega
      simp [msi_next_descs, msi_next_desc, hmd, hd, hk, hnil]
    · have hrange := xa_range_from L md.__iter_idx hkeys
      have hSwf : xa_wf (L.filter (fun e => decide (md.__iter_idx < e.1))) :=
        List.Pairwise.filter _ hwf
      cases hfind : (L.filter (fun e => decide (md.__iter_idx < e.1))).find?
          (fun e => msi_desc_match e.2 filter) with
      | none =>
        have := filter_of_find_eq_none hfind
        simp [msi_next_descs, msi_next_desc, hmd, hd, hk, msi_find_desc, hL, hrange, hfind,
          this]
      | some x =>
        obtain ⟨k1, d1⟩ := x
        obtain ⟨h1, h2⟩ := filter_of_find_eq_some hSwf hfind
        have hmem : (k1, d1) ∈ L.filter (fun e => decide (md.__iter_idx < e.1)) :=
          List.mem_of_find?_eq_some hfind
        have hlt : md.__iter_idx < k1 := by
          have := (List.mem_filter.mp hmem).2
          simpa using this
        have hff : (L.filter (fun e => decide (md.__iter_idx < e.1))).filter
            (fun e => decide (k1 < e.1)) = L.filter (fun e => decide (k1 < e.1)) := by
          rw [List.filter_filter]
          apply List.filter_congr
          intro e _
          by_cases hke : k1 < e.1
          · have : md.__iter_idx < e.1 := by omega
            simp [hke, this]
          · simp [hke]
        rw [hff] at h1 h2
        have hrec := ih { dev with msi_data := some { md with __iter_idx := k1 } }
          { md with __iter_idx := k1 } rfl hL (by simp only; omega)
        simp only [msi_next_descs, msi_next_desc, hmd, hd, hk, msi_find_desc, hL, hrange,
          hfind, if_false]
        simp only [cursor]
        rw [h1]
        simp only at hrec
        rw [← hrec]

/-- C1: a walk (`msi_domain_first_desc`, then `msi_next_desc` until `NULL`) over a
store that is not modified yields exactly the entries of the store of the domain
which match the filter, each once, in strictly ascending index order. -/
theorem msi_walk_yields_matching (dev : device) (md : msi_device_data) (domid : Nat)
    (filter : msi_desc_filter) (fuel : Nat)
    (hmd : dev.msi_data = some md) (hdom : domid < MSI_MAX_DEVICE_IRQDOMAINS)
    (hwf : xa_wf (md.__domains domid).store)
    (hkeys : ∀ e ∈ (md.__domains domid).store, e.1 ≤ MSI_MAX_INDEX)
    (hfuel : (md.__domains domid).store.length ≤ fuel) :
    (msi_walk fuel dev domid filter).1 =
        (md.__domains domid).store.filter (fun e => msi_desc_match e.2 filter) ∧
      ((msi_walk fuel dev domid filter).1).Pairwise (fun a b => a.1 < b.1) ∧
      (∀ e, e ∈ (msi_walk fuel dev domid filter).1 ↔
        (xa_load (md.__domains domid).store e.1 = some e.2 ∧
          msi_desc_match e.2 filter = true)) := by
  have hd : ¬ domid ≥ MSI_MAX_DEVICE_IRQDOMAINS := by omega
  have hall := xa_range_all _ hkeys
  have key : (msi_walk fuel dev domid filter).1 =
      (md.__domains domid).store.filter (fun e => msi_desc_match e.2 filter) := by
    cases hfind : (md.__domains domid).store.find? (fun e => msi_desc_match e.2 filter) with
    | none =>
      have := filter_of_find_eq_none hfind
      simp [msi_walk, msi_domain_first_desc, hmd, hd, msi_find_desc, hall, hfind, this]
    | some x =>
      obtain ⟨k1, d1⟩ := x
      obtain ⟨h1, h2⟩ := filter_of_find_eq_some hwf hfind
      dsimp only at h1 h2
      have hrec := msi_next_descs_eq (md.__domains domid).store domid filter hdom hwf hkeys fuel
        { dev with msi_data := some { md with __iter_idx := k1 } }
        { md with __iter_idx := k1 } rfl rfl (by simp only; omega)
      simp only [msi_walk, msi_domain_first_desc, hmd, hd, msi_find_desc, hall, hfind,
        if_false]
      simp only [cursor]
      rw [h1]
      simp only at hrec
      rw [← hrec]
  refine ⟨key, ?_, ?_⟩
  · rw [key]
    exact List.Pairwise.filter _ hwf
  · intro e
    rw [key, List.mem_filter]
    constructor
    · rintro ⟨h1, h2⟩
      exact ⟨xa_load_eq_some_of_mem hwf h1, h2⟩
    · rintro ⟨h1, h2⟩
      exact ⟨mem_of_xa_load_eq_some h1, h2⟩

/-! ## Frame facts about `set_store` -/

@[simp] theorem set_store_store (md : msi_device_data) (domid : Nat) (xa : xarray) :
    ((set_store md domid xa).__domains domid).store = xa := by
  simp [set_store]

@[simp] theorem set_store_domain (md : msi_device_data) (domid d : Nat) (xa : xarray) :
    ((set_store md domid xa).__domains d).domain = (md.__domains d).domain := by
  by_cases h : d = domid <;> simp [set_store, h]

theorem set_store_other (md : msi_device_data) (domid d : Nat) (xa : xarray) (h : d ≠ domid) :
    (set_store md domid xa).__domains d = md.__domains d := by
  simp [set_store, h]

@[simp] theorem set_store_iter (md : msi_device_data) (domid : Nat) (xa : xarray) :
    (set_store md domid xa).__iter_idx = md.__iter_idx := rfl

@[simp] theorem set_store_set_store (md : msi_device_data) (domid : Nat) (xa xb : xarray) :
    set_store (set_store md domid xa) domid xb = set_store md domid xb := by
  unfold set_store
  congr 1
  funext d
  by_cases h : d = domid <;> simp [h]

theorem set_store_self (md : msi_device_data) (domid : Nat) :
    set_store md domid (md.__domains domid).store = md := by
  cases md with
  | mk doms it =>
    unfold set_store
    congr 1
    funext d
    by_cases h : d = domid
    · subst h; simp
    · simp [h]

@[simp] theorem msi_get_device_domain_set_store (md : msi_device_data) (domid d : Nat)
    (xa : xarray) :
    msi_get_device_domain (set_store md domid xa) d = msi_get_device_domain md d := by
  simp [msi_get_device_domain]

@[simp] theorem msi_domain_get_hwsize_set_store (md : msi_device_data) (domid d : Nat)
    (xa : xarray) :
    msi_domain_get_hwsize (set_store md domid xa) d = msi_domain_get_hwsize md d := by
  simp [msi_domain_get_hwsize]

@[simp] theorem msi_ctrl_valid_set_store (dev : device) (md : msi_device_data) (domid : Nat)
    (xa : xarray) (ctrl : msi_ctrl) :
    msi_ctrl_valid dev (set_store md domid xa) ctrl = msi_ctrl_valid dev md ctrl := by
  simp [msi_ctrl_valid]

theorem msi_ctrl_valid_iff (dev : device) (md : msi_device_data) (ctrl : msi_ctrl) :
    msi_ctrl_valid dev md ctrl = true ↔
      ctrl.domid < MSI_MAX_DEVICE_IRQDOMAINS ∧
      ¬ (dev.msi_domain.isSome = true ∧ (md.__domains ctrl.domid).domain.isNone = true) ∧
      ctrl.first ≤ ctrl.last ∧ ctrl.last < msi_domain_get_hwsize md ctrl.domid := by
  unfold msi_ctrl_valid
  by_cases h1 : ctrl.domid ≥ MSI_MAX_DEVICE_IRQDOMAINS ∨
      (dev.msi_domain.isSome = true ∧ (md.__domains ctrl.domid).domain.isNone = true)
  · rw [if_pos h1]
    constructor
    · intro h; cases h
    · rintro ⟨h2, h3, _, _⟩
      rcases h1 with h1 | h1
      · omega
      · exact absurd h1 h3
  · rw [if_neg h1]
    have h2 : ctrl.domid < MSI_MAX_DEVICE_IRQDOMAINS := by
      by_contra hc; exact h1 (Or.inl (by omega))
    have h3 : ¬ (dev.msi_domain.isSome = true ∧
        (md.__domains ctrl.domid).domain.isNone = true) := fun hc => h1 (Or.inr hc)
    by_cases h4 : ctrl.first > ctrl.last ∨
        ctrl.first ≥ msi_domain_get_hwsize md ctrl.domid ∨
        ctrl.last ≥ msi_domain_get_hwsize md ctrl.domid
    · simp only [h4, if_true]
      constructor
      · intro h; cases h
      · rintro ⟨_, _, h5, h6⟩
        omega
    · simp only [h4, if_false]
      constructor
      · intro _
        exact ⟨h2, h3, by omega, by omega⟩
      · intro _; trivial

/-! ## Insertion -/

theorem xa_find_free_some {xa : xarray} :
    ∀ (n i r : Nat), xa_find_free xa i n = some r →
      i ≤ r ∧ r < i + n ∧ xa_load xa r = none ∧ ∀ m, i ≤ m → m < r → xa_load xa m ≠ none := by
  intro n
  induction n with
  | zero => intro i r h; simp [xa_find_free] at h
  | succ n ih =>
    intro i r h
    by_cases hi : xa_load xa i = none
    · have : r = i := by simpa [xa_find_free, hi] using h.symm
      subst this
      exact ⟨le_refl _, by omega, hi, fun m h1 h2 => by omega⟩
    · have hs : (xa_load xa i).isNone = false := by
        cases hx : xa_load xa i with
        | none => exact absurd hx hi
        | some _ => rfl
      have h2 : xa_find_free xa (i + 1) n = some r := by
        simpa [xa_find_free, hs] using h
      obtain ⟨a, b, c, d⟩ := ih (i + 1) r h2
      refine ⟨by omega, by omega, c, ?_⟩
      intro m h3 h4
      by_cases hm : m = i
      · subst hm; exact hi
      · exact d m (by omega) h4

theorem xa_find_free_exists (xa : xarray) :
    ∀ (n i j : Nat), i ≤ j → j < i + n → xa_load xa j = none →
      ∃ r, xa_find_free xa i n = some r := by
  intro n
  induction n with
  | zero => intro i j h1 h2 _; omega
  | succ n ih =>
    intro i j h1 h2 hj
    by_cases hi : xa_load xa i = none
    · exact ⟨i, by simp [xa_find_free, hi]⟩
    · have hs : (xa_load xa i).isNone = false := by
        cases hx : xa_load xa i with
        | none => exact absurd hx hi
        | some _ => rfl
      have hne : j ≠ i := fun h => hi (h ▸ hj)
      obtain ⟨r, hr⟩ := ih (i + 1) j (by omega) (by omega) hj
      exact ⟨r, by simp [xa_find_free, hs, hr]⟩

/-- C2: with `MSI_ANY_INDEX` and a free index below the hardware size,
`msi_insert_desc` returns 0, puts the descriptor at the lowest free index, records
that index in `msi_index`, and changes no other entry of any store. -/
theorem msi_insert_desc_any_lowest_free (ks : kstate) (desc : msi_desc) (domid j : Nat)
    (hsz : 1 ≤ msi_domain_get_hwsize ks.md domid)
    (hu32 : msi_domain_get_hwsize ks.md domid < 2 ^ 32)
    (hj : j < msi_domain_get_hwsize ks.md domid)
    (hfree : xa_load (ks.md.__domains domid).store j = none) :
    (msi_insert_desc ks desc domid MSI_ANY_INDEX).1 = 0 ∧
    ∃ i, i < msi_domain_get_hwsize ks.md domid ∧
      xa_load (ks.md.__domains domid).store i = none ∧
      (∀ m, m < i → xa_load (ks.md.__domains domid).store m ≠ none) ∧
      xa_load (((msi_insert_desc ks desc domid MSI_ANY_INDEX).2.md.__domains domid).store) i =
        some { desc with msi_index := i } ∧
      (∀ m, m ≠ i →
        xa_load (((msi_insert_desc ks desc domid MSI_ANY_INDEX).2.md.__domains domid).store) m =
          xa_load (ks.md.__domains domid).store m) ∧
      (∀ d, d ≠ domid →
        (msi_insert_desc ks desc domid MSI_ANY_INDEX).2.md.__domains d = ks.md.__domains d) ∧
      (msi_insert_desc ks desc domid MSI_ANY_INDEX).2.trace = ks.trace := by
  have hmax : (msi_domain_get_hwsize ks.md domid + 4294967295) % 4294967296 + 1 =
      msi_domain_get_hwsize ks.md domid := by omega
  obtain ⟨r, hr⟩ := xa_find_free_exists (ks.md.__domains domid).store
    (msi_domain_get_hwsize ks.md domid) 0 j (by omega) (by omega) hfree
  obtain ⟨_, h2, h3, h4⟩ := xa_find_free_some _ _ _ hr
  have hres : msi_insert_desc ks desc domid MSI_ANY_INDEX =
      (0, { ks with md := (set_store ks.md domid
              (xa_store (xa_store (ks.md.__domains domid).store r desc) r
                { desc with msi_index := r })) }) := by
    simp [msi_insert_desc, xa_alloc, hmax, hr]
  rw [hres]
  refine ⟨rfl, r, by omega, h3, fun m hm => h4 m (by omega) hm, ?_, ?_, ?_, rfl⟩
  · simp [xa_load_store_same]
  · intro m hm
    simp [xa_load_store_other _ _ _ _ hm]
  · intro d hd
    exact set_store_other _ _ _ _ hd

/-- C3: with an index other than `MSI_ANY_INDEX`, `msi_insert_desc` fails with
`-ERANGE` when the index is not below the hardware size and with the occupied-slot
error of the store when the index is taken, leaving the store as it was; otherwise
it returns 0 and the store maps the index to the descriptor, whose `msi_index` is
the index, all other entries being unchanged. -/
theorem msi_insert_desc_at (ks : kstate) (desc : msi_desc) (domid index : Nat)
    (hne : index ≠ MSI_ANY_INDEX) :
    (index ≥ msi_domain_get_hwsize ks.md domid →
      (msi_insert_desc ks desc domid index).1 = -ERANGE ∧
      (msi_insert_desc ks desc domid index).2.md = ks.md) ∧
    (index < msi_domain_get_hwsize ks.md domid →
      xa_load (ks.md.__domains domid).store index ≠ none →
      (msi_insert_desc ks desc domid index).1 = -EBUSY ∧
      (msi_insert_desc ks desc domid index).2.md = ks.md) ∧
    (index < msi_domain_get_hwsize ks.md domid →
      xa_load (ks.md.__domains domid).store index = none →
      (msi_insert_desc ks desc domid index).1 = 0 ∧
      xa_load (((msi_insert_desc ks desc domid index).2.md.__domains domid).store) index =
        some { desc with msi_index := index } ∧
      (∀ m, m ≠ index →
        xa_load (((msi_insert_desc ks desc domid index).2.md.__domains domid).store) m =
          xa_load (ks.md.__domains domid).store m) ∧
      (∀ d, d ≠ domid →
        (msi_insert_desc ks desc domid index).2.md.__domains d = ks.md.__domains d)) := by
  have hb : ¬ (-EBUSY : Int) = 0 := by decide
  refine ⟨?_, ?_, ?_⟩
  · intro h
    simp [msi_insert_desc, hne, h, msi_free_desc]
  · intro h hocc
    have h1 : ¬ index ≥ msi_domain_get_hwsize ks.md domid := by omega
    have h2 : (xa_load (ks.md.__domains domid).store index).isSome = true := by
      cases hx : xa_load (ks.md.__domains domid).store index with
      | none => exact absurd hx hocc
      | some _ => rfl
    simp [msi_insert_desc, hne, h1, xa_insert, h2, hb, msi_free_desc]
  · intro h hfree
    have h1 : ¬ index ≥ msi_domain_get_hwsize ks.md domid := by omega
    have hres : msi_insert_desc ks desc domid index =
        (0, { ks with md := (set_store ks.md domid
                (xa_store (ks.md.__domains domid).store index
                  { desc with msi_index := index })) }) := by
      simp [msi_insert_desc, hne, h1, xa_insert, hfree]
    rw [hres]
    refine ⟨rfl, ?_, ?_, ?_⟩
    · simp [xa_load_store_same]
    · intro m hm
      simp [xa_load_store_other _ _ _ _ hm]
    · intro d hd
      exact set_store_other _ _ _ _ hd

/-! ## Lookup -/

/-- C4: `msi_domain_get_virq` returns 0 without MSI state, for an index above
`MSI_MAX_INDEX` and for a domain id out of range.  Otherwise, outside the classic
PCI-MSI case it returns the interrupt of the descriptor stored at the index (0 when
there is none or it is not associated); in the classic PCI-MSI case it looks at
descriptor 0 only and returns `irq + index` when that descriptor is associated and
`index < nvec_used`, and 0 otherwise. -/
theorem msi_domain_get_virq_lookup (dev : device) (domid index : Nat) :
    ((dev.msi_data = none ∨ index > MSI_MAX_INDEX ∨ domid ≥ MSI_MAX_DEVICE_IRQDOMAINS) →
      (msi_domain_get_virq dev domid index).1 = 0) ∧
    (∀ md, dev.msi_data = some md → domid < MSI_MAX_DEVICE_IRQDOMAINS →
      index ≤ MSI_MAX_INDEX →
      (¬ (dev.is_pci = true ∧ domid = MSI_DEFAULT_DOMAIN ∧ dev.msi_enabled = true) →
        (msi_domain_get_virq dev domid index).1 =
          match xa_load (md.__domains domid).store index with
          | some d => d.irq
          | none => 0) ∧
      ((dev.is_pci = true ∧ domid = MSI_DEFAULT_DOMAIN ∧ dev.msi_enabled = true) →
        ((msi_domain_get_virq dev domid index).1 =
          match xa_load (md.__domains domid).store 0 with
          | some d => if d.irq ≠ 0 ∧ index < d.nvec_used then (d.irq + index) % 2 ^ 32 else 0
          | none => 0) ∧
        (∀ d, xa_load (md.__domains domid).store 0 = some d → d.irq ≠ 0 →
          index < d.nvec_used → d.irq + index < 2 ^ 32 →
          (msi_domain_get_virq dev domid index).1 = d.irq + index))) := by
  refine ⟨?_, ?_⟩
  · intro h
    unfold msi_domain_get_virq
    cases hmd : dev.msi_data with
    | none => rfl
    | some md =>
      rcases h with h | h | h
      · rw [hmd] at h; cases h
      · simp [h]
      · simp [h]
  · intro md hmd hdom hidx
    have h1 : ¬ (index > MSI_MAX_INDEX ∨ domid ≥ MSI_MAX_DEVICE_IRQDOMAINS) := by omega
    refine ⟨?_, ?_⟩
    · intro hc
      have hp : (if dev.is_pci = true ∧ domid = MSI_DEFAULT_DOMAIN then dev.msi_enabled
          else false) = false := by
        by_cases h2 : dev.is_pci = true ∧ domid = MSI_DEFAULT_DOMAIN
        · rw [if_pos h2]
          cases he : dev.msi_enabled with
          | false => rfl
          | true => exact absurd ⟨h2.1, h2.2, he⟩ hc
        · rw [if_neg h2]
      unfold msi_domain_get_virq
      simp only [hmd, h1, if_false, hp]
      cases hx : xa_load (md.__domains domid).store index with
      | none => simp [hx]
      | some d =>
        by_cases hz : d.irq = 0 <;> simp [hx, hz]
    · intro hc
      have hp : (if dev.is_pci = true ∧ domid = MSI_DEFAULT_DOMAIN then dev.msi_enabled
          else false) = true := by
        rw [if_pos ⟨hc.1, hc.2.1⟩]; exact hc.2.2
      have hval : (msi_domain_get_virq dev domid index).1 =
          match xa_load (md.__domains domid).store 0 with
          | some d => if d.irq ≠ 0 ∧ index < d.nvec_used then (d.irq + index) % 2 ^ 32 else 0
          | none => 0 := by
        unfold msi_domain_get_virq
        simp only [hmd, h1, if_false, hp, if_true]
        cases hx : xa_load (md.__domains domid).store 0 with
        | none => simp [hx]
        | some d =>
          by_cases hz : d.irq = 0
          · simp [hx, hz]
          · by_cases hn : index < d.nvec_used <;> simp [hx, hz, hn]
      refine ⟨hval, ?_⟩
      intro d hd hz hn hlt
      rw [hval, hd]
      simp only [ne_eq, hz, not_false_eq_true, hn, and_self, if_true]
      exact Nat.mod_eq_of_lt hlt

/-! ## Erasing a range -/

theorem free_descs_loop_eq (domid : Nat) :
    ∀ (M : xarray) (ks : kstate),
      free_descs_loop domid M ks =
        { ks with
          md := (set_store ks.md domid
            (M.foldl (fun xa e => xa_erase xa e.1) (ks.md.__domains domid).store)),
          trace := (ks.trace ++ M.map free_descs_event) } := by
  intro M
  induction M with
  | nil =>
    intro ks
    cases ks
    simp [free_descs_loop, set_store_self]
  | cons a rest ih =>
    intro ks
    obtain ⟨idx, desc⟩ := a
    by_cases hm : msi_desc_match desc .MSI_DESC_ASSOCIATED = true
    · simp [free_descs_loop, hm, ih, free_descs_event]
    · simp [free_descs_loop, hm, ih, free_descs_event, msi_free_desc]

theorem xa_load_foldl_erase :
    ∀ (M : xarray) (xa : xarray) (j : Nat),
      xa_load (M.foldl (fun xa e => xa_erase xa e.1) xa) j =
        if (∃ e ∈ M, e.1 = j) then none else xa_load xa j := by
  intro M
  induction M with
  | nil => intro xa j; simp
  | cons a rest ih =>
    intro xa j
    simp only [List.foldl_cons]
    rw [ih, xa_load_erase]
    by_cases h1 : ∃ e ∈ rest, e.1 = j
    · have : ∃ e ∈ a :: rest, e.1 = j := by
        obtain ⟨e, he, hj⟩ := h1
        exact ⟨e, List.mem_cons_of_mem _ he, hj⟩
      simp [h1, this]
    · by_cases h2 : j = a.1
      · have : ∃ e ∈ a :: rest, e.1 = j := ⟨a, List.mem_cons_self _ _, h2.symm⟩
        simp [h1, h2, this]
      · have : ¬ ∃ e ∈ a :: rest, e.1 = j := by
          rintro ⟨e, he, hj⟩
          rcases List.mem_cons.mp he with he | he
          · subst he; exact h2 hj.symm
          · exact h1 ⟨e, he, hj⟩
        have h3 : ¬ a.1 = j := fun h => h2 h.symm
        rw [if_neg h1, if_neg h2, if_neg this]

theorem xa_load_erase_range (xa : xarray) (first last j : Nat) :
    xa_load ((xa_range xa first last).foldl (fun xa e => xa_erase xa e.1) xa) j =
      if first ≤ j ∧ j ≤ last then none else xa_load xa j := by
  rw [xa_load_foldl_erase]
  by_cases hr : first ≤ j ∧ j ≤ last
  · rw [if_pos hr]
    by_cases h1 : ∃ e ∈ xa_range xa first last, e.1 = j
    · rw [if_pos h1]
    · rw [if_neg h1]
      cases hx : xa_load xa j with
      | none => rfl
      | some d =>
        exfalso
        exact h1 ⟨(j, d), mem_xa_range.mpr ⟨mem_of_xa_load_eq_some hx, hr.1, hr.2⟩, rfl⟩
  · rw [if_neg hr]
    have h1 : ¬ ∃ e ∈ xa_range xa first last, e.1 = j := by
      rintro ⟨e, he, hj⟩
      have := (mem_xa_range.mp he).2
      rw [hj] at this
      exact hr this
    rw [if_neg h1]

theorem msi_domain_free_descs_eq (dev : device) (ks : kstate) (ctrl : msi_ctrl)
    (hv : msi_ctrl_valid dev ks.md ctrl = true) :
    msi_domain_free_descs dev ks ctrl =
      { ks with
        md := (set_store ks.md ctrl.domid
          ((xa_range (ks.md.__domains ctrl.domid).store ctrl.first ctrl.last).foldl
            (fun xa e => xa_erase xa e.1) (ks.md.__domains ctrl.domid).store)),
        trace := (ks.trace ++
          (xa_range (ks.md.__domains ctrl.domid).store ctrl.first ctrl.last).map
            free_descs_event) } := by
  simp [msi_domain_free_descs, hv, free_descs_loop_eq]

/-- C9 (amended): when `msi_ctrl_valid` accepts the control range (the domain id is
in range, the slot holds a domain whenever the device has an MSI domain, and
`first <= last < hwsize`), `msi_domain_free_msi_descs_range` leaves no entry with
an index in `[first, last]` and keeps every entry outside the range and every other
store; when the control range is not accepted the state is unchanged. -/
theorem msi_domain_free_descs_range_frame (dev : device) (ks : kstate)
    (domid first last : Nat) :
    ((domid < MSI_MAX_DEVICE_IRQDOMAINS ∧
      ¬ (dev.msi_domain.isSome = true ∧ (ks.md.__domains domid).domain.isNone = true) ∧
      first ≤ last ∧ last < msi_domain_get_hwsize ks.md domid) →
      (∀ j, first ≤ j → j ≤ last →
        xa_load (((msi_domain_free_msi_descs_range dev ks domid first last).md.__domains
          domid).store) j = none) ∧
      (∀ j, ¬ (first ≤ j ∧ j ≤ last) →
        xa_load (((msi_domain_free_msi_descs_range dev ks domid first last).md.__domains
          domid).store) j = xa_load (ks.md.__domains domid).store j) ∧
      (∀ d, d ≠ domid →
        (msi_domain_free_msi_descs_range dev ks domid first last).md.__domains d =
          ks.md.__domains d)) ∧
    (¬ (domid < MSI_MAX_DEVICE_IRQDOMAINS ∧
      ¬ (dev.msi_domain.isSome = true ∧ (ks.md.__domains domid).domain.isNone = true) ∧
      first ≤ last ∧ last < msi_domain_get_hwsize ks.md domid) →
      msi_domain_free_msi_descs_range dev ks domid first last = ks) := by
  have hiff := msi_ctrl_valid_iff dev ks.md
    { domid := domid, first := first, last := last, nirqs := 0 }
  simp only at hiff
  refine ⟨?_, ?_⟩
  · intro h
    have hv := hiff.mpr h
    unfold msi_domain_free_msi_descs_range
    rw [msi_domain_free_descs_eq dev ks _ hv]
    refine ⟨?_, ?_, ?_⟩
    · intro j h1 h2
      simp [xa_load_erase_range, h1, h2]
    · intro j hj
      simp [xa_load_erase_range, hj]
    · intro d hd
      exact set_store_other _ _ _ _ hd
  · intro h
    have hv : ¬ msi_ctrl_valid dev ks.md
        { domid := domid, first := first, last := last, nirqs := 0 } = true :=
      fun hc => h (hiff.mp hc)
    simp [msi_domain_free_msi_descs_range, msi_domain_free_descs, hv]

theorem md_frame_refl (domid first last : Nat) (md : msi_device_data) :
    md_frame domid first last md md :=
  ⟨fun _ => rfl, fun _ _ => rfl, fun _ _ => rfl⟩

theorem md_frame_trans {domid first last : Nat} {a b c : msi_device_data}
    (h1 : md_frame domid first last a b) (h2 : md_frame domid first last b c) :
    md_frame domid first last a c :=
  ⟨fun d => (h2.1 d).trans (h1.1 d), fun d hd => (h2.2.1 d hd).trans (h1.2.1 d hd),
   fun j hj => (h2.2.2 j hj).trans (h1.2.2 j hj)⟩

theorem md_frame_cursor (domid first last : Nat) (md : msi_device_data) (c : Nat) :
    md_frame domid first last md { md with __iter_idx := c } :=
  ⟨fun _ => rfl, fun _ _ => rfl, fun _ _ => rfl⟩

theorem md_frame_set_store (domid first last : Nat) (md : msi_device_data) (xa : xarray)
    (h : ∀ j, ¬ (first ≤ j ∧ j ≤ last) → xa_load xa j = xa_load (md.__domains domid).store j) :
    md_frame domid first last md (set_store md domid xa) := by
  refine ⟨fun d => set_store_domain _ _ _ _, fun d hd => ?_, fun j hj => ?_⟩
  · rw [set_store_other _ _ _ _ hd]
  · rw [set_store_store]; exact h j hj

theorem md_frame_get_device_domain {domid first last : Nat} {md md1 : msi_device_data}
    (h : md_frame domid first last md md1) (d : Nat) :
    msi_get_device_domain md1 d = msi_get_device_domain md d := by
  simp [msi_get_device_domain, h.1 d]

theorem md_frame_get_hwsize {domid first last : Nat} {md md1 : msi_device_data}
    (h : md_frame domid first last md md1) (d : Nat) :
    msi_domain_get_hwsize md1 d = msi_domain_get_hwsize md d := by
  simp [msi_domain_get_hwsize, md_frame_get_device_domain h]

theorem md_frame_ctrl_valid {domid first last : Nat} {md md1 : msi_device_data}
    (h : md_frame domid first last md md1) (dev : device) (ctrl : msi_ctrl) :
    msi_ctrl_valid dev md1 ctrl = msi_ctrl_valid dev md ctrl := by
  simp [msi_ctrl_valid, md_frame_get_hwsize h, h.1]

theorem same_keys_refl (xa : xarray) : same_keys xa xa := fun _ => rfl

theorem same_keys_trans {a b c : xarray} (h1 : same_keys a b) (h2 : same_keys b c) :
    same_keys a c := fun j => (h2 j).trans (h1 j)

theorem same_keys_store (xa : xarray) (idx : Nat) (d : msi_desc)
    (h : (xa_load xa idx).isSome = true) : same_keys xa (xa_store xa idx d) := by
  intro j
  by_cases hj : j = idx
  · subst hj; rw [xa_load_store_same, h]; rfl
  · rw [xa_load_store_other _ _ _ _ hj]

theorem irq_of_store (xa : xarray) (idx j : Nat) (d : msi_desc) :
    irq_of (xa_store xa idx d) j = if j = idx then some d.irq else irq_of xa j := by
  unfold irq_of
  by_cases hj : j = idx
  · subst hj; simp [xa_load_store_same]
  · simp [xa_load_store_other _ _ _ _ hj, hj]

/-! ## The free protocol: the store -/

theorem deactivate_vectors_md (irq : Nat) :
    ∀ (n i : Nat) (ks : kstate), (deactivate_vectors irq n i ks).md = ks.md := by
  intro n
  induction n with
  | zero => intro i ks; rfl
  | succ n ih =>
    intro i ks
    unfold deactivate_vectors
    cases hx : ks.irqd ((irq + i) % 2 ^ 32) with
    | none => simp only [hx]; exact ih _ _
    | some x =>
      simp only [hx]
      by_cases ha : x.activated = true
      · simp only [ha, if_true]
        rw [ih]; rfl
      · simp only [ha, if_false]
        exact ih _ _

theorem free_irqs_loop_md (domain : irq_domain) (domid : Nat) :
    ∀ (M : xarray) (ks : kstate),
      (free_irqs_loop domain domid M ks).md =
        set_store ks.md domid (M.foldl (clear_irq_step domain) (ks.md.__domains domid).store) := by
  intro M
  induction M with
  | nil => intro ks; simp [free_irqs_loop, set_store_self]
  | cons a rest ih =>
    intro ks
    obtain ⟨idx, desc⟩ := a
    by_cases hm : msi_desc_match desc .MSI_DESC_ASSOCIATED = true
    · simp only [free_irqs_loop, hm, not_true_eq_false, if_false, List.foldl_cons,
        clear_irq_step, if_true]
      rw [ih]
      simp [irq_domain_free_irqs, deactivate_vectors_md, cleared_desc]
    · simp only [free_irqs_loop, hm, not_false_eq_true, if_true, List.foldl_cons,
        clear_irq_step, if_false]
      exact ih ks

theorem xa_load_foldl_clear (domain : irq_domain) :
    ∀ (M : xarray) (xa : xarray) (j : Nat), (∀ e ∈ M, e.1 ≠ j) →
      xa_load (M.foldl (clear_irq_step domain) xa) j = xa_load xa j := by
  intro M
  induction M with
  | nil => intro xa j _; rfl
  | cons a rest ih =>
    intro xa j h
    simp only [List.foldl_cons]
    rw [ih _ _ (fun e he => h e (List.mem_cons_of_mem _ he))]
    have ha : a.1 ≠ j := h a (List.mem_cons_self _ _)
    unfold clear_irq_step
    by_cases hm : msi_desc_match a.2 .MSI_DESC_ASSOCIATED = true
    · simp only [hm, if_true]
      exact xa_load_store_other _ _ _ _ (fun hj => ha hj.symm)
    · simp [hm]

theorem irq_of_foldl_clear (domain : irq_domain) :
    ∀ (M : xarray) (xa : xarray) (j : Nat),
      irq_of (M.foldl (clear_irq_step domain) xa) j =
        if (∃ e ∈ M, e.1 = j ∧ e.2.irq ≠ 0) then some 0 else irq_of xa j := by
  intro M
  induction M with
  | nil => intro xa j; simp
  | cons a rest ih =>
    intro xa j
    simp only [List.foldl_cons]
    rw [ih]
    by_cases h1 : ∃ e ∈ rest, e.1 = j ∧ e.2.irq ≠ 0
    · have h2 : ∃ e ∈ a :: rest, e.1 = j ∧ e.2.irq ≠ 0 := by
        obtain ⟨e, he, hj⟩ := h1
        exact ⟨e, List.mem_cons_of_mem _ he, hj⟩
      rw [if_pos h1, if_pos h2]
    · rw [if_neg h1]
      by_cases h3 : a.1 = j ∧ a.2.irq ≠ 0
      · have h2 : ∃ e ∈ a :: rest, e.1 = j ∧ e.2.irq ≠ 0 := ⟨a, List.mem_cons_self _ _, h3⟩
        rw [if_pos h2]
        have hm : msi_desc_match a.2 .MSI_DESC_ASSOCIATED = true := by
          simp [msi_desc_match, h3.2]
        simp only [clear_irq_step, hm, if_true]
        rw [irq_of_store, if_pos h3.1.symm]
        rfl
      · have h2 : ¬ ∃ e ∈ a :: rest, e.1 = j ∧ e.2.irq ≠ 0 := by
          rintro ⟨e, he, hj⟩
          rcases List.mem_cons.mp he with he | he
          · subst he; exact h3 hj
          · exact h1 ⟨e, he, hj⟩
        rw [if_neg h2]
        unfold clear_irq_step
        by_cases hm : msi_desc_match a.2 .MSI_DESC_ASSOCIATED = true
        · have hz : a.2.irq ≠ 0 := by simpa [msi_desc_match] using hm
          have hne : ¬ j = a.1 := fun hj => h3 ⟨hj.symm, hz⟩
          simp only [hm, if_true]
          rw [irq_of_store, if_neg hne]
        · simp [hm]

theorem same_keys_clear_step (domain : irq_domain) (xa : xarray) (a : Nat × msi_desc)
    (h : (xa_load xa a.1).isSome = true) : same_keys xa (clear_irq_step domain xa a) := by
  unfold clear_irq_step
  by_cases hm : msi_desc_match a.2 .MSI_DESC_ASSOCIATED = true
  · simp only [hm, if_true]
    exact same_keys_store _ _ _ h
  · simp only [hm]
    exact same_keys_refl _

theorem same_keys_foldl_clear (domain : irq_domain) :
    ∀ (M : xarray) (xa : xarray), (∀ e ∈ M, (xa_load xa e.1).isSome = true) →
      same_keys xa (M.foldl (clear_irq_step domain) xa) := by
  intro M
  induction M with
  | nil => intro xa _; exact same_keys_refl _
  | cons a rest ih =>
    intro xa h
    simp only [List.foldl_cons]
    have h1 := same_keys_clear_step domain xa a (h a (List.mem_cons_self _ _))
    refine same_keys_trans h1 (ih _ ?_)
    intro e he
    rw [h1 e.1]
    exact h e (List.mem_cons_of_mem _ he)

theorem xa_load_clear_range_out (domain : irq_domain) (xa : xarray) (first last j : Nat)
    (hj : ¬ (first ≤ j ∧ j ≤ last)) :
    xa_load ((xa_range xa first last).foldl (clear_irq_step domain) xa) j = xa_load xa j := by
  apply xa_load_foldl_clear
  intro e he hc
  have := (mem_xa_range.mp he).2
  rw [hc] at this
  exact hj this

theorem irq_of_clear_range (domain : irq_domain) (xa : xarray) (first last j : Nat)
    (hj : first ≤ j ∧ j ≤ last) :
    irq_of ((xa_range xa first last).foldl (clear_irq_step domain) xa) j =
      (irq_of xa j).map (fun _ => 0) := by
  rw [irq_of_foldl_clear]
  by_cases h1 : ∃ e ∈ xa_range xa first last, e.1 = j ∧ e.2.irq ≠ 0
  · rw [if_pos h1]
    obtain ⟨e, he, hk, _⟩ := h1
    have hmem := (mem_xa_range.mp he).1
    have hne : xa_load xa j ≠ none := by
      intro hc
      exact (xa_load_eq_none_iff.mp hc) e hmem hk
    unfold irq_of
    cases hx : xa_load xa j with
    | none => exact absurd hx hne
    | some d => rfl
  · rw [if_neg h1]
    unfold irq_of
    cases hx : xa_load xa j with
    | none => rfl
    | some d =>
      have hz : d.irq = 0 := by
        by_contra hc
        exact h1 ⟨(j, d), mem_xa_range.mpr ⟨mem_of_xa_load_eq_some hx, hj.1, hj.2⟩, rfl, hc⟩
      simp [hz]

theorem same_keys_clear_range (domain : irq_domain) (xa : xarray) (first last : Nat) :
    same_keys xa ((xa_range xa first last).foldl (clear_irq_step domain) xa) := by
  apply same_keys_foldl_clear
  intro e he
  have hmem := (mem_xa_range.mp he).1
  cases hx : xa_load xa e.1 with
  | none => exact absurd rfl ((xa_load_eq_none_iff.mp hx) e hmem)
  | some d => rfl

theorem msi_domain_free_locked_skip (dev : device) (ks : kstate) (ctrl : msi_ctrl)
    (h : msi_ctrl_valid dev ks.md ctrl = false ∨ msi_get_device_domain ks.md ctrl.domid = none) :
    msi_domain_free_locked dev ks ctrl = ks := by
  unfold msi_domain_free_locked
  by_cases hv : msi_ctrl_valid dev ks.md ctrl = true
  · rcases h with h | h
    · rw [h] at hv; cases hv
    · simp [hv, h]
  · simp [hv]

theorem free_locked_tail (dev : device) (md0 : msi_device_data) (ks2 : kstate)
    (ctrl : msi_ctrl) (domain : irq_domain) (F : Bool)
    (hv : msi_ctrl_valid dev md0 ctrl = true)
    (h1 : ks2.md = set_store md0 ctrl.domid
      ((xa_range (md0.__domains ctrl.domid).store ctrl.first ctrl.last).foldl
        (clear_irq_step domain) (md0.__domains ctrl.domid).store)) :
    md_frame ctrl.domid ctrl.first ctrl.last md0
      (if F = true then msi_domain_free_descs dev ks2 ctrl else ks2).md ∧
    (∀ j, ctrl.first ≤ j ∧ j ≤ ctrl.last →
      irq_of ((if F = true then msi_domain_free_descs dev ks2 ctrl else ks2).md.__domains
          ctrl.domid).store j =
        if F = true then none
        else (irq_of (md0.__domains ctrl.domid).store j).map (fun _ => 0)) := by
  have hf1 : md_frame ctrl.domid ctrl.first ctrl.last md0 ks2.md := by
    rw [h1]
    exact md_frame_set_store _ _ _ _ _ (fun j hj => xa_load_clear_range_out _ _ _ _ _ hj)
  cases F with
  | true =>
    have hv2 : msi_ctrl_valid dev ks2.md ctrl = true := by
      rw [md_frame_ctrl_valid hf1]; exact hv
    simp only [if_true]
    rw [msi_domain_free_descs_eq _ _ _ hv2]
    simp only [h1, set_store_store, set_store_set_store]
    refine ⟨md_frame_set_store _ _ _ _ _ (fun j hj => ?_), fun j hj => ?_⟩
    · rw [xa_load_erase_range, if_neg hj]
      exact xa_load_clear_range_out _ _ _ _ _ hj
    · unfold irq_of
      rw [xa_load_erase_range, if_pos hj]
      rfl
  | false =>
    simp only [Bool.false_eq_true, if_false]
    refine ⟨hf1, fun j hj => ?_⟩
    rw [h1, set_store_store]
    exact irq_of_clear_range _ _ _ _ _ hj

/-- The store after the free protocol on a domain that uses the core free loop. -/
theorem msi_domain_free_locked_store (dev : device) (ks : kstate) (ctrl : msi_ctrl)
    (domain : irq_domain) (hv : msi_ctrl_valid dev ks.md ctrl = true)
    (hd : msi_get_device_domain ks.md ctrl.domid = some domain)
    (hno : domain.host_data.ops.domain_free_irqs = none) :
    md_frame ctrl.domid ctrl.first ctrl.last ks.md (msi_domain_free_locked dev ks ctrl).md ∧
    (∀ j, ctrl.first ≤ j ∧ j ≤ ctrl.last →
      irq_of ((msi_domain_free_locked dev ks ctrl).md.__domains ctrl.domid).store j =
        if domain.host_data.flags.FREE_MSI_DESCS = true then none
        else (irq_of (ks.md.__domains ctrl.domid).store j).map (fun _ => 0)) := by
  have h1 : (__msi_domain_free_irqs domain ks ctrl).md =
      set_store ks.md ctrl.domid
        ((xa_range (ks.md.__domains ctrl.domid).store ctrl.first ctrl.last).foldl
          (clear_irq_step domain) (ks.md.__domains ctrl.domid).store) := by
    unfold __msi_domain_free_irqs
    rw [free_irqs_loop_md]
  have h2 : (if domain.host_data.ops.msi_post_free = true then
      { __msi_domain_free_irqs domain ks ctrl with
        trace := (__msi_domain_free_irqs domain ks ctrl).trace ++ [event.post_free] }
      else __msi_domain_free_irqs domain ks ctrl).md =
      set_store ks.md ctrl.domid
        ((xa_range (ks.md.__domains ctrl.domid).store ctrl.first ctrl.last).foldl
          (clear_irq_step domain) (ks.md.__domains ctrl.domid).store) := by
    rw [← h1]
    split <;> rfl
  have h3 := free_locked_tail dev ks.md _ ctrl domain domain.host_data.flags.FREE_MSI_DESCS hv h2
  have h4 : msi_domain_free_locked dev ks ctrl =
      (if domain.host_data.flags.FREE_MSI_DESCS = true then
        msi_domain_free_descs dev
          (if domain.host_data.ops.msi_post_free = true then
            { __msi_domain_free_irqs domain ks ctrl with
              trace := (__msi_domain_free_irqs domain ks ctrl).trace ++ [event.post_free] }
          else __msi_domain_free_irqs domain ks ctrl) ctrl
       else
        (if domain.host_data.ops.msi_post_free = true then
            { __msi_domain_free_irqs domain ks ctrl with
              trace := (__msi_domain_free_irqs domain ks ctrl).trace ++ [event.post_free] }
          else __msi_domain_free_irqs domain ks ctrl)) := by
    simp [msi_domain_free_locked, hv, hd, hno]
  rw [h4]
  exact h3

/-! ## The allocation engine: frames -/

theorem msi_insert_desc_at_eq (ks : kstate) (desc : msi_desc) (domid index : Nat)
    (hne : index ≠ MSI_ANY_INDEX) :
    msi_insert_desc ks desc domid index =
      if index ≥ msi_domain_get_hwsize ks.md domid then (-ERANGE, msi_free_desc ks desc)
      else if (xa_load (ks.md.__domains domid).store index).isSome = true then
        (-EBUSY, msi_free_desc ks { desc with msi_index := index })
      else
        (0, { ks with md := (set_store ks.md domid
                (xa_store (ks.md.__domains domid).store index
                  { desc with msi_index := index })) }) := by
  have hb : ¬ (-EBUSY : Int) = 0 := by decide
  by_cases h1 : index ≥ msi_domain_get_hwsize ks.md domid
  · simp [msi_insert_desc, hne, h1]
  · by_cases h2 : (xa_load (ks.md.__domains domid).store index).isSome = true
    · simp [msi_insert_desc, hne, h1, xa_insert, h2, hb]
    · simp [msi_insert_desc, hne, h1, xa_insert, h2]

theorem msi_alloc_desc_md (e : env) (ks : kstate) (nvec : Nat) (aff : Option (List Nat)) :
    (msi_alloc_desc e ks nvec aff).2.md = ks.md := by
  unfold msi_alloc_desc
  by_cases h1 : e.kzalloc_ok ks.n_kzalloc = true
  · cases aff with
    | none => simp [h1]
    | some a =>
      by_cases h2 : e.kzalloc_ok (ks.n_kzalloc + 1) = true <;> simp [h1, h2]
  · simp [h1]

theorem msi_alloc_desc_irq (e : env) (ks : kstate) (nvec : Nat) (aff : Option (List Nat))
    (d : msi_desc) (h : (msi_alloc_desc e ks nvec aff).1 = some d) : d.irq = 0 := by
  unfold msi_alloc_desc at h
  by_cases h1 : e.kzalloc_ok ks.n_kzalloc = true
  · cases aff with
    | none =>
      simp [h1] at h
      rw [← h]
    | some a =>
      by_cases h2 : e.kzalloc_ok (ks.n_kzalloc + 1) = true
      · simp [h1, h2] at h
        rw [← h]
      · simp [h1, h2] at h
  · simp [h1] at h

theorem add_simple_post_of_fail (domid n idx : Nat) (ks : kstate) (r : Int × kstate)
    (hmd : r.2.md = ks.md) (hz : r.1 ≠ 0) : add_simple_post domid n idx ks r := by
  unfold add_simple_post
  rw [hmd]
  exact ⟨fun _ => rfl, fun _ _ => rfl, fun _ _ => rfl, fun h => absurd h hz⟩

/-- What the loop of `msi_domain_add_simple_msi_descs` does to the device data:
nothing outside the indices it walks over; when it succeeds these indices were
all free and now hold unassociated descriptors. -/
theorem add_simple_loop_spec (e : env) (domid : Nat) :
    ∀ (n idx : Nat) (ks : kstate), idx + n ≤ MSI_ANY_INDEX →
      add_simple_post domid n idx ks (add_simple_loop e domid n idx ks) := by
  intro n
  induction n with
  | zero =>
    intro idx ks _
    exact ⟨fun _ => rfl, fun _ _ => rfl, fun _ _ => rfl, fun _ j h1 h2 => by omega⟩
  | succ n ih =>
    intro idx ks hb
    have hany : idx ≠ MSI_ANY_INDEX := by omega
    have hmd := msi_alloc_desc_md e ks 1 none
    cases ha : msi_alloc_desc e ks 1 none with
    | mk od ks1 =>
      rw [ha] at hmd
      simp only at hmd
      cases od with
      | none =>
        have hres : add_simple_loop e domid (n + 1) idx ks = (-ENOMEM, ks1) := by
          simp [add_simple_loop, ha]
        rw [hres]
        have hz : ¬ (-ENOMEM : Int) = 0 := by decide
        exact add_simple_post_of_fail _ _ _ _ _ hmd hz
      | some desc =>
        have hirq : desc.irq = 0 := msi_alloc_desc_irq e ks 1 none desc (by rw [ha])
        have hins := msi_insert_desc_at_eq ks1 desc domid idx hany
        rw [hmd] at hins
        by_cases h1 : idx ≥ msi_domain_get_hwsize ks.md domid
        · rw [if_pos h1] at hins
          have hz : ¬ (-ERANGE : Int) = 0 := by decide
          have hres : add_simple_loop e domid (n + 1) idx ks =
              (-ERANGE, msi_free_desc ks1 desc) := by
            simp [add_simple_loop, ha, hins, hz]
          rw [hres]
          exact add_simple_post_of_fail _ _ _ _ _ hmd hz
        · rw [if_neg h1] at hins
          by_cases h2 : (xa_load (ks.md.__domains domid).store idx).isSome = true
          · rw [if_pos h2] at hins
            have hz : ¬ (-EBUSY : Int) = 0 := by decide
            have hres : add_simple_loop e domid (n + 1) idx ks =
                (-EBUSY, msi_free_desc ks1 { desc with msi_index := idx }) := by
              simp [add_simple_loop, ha, hins, hz]
            rw [hres]
            exact add_simple_post_of_fail _ _ _ _ _ hmd hz
          · rw [if_neg h2] at hins
            have hfree : xa_load (ks.md.__domains domid).store idx = none := by
              cases hx : xa_load (ks.md.__domains domid).store idx with
              | none => rfl
              | some _ => rw [hx] at h2; exact absurd rfl h2
            have hres : add_simple_loop e domid (n + 1) idx ks =
                add_simple_loop e domid n (idx + 1)
                  { ks1 with md := (set_store ks.md domid
                      (xa_store (ks.md.__domains domid).store idx
                        { desc with msi_index := idx })) } := by
              simp [add_simple_loop, ha, hins]
            rw [hres]
            obtain ⟨i1, i2, i3, i4⟩ := ih (idx + 1)
              { ks1 with md := (set_store ks.md domid
                  (xa_store (ks.md.__domains domid).store idx
                    { desc with msi_index := idx })) } (by omega)
            simp only at i1 i2 i3 i4
            refine ⟨fun d => ?_, fun d hd => ?_, fun j hj => ?_, fun h j hj1 hj2 => ?_⟩
            · rw [i1 d, set_store_domain]
            · rw [i2 d hd, set_store_other _ _ _ _ hd]
            · rw [i3 j (by omega), set_store_store,
                xa_load_store_other _ _ _ _ (by omega)]
            · by_cases hj : j = idx
              · subst hj
                refine ⟨hfree, ?_⟩
                unfold irq_of
                rw [i3 j (by omega), set_store_store, xa_load_store_same]
                simp [hirq]
              · obtain ⟨k1, k2⟩ := i4 h j (by omega) (by omega)
                rw [set_store_store, xa_load_store_other _ _ _ _ hj] at k1
                exact ⟨k1, k2⟩

theorem store_upd_refl (domid first last : Nat) (md : msi_device_data) :
    store_upd domid first last md md :=
  ⟨md_frame_refl _ _ _ _, same_keys_refl _⟩

theorem store_upd_trans {domid first last : Nat} {a b c : msi_device_data}
    (h1 : store_upd domid first last a b) (h2 : store_upd domid first last b c) :
    store_upd domid first last a c :=
  ⟨md_frame_trans h1.1 h2.1, same_keys_trans h1.2 h2.2⟩

theorem store_upd_cursor (domid first last : Nat) (md : msi_device_data) (c : Nat) :
    store_upd domid first last md { md with __iter_idx := c } :=
  ⟨md_frame_cursor _ _ _ _ _, same_keys_refl _⟩

theorem store_upd_set (domid first last : Nat) (md : msi_device_data) (idx : Nat)
    (d : msi_desc) (hr : first ≤ idx ∧ idx ≤ last)
    (hp : (xa_load (md.__domains domid).store idx).isSome = true) :
    store_upd domid first last md
      (set_store md domid (xa_store (md.__domains domid).store idx d)) := by
  refine ⟨md_frame_set_store _ _ _ _ _ (fun j hj => ?_), ?_⟩
  · apply xa_load_store_other
    intro hc
    rw [hc] at hj
    exact hj hr
  · rw [set_store_store]
    exact same_keys_store _ _ _ hp

theorem store_upd_present {domid first last : Nat} {md md1 : msi_device_data}
    (h : store_upd domid first last md md1) (idx : Nat)
    (hp : (xa_load (md.__domains domid).store idx).isSome = true) :
    (xa_load (md1.__domains domid).store idx).isSome = true := by
  rw [h.2 idx]; exact hp

theorem irq_domain_alloc_irqs_md (e : env) (ks : kstate) (nvec : Nat) :
    (__irq_domain_alloc_irqs e ks nvec).2.md = ks.md := by
  unfold __irq_domain_alloc_irqs
  by_cases h : e.irq_alloc_ret ks.n_irq_alloc nvec < 0 <;> simp [h]

theorem irq_domain_activate_irq_md (e : env) (ks : kstate) (irq : Nat) (x : irq_data)
    (b : Bool) : (irq_domain_activate_irq e ks irq x b).2.md = ks.md := by
  unfold irq_domain_activate_irq
  simp only
  split_ifs <;> rfl

theorem msi_init_virq_md (e : env) (ks : kstate) (virq vflags : Nat) (r : Int × kstate)
    (h : msi_init_virq e ks virq vflags = some r) : r.2.md = ks.md := by
  unfold msi_init_virq at h
  cases hx : ks.irqd virq with
  | none => rw [hx] at h; cases h
  | some irqd =>
    rw [hx] at h
    simp only at h
    generalize (if vflags &&& VIRQ_CAN_RESERVE = 0 then
      ({ irqd with can_reserve := false } : irq_data) else irqd) = irqd1 at h
    have hact := irq_domain_activate_irq_md e (set_irqd ks virq (some irqd1)) virq irqd1
      (decide (vflags &&& VIRQ_CAN_RESERVE ≠ 0))
    generalize irq_domain_activate_irq e (set_irqd ks virq (some irqd1)) virq irqd1
      (decide (vflags &&& VIRQ_CAN_RESERVE ≠ 0)) = act at h hact
    have hact2 : act.2.md = ks.md := hact
    split_ifs at h
    · cases h; rfl
    · cases h; rfl
    · cases h; exact hact2
    · cases hy : act.2.irqd virq with
      | none => rw [hy] at h; cases h
      | some y => rw [hy] at h; cases h; exact hact2
    · cases h; exact hact2

theorem irq_set_msi_desc_off_upd (first last : Nat) (ks : kstate) (domid idx : Nat)
    (desc : msi_desc) (virq i : Nat) (hr : first ≤ idx ∧ idx ≤ last)
    (hp : (xa_load (ks.md.__domains domid).store idx).isSome = true) :
    store_upd domid first last ks.md (irq_set_msi_desc_off ks domid idx desc virq i).2.md := by
  unfold irq_set_msi_desc_off
  by_cases hi : i = 0
  · simp only [hi, if_true]
    exact store_upd_set _ _ _ _ _ _ hr hp
  · simp only [hi, if_false]
    exact store_upd_refl _ _ _ _

theorem init_vectors_upd (e : env) (first last domid idx virq vflags : Nat)
    (hr : first ≤ idx ∧ idx ≤ last) :
    ∀ (n i : Nat) (desc : msi_desc) (ks : kstate) (r : Int × msi_desc × kstate),
      (xa_load (ks.md.__domains domid).store idx).isSome = true →
      init_vectors e domid idx virq vflags n i desc ks = some r →
      store_upd domid first last ks.md r.2.2.md := by
  intro n
  induction n with
  | zero =>
    intro i desc ks r _ h
    simp only [init_vectors] at h
    cases h
    exact store_upd_refl _ _ _ _
  | succ n ih =>
    intro i desc ks r hp h
    have hb := irq_set_msi_desc_off_upd first last ks domid idx desc virq i hr hp
    simp only [init_vectors] at h
    cases hv : msi_init_virq e (irq_set_msi_desc_off ks domid idx desc virq i).2 (virq + i)
        vflags with
    | none => simp [hv] at h
    | some q =>
      have hq := msi_init_virq_md _ _ _ _ _ hv
      simp only [hv] at h
      by_cases hz : q.1 = 0
      · simp only [hz, ne_eq, not_true_eq_false, if_false] at h
        have hp2 : (xa_load (q.2.md.__domains domid).store idx).isSome = true := by
          rw [hq]; exact store_upd_present hb idx hp
        have := ih _ _ _ _ hp2 h
        rw [hq] at this
        exact store_upd_trans hb this
      · simp only [ne_eq, hz, not_false_eq_true, if_true] at h
        cases h
        simp only
        rw [hq]
        exact hb

theorem msi_sysfs_populate_desc_upd (e : env) (first last : Nat) (ks : kstate)
    (domid idx : Nat) (desc : msi_desc) (hr : first ≤ idx ∧ idx ≤ last)
    (hp : (xa_load (ks.md.__domains domid).store idx).isSome = true) :
    store_upd domid first last ks.md (msi_sysfs_populate_desc e ks domid idx desc).2.md := by
  unfold msi_sysfs_populate_desc
  exact store_upd_set _ _ _ _ _ _ hr hp

theorem alloc_irqs_loop_upd (e : env) (domain : irq_domain) (ctrl : msi_ctrl) (vflags : Nat) :
    ∀ (M : xarray) (allocated : Nat) (ks : kstate) (r : Int × kstate),
      (∀ a ∈ M, (ctrl.first ≤ a.1 ∧ a.1 ≤ ctrl.last) ∧
        (xa_load (ks.md.__domains ctrl.domid).store a.1).isSome = true) →
      alloc_irqs_loop e domain ctrl vflags M allocated ks = some r →
      store_upd ctrl.domid ctrl.first ctrl.last ks.md r.2.md := by
  intro M
  induction M with
  | nil =>
    intro allocated ks r _ h
    simp only [alloc_irqs_loop] at h
    cases h
    exact store_upd_refl _ _ _ _
  | cons a rest ih =>
    intro allocated ks r hM h
    obtain ⟨idx, desc⟩ := a
    have hhead := hM (idx, desc) (List.mem_cons_self _ _)
    have hrest : ∀ b ∈ rest, (ctrl.first ≤ b.1 ∧ b.1 ≤ ctrl.last) ∧
        (xa_load (ks.md.__domains ctrl.domid).store b.1).isSome = true :=
      fun b hb => hM b (List.mem_cons_of_mem _ hb)
    simp only [alloc_irqs_loop] at h
    split at h
    · exact ih _ _ _ hrest h
    · split at h
      · cases h; exact store_upd_refl _ _ _ _
      · have ha := irq_domain_alloc_irqs_md e ks desc.nvec_used
        split at h
        · cases h
          simp only
          rw [ha]
          exact store_upd_refl _ _ _ _
        · have hp1 : (xa_load ((__irq_domain_alloc_irqs e ks desc.nvec_used).2.md.__domains
              ctrl.domid).store idx).isSome = true := by
            rw [ha]; exact hhead.2
          cases hv : init_vectors e ctrl.domid idx
              (__irq_domain_alloc_irqs e ks desc.nvec_used).1.toNat vflags desc.nvec_used 0
              desc (__irq_domain_alloc_irqs e ks desc.nvec_used).2 with
          | none => simp [hv] at h
          | some q =>
            have hq := init_vectors_upd e ctrl.first ctrl.last ctrl.domid idx _ vflags hhead.1
              _ _ _ _ _ hp1 hv
            rw [ha] at hq
            simp only [hv] at h
            split at h
            · cases h; exact hq
            · split at h
              · have hp2 := store_upd_present hq idx hhead.2
                have hs := msi_sysfs_populate_desc_upd e ctrl.first ctrl.last q.2.2 ctrl.domid
                  idx q.2.1 hhead.1 hp2
                have hqs := store_upd_trans hq hs
                split at h
                · cases h; exact hqs
                · refine store_upd_trans hqs (ih _ _ _ ?_ h)
                  intro b hb
                  exact ⟨(hrest b hb).1, store_upd_present hqs b.1 (hrest b hb).2⟩
              · refine store_upd_trans hq (ih _ _ _ ?_ h)
                intro b hb
                exact ⟨(hrest b hb).1, store_upd_present hq b.1 (hrest b hb).2⟩

theorem msi_find_desc_md (md : msi_device_data) (domid : Nat) (filter : msi_desc_filter) :
    ∃ c, (msi_find_desc md domid filter).2 = { md with __iter_idx := c } := by
  unfold msi_find_desc
  split
  · exact ⟨_, rfl⟩
  · exact ⟨_, rfl⟩

theorem msi_check_reservation_mode_upd (domid first last : Nat) (domain : irq_domain)
    (info : msi_domain_info) (md : msi_device_data) :
    store_upd domid first last md (msi_check_reservation_mode domain info md).2 := by
  unfold msi_check_reservation_mode
  split
  · exact store_upd_refl _ _ _ _
  · split
    · exact store_upd_refl _ _ _ _
    · split
      · exact store_upd_refl _ _ _ _
      · obtain ⟨c, hc⟩ := msi_find_desc_md { md with __iter_idx := 0 } MSI_DEFAULT_DOMAIN
          .MSI_DESC_ALL
        simp only
        split <;> (rw [hc]; exact store_upd_cursor _ _ _ _ _)

theorem msi_domain_alloc_irqs_upd (e : env) (domain : irq_domain) (ks : kstate)
    (ctrl : msi_ctrl) (r : Int × kstate)
    (h : __msi_domain_alloc_irqs e domain ks ctrl = some r) :
    store_upd ctrl.domid ctrl.first ctrl.last ks.md r.2.md := by
  unfold __msi_domain_alloc_irqs at h
  simp only at h
  split at h
  · cases h; exact store_upd_refl _ _ _ _
  · have hc := msi_check_reservation_mode_upd ctrl.domid ctrl.first ctrl.last domain
      domain.host_data ks.md
    split at h
    · cases h
    · rename_i b md1 heq
      rw [heq] at hc
      simp only at hc
      refine store_upd_trans hc (alloc_irqs_loop_upd e domain ctrl _ _ _ _ _ ?_ h)
      intro a ha
      obtain ⟨hm, h1, h2⟩ := mem_xa_range.mp ha
      refine ⟨⟨h1, h2⟩, ?_⟩
      simp only
      rw [hc.2 a.1]
      cases hx : xa_load (ks.md.__domains ctrl.domid).store a.1 with
      | none => exact absurd rfl ((xa_load_eq_none_iff.mp hx) a hm)
      | some _ => rfl

theorem core_paths_some {md : msi_device_data} {domid : Nat} {domain : irq_domain}
    (h : core_paths md domid) (hd : msi_get_device_domain md domid = some domain) :
    domain.host_data.ops.domain_alloc_irqs = none ∧
    domain.host_data.ops.domain_free_irqs = none := by
  unfold core_paths at h
  rw [hd] at h
  exact ⟨Option.isNone_iff_eq_none.mp h.1, Option.isNone_iff_eq_none.mp h.2⟩

theorem core_paths_frame {domid first last : Nat} {md md1 : msi_device_data}
    (hf : md_frame domid first last md md1) (h : core_paths md domid) :
    core_paths md1 domid := by
  unfold core_paths at h ⊢
  rw [md_frame_get_device_domain hf]
  exact h

theorem paired_flags_frame {domid first last : Nat} {md md1 : msi_device_data}
    (hf : md_frame domid first last md md1) (h : paired_flags md domid) :
    paired_flags md1 domid := by
  unfold paired_flags at h ⊢
  rw [md_frame_get_device_domain hf]
  exact h

theorem get_virq_eq_zero (dev : device) (md : msi_device_data) (domid index : Nat)
    (h : ∀ x, xa_load (md.__domains domid).store (virq_key dev domid index) = some x →
      x.irq = 0) :
    (msi_domain_get_virq (with_data dev md) domid index).1 = 0 := by
  unfold virq_key at h
  unfold msi_domain_get_virq with_data
  simp only
  generalize (if dev.is_pci = true ∧ domid = MSI_DEFAULT_DOMAIN then dev.msi_enabled
    else false) = b at h ⊢
  by_cases h1 : index > MSI_MAX_INDEX ∨ domid ≥ MSI_MAX_DEVICE_IRQDOMAINS
  · rw [if_pos h1]
  · rw [if_neg h1]
    cases hx : xa_load (md.__domains domid).store (if b = true then 0 else index) with
    | none => rfl
    | some x =>
      have := h x hx
      simp [this]

theorem get_virq_congr (dev : device) (md md1 : msi_device_data) (domid index : Nat)
    (h : xa_load (md1.__domains domid).store (virq_key dev domid index) =
      xa_load (md.__domains domid).store (virq_key dev domid index)) :
    (msi_domain_get_virq (with_data dev md1) domid index).1 =
      (msi_domain_get_virq (with_data dev md) domid index).1 := by
  unfold virq_key at h
  unfold msi_domain_get_virq with_data
  simp only
  generalize (if dev.is_pci = true ∧ domid = MSI_DEFAULT_DOMAIN then dev.msi_enabled
    else false) = b at h ⊢
  by_cases h1 : index > MSI_MAX_INDEX ∨ domid ≥ MSI_MAX_DEVICE_IRQDOMAINS
  · rw [if_pos h1, if_pos h1]
  · rw [if_neg h1, if_neg h1, h]

theorem msi_domain_add_simple_msi_descs_spec (e : env) (dev : device) (ks : kstate)
    (ctrl : msi_ctrl) (hv : msi_ctrl_valid dev ks.md ctrl = true)
    (hu32 : msi_domain_get_hwsize ks.md ctrl.domid < 2 ^ 32) :
    md_frame ctrl.domid ctrl.first ctrl.last ks.md
      (msi_domain_add_simple_msi_descs e dev ks ctrl).2.md ∧
    ((msi_domain_add_simple_msi_descs e dev ks ctrl).1 = 0 →
      ∀ j, ctrl.first ≤ j → j ≤ ctrl.last →
        xa_load (ks.md.__domains ctrl.domid).store j = none) ∧
    ((msi_domain_add_simple_msi_descs e dev ks ctrl).1 ≠ 0 →
      ∀ j, ctrl.first ≤ j → j ≤ ctrl.last →
        xa_load ((msi_domain_add_simple_msi_descs e dev ks ctrl).2.md.__domains
          ctrl.domid).store j = none) := by
  obtain ⟨_, _, v3, v4⟩ := (msi_ctrl_valid_iff dev ks.md ctrl).mp hv
  have hany : ctrl.first + (ctrl.last + 1 - ctrl.first) ≤ MSI_ANY_INDEX := by
    have : MSI_ANY_INDEX = 2 ^ 32 - 1 := rfl
    omega
  obtain ⟨p1, p2, p3, p4⟩ := add_simple_loop_spec e ctrl.domid (ctrl.last + 1 - ctrl.first)
    ctrl.first ks hany
  have hf : md_frame ctrl.domid ctrl.first ctrl.last ks.md
      (add_simple_loop e ctrl.domid (ctrl.last + 1 - ctrl.first) ctrl.first ks).2.md :=
    ⟨p1, p2, fun j hj => p3 j (by omega)⟩
  by_cases hz : (add_simple_loop e ctrl.domid (ctrl.last + 1 - ctrl.first) ctrl.first ks).1 = 0
  · have hres : msi_domain_add_simple_msi_descs e dev ks ctrl =
        (0, (add_simple_loop e ctrl.domid (ctrl.last + 1 - ctrl.first) ctrl.first ks).2) := by
      simp [msi_domain_add_simple_msi_descs, hv, hz]
    rw [hres]
    refine ⟨hf, fun _ j h1 h2 => (p4 hz j h1 (by omega)).1, fun h => absurd rfl h⟩
  · have hres : msi_domain_add_simple_msi_descs e dev ks ctrl =
        ((add_simple_loop e ctrl.domid (ctrl.last + 1 - ctrl.first) ctrl.first ks).1,
          msi_domain_free_descs dev
            (add_simple_loop e ctrl.domid (ctrl.last + 1 - ctrl.first) ctrl.first ks).2 ctrl) := by
      simp [msi_domain_add_simple_msi_descs, hv, hz]
    have hv2 : msi_ctrl_valid dev
        (add_simple_loop e ctrl.domid (ctrl.last + 1 - ctrl.first) ctrl.first ks).2.md ctrl
          = true := by
      rw [md_frame_ctrl_valid hf]; exact hv
    rw [hres, msi_domain_free_descs_eq _ _ _ hv2]
    refine ⟨md_frame_trans hf (md_frame_set_store _ _ _ _ _ (fun j hj => ?_)),
      fun h => absurd h hz, fun _ j h1 h2 => ?_⟩
    · rw [xa_load_erase_range, if_neg hj]
    · simp only [set_store_store]
      rw [xa_load_erase_range, if_pos ⟨h1, h2⟩]

/-- What `__msi_domain_alloc_locked` does to the device data on a domain which uses
the core allocation loop: nothing outside the range; when it succeeds, either the
range was empty before (descriptors are allocated by the core) or the occupied
indices are the same as before. -/
theorem msi_domain_alloc_locked_inner_spec (e : env) (dev : device) (ks : kstate)
    (ctrl : msi_ctrl) (domain : irq_domain) (r : Int × kstate)
    (hv : msi_ctrl_valid dev ks.md ctrl = true)
    (hd : msi_get_device_domain ks.md ctrl.domid = some domain)
    (hno : domain.host_data.ops.domain_alloc_irqs = none)
    (hu32 : msi_domain_get_hwsize ks.md ctrl.domid < 2 ^ 32)
    (h : __msi_domain_alloc_locked e dev ks ctrl = some r) :
    md_frame ctrl.domid ctrl.first ctrl.last ks.md r.2.md ∧
    (r.1 = 0 →
      if domain.host_data.flags.ALLOC_SIMPLE_MSI_DESCS = true then
        ∀ j, ctrl.first ≤ j → j ≤ ctrl.last →
          xa_load (ks.md.__domains ctrl.domid).store j = none
      else same_keys (ks.md.__domains ctrl.domid).store (r.2.md.__domains ctrl.domid).store) := by
  unfold __msi_domain_alloc_locked at h
  simp only [hv, not_true_eq_false, if_false, hd, hno] at h
  by_cases hs : domain.host_data.flags.ALLOC_SIMPLE_MSI_DESCS = true
  · obtain ⟨s1, s2, _⟩ := msi_domain_add_simple_msi_descs_spec e dev ks ctrl hv hu32
    have hsim : msi_domain_alloc_simple_msi_descs e dev domain.host_data ks ctrl =
        msi_domain_add_simple_msi_descs e dev ks ctrl := by
      simp [msi_domain_alloc_simple_msi_descs, hs]
    rw [hsim] at h
    by_cases hz : (msi_domain_add_simple_msi_descs e dev ks ctrl).1 = 0
    · simp only [hz, ne_eq, not_true_eq_false, if_false] at h
      have hu := msi_domain_alloc_irqs_upd e domain _ ctrl r h
      refine ⟨md_frame_trans s1 hu.1, fun _ => ?_⟩
      rw [if_pos hs]
      exact s2 hz
    · simp only [ne_eq, hz, not_false_eq_true, if_true] at h
      cases h
      exact ⟨s1, fun hc => absurd hc hz⟩
  · have hsim : msi_domain_alloc_simple_msi_descs e dev domain.host_data ks ctrl = (0, ks) := by
      simp [msi_domain_alloc_simple_msi_descs, hs]
    rw [hsim] at h
    simp only [ne_eq, not_true_eq_false, if_false] at h
    have hu := msi_domain_alloc_irqs_upd e domain _ ctrl r h
    refine ⟨hu.1, fun _ => ?_⟩
    rw [if_neg hs]
    exact hu.2

theorem msi_domain_alloc_locked_inner_skip (e : env) (dev : device) (ks : kstate)
    (ctrl : msi_ctrl) (r : Int × kstate)
    (hs : msi_ctrl_valid dev ks.md ctrl = false ∨
      msi_get_device_domain ks.md ctrl.domid = none)
    (h : __msi_domain_alloc_locked e dev ks ctrl = some r) : r.1 ≠ 0 ∧ r.2 = ks := by
  unfold __msi_domain_alloc_locked at h
  by_cases hv : msi_ctrl_valid dev ks.md ctrl = true
  · rcases hs with hs | hs
    · rw [hs] at hv; cases hv
    · simp only [hv, not_true_eq_false, if_false, hs] at h
      cases h
      have hz : ¬ (-ENODEV : Int) = 0 := by decide
      exact ⟨hz, rfl⟩
  · simp only [hv, not_false_eq_true, if_true] at h
    cases h
    have hz : ¬ (-EINVAL : Int) = 0 := by decide
    exact ⟨hz, rfl⟩

/-- The rollback of `msi_domain_alloc_locked` on a domain that uses the core
paths: when the call fails, nothing outside the range has changed; the state is
unchanged when the control range is rejected or the slot has no device domain, and
otherwise no descriptor of the range is associated. -/
theorem msi_domain_alloc_locked_fail (e : env) (dev : device) (ks : kstate) (ctrl : msi_ctrl)
    (ret : Int) (ks1 : kstate)
    (hcore : core_paths ks.md ctrl.domid)
    (hu32 : msi_domain_get_hwsize ks.md ctrl.domid < 2 ^ 32)
    (h : msi_domain_alloc_locked e dev ks ctrl = some (ret, ks1)) (hret : ret ≠ 0) :
    md_frame ctrl.domid ctrl.first ctrl.last ks.md ks1.md ∧
    ((msi_ctrl_valid dev ks.md ctrl = false ∨
        msi_get_device_domain ks.md ctrl.domid = none) → ks1 = ks) ∧
    ((msi_ctrl_valid dev ks.md ctrl = true ∧
        (msi_get_device_domain ks.md ctrl.domid).isSome = true) →
      range_unbound (ks1.md.__domains ctrl.domid).store ctrl.first ctrl.last) := by
  unfold msi_domain_alloc_locked at h
  cases hin : __msi_domain_alloc_locked e dev ks ctrl with
  | none => rw [hin] at h; cases h
  | some r =>
    rw [hin] at h
    simp only at h
    by_cases hz : r.1 = 0
    · simp only [hz, ne_eq, not_true_eq_false, if_false] at h
      cases h
      exact absurd hz hret
    · simp only [ne_eq, hz, not_false_eq_true, if_true, Option.some.injEq, Prod.mk.injEq] at h
      obtain ⟨_, hk⟩ := h
      subst hk
      by_cases hs : msi_ctrl_valid dev ks.md ctrl = false ∨
          msi_get_device_domain ks.md ctrl.domid = none
      · obtain ⟨_, hr2⟩ := msi_domain_alloc_locked_inner_skip e dev ks ctrl r hs hin
        rw [hr2, msi_domain_free_locked_skip dev ks ctrl hs]
        refine ⟨md_frame_refl _ _ _ _, fun _ => rfl, ?_⟩
        rintro ⟨h1, h2⟩
        rcases hs with hs | hs
        · rw [hs] at h1; cases h1
        · rw [hs] at h2; cases h2
      · have hv : msi_ctrl_valid dev ks.md ctrl = true := by
          cases hx : msi_ctrl_valid dev ks.md ctrl with
          | false => exact absurd (Or.inl hx) hs
          | true => rfl
        cases hd : msi_get_device_domain ks.md ctrl.domid with
        | none => exact absurd (Or.inr hd) hs
        | some domain =>
          obtain ⟨hc1, hc2⟩ := core_paths_some hcore hd
          obtain ⟨f1, _⟩ := msi_domain_alloc_locked_inner_spec e dev ks ctrl domain r hv hd hc1
            hu32 hin
          have hv2 : msi_ctrl_valid dev r.2.md ctrl = true := by
            rw [md_frame_ctrl_valid f1]; exact hv
          have hd2 : msi_get_device_domain r.2.md ctrl.domid = some domain := by
            rw [md_frame_get_device_domain f1]; exact hd
          obtain ⟨g1, g2⟩ := msi_domain_free_locked_store dev r.2 ctrl domain hv2 hd2 hc2
          refine ⟨md_frame_trans f1 g1, ?_, ?_⟩
          · rintro (h1 | h1)
            · rw [h1] at hv; cases hv
            · cases h1
          · intro _ j h1 h2 x hx
            have := g2 j ⟨h1, h2⟩
            unfold irq_of at this
            rw [hx] at this
            by_cases hF : domain.host_data.flags.FREE_MSI_DESCS = true
            · rw [if_pos hF] at this; cases this
            · rw [if_neg hF] at this
              cases hy : xa_load (r.2.md.__domains ctrl.domid).store j with
              | none => rw [hy] at this; cases this
              | some y =>
                rw [hy] at this
                simpa using this

/-- After a failed `msi_domain_alloc_locked` on a domain that uses the core paths,
an index of the range whose lookup was 0 before the call still looks up 0. -/
theorem get_virq_after_failed_alloc (e : env) (dev : device) (ks : kstate) (ctrl : msi_ctrl)
    (ret : Int) (ks1 : kstate)
    (hcore : core_paths ks.md ctrl.domid)
    (hu32 : msi_domain_get_hwsize ks.md ctrl.domid < 2 ^ 32)
    (h : msi_domain_alloc_locked e dev ks ctrl = some (ret, ks1)) (hret : ret ≠ 0)
    (index : Nat)
    (hb : (msi_domain_get_virq (with_data dev ks.md) ctrl.domid index).1 = 0) :
    (msi_domain_get_virq (with_data dev ks1.md) ctrl.domid index).1 = 0 := by
  obtain ⟨f1, f2, f3⟩ := msi_domain_alloc_locked_fail e dev ks ctrl ret ks1 hcore hu32 h hret
  by_cases hs : msi_ctrl_valid dev ks.md ctrl = false ∨
      msi_get_device_domain ks.md ctrl.domid = none
  · rw [f2 hs]; exact hb
  · have hv : msi_ctrl_valid dev ks.md ctrl = true := by
      cases hx : msi_ctrl_valid dev ks.md ctrl with
      | false => exact absurd (Or.inl hx) hs
      | true => rfl
    have hd : (msi_get_device_domain ks.md ctrl.domid).isSome = true := by
      cases hx : msi_get_device_domain ks.md ctrl.domid with
      | none => exact absurd (Or.inr hx) hs
      | some _ => rfl
    have hun := f3 ⟨hv, hd⟩
    by_cases hk : ctrl.first ≤ virq_key dev ctrl.domid index ∧
        virq_key dev ctrl.domid index ≤ ctrl.last
    · exact get_virq_eq_zero _ _ _ _ (fun x hx => hun _ hk.1 hk.2 x hx)
    · rw [get_virq_congr dev ks.md ks1.md ctrl.domid index (f1.2.2 _ hk)]
      exact hb

/-- C5 (amended): on a domain that uses the core allocation and free loops, when
`msi_domain_alloc_irqs_range_locked` or `msi_domain_alloc_irqs_all_locked` returns a
non-zero value, `msi_domain_get_virq` returns 0 afterwards for every index of the
range for which it returned 0 before the call. -/
theorem msi_domain_alloc_fail_rolls_back (e : env) (dev : device) (ks : kstate)
    (domid first last nirqs : Nat)
    (hcore : core_paths ks.md domid)
    (hu32 : msi_domain_get_hwsize ks.md domid < 2 ^ 32) :
    (∀ ret ks1, msi_domain_alloc_irqs_range_locked e dev ks domid first last = some (ret, ks1) →
      ret ≠ 0 → ∀ index, first ≤ index → index ≤ last →
      (msi_domain_get_virq (with_data dev ks.md) domid index).1 = 0 →
      (msi_domain_get_virq (with_data dev ks1.md) domid index).1 = 0) ∧
    (∀ ret ks1, msi_domain_alloc_irqs_all_locked e dev ks domid nirqs = some (ret, ks1) →
      ret ≠ 0 → ∀ index, index ≤ (msi_domain_get_hwsize ks.md domid + 2 ^ 32 - 1) % 2 ^ 32 →
      (msi_domain_get_virq (with_data dev ks.md) domid index).1 = 0 →
      (msi_domain_get_virq (with_data dev ks1.md) domid index).1 = 0) := by
  refine ⟨?_, ?_⟩
  · intro ret ks1 h hret index _ _ hb
    exact get_virq_after_failed_alloc e dev ks _ ret ks1 hcore hu32 h hret index hb
  · intro ret ks1 h hret index _ hb
    exact get_virq_after_failed_alloc e dev ks _ ret ks1 hcore hu32 h hret index hb

theorem msi_ctrl_valid_nirqs (dev : device) (md : msi_device_data) (domid first last : Nat)
    (n m : Nat) :
    msi_ctrl_valid dev md { domid := domid, first := first, last := last, nirqs := n } =
      msi_ctrl_valid dev md { domid := domid, first := first, last := last, nirqs := m } := rfl

theorem md_frame_unlock (domid first last : Nat) (md : msi_device_data) :
    md_frame domid first last md (__msi_unlock_descs md) :=
  ⟨fun _ => rfl, fun _ _ => rfl, fun _ _ => rfl⟩

/-- One successful allocation followed by the free of the same range. -/
theorem alloc_free_pair_restore (e : env) (dev : device) (ks : kstate)
    (domid first last : Nat) (r : Int × kstate)
    (hcore : core_paths ks.md domid) (hpair : paired_flags ks.md domid)
    (hu32 : msi_domain_get_hwsize ks.md domid < 2 ^ 32)
    (hun : range_unbound (ks.md.__domains domid).store first last)
    (h : msi_domain_alloc_irqs_range e dev ks domid first last = some r) (hz : r.1 = 0) :
    md_frame domid first last ks.md
      (msi_domain_free_irqs_range dev r.2 domid first last).md ∧
    ∀ j, irq_of ((msi_domain_free_irqs_range dev r.2 domid first last).md.__domains
        domid).store j = irq_of (ks.md.__domains domid).store j := by
  unfold msi_domain_alloc_irqs_range at h
  cases hl : msi_domain_alloc_irqs_range_locked e dev ks domid first last with
  | none => rw [hl] at h; cases h
  | some q =>
    rw [hl] at h
    simp only [Option.some.injEq] at h
    subst h
    simp only at hz
    unfold msi_domain_alloc_irqs_range_locked msi_domain_alloc_locked at hl
    cases hin : __msi_domain_alloc_locked e dev ks
        { domid := domid, first := first, last := last,
          nirqs := (last + 1 + 2 ^ 32 - first) % 2 ^ 32 } with
    | none => rw [hin] at hl; cases hl
    | some p =>
      rw [hin] at hl
      simp only at hl
      have hp0 : p.1 = 0 := by
        by_contra hc
        simp only [ne_eq, hc, not_false_eq_true, if_true, Option.some.injEq] at hl
        rw [← hl] at hz
        exact hc hz
      simp only [hp0, ne_eq, not_true_eq_false, if_false, Option.some.injEq] at hl
      subst hl
      have hv : msi_ctrl_valid dev ks.md
          { domid := domid, first := first, last := last,
            nirqs := (last + 1 + 2 ^ 32 - first) % 2 ^ 32 } = true := by
        cases hx : msi_ctrl_valid dev ks.md
            { domid := domid, first := first, last := last,
              nirqs := (last + 1 + 2 ^ 32 - first) % 2 ^ 32 } with
        | true => rfl
        | false =>
          exact absurd hp0 (msi_domain_alloc_locked_inner_skip e dev ks _ p (Or.inl hx) hin).1
      cases hd : msi_get_device_domain ks.md domid with
      | none =>
        exact absurd hp0 (msi_domain_alloc_locked_inner_skip e dev ks _ p (Or.inr hd) hin).1
      | some domain =>
        obtain ⟨hc1, hc2⟩ := core_paths_some hcore hd
        have hflags : domain.host_data.flags.ALLOC_SIMPLE_MSI_DESCS =
            domain.host_data.flags.FREE_MSI_DESCS := by
          unfold paired_flags at hpair
          rw [hd] at hpair
          exact hpair
        obtain ⟨f1, f2⟩ := msi_domain_alloc_locked_inner_spec e dev ks _ domain p hv hd hc1
          hu32 hin
        simp only at f1 f2
        have f2 := f2 hp0
        have hv2 : msi_ctrl_valid dev (__msi_unlock_descs p.2.md)
            { domid := domid, first := first, last := last, nirqs := 0 } = true := by
          rw [md_frame_ctrl_valid (md_frame_trans f1 (md_frame_unlock domid first last p.2.md))]
          exact hv
        have hd2 : msi_get_device_domain (__msi_unlock_descs p.2.md) domid = some domain := by
          rw [md_frame_get_device_domain
            (md_frame_trans f1 (md_frame_unlock domid first last p.2.md))]
          exact hd
        obtain ⟨g1, g2⟩ := msi_domain_free_locked_store dev
          { p.2 with md := __msi_unlock_descs p.2.md }
          { domid := domid, first := first, last := last, nirqs := 0 } domain hv2 hd2 hc2
        simp only at g1 g2
        have hfr : md_frame domid first last ks.md
            (msi_domain_free_locked dev { p.2 with md := __msi_unlock_descs p.2.md }
              { domid := domid, first := first, last := last, nirqs := 0 }).md :=
          md_frame_trans (md_frame_trans f1 (md_frame_unlock domid first last p.2.md)) g1
        refine ⟨md_frame_trans hfr (md_frame_unlock domid first last _), ?_⟩
        intro j
        show irq_of ((msi_domain_free_locked dev { p.2 with md := __msi_unlock_descs p.2.md }
              { domid := domid, first := first, last := last, nirqs := 0 }).md.__domains
                domid).store j = _
        by_cases hj : first ≤ j ∧ j ≤ last
        · rw [g2 j hj]
          by_cases hF : domain.host_data.flags.FREE_MSI_DESCS = true
          · rw [if_pos hF]
            rw [if_pos (hflags.trans hF)] at f2
            unfold irq_of
            rw [f2 j hj.1 hj.2]
            rfl
          · rw [if_neg hF]
            have hS : ¬ domain.host_data.flags.ALLOC_SIMPLE_MSI_DESCS = true := by
              rw [hflags]; exact hF
            rw [if_neg hS] at f2
            have hk := f2 j
            have hu := hun j hj.1 hj.2
            unfold irq_of
            show Option.map (fun _ => 0)
              (Option.map (fun d => d.irq) (xa_load (p.2.md.__domains domid).store j)) = _
            cases hx : xa_load (ks.md.__domains domid).store j with
            | none =>
              rw [hx] at hk
              cases hy : xa_load (p.2.md.__domains domid).store j with
              | none => rfl
              | some y => rw [hy] at hk; cases hk
            | some x =>
              rw [hx] at hk
              cases hy : xa_load (p.2.md.__domains domid).store j with
              | none => rw [hy] at hk; cases hk
              | some y =>
                have := hu x hx
                simp [this]
        · unfold irq_of
          rw [hfr.2.2 j hj]

/-- C7 (amended): on a domain that uses the core allocation and free loops and sets
both or neither of `MSI_FLAG_ALLOC_SIMPLE_MSI_DESCS` and `MSI_FLAG_FREE_MSI_DESCS`,
when no descriptor of `[first, last]` is associated beforehand, any number of
successful `msi_domain_alloc_irqs_range` / `msi_domain_free_irqs_range` pairs with
the same arguments leaves the store of the domain with the same occupied indices
and the same interrupt binding at each index. -/
theorem alloc_free_pairs_restore (e : env) (dev : device) (domid first last : Nat) :
    ∀ (n : Nat) (ks ks1 : kstate),
      core_paths ks.md domid → paired_flags ks.md domid →
      msi_domain_get_hwsize ks.md domid < 2 ^ 32 →
      range_unbound (ks.md.__domains domid).store first last →
      alloc_free_pairs e dev domid first last n ks = some ks1 →
      ∀ j, irq_of (ks1.md.__domains domid).store j = irq_of (ks.md.__domains domid).store j := by
  intro n
  induction n with
  | zero =>
    intro ks ks1 _ _ _ _ h j
    simp only [alloc_free_pairs, Option.some.injEq] at h
    rw [h]
  | succ n ih =>
    intro ks ks1 hcore hpair hu32 hun h j
    simp only [alloc_free_pairs] at h
    cases ha : msi_domain_alloc_irqs_range e dev ks domid first last with
    | none => rw [ha] at h; cases h
    | some r =>
      rw [ha] at h
      simp only at h
      by_cases hz : r.1 = 0
      · rw [if_pos hz] at h
        obtain ⟨p1, p2⟩ := alloc_free_pair_restore e dev ks domid first last r hcore hpair hu32
          hun ha hz
        have hun2 : range_unbound
            ((msi_domain_free_irqs_range dev r.2 domid first last).md.__domains domid).store
              first last := by
          intro i h1 h2 x hx
          have := p2 i
          unfold irq_of at this
          rw [hx] at this
          cases hy : xa_load (ks.md.__domains domid).store i with
          | none => rw [hy] at this; cases this
          | some y =>
            rw [hy] at this
            have hxy : x.irq = y.irq := by simpa using this
            rw [hxy]
            exact hun i h1 h2 y hy
        rw [ih _ ks1 (core_paths_frame p1 hcore) (paired_flags_frame p1 hpair)
          (by rw [md_frame_get_hwsize p1]; exact hu32) hun2 h j]
        exact p2 j
      · rw [if_neg hz] at h; cases h

/-! ## The free protocol: the calls to the hierarchy -/

theorem is_activated_deactivate (ks : kstate) (v : Nat) (x : irq_data) (u : Nat) :
    is_activated (irq_domain_deactivate_irq ks v x).irqd u =
      if u = v then false else is_activated ks.irqd u := by
  unfold irq_domain_deactivate_irq set_irqd is_activated
  by_cases h : u = v <;> simp [h]

theorem is_activated_free (ks : kstate) (irq n : Nat) (u : Nat) :
    is_activated (irq_domain_free_irqs ks irq n).irqd u =
      if irq ≤ u ∧ u < irq + n then false else is_activated ks.irqd u := by
  unfold irq_domain_free_irqs is_activated
  by_cases h : irq ≤ u ∧ u < irq + n <;> simp [h]

/-- The loop which deactivates the vectors of a descriptor: it appends only
deactivations of vectors of the descriptor which were activated, every activated
interrupt stays activated or is deactivated by it, and afterwards no vector of the
descriptor is activated. -/
theorem deactivate_vectors_spec (irq : Nat) :
    ∀ (n i : Nat) (ks : kstate), ∃ D,
      (deactivate_vectors irq n i ks).trace = ks.trace ++ D ∧
      (∀ ev ∈ D, ∃ m, i ≤ m ∧ m < i + n ∧ ev = event.irq_deactivate ((irq + m) % 2 ^ 32) ∧
        is_activated ks.irqd ((irq + m) % 2 ^ 32) = true) ∧
      (∀ v, is_activated ks.irqd v = true →
        is_activated (deactivate_vectors irq n i ks).irqd v = true ∨
          event.irq_deactivate v ∈ D) ∧
      (∀ m, i ≤ m → m < i + n →
        is_activated (deactivate_vectors irq n i ks).irqd ((irq + m) % 2 ^ 32) = false) ∧
      (∀ v, is_activated (deactivate_vectors irq n i ks).irqd v = true →
        is_activated ks.irqd v = true) := by
  intro n
  induction n with
  | zero =>
    intro i ks
    refine ⟨[], by simp [deactivate_vectors], ?_, ?_, ?_, ?_⟩
    · intro ev hev; cases hev
    · intro v hv; exact Or.inl hv
    · intro m h1 h2; omega
    · intro v hv; exact hv
  | succ n ih =>
    intro i ks
    by_cases hact : is_activated ks.irqd ((irq + i) % 2 ^ 32) = true
    · -- the vector is activated: it is deactivated
      cases hx : ks.irqd ((irq + i) % 2 ^ 32) with
      | none =>
        unfold is_activated at hact
        rw [hx] at hact
        cases hact
      | some x =>
        have hxa : x.activated = true := by
          unfold is_activated at hact
          rw [hx] at hact
          exact hact
        have hstep : deactivate_vectors irq (n + 1) i ks =
            deactivate_vectors irq n (i + 1)
              (irq_domain_deactivate_irq ks ((irq + i) % 2 ^ 32) x) := by
          rw [deactivate_vectors]
          simp only [hx, hxa, if_true]
        obtain ⟨D, d1, d2, d3, d4, d5⟩ := ih (i + 1)
          (irq_domain_deactivate_irq ks ((irq + i) % 2 ^ 32) x)
        rw [hstep]
        refine ⟨event.irq_deactivate ((irq + i) % 2 ^ 32) :: D, ?_, ?_, ?_, ?_, ?_⟩
        · rw [d1]
          simp only [irq_domain_deactivate_irq, set_irqd, List.append_assoc,
            List.singleton_append]
        · intro ev hev
          rcases List.mem_cons.mp hev with hev | hev
          · exact ⟨i, le_refl _, by omega, hev, hact⟩
          · obtain ⟨m, m1, m2, m3, m4⟩ := d2 ev hev
            refine ⟨m, by omega, by omega, m3, ?_⟩
            rw [is_activated_deactivate] at m4
            by_cases hc : (irq + m) % 2 ^ 32 = (irq + i) % 2 ^ 32
            · rw [if_pos hc] at m4; cases m4
            · rw [if_neg hc] at m4; exact m4
        · intro v hv
          by_cases hc : v = (irq + i) % 2 ^ 32
          · right; rw [hc]; exact List.mem_cons_self _ _
          · have : is_activated
                (irq_domain_deactivate_irq ks ((irq + i) % 2 ^ 32) x).irqd v = true := by
              rw [is_activated_deactivate, if_neg hc]; exact hv
            rcases d3 v this with h | h
            · exact Or.inl h
            · exact Or.inr (List.mem_cons_of_mem _ h)
        · intro m m1 m2
          by_cases hm : m = i
          · subst hm
            cases hb : is_activated (deactivate_vectors irq n (m + 1)
                (irq_domain_deactivate_irq ks ((irq + m) % 2 ^ 32) x)).irqd
                ((irq + m) % 2 ^ 32) with
            | false => rfl
            | true =>
              have := d5 _ hb
              rw [is_activated_deactivate, if_pos rfl] at this
              cases this
          · exact d4 m (by omega) (by omega)
        · intro v hv
          have := d5 v hv
          rw [is_activated_deactivate] at this
          by_cases hc : v = (irq + i) % 2 ^ 32
          · rw [if_pos hc] at this; cases this
          · rw [if_neg hc] at this; exact this
    · -- the vector is not activated, or has no interrupt data: nothing is done
      have hstep : deactivate_vectors irq (n + 1) i ks = deactivate_vectors irq n (i + 1) ks := by
        cases hx : ks.irqd ((irq + i) % 2 ^ 32) with
        | none =>
          rw [deactivate_vectors]
          simp only [hx]
        | some x =>
          have hxa : ¬ x.activated = true := by
            unfold is_activated at hact
            rw [hx] at hact
            exact hact
          rw [deactivate_vectors]
          simp only [hx, hxa, Bool.false_eq_true, if_false]
      obtain ⟨D, d1, d2, d3, d4, d5⟩ := ih (i + 1) ks
      rw [hstep]
      refine ⟨D, d1, ?_, d3, ?_, d5⟩
      · intro ev hev
        obtain ⟨m, m1, m2, m3, m4⟩ := d2 ev hev
        exact ⟨m, by omega, by omega, m3, m4⟩
      · intro m m1 m2
        by_cases hm : m = i
        · subst hm
          cases hb : is_activated (deactivate_vectors irq n (m + 1) ks).irqd
              ((irq + m) % 2 ^ 32) with
          | false => rfl
          | true => exact absurd (d5 _ hb) hact
        · exact d4 m (by omega) (by omega)

/-- The calls `__msi_domain_free_irqs` makes to the hierarchy.  `A0` is the set of
interrupts activated when the free protocol started and `E0` the events appended
since then. -/
theorem free_irqs_loop_trace (domain : irq_domain) (domid : Nat) (A0 : Nat → Prop) :
    ∀ (M : xarray) (ks : kstate) (E0 : List event),
      (∀ v, v < 2 ^ 32 → A0 v →
        is_activated ks.irqd v = true ∨ event.irq_deactivate v ∈ E0) →
      (∀ v, is_activated ks.irqd v = true → A0 v) →
      ∃ E, (free_irqs_loop domain domid M ks).trace = ks.trace ++ E ∧
        E.filterMap free_args = M.filterMap assoc_args ∧
        (∀ v, event.irq_deactivate v ∈ E →
          ∃ a ∈ M, a.2.irq ≠ 0 ∧ ∃ m, m < a.2.nvec_used ∧ v = (a.2.irq + m) % 2 ^ 32 ∧ A0 v) ∧
        (∀ a ∈ M, a.2.irq ≠ 0 → ∃ pre post,
          E = pre ++ event.irq_free a.2.irq a.2.nvec_used :: post ∧
          ∀ m, m < a.2.nvec_used → A0 ((a.2.irq + m) % 2 ^ 32) →
            event.irq_deactivate ((a.2.irq + m) % 2 ^ 32) ∈ E0 ++ pre) := by
  intro M
  induction M with
  | nil =>
    intro ks E0 _ _
    refine ⟨[], by simp [free_irqs_loop], rfl, ?_, ?_⟩
    · intro v hv; cases hv
    · intro a ha; cases ha
  | cons hd rest ih =>
    intro ks E0 inv1 inv2
    obtain ⟨idx, desc⟩ := hd
    by_cases hz : desc.irq = 0
    · -- not associated: skipped
      have hstep : free_irqs_loop domain domid ((idx, desc) :: rest) ks =
          free_irqs_loop domain domid rest ks := by
        rw [free_irqs_loop]
        simp [msi_desc_match, hz]
      obtain ⟨E, e1, e2, e3, e4⟩ := ih ks E0 inv1 inv2
      rw [hstep]
      refine ⟨E, e1, ?_, ?_, ?_⟩
      · rw [e2]
        simp [List.filterMap_cons, assoc_args, hz]
      · intro v hv
        obtain ⟨a, ha, r⟩ := e3 v hv
        exact ⟨a, List.mem_cons_of_mem _ ha, r⟩
      · intro a ha hne
        rcases List.mem_cons.mp ha with ha | ha
        · subst ha; exact absurd hz hne
        · exact e4 a ha hne
    · -- associated: deactivate the vectors, free the interrupts, clear the binding
      obtain ⟨D, d1, d2, d3, d4, d5⟩ := deactivate_vectors_spec desc.irq desc.nvec_used 0 ks
      have hm : msi_desc_match desc .MSI_DESC_ASSOCIATED = true := by
        simp [msi_desc_match, hz]
      have hstep : ∃ ks3, free_irqs_loop domain domid ((idx, desc) :: rest) ks =
          free_irqs_loop domain domid rest ks3 ∧
          ks3.trace = ks.trace ++ (D ++ [event.irq_free desc.irq desc.nvec_used]) ∧
          ks3.irqd = (irq_domain_free_irqs (deactivate_vectors desc.irq desc.nvec_used 0 ks)
            desc.irq desc.nvec_used).irqd := by
        refine ⟨{ irq_domain_free_irqs (deactivate_vectors desc.irq desc.nvec_used 0 ks)
            desc.irq desc.nvec_used with
          md := (set_store (irq_domain_free_irqs (deactivate_vectors desc.irq desc.nvec_used 0 ks)
            desc.irq desc.nvec_used).md domid
            (xa_store ((irq_domain_free_irqs (deactivate_vectors desc.irq desc.nvec_used 0 ks)
              desc.irq desc.nvec_used).md.__domains domid).store idx
              (cleared_desc domain desc))) }, ?_, ?_, rfl⟩
        · rw [free_irqs_loop]
          simp only [hm, not_true_eq_false, if_false]
          rfl
        · simp only [irq_domain_free_irqs, d1, List.append_assoc]
      obtain ⟨ks3, s1, s2, s3⟩ := hstep
      have inv1n : ∀ v, v < 2 ^ 32 → A0 v → is_activated ks3.irqd v = true ∨
          event.irq_deactivate v ∈ E0 ++ (D ++ [event.irq_free desc.irq desc.nvec_used]) := by
        intro v hv ha
        rcases inv1 v hv ha with h | h
        · rcases d3 v h with h2 | h2
          · left
            rw [s3, is_activated_free]
            by_cases hc : desc.irq ≤ v ∧ v < desc.irq + desc.nvec_used
            · exfalso
              have hmod : (desc.irq + (v - desc.irq)) % 2 ^ 32 = v := by
                have : desc.irq + (v - desc.irq) = v := by omega
                rw [this]
                exact Nat.mod_eq_of_lt hv
              have := d4 (v - desc.irq) (Nat.zero_le _) (by omega)
              rw [hmod, h2] at this
              cases this
            · rw [if_neg hc]; exact h2
          · right
            simp only [List.mem_append]
            exact Or.inr (Or.inl h2)
        · right
          simp only [List.mem_append]
          exact Or.inl h
      have inv2n : ∀ v, is_activated ks3.irqd v = true → A0 v := by
        intro v hv
        rw [s3, is_activated_free] at hv
        by_cases hc : desc.irq ≤ v ∧ v < desc.irq + desc.nvec_used
        · rw [if_pos hc] at hv; cases hv
        · rw [if_neg hc] at hv
          exact inv2 v (d5 v hv)
      obtain ⟨E, e1, e2, e3, e4⟩ := ih ks3
        (E0 ++ (D ++ [event.irq_free desc.irq desc.nvec_used])) inv1n inv2n
      have hD : D.filterMap free_args = [] := by
        rw [List.filterMap_eq_nil_iff]
        intro ev hev
        obtain ⟨m, _, _, m3, _⟩ := d2 ev hev
        rw [m3]
        rfl
      rw [s1]
      refine ⟨D ++ event.irq_free desc.irq desc.nvec_used :: E, ?_, ?_, ?_, ?_⟩
      · rw [e1, s2]
        simp only [List.append_assoc, List.singleton_append]
      · rw [List.filterMap_append, hD, List.filterMap_cons, List.filterMap_cons, e2]
        simp [free_args, assoc_args, hz]
      · intro v hv
        rcases List.mem_append.mp hv with hv | hv
        · obtain ⟨m, _, m2, m3, m4⟩ := d2 _ hv
          have hvm : v = (desc.irq + m) % 2 ^ 32 := by
            injection m3
          refine ⟨(idx, desc), List.mem_cons_self _ _, hz, m, by simpa using m2, hvm, ?_⟩
          rw [hvm]
          exact inv2 _ m4
        · rcases List.mem_cons.mp hv with hv | hv
          · cases hv
          · obtain ⟨a, ha, r⟩ := e3 v hv
            exact ⟨a, List.mem_cons_of_mem _ ha, r⟩
      · intro a ha hne
        rcases List.mem_cons.mp ha with ha | ha
        · subst ha
          refine ⟨D, E, rfl, ?_⟩
          intro m hm2 ha0
          simp only [List.mem_append]
          have hlt : (desc.irq + m) % 2 ^ 32 < 2 ^ 32 := Nat.mod_lt _ (by decide)
          rcases inv1 _ hlt ha0 with h | h
          · rcases d3 _ h with h2 | h2
            · have := d4 m (Nat.zero_le _) (by simpa using hm2)
              rw [h2] at this
              cases this
            · exact Or.inr h2
          · exact Or.inl h
        · obtain ⟨pre, post, p1, p2⟩ := e4 a ha hne
          refine ⟨D ++ event.irq_free desc.irq desc.nvec_used :: pre, post, ?_, ?_⟩
          · rw [p1]
            simp only [List.append_assoc, List.cons_append]
          · intro m hm2 ha0
            have := p2 m hm2 ha0
            simp only [List.mem_append, List.mem_cons, List.mem_singleton] at this ⊢
            tauto

theorem msi_domain_free_descs_trace (dev : device) (ks : kstate) (ctrl : msi_ctrl) :
    ∃ T, (msi_domain_free_descs dev ks ctrl).trace = ks.trace ++ T ∧
      ∀ ev ∈ T, (∃ d, ev = event.free_desc d) ∨ (∃ i, ev = event.warn_leak i) := by
  unfold msi_domain_free_descs
  by_cases hv : msi_ctrl_valid dev ks.md ctrl = true
  · simp only [hv, not_true_eq_false, if_false]
    rw [free_descs_loop_eq]
    refine ⟨_, rfl, ?_⟩
    intro ev hev
    obtain ⟨a, _, ha⟩ := List.mem_map.mp hev
    rw [← ha]
    unfold free_descs_event
    split
    · exact Or.inr ⟨_, rfl⟩
    · exact Or.inl ⟨_, rfl⟩
  · simp only [hv, not_false_eq_true, if_true]
    exact ⟨[], by simp, fun ev hev => by cases hev⟩

theorem get_device_domain_valid (dev : device) (md : msi_device_data) (domid first last n : Nat)
    (domain : irq_domain) (hd : msi_get_device_domain md domid = some domain)
    (hrange : first ≤ last) (hlast : last < msi_domain_get_hwsize md domid) :
    msi_ctrl_valid dev md { domid := domid, first := first, last := last, nirqs := n } = true := by
  rw [msi_ctrl_valid_iff]
  unfold msi_get_device_domain at hd
  by_cases h1 : domid ≥ MSI_MAX_DEVICE_IRQDOMAINS
  · rw [if_pos h1] at hd; cases hd
  · rw [if_neg h1] at hd
    refine ⟨by simp only; omega, ?_, hrange, hlast⟩
    rintro ⟨_, h3⟩
    simp only at h3
    cases hx : (md.__domains domid).domain with
    | none => rw [hx] at hd; cases hd
    | some _ => rw [hx] at h3; cases h3

/-- C8: the free protocol on a valid control range of a slot whose domain has no
`domain_free_irqs` override.  Afterwards every descriptor of `[first, last]` has
`irq == 0` and the entries outside the range are unchanged.  The hierarchy free is
called once for each associated entry of the range, in index order, with
`(irq, nvec_used)`, and for no other entry; every vector of such an entry that was
activated is deactivated before that call; only vectors of associated entries of
the range that were activated are deactivated. -/
theorem msi_domain_free_irqs_range_locked_protocol (dev : device) (ks : kstate)
    (domid first last : Nat) (domain : irq_domain)
    (hrange : first ≤ last) (hlast : last < msi_domain_get_hwsize ks.md domid)
    (hd : msi_get_device_domain ks.md domid = some domain)
    (hno : domain.host_data.ops.domain_free_irqs = none) :
    (∀ j, first ≤ j → j ≤ last → ∀ x,
      xa_load ((msi_domain_free_irqs_range_locked dev ks domid first last).md.__domains
        domid).store j = some x → x.irq = 0) ∧
    (∀ j, ¬ (first ≤ j ∧ j ≤ last) →
      xa_load ((msi_domain_free_irqs_range_locked dev ks domid first last).md.__domains
        domid).store j = xa_load (ks.md.__domains domid).store j) ∧
    ∃ E, (msi_domain_free_irqs_range_locked dev ks domid first last).trace = ks.trace ++ E ∧
      E.filterMap free_args =
        (xa_range (ks.md.__domains domid).store first last).filterMap assoc_args ∧
      (∀ v, event.irq_deactivate v ∈ E →
        ∃ a ∈ xa_range (ks.md.__domains domid).store first last, a.2.irq ≠ 0 ∧
          ∃ m, m < a.2.nvec_used ∧ v = (a.2.irq + m) % 2 ^ 32 ∧
            is_activated ks.irqd v = true) ∧
      (∀ a ∈ xa_range (ks.md.__domains domid).store first last, a.2.irq ≠ 0 →
        ∃ pre post, E = pre ++ event.irq_free a.2.irq a.2.nvec_used :: post ∧
          ∀ m, m < a.2.nvec_used → is_activated ks.irqd ((a.2.irq + m) % 2 ^ 32) = true →
            event.irq_deactivate ((a.2.irq + m) % 2 ^ 32) ∈ pre) := by
  have hv := get_device_domain_valid dev ks.md domid first last 0 domain hd hrange hlast
  obtain ⟨g1, g2⟩ := msi_domain_free_locked_store dev ks
    { domid := domid, first := first, last := last, nirqs := 0 } domain hv hd hno
  simp only at g1 g2
  refine ⟨?_, ?_, ?_⟩
  · intro j h1 h2 x hx
    have := g2 j ⟨h1, h2⟩
    unfold msi_domain_free_irqs_range_locked at hx
    unfold irq_of at this
    rw [hx] at this
    by_cases hF : domain.host_data.flags.FREE_MSI_DESCS = true
    · rw [if_pos hF] at this; cases this
    · rw [if_neg hF] at this
      cases hy : xa_load (ks.md.__domains domid).store j with
      | none => rw [hy] at this; cases this
      | some y =>
        rw [hy] at this
        simpa using this
  · intro j hj
    exact g1.2.2 j hj
  · obtain ⟨E, e1, e2, e3, e4⟩ := free_irqs_loop_trace domain domid
      (fun v => is_activated ks.irqd v = true)
      (xa_range (ks.md.__domains domid).store first last) ks []
      (fun v _ hv => Or.inl hv) (fun v hv => hv)
    have hloop : (__msi_domain_free_irqs domain ks
        { domid := domid, first := first, last := last, nirqs := 0 }).trace = ks.trace ++ E := e1
    have htail : ∃ T, (msi_domain_free_irqs_range_locked dev ks domid first last).trace =
        (ks.trace ++ E) ++ T ∧
        ∀ ev ∈ T, (∃ d, ev = event.free_desc d) ∨ (∃ i, ev = event.warn_leak i) ∨
          ev = event.post_free := by
      rw [← hloop]
      unfold msi_domain_free_irqs_range_locked msi_domain_free_locked
      simp only [hv, not_true_eq_false, if_false, hd, hno]
      by_cases hp : domain.host_data.ops.msi_post_free = true <;>
        by_cases hF : domain.host_data.flags.FREE_MSI_DESCS = true <;>
        simp only [hp, hF, if_true, if_false, Bool.false_eq_true]
      · obtain ⟨T, t1, t2⟩ := msi_domain_free_descs_trace dev
          { __msi_domain_free_irqs domain ks
              { domid := domid, first := first, last := last, nirqs := 0 } with
            trace := (__msi_domain_free_irqs domain ks
              { domid := domid, first := first, last := last, nirqs := 0 }).trace ++
                [event.post_free] }
          { domid := domid, first := first, last := last, nirqs := 0 }
        refine ⟨event.post_free :: T, ?_, ?_⟩
        · rw [t1]
          simp only [List.append_assoc, List.singleton_append]
        · intro ev hev
          rcases List.mem_cons.mp hev with h | h
          · exact Or.inr (Or.inr h)
          · rcases t2 ev h with h | h
            · exact Or.inl h
            · exact Or.inr (Or.inl h)
      · exact ⟨[event.post_free], rfl, fun ev hev =>
          Or.inr (Or.inr (List.mem_singleton.mp hev))⟩
      · obtain ⟨T, t1, t2⟩ := msi_domain_free_descs_trace dev
          (__msi_domain_free_irqs domain ks
            { domid := domid, first := first, last := last, nirqs := 0 })
          { domid := domid, first := first, last := last, nirqs := 0 }
        refine ⟨T, t1, ?_⟩
        intro ev hev
        rcases t2 ev hev with h | h
        · exact Or.inl h
        · exact Or.inr (Or.inl h)
      · exact ⟨[], by simp, fun ev hev => by cases hev⟩
    obtain ⟨T, t1, t2⟩ := htail
    have hT : T.filterMap free_args = [] := by
      rw [List.filterMap_eq_nil_iff]
      intro ev hev
      rcases t2 ev hev with ⟨d, h⟩ | ⟨i, h⟩ | h <;> (rw [h]; rfl)
    have hTd : ∀ v, event.irq_deactivate v ∉ T := by
      intro v hv
      rcases t2 _ hv with ⟨d, h⟩ | ⟨i, h⟩ | h <;> cases h
    refine ⟨E ++ T, ?_, ?_, ?_, ?_⟩
    · rw [t1, List.append_assoc]
    · rw [List.filterMap_append, hT, List.append_nil, e2]
    · intro v hv
      rcases List.mem_append.mp hv with hv | hv
      · exact e3 v hv
      · exact absurd hv (hTd v)
    · intro a ha hne
      obtain ⟨pre, post, p1, p2⟩ := e4 a ha hne
      refine ⟨pre, post ++ T, ?_, ?_⟩
      · rw [p1]
        simp only [List.append_assoc, List.cons_append]
      · intro m hm hact
        have := p2 m hm hact
        simpa using this

/-! ## Creation of domains and the hardware size -/

theorem msi_create_irq_domain_some (e : env) (info : msi_domain_info) (msi_device : Bool)
    (domain : irq_domain) (h : __msi_create_irq_domain e info msi_device = some domain) :
    info.hwsize ≤ MSI_XA_DOMAIN_SIZE ∧
    domain.host_data =
      (if info.hwsize = 0 then { info with hwsize := MSI_XA_DOMAIN_SIZE } else info) ∧
    domain.is_msi_parent = false ∧ domain.is_msi_device = msi_device := by
  unfold __msi_create_irq_domain at h
  by_cases h1 : info.hwsize > MSI_XA_DOMAIN_SIZE
  · rw [if_pos h1] at h
    cases h
  · rw [if_neg h1] at h
    by_cases h2 : e.create_hierarchy_ok = true
    · simp only [h2, not_true_eq_false, if_false, Option.some.injEq] at h
      subst h
      exact ⟨by omega, rfl, rfl, rfl⟩
    · simp [h2] at h

theorem msi_create_irq_domain_range (e : env) (info : msi_domain_info) (msi_device : Bool)
    (domain : irq_domain) (h : __msi_create_irq_domain e info msi_device = some domain) :
    1 ≤ domain.host_data.hwsize ∧ domain.host_data.hwsize ≤ MSI_XA_DOMAIN_SIZE := by
  obtain ⟨h1, h2, -, -⟩ := msi_create_irq_domain_some e info msi_device domain h
  rw [h2]
  by_cases h0 : info.hwsize = 0
  · simp [h0, MSI_XA_DOMAIN_SIZE]
  · simp only [h0, if_false]
    omega

/-- C12: `__msi_create_irq_domain` fails when the hardware size of the info exceeds
`MSI_XA_DOMAIN_SIZE`; otherwise it succeeds as soon as the hierarchy creates the
domain, and the hardware size of a created domain is `MSI_XA_DOMAIN_SIZE` when the
info said 0 and the size of the info otherwise, hence between 1 and
`MSI_XA_DOMAIN_SIZE`.  So `msi_domain_get_hwsize` is never 0 for a slot whose
domain, if any, was created by this function, and it is `MSI_XA_DOMAIN_SIZE` for
an empty slot. -/
theorem msi_create_irq_domain_hwsize (e : env) (info : msi_domain_info) (msi_device : Bool) :
    (info.hwsize > MSI_XA_DOMAIN_SIZE → __msi_create_irq_domain e info msi_device = none) ∧
    (info.hwsize ≤ MSI_XA_DOMAIN_SIZE → e.create_hierarchy_ok = true →
      ∃ domain, __msi_create_irq_domain e info msi_device = some domain) ∧
    (∀ domain, __msi_create_irq_domain e info msi_device = some domain →
      domain.host_data.hwsize =
        (if info.hwsize = 0 then MSI_XA_DOMAIN_SIZE else info.hwsize) ∧
      1 ≤ domain.host_data.hwsize ∧ domain.host_data.hwsize ≤ MSI_XA_DOMAIN_SIZE) ∧
    (∀ (md : msi_device_data) (domid : Nat),
      (∀ domain, (md.__domains domid).domain = some domain →
        ∃ e1 info1 f1, __msi_create_irq_domain e1 info1 f1 = some domain) →
      msi_domain_get_hwsize md domid ≠ 0 ∧
      ((md.__domains domid).domain = none →
        msi_domain_get_hwsize md domid = MSI_XA_DOMAIN_SIZE)) := by
  refine ⟨?_, ?_, ?_, ?_⟩
  · intro h
    unfold __msi_create_irq_domain
    rw [if_pos h]
  · intro h hok
    unfold __msi_create_irq_domain
    rw [if_neg (by omega)]
    simp only [hok, not_true_eq_false, if_false]
    exact ⟨_, rfl⟩
  · intro domain h
    refine ⟨?_, msi_create_irq_domain_range e info msi_device domain h⟩
    obtain ⟨-, h2, -, -⟩ := msi_create_irq_domain_some e info msi_device domain h
    rw [h2]
    split_ifs <;> rfl
  · intro md domid hprov
    constructor
    · unfold msi_domain_get_hwsize
      cases hg : msi_get_device_domain md domid with
      | none => simp [MSI_XA_DOMAIN_SIZE]
      | some domain =>
        simp only
        have hs : (md.__domains domid).domain = some domain := by
          unfold msi_get_device_domain at hg
          split_ifs at hg
          cases hd : (md.__domains domid).domain with
          | none => rw [hd] at hg; cases hg
          | some d0 =>
            rw [hd] at hg
            simp only at hg
            split_ifs at hg
            simp only [Option.some.injEq] at hg
            rw [hg]
        obtain ⟨e1, info1, f1, hc⟩ := hprov domain hs
        have := msi_create_irq_domain_range e1 info1 f1 domain hc
        omega
    · intro hnone
      unfold msi_domain_get_hwsize msi_get_device_domain
      rw [hnone]
      split_ifs <;> rfl

/-! ## Reservation mode, failed allocations, activation -/

theorem is_pci_family_iff (t : irq_domain_bus_token) :
    is_pci_family t = true ↔
      (t = .DOMAIN_BUS_PCI_MSI ∨ t = .DOMAIN_BUS_PCI_DEVICE_MSI ∨
        t = .DOMAIN_BUS_PCI_DEVICE_MSIX ∨ t = .DOMAIN_BUS_VMD_MSI) := by
  cases t <;> simp [is_pci_family]

theorem msi_find_desc_first (md : msi_device_data) (domid k : Nat) (desc : msi_desc)
    (rest : xarray) (hfirst : (md.__domains domid).store = (k, desc) :: rest)
    (hk : k ≤ ULONG_MAX) :
    (msi_find_desc { md with __iter_idx := 0 } domid .MSI_DESC_ALL).1 = some desc := by
  unfold msi_find_desc
  simp only [hfirst, xa_range, List.filter_cons, Nat.zero_le, decide_True, hk, Bool.and_self,
    if_true, List.find?_cons, msi_desc_match]

/-- C13: when the first descriptor of the device exists, `msi_check_reservation_mode`
answers true exactly when the bus token of the domain is one of `PCI_MSI`,
`PCI_DEVICE_MSI`, `PCI_DEVICE_MSIX` and `VMD_MSI`, `MSI_FLAG_MUST_REACTIVATE` is set,
`MSI_FLAG_NO_MASK` is clear and the first descriptor is MSI-X or can be masked;
and `__msi_domain_alloc_irqs` runs its loop with `VIRQ_CAN_RESERVE` set in the
flags exactly in that case. -/
theorem msi_check_reservation_mode_iff (e : env) (domain : irq_domain) (info : msi_domain_info)
    (ks : kstate) (ctrl : msi_ctrl) (k : Nat) (desc : msi_desc) (rest : xarray)
    (hfirst : (ks.md.__domains MSI_DEFAULT_DOMAIN).store = (k, desc) :: rest)
    (hk : k ≤ ULONG_MAX) :
    (∃ b, (msi_check_reservation_mode domain info ks.md).1 = some b ∧
      (b = true ↔
        ((domain.bus_token = .DOMAIN_BUS_PCI_MSI ∨ domain.bus_token = .DOMAIN_BUS_PCI_DEVICE_MSI ∨
          domain.bus_token = .DOMAIN_BUS_PCI_DEVICE_MSIX ∨
          domain.bus_token = .DOMAIN_BUS_VMD_MSI) ∧
        info.flags.MUST_REACTIVATE = true ∧ info.flags.NO_MASK = false ∧
        (desc.is_msix = true ∨ desc.can_mask = true)))) ∧
    (populate_alloc_info domain ctrl.nirqs = 0 →
      ∃ vflags md1,
        __msi_domain_alloc_irqs e domain ks ctrl =
          alloc_irqs_loop e domain ctrl vflags
            (xa_range (ks.md.__domains ctrl.domid).store ctrl.first ctrl.last) 0
            { ks with md := md1 } ∧
        (vflags &&& VIRQ_ACTIVATE ≠ 0 ↔ domain.host_data.flags.ACTIVATE_EARLY = true) ∧
        (vflags &&& VIRQ_CAN_RESERVE ≠ 0 ↔
          ((domain.bus_token = .DOMAIN_BUS_PCI_MSI ∨
            domain.bus_token = .DOMAIN_BUS_PCI_DEVICE_MSI ∨
            domain.bus_token = .DOMAIN_BUS_PCI_DEVICE_MSIX ∨
            domain.bus_token = .DOMAIN_BUS_VMD_MSI) ∧
          domain.host_data.flags.MUST_REACTIVATE = true ∧
          domain.host_data.flags.NO_MASK = false ∧
          (desc.is_msix = true ∨ desc.can_mask = true)))) := by
  have key : ∀ info1 : msi_domain_info,
      ∃ b, (msi_check_reservation_mode domain info1 ks.md).1 = some b ∧
      (b = true ↔
        ((domain.bus_token = .DOMAIN_BUS_PCI_MSI ∨ domain.bus_token = .DOMAIN_BUS_PCI_DEVICE_MSI ∨
          domain.bus_token = .DOMAIN_BUS_PCI_DEVICE_MSIX ∨
          domain.bus_token = .DOMAIN_BUS_VMD_MSI) ∧
        info1.flags.MUST_REACTIVATE = true ∧ info1.flags.NO_MASK = false ∧
        (desc.is_msix = true ∨ desc.can_mask = true))) := by
    intro info1
    have hf := msi_find_desc_first ks.md MSI_DEFAULT_DOMAIN k desc rest hfirst hk
    rw [← is_pci_family_iff]
    unfold msi_check_reservation_mode
    by_cases h1 : is_pci_family domain.bus_token = true
    · by_cases h2 : info1.flags.MUST_REACTIVATE = true
      · by_cases h3 : info1.flags.NO_MASK = true
        · refine ⟨false, ?_, ?_⟩
          · simp [h1, h2, h3]
          · simp [h3]
        · refine ⟨desc.is_msix || desc.can_mask, ?_, ?_⟩
          · simp only [h1, h2, h3, not_true_eq_false, if_false, Bool.false_eq_true]
            rw [hf]
          · simp [h1, h2, h3]
      · refine ⟨false, ?_, ?_⟩
        · simp [h1, h2]
        · simp [h2]
    · refine ⟨false, ?_, ?_⟩
      · simp [h1]
      · simp [h1]
  refine ⟨key info, ?_⟩
  intro hpop
  obtain ⟨b, hb, hiff⟩ := key domain.host_data
  unfold __msi_domain_alloc_irqs
  simp only [hpop, ne_eq, not_true_eq_false, if_false]
  cases hm : msi_check_reservation_mode domain domain.host_data ks.md with
  | mk o md1 =>
    rw [hm] at hb
    simp only at hb
    subst hb
    simp only
    refine ⟨_, md1, rfl, ?_, ?_⟩
    · cases domain.host_data.flags.ACTIVATE_EARLY <;> cases b <;> decide
    · rw [← hiff]
      cases domain.host_data.flags.ACTIVATE_EARLY <;> cases b <;> decide

/-- C14 (amended): with PCI/MSI configured, `msi_handle_pci_fail` returns 1 when the
bus token of the domain is of the PCI family and the descriptor has more than
one vector; for a PCI token and a single vector it returns the count allocated so
far when that is positive and `-ENOSPC` when it is 0; for every other bus token
it returns `-ENOSPC` whatever was allocated.  This is what the allocation loop
returns when the hierarchy refuses the interrupts of a descriptor. -/
theorem msi_handle_pci_fail_result (e : env) (domain : irq_domain) (desc : msi_desc)
    (allocated : Nat) (hcfg : e.config_pci_msi = true) :
    msi_handle_pci_fail e domain desc allocated =
      (if is_pci_family domain.bus_token = true then
        (if desc.nvec_used > 1 then 1
         else if allocated > 0 then (allocated : Int) else -ENOSPC)
       else -ENOSPC) ∧
    (∀ (ctrl : msi_ctrl) (vflags idx : Nat) (rest : xarray) (ks : kstate),
      desc.irq = 0 → allocated < ctrl.nirqs →
      e.irq_alloc_ret ks.n_irq_alloc desc.nvec_used < 0 →
      (alloc_irqs_loop e domain ctrl vflags ((idx, desc) :: rest) allocated ks).map
          (fun r => r.1) =
        some (msi_handle_pci_fail e domain desc allocated)) := by
  constructor
  · unfold msi_handle_pci_fail
    by_cases h1 : is_pci_family domain.bus_token = true
    · simp only [h1, hcfg, and_self, not_true_eq_false, if_false, if_true]
      by_cases h2 : desc.nvec_used > 1
      · simp [h2]
      · simp only [h2, if_false]
        by_cases h3 : allocated = 0
        · simp [h3]
        · have : allocated > 0 := by omega
          simp [h3, this]
    · simp [h1]
  · intro ctrl vflags idx rest ks hirq hlt hfail
    have hm : msi_desc_match desc .MSI_DESC_NOTASSOCIATED = true := by
      simp [msi_desc_match, hirq]
    have ha : (__irq_domain_alloc_irqs e ks desc.nvec_used).1 < 0 := by
      unfold __irq_domain_alloc_irqs
      simp only [hfail, if_true]
    rw [alloc_irqs_loop]
    simp only [hm, not_true_eq_false, if_false, ge_iff_le, Nat.not_le.mpr hlt, ha, if_true,
      Option.map_some']

/-- With `VIRQ_ACTIVATE` clear `msi_init_virq` stops after its first step. -/
theorem msi_init_virq_idle (e : env) (ks : kstate) (virq vflags : Nat) (irqd : irq_data)
    (hirq : ks.irqd virq = some irqd) (hact : vflags &&& VIRQ_ACTIVATE = 0) :
    ∃ r, msi_init_virq e ks virq vflags = some r ∧ r.1 = 0 ∧ r.2.trace = ks.trace ∧
      r.2.irqd virq = some (if vflags &&& VIRQ_CAN_RESERVE = 0 then
        { irqd with can_reserve := false } else irqd) := by
  unfold msi_init_virq
  simp only [hirq, hact, ne_eq, not_true_eq_false, false_and, and_false, if_false, if_true]
  exact ⟨_, rfl, rfl, rfl, by simp [set_irqd]⟩

theorem msi_init_virq_shutdown (e : env) (ks : kstate) (virq vflags : Nat) (irqd : irq_data)
    (hirq : ks.irqd virq = some irqd) (hres : vflags &&& VIRQ_CAN_RESERVE = 0)
    (hact : vflags &&& VIRQ_ACTIVATE ≠ 0) (hm : irqd.affinity_managed = true)
    (ho : irqd.affinity_online = false) :
    ∃ r, msi_init_virq e ks virq vflags = some r ∧ r.1 = 0 ∧ r.2.trace = ks.trace ∧
      r.2.irqd virq = some { irqd with can_reserve := false, managed_shutdown := true } := by
  unfold msi_init_virq
  simp only [hirq, hres, hact, hm, ho, ne_eq, not_false_eq_true, and_self, if_true,
    Bool.false_eq_true]
  exact ⟨_, rfl, rfl, rfl, by simp [set_irqd]⟩

theorem msi_init_virq_call (e : env) (ks : kstate) (virq vflags : Nat) (irqd : irq_data)
    (hirq : ks.irqd virq = some irqd) (hact : vflags &&& VIRQ_ACTIVATE ≠ 0)
    (hn : ¬ (vflags &&& VIRQ_CAN_RESERVE = 0 ∧ irqd.affinity_managed = true ∧
      irqd.affinity_online = false)) :
    ∃ r, msi_init_virq e ks virq vflags = some r ∧
      r.1 = e.activate_ret virq (decide (vflags &&& VIRQ_CAN_RESERVE ≠ 0)) ∧
      r.2.trace =
        ks.trace ++ [event.irq_activate virq (decide (vflags &&& VIRQ_CAN_RESERVE ≠ 0))] ∧
      r.2.irqd virq = some
        (if e.activate_ret virq (decide (vflags &&& VIRQ_CAN_RESERVE ≠ 0)) ≠ 0 then
          (if vflags &&& VIRQ_CAN_RESERVE = 0 then { irqd with can_reserve := false } else irqd)
         else if vflags &&& VIRQ_CAN_RESERVE = 0 then
          { irqd with can_reserve := false, activated := true }
         else { irqd with activated := false }) := by
  unfold msi_init_virq
  simp only [hirq]
  by_cases hres : vflags &&& VIRQ_CAN_RESERVE = 0
  · have hn1 : ¬ (irqd.affinity_managed = true ∧ ¬ irqd.affinity_online = true) := by
      intro h
      exact hn ⟨hres, h.1, by simpa using h.2⟩
    simp only [hres, hact, ne_eq, not_false_eq_true, if_true, true_and, hn1, if_false,
      not_true_eq_false, decide_False]
    unfold irq_domain_activate_irq
    by_cases hret : e.activate_ret virq false = 0
    · simp only [hret, ne_eq, not_true_eq_false, if_false]
      exact ⟨_, rfl, rfl, by simp [set_irqd], by simp [set_irqd]⟩
    · simp only [hret, ne_eq, not_false_eq_true, if_true]
      exact ⟨_, rfl, rfl, by simp [set_irqd], by simp [set_irqd]⟩
  · simp only [hres, hact, ne_eq, not_false_eq_true, if_true, false_and, if_false, decide_True]
    unfold irq_domain_activate_irq
    by_cases hret : e.activate_ret virq true = 0
    · simp only [hret, ne_eq, not_true_eq_false, if_false]
      simp only [set_irqd, if_true]
      exact ⟨_, rfl, rfl, rfl, by simp⟩
    · simp only [hret, ne_eq, not_false_eq_true, if_true]
      exact ⟨_, rfl, rfl, by simp [set_irqd], by simp [set_irqd]⟩

/-- C15 (amended): with `VIRQ_CAN_RESERVE` clear `msi_init_virq` returns with the
`can_reserve` bit of the interrupt cleared.  When moreover `VIRQ_ACTIVATE` is set,
the affinity of the interrupt is managed and no online CPU intersects its
affinity mask, it marks the interrupt managed-shutdown and returns 0 without a
call to the hierarchy; when `VIRQ_ACTIVATE` is clear it returns 0 without a call
to the hierarchy and without marking the interrupt. -/
theorem msi_init_virq_no_reserve (e : env) (ks : kstate) (virq vflags : Nat) (irqd : irq_data)
    (hirq : ks.irqd virq = some irqd) (hres : vflags &&& VIRQ_CAN_RESERVE = 0) :
    ∃ r, msi_init_virq e ks virq vflags = some r ∧
      (∃ x, r.2.irqd virq = some x ∧ x.can_reserve = false) ∧
      (vflags &&& VIRQ_ACTIVATE ≠ 0 → irqd.affinity_managed = true →
        irqd.affinity_online = false →
        r.1 = 0 ∧ r.2.trace = ks.trace ∧
        r.2.irqd virq = some { irqd with can_reserve := false, managed_shutdown := true }) ∧
      (vflags &&& VIRQ_ACTIVATE = 0 →
        r.1 = 0 ∧ r.2.trace = ks.trace ∧
        r.2.irqd virq = some { irqd with can_reserve := false }) := by
  by_cases hact : vflags &&& VIRQ_ACTIVATE = 0
  · obtain ⟨r, hr, h1, h2, h3⟩ := msi_init_virq_idle e ks virq vflags irqd hirq hact
    rw [if_pos hres] at h3
    exact ⟨r, hr, ⟨_, h3, rfl⟩, fun h => absurd hact h, fun _ => ⟨h1, h2, h3⟩⟩
  · by_cases hm : irqd.affinity_managed = true ∧ irqd.affinity_online = false
    · obtain ⟨r, hr, h1, h2, h3⟩ :=
        msi_init_virq_shutdown e ks virq vflags irqd hirq hres hact hm.1 hm.2
      exact ⟨r, hr, ⟨_, h3, rfl⟩, fun _ _ _ => ⟨h1, h2, h3⟩, fun h => absurd h hact⟩
    · obtain ⟨r, hr, -, -, h3⟩ :=
        msi_init_virq_call e ks virq vflags irqd hirq hact (fun h => hm h.2)
      refine ⟨r, hr, ?_, fun _ h1 h2 => absurd ⟨h1, h2⟩ hm, fun h => absurd h hact⟩
      rw [h3]
      simp only [hres, if_true]
      split_ifs
      · exact ⟨_, rfl, rfl⟩
      · exact ⟨_, rfl, rfl⟩

/-- C16: `msi_init_virq` on an existing interrupt returns.  With `VIRQ_ACTIVATE`
clear it makes no call to the hierarchy, returns 0 and leaves the activated bit
alone.  With `VIRQ_ACTIVATE` set, outside the managed-shutdown case, it calls the
hierarchy activation exactly once, with reserve equal to whether
`VIRQ_CAN_RESERVE` is set; when that fails the error is returned and the activated
bit is as before; when it succeeds the result is 0 and the activated bit is
clear if and only if `VIRQ_CAN_RESERVE` is set.  With `VIRQ_CAN_RESERVE` set the
`can_reserve` bit is as before.  On a maskable PCI descriptor of four vectors with
`MSI_FLAG_ACTIVATE_EARLY` and `MSI_FLAG_MUST_REACTIVATE` the allocation binds the
descriptor to four interrupts, each activated once in reservation mode and left
with the activated bit clear and `can_reserve` as the hierarchy set it. -/
theorem msi_init_virq_activate (e : env) (ks : kstate) (virq vflags : Nat) (irqd : irq_data)
    (hirq : ks.irqd virq = some irqd) :
    (∃ r, msi_init_virq e ks virq vflags = some r ∧
      (vflags &&& VIRQ_ACTIVATE = 0 →
        r.1 = 0 ∧ r.2.trace = ks.trace ∧
        ∃ x, r.2.irqd virq = some x ∧ x.activated = irqd.activated) ∧
      (vflags &&& VIRQ_ACTIVATE ≠ 0 →
        ¬ (vflags &&& VIRQ_CAN_RESERVE = 0 ∧ irqd.affinity_managed = true ∧
            irqd.affinity_online = false) →
        r.2.trace =
          ks.trace ++ [event.irq_activate virq (decide (vflags &&& VIRQ_CAN_RESERVE ≠ 0))] ∧
        (e.activate_ret virq (decide (vflags &&& VIRQ_CAN_RESERVE ≠ 0)) ≠ 0 →
          r.1 = e.activate_ret virq (decide (vflags &&& VIRQ_CAN_RESERVE ≠ 0)) ∧
          ∃ x, r.2.irqd virq = some x ∧ x.activated = irqd.activated) ∧
        (e.activate_ret virq (decide (vflags &&& VIRQ_CAN_RESERVE ≠ 0)) = 0 →
          r.1 = 0 ∧
          ∃ x, r.2.irqd virq = some x ∧
            (x.activated = false ↔ vflags &&& VIRQ_CAN_RESERVE ≠ 0))) ∧
      (vflags &&& VIRQ_CAN_RESERVE ≠ 0 →
        ∃ x, r.2.irqd virq = some x ∧ x.can_reserve = irqd.can_reserve)) ∧
    (msi_domain_alloc_irqs_range_locked (ex_env 40)
        (ex_dev true false ex_multi_store (some ex_pci_domain))
        (ex_ks ex_multi_store (some ex_pci_domain)) 0 0 0).map
      (fun r => (r.1, irq_of (r.2.md.__domains 0).store 0,
        [40, 41, 42, 43].map r.2.irqd, r.2.trace)) =
      some (0, some 40,
        [some ((ex_env 40).new_irqd 40), some ((ex_env 40).new_irqd 41),
          some ((ex_env 40).new_irqd 42), some ((ex_env 40).new_irqd 43)],
        [event.irq_alloc 4 40, event.irq_activate 40 true, event.irq_activate 41 true,
          event.irq_activate 42 true, event.irq_activate 43 true]) := by
  refine ⟨?_, by decide⟩
  by_cases hact : vflags &&& VIRQ_ACTIVATE = 0
  · obtain ⟨r, hr, h1, h2, h3⟩ := msi_init_virq_idle e ks virq vflags irqd hirq hact
    refine ⟨r, hr, fun _ => ⟨h1, h2, ?_⟩, fun h => absurd hact h, fun hres => ?_⟩
    · rw [h3]
      split_ifs
      · exact ⟨_, rfl, rfl⟩
      · exact ⟨_, rfl, rfl⟩
    · rw [h3, if_neg hres]
      exact ⟨_, rfl, rfl⟩
  · by_cases hn : vflags &&& VIRQ_CAN_RESERVE = 0 ∧ irqd.affinity_managed = true ∧
        irqd.affinity_online = false
    · obtain ⟨r, hr, -, -, -⟩ :=
        msi_init_virq_shutdown e ks virq vflags irqd hirq hn.1 hact hn.2.1 hn.2.2
      exact ⟨r, hr, fun h => absurd h hact, fun _ h => absurd hn h, fun h => absurd hn.1 h⟩
    · obtain ⟨r, hr, h1, h2, h3⟩ := msi_init_virq_call e ks virq vflags irqd hirq hact hn
      refine ⟨r, hr, fun h => absurd h hact, fun _ _ => ⟨h2, ?_, ?_⟩, fun hres => ?_⟩
      · intro hret
        rw [if_pos hret] at h3
        refine ⟨h1, ?_⟩
        rw [h3]
        split_ifs
        · exact ⟨_, rfl, rfl⟩
        · exact ⟨_, rfl, rfl⟩
      · intro hret
        rw [if_neg (not_not.mpr hret)] at h3
        refine ⟨h1.trans hret, ?_⟩
        rw [h3]
        by_cases hres : vflags &&& VIRQ_CAN_RESERVE = 0
        · rw [if_pos hres]
          exact ⟨_, rfl, by simp [hres]⟩
        · rw [if_neg hres]
          exact ⟨_, rfl, by simp [hres]⟩
      · rw [h3, if_neg hres]
        split_ifs
        · exact ⟨_, rfl, rfl⟩
        · exact ⟨_, rfl, rfl⟩

/-! ## Device data set-up and device domains -/

@[simp] theorem set_domain_store (md : msi_device_data) (domid d : Nat) (dom : Option irq_domain) :
    ((set_domain md domid dom).__domains d).store = (md.__domains d).store := by
  by_cases h : d = domid <;> simp [set_domain, h]

@[simp] theorem set_domain_domain (md : msi_device_data) (domid : Nat) (dom : Option irq_domain) :
    ((set_domain md domid dom).__domains domid).domain = dom := by
  simp [set_domain]

theorem set_domain_other (md : msi_device_data) (domid d : Nat) (dom : Option irq_domain)
    (h : d ≠ domid) : (set_domain md domid dom).__domains d = md.__domains d := by
  simp [set_domain, h]

theorem msi_get_device_domain_eq_some {md : msi_device_data} {domid : Nat} {domain : irq_domain}
    (h : msi_get_device_domain md domid = some domain) :
    domid < MSI_MAX_DEVICE_IRQDOMAINS ∧ (md.__domains domid).domain = some domain ∧
      domain.is_msi_parent = false := by
  unfold msi_get_device_domain at h
  by_cases h1 : domid ≥ MSI_MAX_DEVICE_IRQDOMAINS
  · rw [if_pos h1] at h
    cases h
  · rw [if_neg h1] at h
    cases hd : (md.__domains domid).domain with
    | none => rw [hd] at h; cases h
    | some d0 =>
      rw [hd] at h
      simp only at h
      by_cases h2 : d0.is_msi_parent = true
      · rw [if_pos h2] at h
        cases h
      · rw [if_neg h2] at h
        simp only [Option.some.injEq] at h
        subst h
        exact ⟨by omega, rfl, by simpa using h2⟩

theorem msi_get_device_domain_of_slot {md : msi_device_data} {domid : Nat} {domain : irq_domain}
    (hd : domid < MSI_MAX_DEVICE_IRQDOMAINS) (hs : (md.__domains domid).domain = some domain)
    (hp : domain.is_msi_parent = false) : msi_get_device_domain md domid = some domain := by
  unfold msi_get_device_domain
  rw [if_neg (by omega), hs]
  simp [hp]

theorem msi_get_device_domain_of_empty {md : msi_device_data} {domid : Nat}
    (hs : (md.__domains domid).domain = none) : msi_get_device_domain md domid = none := by
  unfold msi_get_device_domain
  rw [hs]
  split_ifs <;> rfl

theorem msi_get_device_domain_congr {md md1 : msi_device_data} {domid : Nat}
    (h : (md1.__domains domid).domain = (md.__domains domid).domain) :
    msi_get_device_domain md1 domid = msi_get_device_domain md domid := by
  unfold msi_get_device_domain
  rw [h]

theorem msi_setup_device_data_of_some (e : env) (dev : device) (md : msi_device_data)
    (h : dev.msi_data = some md) : msi_setup_device_data e dev = (0, dev) := by
  unfold msi_setup_device_data
  rw [h]

theorem msi_setup_device_data_of_none (e : env) (dev : device) (h : dev.msi_data = none) :
    ((msi_setup_device_data e dev).1 ≠ 0 ∧ (msi_setup_device_data e dev).2 = dev ∧
      ¬ (e.devres_alloc_ok = true ∧ e.sysfs_create_group_ret = 0)) ∨
    (e.devres_alloc_ok = true ∧ e.sysfs_create_group_ret = 0 ∧
      msi_setup_device_data e dev = (0, with_data dev (new_device_data dev))) := by
  unfold msi_setup_device_data
  rw [h]
  simp only
  by_cases h1 : e.devres_alloc_ok = true
  · by_cases h2 : e.sysfs_create_group_ret = 0
    · right
      simp only [h1, h2, not_true_eq_false, if_false, ne_eq]
      exact ⟨trivial, trivial, rfl⟩
    · left
      simp only [h1, h2, not_true_eq_false, if_false, ne_eq, not_false_eq_true, if_true,
        and_false, and_self]
  · left
    have hz : ¬ (-ENOMEM : Int) = 0 := by decide
    rw [if_pos h1]
    exact ⟨hz, rfl, fun k => h1 k.1⟩

theorem msi_setup_device_data_with (e : env) (dev : device) (x : Option msi_device_data) :
    { (msi_setup_device_data e dev).2 with msi_data := x } = { dev with msi_data := x } := by
  cases h : dev.msi_data with
  | some md => rw [msi_setup_device_data_of_some e dev md h]
  | none =>
    rcases msi_setup_device_data_of_none e dev h with ⟨-, h2, -⟩ | ⟨-, -, h3⟩
    · rw [h2]
    · rw [h3]
      rfl

/-- The device data on which `msi_create_device_irq_domain` works once
`msi_setup_device_data` has returned 0. -/
theorem msi_setup_device_data_ok (e : env) (dev : device)
    (h : (msi_setup_device_data e dev).1 = 0) :
    (∃ md, dev.msi_data = some md ∧ (msi_setup_device_data e dev).2.msi_data = some md) ∨
    (dev.msi_data = none ∧ e.devres_alloc_ok = true ∧ e.sysfs_create_group_ret = 0 ∧
      (msi_setup_device_data e dev).2.msi_data = some (new_device_data dev)) := by
  cases hd : dev.msi_data with
  | some md =>
    left
    rw [msi_setup_device_data_of_some e dev md hd]
    exact ⟨md, rfl, hd⟩
  | none =>
    right
    rcases msi_setup_device_data_of_none e dev hd with ⟨h1, -, -⟩ | ⟨h1, h2, h3⟩
    · exact absurd h h1
    · rw [h3]
      exact ⟨rfl, h1, h2, rfl⟩

theorem new_device_data_slot (dev : device) (parent : irq_domain)
    (hp : dev.msi_domain = some parent) (hpar : parent.is_msi_parent = true) (d : Nat) :
    (new_device_data dev).__domains d = { store := [], domain := none } := by
  unfold new_device_data
  simp [hp, hpar]

/-- The outcomes of `msi_create_device_irq_domain` when it returns: nothing
happened, or the device data exist and the call went through the guard. -/
theorem msi_create_device_irq_domain_cases (e : env) (dev : device) (domid : Nat)
    (template : msi_domain_template) (hwsize : Nat) (r : Bool × device)
    (h : msi_create_device_irq_domain e dev domid template hwsize = some r) :
    r = (false, dev) ∨
    ∃ parent pops md, dev.msi_domain = some parent ∧ parent.is_msi_parent = true ∧
      parent.msi_parent_ops = some pops ∧ domid < MSI_MAX_DEVICE_IRQDOMAINS ∧
      (msi_setup_device_data e dev).1 = 0 ∧
      (msi_setup_device_data e dev).2.msi_data = some md ∧
      (r = (false, with_data dev (__msi_unlock_descs md)) ∨
       ∃ info1 domain, msi_get_device_domain md domid = none ∧
         pops.init_dev_msi_info
           { template.info with hwsize := hwsize, ops := template.ops, alloc_data := true } =
             some info1 ∧
         __msi_create_irq_domain e info1 true = some domain ∧
         (r = (false, with_data dev (__msi_unlock_descs
                (set_domain (set_domain md domid (some domain)) domid none))) ∨
          (domain.host_data.ops.msi_prepare hwsize = 0 ∧
            r = (true, with_data dev (__msi_unlock_descs
                  (set_domain md domid (some domain))))))) := by
  unfold msi_create_device_irq_domain at h
  cases hp : dev.msi_domain with
  | none => rw [hp] at h; cases h
  | some parent =>
    rw [hp] at h
    simp only at h
    by_cases h1 : parent.is_msi_parent = true
    swap
    · rw [if_pos h1] at h
      left
      exact (Option.some.inj h).symm
    rw [if_neg (not_not.mpr h1)] at h
    by_cases h2 : domid ≥ MSI_MAX_DEVICE_IRQDOMAINS
    · rw [if_pos h2] at h
      left
      exact (Option.some.inj h).symm
    rw [if_neg h2] at h
    by_cases h3 : e.kmemdup_ok = true
    swap
    · rw [if_pos h3] at h
      left
      exact (Option.some.inj h).symm
    rw [if_neg (not_not.mpr h3)] at h
    cases hops : parent.msi_parent_ops with
    | none => rw [hops] at h; cases h
    | some pops =>
      rw [hops] at h
      simp only at h
      by_cases h4 : e.fwnode_ok = true
      swap
      · rw [if_pos h4] at h
        left
        exact (Option.some.inj h).symm
      rw [if_neg (not_not.mpr h4)] at h
      by_cases h5 : (msi_setup_device_data e dev).1 = 0
      swap
      · rw [if_pos h5] at h
        left
        have hdev : (msi_setup_device_data e dev).2 = dev := by
          cases hd : dev.msi_data with
          | some md =>
            rw [msi_setup_device_data_of_some e dev md hd] at h5
            exact absurd rfl h5
          | none =>
            rcases msi_setup_device_data_of_none e dev hd with ⟨-, k2, -⟩ | ⟨-, -, k3⟩
            · exact k2
            · rw [k3] at h5
              exact absurd rfl h5
        rw [hdev] at h
        exact (Option.some.inj h).symm
      rw [if_neg (not_not.mpr h5)] at h
      cases hmd : (msi_setup_device_data e dev).2.msi_data with
      | none => rw [hmd] at h; cases h
      | some md =>
        rw [hmd] at h
        simp only at h
        right
        refine ⟨parent, pops, md, rfl, h1, hops, by omega, h5, rfl, ?_⟩
        unfold guard_return at h
        simp only [msi_setup_device_data_with] at h
        by_cases h6 : (msi_get_device_domain md domid).isSome = true
        · rw [if_pos h6] at h
          left
          exact (Option.some.inj h).symm
        rw [if_neg h6] at h
        have h6n : msi_get_device_domain md domid = none := by
          cases hg : msi_get_device_domain md domid with
          | none => rfl
          | some x => rw [hg] at h6; exact absurd rfl h6
        cases hi : pops.init_dev_msi_info
            { template.info with hwsize := hwsize, ops := template.ops, alloc_data := true } with
        | none =>
          rw [hi] at h
          left
          exact (Option.some.inj h).symm
        | some info1 =>
          rw [hi] at h
          simp only at h
          cases hc : __msi_create_irq_domain e info1 true with
          | none =>
            rw [hc] at h
            left
            exact (Option.some.inj h).symm
          | some domain =>
            rw [hc] at h
            simp only at h
            right
            refine ⟨info1, domain, h6n, rfl, hc, ?_⟩
            by_cases h7 : domain.host_data.ops.msi_prepare hwsize = 0
            · rw [if_neg (not_not.mpr h7)] at h
              right
              exact ⟨h7, (Option.some.inj h).symm⟩
            · rw [if_pos h7] at h
              left
              exact (Option.some.inj h).symm

/-- What `msi_create_device_irq_domain` returns when the parent rejects the
info: it fails before the device data are looked at, or behind the guard. -/
theorem msi_create_device_irq_domain_rejected_eq (e : env) (dev : device) (domid : Nat)
    (template : msi_domain_template) (hwsize : Nat) (parent : irq_domain) (pops : msi_parent_ops)
    (hp : dev.msi_domain = some parent) (hops : parent.msi_parent_ops = some pops)
    (hrej : pops.init_dev_msi_info
      { template.info with hwsize := hwsize, ops := template.ops, alloc_data := true } = none) :
    (msi_create_device_irq_domain e dev domid template hwsize = some (false, dev) ∧
      ¬ (parent.is_msi_parent = true ∧ domid < MSI_MAX_DEVICE_IRQDOMAINS ∧
          e.kmemdup_ok = true ∧ e.fwnode_ok = true ∧ (msi_setup_device_data e dev).1 = 0)) ∨
    (parent.is_msi_parent = true ∧
      ∃ md, (msi_setup_device_data e dev).1 = 0 ∧
        (msi_setup_device_data e dev).2.msi_data = some md ∧
        msi_create_device_irq_domain e dev domid template hwsize =
          some (false, with_data dev (__msi_unlock_descs md))) := by
  unfold msi_create_device_irq_domain
  rw [hp]
  simp only
  by_cases h1 : parent.is_msi_parent = true
  swap
  · rw [if_pos h1]
    exact Or.inl ⟨rfl, fun k => h1 k.1⟩
  rw [if_neg (not_not.mpr h1)]
  by_cases h2 : domid ≥ MSI_MAX_DEVICE_IRQDOMAINS
  · rw [if_pos h2]
    exact Or.inl ⟨rfl, fun k => absurd k.2.1 (by omega)⟩
  rw [if_neg h2]
  by_cases h3 : e.kmemdup_ok = true
  swap
  · rw [if_pos h3]
    exact Or.inl ⟨rfl, fun k => h3 k.2.2.1⟩
  rw [if_neg (not_not.mpr h3), hops]
  simp only
  by_cases h4 : e.fwnode_ok = true
  swap
  · rw [if_pos h4]
    exact Or.inl ⟨rfl, fun k => h4 k.2.2.2.1⟩
  rw [if_neg (not_not.mpr h4)]
  by_cases h5 : (msi_setup_device_data e dev).1 = 0
  swap
  · rw [if_pos h5]
    have hdev : (msi_setup_device_data e dev).2 = dev := by
      cases hd : dev.msi_data with
      | some md =>
        rw [msi_setup_device_data_of_some e dev md hd] at h5
        exact absurd rfl h5
      | none =>
        rcases msi_setup_device_data_of_none e dev hd with ⟨-, k2, -⟩ | ⟨-, -, k3⟩
        · exact k2
        · rw [k3] at h5
          exact absurd rfl h5
    rw [hdev]
    exact Or.inl ⟨rfl, fun k => h5 k.2.2.2.2⟩
  rw [if_neg (not_not.mpr h5)]
  right
  refine ⟨h1, ?_⟩
  rcases msi_setup_device_data_ok e dev h5 with ⟨md, -, k2⟩ | ⟨-, -, -, k2⟩
  · refine ⟨md, h5, k2, ?_⟩
    rw [k2]
    simp only [hrej, guard_return, msi_setup_device_data_with, with_data]
    split_ifs <;> rfl
  · refine ⟨_, h5, k2, ?_⟩
    rw [k2]
    simp only [hrej, guard_return, msi_setup_device_data_with, with_data]
    split_ifs <;> rfl

/-- C17 (amended): when `init_dev_msi_info` of the MSI parent rejects the info,
`msi_create_device_irq_domain` returns false; the slots and the stores of a device
which had MSI device data are as before.  A device which had none is left
either without, or with the data `msi_setup_device_data` has created before
the parent was asked, all of whose slots and stores are empty; the latter is the
case whenever the steps before the question succeed. -/
theorem msi_create_device_irq_domain_rejected (e : env) (dev : device) (domid : Nat)
    (template : msi_domain_template) (hwsize : Nat) (parent : irq_domain) (pops : msi_parent_ops)
    (hp : dev.msi_domain = some parent) (hops : parent.msi_parent_ops = some pops)
    (hrej : pops.init_dev_msi_info
      { template.info with hwsize := hwsize, ops := template.ops, alloc_data := true } = none) :
    ∃ dev1, msi_create_device_irq_domain e dev domid template hwsize = some (false, dev1) ∧
      dev1.msi_domain = dev.msi_domain ∧
      (∀ md, dev.msi_data = some md →
        ∃ md1, dev1.msi_data = some md1 ∧ ∀ d, md1.__domains d = md.__domains d) ∧
      (dev.msi_data = none → ∀ md1, dev1.msi_data = some md1 →
        ∀ d, md1.__domains d = { store := [], domain := none }) ∧
      (dev.msi_data = none → parent.is_msi_parent = true →
        domid < MSI_MAX_DEVICE_IRQDOMAINS → e.kmemdup_ok = true → e.fwnode_ok = true →
        e.devres_alloc_ok = true → e.sysfs_create_group_ret = 0 →
        dev1.msi_data.isSome = true) := by
  rcases msi_create_device_irq_domain_rejected_eq e dev domid template hwsize parent pops hp hops
    hrej with ⟨k1, k2⟩ | ⟨k1, md, k2, k3, k4⟩
  · refine ⟨dev, k1, rfl, fun md hmd => ⟨md, hmd, fun _ => rfl⟩, ?_, ?_⟩
    · intro hn md1 hmd1
      rw [hn] at hmd1
      cases hmd1
    · intro hn a b c d f g
      exfalso
      apply k2
      refine ⟨a, b, c, d, ?_⟩
      rcases msi_setup_device_data_of_none e dev hn with ⟨-, -, j⟩ | ⟨-, -, j⟩
      · exact absurd ⟨f, g⟩ j
      · rw [j]
  · refine ⟨_, k4, rfl, ?_, ?_, fun _ _ _ _ _ _ _ => rfl⟩
    · intro md0 hmd0
      rw [msi_setup_device_data_of_some e dev md0 hmd0, hmd0] at k3
      simp only [Option.some.injEq] at k3
      subst k3
      exact ⟨_, rfl, fun _ => rfl⟩
    · intro hn md1 hmd1 d
      rcases msi_setup_device_data_ok e dev k2 with ⟨md0, j1, -⟩ | ⟨-, -, -, j⟩
      · rw [hn] at j1
        cases j1
      · rw [j] at k3
        simp only [Option.some.injEq] at k3
        subst k3
        simp only [with_data, Option.some.injEq] at hmd1
        rw [← hmd1]
        exact new_device_data_slot dev parent hp k1 d

/-- C18 (amended): a successful `msi_create_device_irq_domain` followed by
`msi_remove_device_irq_domain` on the same domain id leaves the slot empty and the
store of that id as it was before the pair, in particular empty when it was
empty; the other slots and stores are as before, and all slots and stores are
empty when the device had no MSI device data.  `msi_remove_device_irq_domain` on
an empty slot leaves every slot and store as it is and invalidates the cursor. -/
theorem create_remove_device_irq_domain (e : env) (dev : device) (domid : Nat)
    (template : msi_domain_template) (hwsize : Nat) (dev1 : device)
    (hc : msi_create_device_irq_domain e dev domid template hwsize = some (true, dev1)) :
    (∃ md2, msi_remove_device_irq_domain dev1 domid = some (with_data dev md2) ∧
      (md2.__domains domid).domain = none ∧
      (∀ md, dev.msi_data = some md →
        (md2.__domains domid).store = (md.__domains domid).store ∧
        ((md.__domains domid).store = [] → (md2.__domains domid).store = []) ∧
        ∀ d, d ≠ domid → md2.__domains d = md.__domains d) ∧
      (dev.msi_data = none → ∀ d, md2.__domains d = { store := [], domain := none })) ∧
    (∀ (dev0 : device) (md0 : msi_device_data), dev0.msi_data = some md0 →
      (md0.__domains domid).domain = none →
      msi_remove_device_irq_domain dev0 domid =
        some (with_data dev0 (__msi_unlock_descs md0)) ∧
      ∀ d, (__msi_unlock_descs md0).__domains d = md0.__domains d) := by
  constructor
  · rcases msi_create_device_irq_domain_cases e dev domid template hwsize _ hc with
      h | ⟨parent, pops, md, hp, hpar, -, hdom, hs1, hs2, h⟩
    · cases h
    · rcases h with h | ⟨info1, domain, hg, -, hcr, h | ⟨-, h⟩⟩
      · cases h
      · cases h
      · simp only [Prod.mk.injEq, true_and] at h
        subst h
        obtain ⟨-, -, hnp, hdv⟩ := msi_create_irq_domain_some e info1 true domain hcr
        have hget : msi_get_device_domain
            (__msi_unlock_descs (set_domain md domid (some domain))) domid = some domain := by
          apply msi_get_device_domain_of_slot hdom _ hnp
          simp [__msi_unlock_descs]
        refine ⟨__msi_unlock_descs (set_domain
          (__msi_unlock_descs (set_domain md domid (some domain))) domid none), ?_, ?_, ?_, ?_⟩
        · unfold msi_remove_device_irq_domain
          simp only [with_data, hget, hdv, not_true_eq_false, if_false]
        · simp [__msi_unlock_descs]
        · intro md0 hmd0
          rw [msi_setup_device_data_of_some e dev md0 hmd0, hmd0] at hs2
          simp only [Option.some.injEq] at hs2
          subst hs2
          refine ⟨by simp [__msi_unlock_descs], fun h0 => by simp [__msi_unlock_descs, h0], ?_⟩
          intro d hd
          simp [__msi_unlock_descs, set_domain_other _ _ _ _ hd]
        · intro hn d
          rcases msi_setup_device_data_ok e dev hs1 with ⟨m, j, -⟩ | ⟨-, -, -, j⟩
          · rw [hn] at j
            cases j
          · rw [j] at hs2
            simp only [Option.some.injEq] at hs2
            subst hs2
            have hnew := new_device_data_slot dev parent hp hpar
            by_cases hd : d = domid
            · subst hd
              simp [__msi_unlock_descs, set_domain, hnew]
            · simp [__msi_unlock_descs, set_domain_other _ _ _ _ hd, hnew]
  · intro dev0 md0 hmd0 hslot
    refine ⟨?_, fun _ => rfl⟩
    unfold msi_remove_device_irq_domain
    rw [hmd0]
    simp only [msi_get_device_domain_of_empty hslot, with_data]

/-- C19: on a device with MSI device data whose slot holds no MSI-parent domain,
`msi_match_device_irq_domain` returns true if and only if the domain id is below
`MSI_MAX_DEVICE_IRQDOMAINS` and the slot holds a device domain whose info has
the given bus token; it returns false for an empty slot, for a domain id which
is too large and for a domain which is not a device domain.  Slots and stores
are as before; the cursor is invalidated by the guard. -/
theorem msi_match_device_irq_domain_iff (dev : device) (md : msi_device_data) (domid : Nat)
    (bus_token : irq_domain_bus_token) (hmd : dev.msi_data = some md)
    (hslot : ∀ domain, (md.__domains domid).domain = some domain →
      domain.is_msi_parent = false) :
    ∃ b, msi_match_device_irq_domain dev domid bus_token =
        some (b, with_data dev (__msi_unlock_descs md)) ∧
      (b = true ↔ (domid < MSI_MAX_DEVICE_IRQDOMAINS ∧
        ∃ domain, (md.__domains domid).domain = some domain ∧
          domain.is_msi_device = true ∧ domain.host_data.bus_token = bus_token)) ∧
      ((md.__domains domid).domain = none → b = false) ∧
      (domid ≥ MSI_MAX_DEVICE_IRQDOMAINS → b = false) ∧
      (∀ domain, (md.__domains domid).domain = some domain →
        domain.is_msi_device = false → b = false) ∧
      (∀ d, (__msi_unlock_descs md).__domains d = md.__domains d) := by
  have main : ∃ b, msi_match_device_irq_domain dev domid bus_token =
        some (b, with_data dev (__msi_unlock_descs md)) ∧
      (b = true ↔ (domid < MSI_MAX_DEVICE_IRQDOMAINS ∧
        ∃ domain, (md.__domains domid).domain = some domain ∧
          domain.is_msi_device = true ∧ domain.host_data.bus_token = bus_token)) := by
    unfold msi_match_device_irq_domain
    rw [hmd]
    simp only [guard_return, with_data]
    cases hg : msi_get_device_domain md domid with
    | none =>
      refine ⟨false, rfl, ?_⟩
      constructor
      · intro h
        cases h
      · rintro ⟨hd, domain, hs, -, -⟩
        rw [msi_get_device_domain_of_slot hd hs (hslot domain hs)] at hg
        cases hg
    | some domain =>
      obtain ⟨hd, hs, -⟩ := msi_get_device_domain_eq_some hg
      by_cases hdev : domain.is_msi_device = true
      · refine ⟨decide (domain.host_data.bus_token = bus_token), ?_, ?_⟩
        · simp only [hdev, if_true]
        · constructor
          · intro h
            exact ⟨hd, domain, hs, hdev, of_decide_eq_true h⟩
          · rintro ⟨-, d0, hs0, -, ht⟩
            rw [hs] at hs0
            cases hs0
            exact decide_eq_true ht
      · refine ⟨false, ?_, ?_⟩
        · simp only [hdev, if_false, Bool.false_eq_true]
        · constructor
          · intro h
            cases h
          · rintro ⟨-, d0, hs0, hdv, -⟩
            rw [hs] at hs0
            cases hs0
            exact absurd hdv hdev
  obtain ⟨b, hb, hiff⟩ := main
  refine ⟨b, hb, hiff, ?_, ?_, ?_, fun _ => rfl⟩
  · intro hn
    cases b with
    | false => rfl
    | true =>
      obtain ⟨-, d0, hs0, -, -⟩ := hiff.mp rfl
      rw [hn] at hs0
      cases hs0
  · intro hge
    cases b with
    | false => rfl
    | true =>
      obtain ⟨hlt, -⟩ := hiff.mp rfl
      omega
  · intro domain hs hdv
    cases b with
    | false => rfl
    | true =>
      obtain ⟨-, d0, hs0, hdv0, -⟩ := hiff.mp rfl
      rw [hs] at hs0
      cases hs0
      rw [hdv] at hdv0
      cases hdv0

/-- C20: `msi_setup_device_data` on a device with MSI device data returns 0 and
leaves the device as it is, so that a second call after a successful one changes
nothing; a failing call leaves the device without data.  The first successful
call, which happens exactly when the allocation and the sysfs group succeed,
installs device data whose stores are all empty, whose cursor is 0, whose slot 0
holds the global domain of the device exactly when that is set and is not an
MSI parent, and whose other slots are empty. -/
theorem msi_setup_device_data_idempotent (e e1 : env) (dev : device) :
    (∀ md, dev.msi_data = some md → msi_setup_device_data e dev = (0, dev)) ∧
    ((msi_setup_device_data e dev).1 = 0 →
      msi_setup_device_data e1 (msi_setup_device_data e dev).2 =
        (0, (msi_setup_device_data e dev).2)) ∧
    ((msi_setup_device_data e dev).1 ≠ 0 → (msi_setup_device_data e dev).2 = dev) ∧
    (dev.msi_data = none →
      ((msi_setup_device_data e dev).1 = 0 ↔
        (e.devres_alloc_ok = true ∧ e.sysfs_create_group_ret = 0)) ∧
      ((msi_setup_device_data e dev).1 = 0 →
        ∃ md, (msi_setup_device_data e dev).2 = with_data dev md ∧
          md.__iter_idx = 0 ∧
          (∀ d, (md.__domains d).store = []) ∧
          (∀ domain, (md.__domains MSI_DEFAULT_DOMAIN).domain = some domain ↔
            (dev.msi_domain = some domain ∧ domain.is_msi_parent = false)) ∧
          (∀ d, d ≠ MSI_DEFAULT_DOMAIN → (md.__domains d).domain = none))) := by
  refine ⟨fun md h => msi_setup_device_data_of_some e dev md h, ?_, ?_, ?_⟩
  · intro h
    rcases msi_setup_device_data_ok e dev h with ⟨md, -, k⟩ | ⟨-, -, -, k⟩
    · exact msi_setup_device_data_of_some e1 _ md k
    · exact msi_setup_device_data_of_some e1 _ _ k
  · intro h
    cases hd : dev.msi_data with
    | some md =>
      rw [msi_setup_device_data_of_some e dev md hd] at h
      exact absurd rfl h
    | none =>
      rcases msi_setup_device_data_of_none e dev hd with ⟨-, k, -⟩ | ⟨-, -, k⟩
      · exact k
      · rw [k] at h
        exact absurd rfl h
  · intro hd
    rcases msi_setup_device_data_of_none e dev hd with ⟨k1, -, k3⟩ | ⟨k1, k2, k3⟩
    · exact ⟨⟨fun h => absurd h k1, fun h => absurd h k3⟩, fun h => absurd h k1⟩
    · refine ⟨⟨fun _ => ⟨k1, k2⟩, fun _ => by rw [k3]⟩, fun _ => ?_⟩
      refine ⟨new_device_data dev, by rw [k3], rfl, fun _ => rfl, ?_, ?_⟩
      · intro domain
        unfold new_device_data
        simp only [if_true]
        cases hm : dev.msi_domain with
        | none => simp
        | some d0 =>
          simp only [Option.some.injEq]
          by_cases hp : d0.is_msi_parent = true
          · simp only [hp, not_true_eq_false, if_false]
            constructor
            · intro h
              cases h
            · rintro ⟨h1, h2⟩
              subst h1
              rw [hp] at h2
              cases h2
          · have hp1 : d0.is_msi_parent = false := by simpa using hp
            simp only [hp1, Bool.false_eq_true, not_false_eq_true, if_true, Option.some.injEq]
            constructor
            · intro h
              subst h
              exact ⟨rfl, hp1⟩
            · rintro ⟨h1, -⟩
              exact h1
      · intro d hd0
        unfold new_device_data
        simp only [if_neg hd0]

/-! ## The invariant of the stores -/

theorem store_inv_nil (h : Nat) : store_inv h [] :=
  ⟨List.Pairwise.nil, fun _ _ hx => by simp [xa_load] at hx⟩

theorem store_inv_mono {h h1 : Nat} {xa : xarray} (hs : store_inv h xa) (hle : h ≤ h1) :
    store_inv h1 xa :=
  ⟨hs.1, fun k d hx => ⟨(hs.2 k d hx).1, Nat.lt_of_lt_of_le (hs.2 k d hx).2 hle⟩⟩

theorem store_inv_store {h : Nat} {xa : xarray} (hs : store_inv h xa) {k : Nat} {d : msi_desc}
    (hd : d.msi_index = k) (hk : k < h) : store_inv h (xa_store xa k d) := by
  refine ⟨xa_wf_store hs.1 k d, ?_⟩
  intro j x hx
  by_cases hj : j = k
  · subst hj
    rw [xa_load_store_same] at hx
    simp only [Option.some.injEq] at hx
    subst hx
    exact ⟨hd, hk⟩
  · rw [xa_load_store_other _ _ _ _ hj] at hx
    exact hs.2 j x hx

theorem store_inv_erase {h : Nat} {xa : xarray} (hs : store_inv h xa) (k : Nat) :
    store_inv h (xa_erase xa k) := by
  refine ⟨xa_wf_erase hs.1 k, ?_⟩
  intro j x hx
  rw [xa_load_erase] at hx
  by_cases hj : j = k
  · rw [if_pos hj] at hx
    cases hx
  · rw [if_neg hj] at hx
    exact hs.2 j x hx

theorem store_inv_foldl_erase {h : Nat} :
    ∀ (M xa : xarray), store_inv h xa →
      store_inv h (M.foldl (fun xa e => xa_erase xa e.1) xa) := by
  intro M
  induction M with
  | nil => intro xa hs; exact hs
  | cons a rest ih =>
    intro xa hs
    simp only [List.foldl_cons]
    exact ih _ (store_inv_erase hs a.1)

theorem store_inv_mem {h : Nat} {xa : xarray} (hs : store_inv h xa) {a : Nat × msi_desc}
    (ha : a ∈ xa) : a.2.msi_index = a.1 ∧ a.1 < h :=
  hs.2 a.1 a.2 (xa_load_eq_some_of_mem hs.1 ha)

theorem xa_store_store (xa : xarray) (i : Nat) (a b : msi_desc) :
    xa_store (xa_store xa i a) i b = xa_store xa i b := by
  induction xa with
  | nil => simp [xa_store]
  | cons x rest ih =>
    obtain ⟨k, c⟩ := x
    by_cases h1 : i < k
    · simp [xa_store, h1]
    · by_cases h2 : i = k
      · subst h2
        simp [xa_store]
      · simp [xa_store, h1, h2, ih]

theorem msi_domain_get_hwsize_congr {md md1 : msi_device_data} (h : same_domains md md1)
    (d : Nat) : msi_domain_get_hwsize md1 d = msi_domain_get_hwsize md d := by
  unfold msi_domain_get_hwsize
  rw [msi_get_device_domain_congr (h d)]

theorem same_domains_refl (md : msi_device_data) : same_domains md md := fun _ => rfl

theorem same_domains_trans {a b c : msi_device_data} (h1 : same_domains a b)
    (h2 : same_domains b c) : same_domains a c := fun d => (h2 d).trans (h1 d)

theorem kinv_of_stores {H : Nat → Nat} {md md1 : msi_device_data} (hk : kinv H md)
    (hd : same_domains md md1) (hs : ∀ d, store_inv (H d) (md1.__domains d).store) :
    kinv H md1 := by
  intro d
  rw [msi_domain_get_hwsize_congr hd d]
  exact ⟨hs d, (hk d).2⟩

theorem kpres_refl {H : Nat → Nat} {md : msi_device_data} (hk : kinv H md) : kpres H md md :=
  ⟨hk, same_domains_refl md⟩

theorem kpres_trans {H : Nat → Nat} {a b c : msi_device_data} (h1 : kpres H a b)
    (h2 : kpres H b c) : kpres H a c :=
  ⟨h2.1, same_domains_trans h1.2 h2.2⟩

theorem kpres_cursor {H : Nat → Nat} {md : msi_device_data} (hk : kinv H md) (c : Nat) :
    kpres H md { md with __iter_idx := c } :=
  ⟨kinv_of_stores hk (fun _ => rfl) (fun d => (hk d).1), fun _ => rfl⟩

theorem kpres_set_store {H : Nat → Nat} {md : msi_device_data} (hk : kinv H md) (domid : Nat)
    {xa : xarray} (hs : store_inv (H domid) xa) : kpres H md (set_store md domid xa) := by
  have hd : same_domains md (set_store md domid xa) := fun d => set_store_domain md domid d xa
  refine ⟨kinv_of_stores hk hd ?_, hd⟩
  intro d
  by_cases h : d = domid
  · subst h
    rw [set_store_store]
    exact hs
  · rw [set_store_other _ _ _ _ h]
    exact (hk d).1

theorem kpres_set {H : Nat → Nat} {md : msi_device_data} (hk : kinv H md) (domid idx : Nat)
    (d : msi_desc) (hd : d.msi_index = idx) (hi : idx < H domid) :
    kpres H md (set_store md domid (xa_store (md.__domains domid).store idx d)) :=
  kpres_set_store hk domid (store_inv_store (hk domid).1 hd hi)

/-- The device data after `msi_insert_desc`: as before, or with the descriptor
stored under an index below the hardware size which is its `msi_index`. -/
theorem msi_insert_desc_md (ks : kstate) (desc : msi_desc) (domid index : Nat)
    (hsz : 1 ≤ msi_domain_get_hwsize ks.md domid)
    (hu32 : msi_domain_get_hwsize ks.md domid < 2 ^ 32) :
    (msi_insert_desc ks desc domid index).2.md = ks.md ∨
    ∃ i, i < msi_domain_get_hwsize ks.md domid ∧
      (msi_insert_desc ks desc domid index).2.md =
        set_store ks.md domid
          (xa_store (ks.md.__domains domid).store i { desc with msi_index := i }) := by
  by_cases hany : index = MSI_ANY_INDEX
  · subst hany
    have hmax : (msi_domain_get_hwsize ks.md domid + 4294967295) % 4294967296 + 1 =
        msi_domain_get_hwsize ks.md domid := by omega
    have hz : ¬ (-ENOSPC : Int) = 0 := by decide
    cases hf : xa_find_free (ks.md.__domains domid).store 0
        (msi_domain_get_hwsize ks.md domid) with
    | none =>
      left
      simp [msi_insert_desc, xa_alloc, hmax, hf, msi_free_desc, hz]
    | some r =>
      right
      obtain ⟨-, h2, -, -⟩ := xa_find_free_some _ _ _ hf
      refine ⟨r, by omega, ?_⟩
      simp [msi_insert_desc, xa_alloc, hmax, hf, xa_store_store]
  · rw [msi_insert_desc_at_eq ks desc domid index hany]
    split_ifs with h1 h2
    · left; rfl
    · left; rfl
    · right
      exact ⟨index, by omega, rfl⟩

theorem kinv_hwsize_lt {H : Nat → Nat} {md : msi_device_data} (hk : kinv H md) (d : Nat) :
    msi_domain_get_hwsize md d < 2 ^ 32 := by
  have := (hk d).2
  have h2 : MSI_XA_DOMAIN_SIZE = 65536 := rfl
  omega

theorem msi_insert_desc_kpres (H : Nat → Nat) (ks : kstate) (desc : msi_desc)
    (domid index : Nat) (hk : kinv H ks.md) :
    kpres H ks.md (msi_insert_desc ks desc domid index).2.md := by
  rcases msi_insert_desc_md ks desc domid index (hk domid).2.1 (kinv_hwsize_lt hk domid) with
    h | ⟨i, hi, h⟩
  · rw [h]
    exact kpres_refl hk
  · rw [h]
    exact kpres_set hk domid i _ rfl (Nat.lt_of_lt_of_le hi (hk domid).2.2.1)

theorem msi_domain_insert_msi_desc_kpres (H : Nat → Nat) (e : env) (ks : kstate) (domid : Nat)
    (init_desc : msi_desc) (hk : kinv H ks.md) :
    kpres H ks.md (msi_domain_insert_msi_desc e ks domid init_desc).2.md := by
  unfold msi_domain_insert_msi_desc
  have hm := msi_alloc_desc_md e ks init_desc.nvec_used init_desc.affinity
  cases ha : msi_alloc_desc e ks init_desc.nvec_used init_desc.affinity with
  | mk o ks1 =>
    rw [ha] at hm
    simp only at hm
    cases o with
    | none =>
      simp only
      rw [hm]
      exact kpres_refl hk
    | some desc =>
      simp only
      have := msi_insert_desc_kpres H ks1
        { desc with is_msix := init_desc.is_msix, can_mask := init_desc.can_mask } domid
        init_desc.msi_index (by rw [hm]; exact hk)
      rw [hm] at this
      exact this

theorem msi_domain_free_descs_kpres (H : Nat → Nat) (dev : device) (ks : kstate)
    (ctrl : msi_ctrl) (hk : kinv H ks.md) :
    kpres H ks.md (msi_domain_free_descs dev ks ctrl).md := by
  by_cases hv : msi_ctrl_valid dev ks.md ctrl = true
  · rw [msi_domain_free_descs_eq dev ks ctrl hv]
    exact kpres_set_store hk ctrl.domid (store_inv_foldl_erase _ _ (hk ctrl.domid).1)
  · unfold msi_domain_free_descs
    rw [if_pos hv]
    exact kpres_refl hk

theorem add_simple_loop_kpres (H : Nat → Nat) (e : env) (domid : Nat) :
    ∀ (n idx : Nat) (ks : kstate), kinv H ks.md →
      kpres H ks.md (add_simple_loop e domid n idx ks).2.md := by
  intro n
  induction n with
  | zero =>
    intro idx ks hk
    simp only [add_simple_loop]
    exact kpres_refl hk
  | succ n ih =>
    intro idx ks hk
    simp only [add_simple_loop]
    have hm := msi_alloc_desc_md e ks 1 none
    cases ha : msi_alloc_desc e ks 1 none with
    | mk o ks1 =>
      rw [ha] at hm
      simp only at hm
      cases o with
      | none =>
        simp only
        rw [hm]
        exact kpres_refl hk
      | some desc =>
        simp only
        have hi := msi_insert_desc_kpres H ks1 desc domid idx (by rw [hm]; exact hk)
        rw [hm] at hi
        split_ifs
        · exact hi
        · exact kpres_trans hi (ih _ _ hi.1)

theorem msi_domain_add_simple_msi_descs_kpres (H : Nat → Nat) (e : env) (dev : device)
    (ks : kstate) (ctrl : msi_ctrl) (hk : kinv H ks.md) :
    kpres H ks.md (msi_domain_add_simple_msi_descs e dev ks ctrl).2.md := by
  unfold msi_domain_add_simple_msi_descs
  have h1 := add_simple_loop_kpres H e ctrl.domid (ctrl.last + 1 - ctrl.first) ctrl.first ks hk
  by_cases hv : msi_ctrl_valid dev ks.md ctrl = true
  · rw [if_neg (not_not.mpr hv)]
    simp only
    split_ifs
    · exact kpres_trans h1 (msi_domain_free_descs_kpres H dev _ ctrl h1.1)
    · exact h1
  · rw [if_pos hv]
    exact kpres_refl hk

theorem irq_set_msi_desc_off_kpres (H : Nat → Nat) (ks : kstate) (domid idx : Nat)
    (desc : msi_desc) (virq i : Nat) (hk : kinv H ks.md) (hd : desc.msi_index = idx)
    (hi : idx < H domid) :
    kpres H ks.md (irq_set_msi_desc_off ks domid idx desc virq i).2.md ∧
    (irq_set_msi_desc_off ks domid idx desc virq i).1.msi_index = idx := by
  unfold irq_set_msi_desc_off
  by_cases h0 : i = 0
  · simp only [h0, if_true]
    exact ⟨kpres_set hk domid idx _ hd hi, hd⟩
  · simp only [h0, if_false]
    exact ⟨kpres_refl hk, hd⟩

theorem init_vectors_kpres (H : Nat → Nat) (e : env) (domid idx virq vflags : Nat)
    (hi : idx < H domid) :
    ∀ (n i : Nat) (desc : msi_desc) (ks : kstate) (r : Int × msi_desc × kstate),
      kinv H ks.md → desc.msi_index = idx →
      init_vectors e domid idx virq vflags n i desc ks = some r →
      kpres H ks.md r.2.2.md ∧ r.2.1.msi_index = idx := by
  intro n
  induction n with
  | zero =>
    intro i desc ks r hk hd h
    simp only [init_vectors] at h
    cases h
    exact ⟨kpres_refl hk, hd⟩
  | succ n ih =>
    intro i desc ks r hk hd h
    obtain ⟨hb, hb2⟩ := irq_set_msi_desc_off_kpres H ks domid idx desc virq i hk hd hi
    simp only [init_vectors] at h
    cases hv : msi_init_virq e (irq_set_msi_desc_off ks domid idx desc virq i).2 (virq + i)
        vflags with
    | none => simp [hv] at h
    | some q =>
      have hq := msi_init_virq_md _ _ _ _ _ hv
      simp only [hv] at h
      by_cases hz : q.1 = 0
      · simp only [hz, ne_eq, not_true_eq_false, if_false] at h
        have hk2 : kinv H q.2.md := by rw [hq]; exact hb.1
        obtain ⟨h1, h2⟩ := ih _ _ _ _ hk2 hb2 h
        rw [hq] at h1
        exact ⟨kpres_trans hb h1, h2⟩
      · simp only [ne_eq, hz, not_false_eq_true, if_true] at h
        cases h
        simp only
        rw [hq]
        exact ⟨hb, hb2⟩

theorem msi_sysfs_populate_desc_kpres (H : Nat → Nat) (e : env) (ks : kstate)
    (domid idx : Nat) (desc : msi_desc) (hk : kinv H ks.md) (hd : desc.msi_index = idx)
    (hi : idx < H domid) :
    kpres H ks.md (msi_sysfs_populate_desc e ks domid idx desc).2.md := by
  unfold msi_sysfs_populate_desc
  exact kpres_set hk domid idx _ hd hi

theorem alloc_irqs_loop_kpres (H : Nat → Nat) (e : env) (domain : irq_domain) (ctrl : msi_ctrl)
    (vflags : Nat) :
    ∀ (M : xarray) (allocated : Nat) (ks : kstate) (r : Int × kstate),
      (∀ a ∈ M, a.2.msi_index = a.1 ∧ a.1 < H ctrl.domid) → kinv H ks.md →
      alloc_irqs_loop e domain ctrl vflags M allocated ks = some r →
      kpres H ks.md r.2.md := by
  intro M
  induction M with
  | nil =>
    intro allocated ks r _ hk h
    simp only [alloc_irqs_loop] at h
    cases h
    exact kpres_refl hk
  | cons a rest ih =>
    intro allocated ks r hM hk h
    obtain ⟨idx, desc⟩ := a
    have hhead := hM (idx, desc) (List.mem_cons_self _ _)
    have hrest : ∀ b ∈ rest, b.2.msi_index = b.1 ∧ b.1 < H ctrl.domid :=
      fun b hb => hM b (List.mem_cons_of_mem _ hb)
    simp only [alloc_irqs_loop] at h
    split at h
    · exact ih _ _ _ hrest hk h
    · split at h
      · cases h; exact kpres_refl hk
      · have ha := irq_domain_alloc_irqs_md e ks desc.nvec_used
        split at h
        · cases h
          simp only
          rw [ha]
          exact kpres_refl hk
        · have hk1 : kinv H (__irq_domain_alloc_irqs e ks desc.nvec_used).2.md := by
            rw [ha]; exact hk
          cases hv : init_vectors e ctrl.domid idx
              (__irq_domain_alloc_irqs e ks desc.nvec_used).1.toNat vflags desc.nvec_used 0
              desc (__irq_domain_alloc_irqs e ks desc.nvec_used).2 with
          | none => simp [hv] at h
          | some q =>
            obtain ⟨hq, hq2⟩ := init_vectors_kpres H e ctrl.domid idx _ vflags hhead.2
              _ _ _ _ _ hk1 hhead.1 hv
            rw [ha] at hq
            simp only [hv] at h
            split at h
            · cases h; exact hq
            · split at h
              · have hs := msi_sysfs_populate_desc_kpres H e q.2.2 ctrl.domid idx q.2.1 hq.1
                  hq2 hhead.2
                have hqs := kpres_trans hq hs
                split at h
                · cases h; exact hqs
                · exact kpres_trans hqs (ih _ _ _ hrest hqs.1 h)
              · exact kpres_trans hq (ih _ _ _ hrest hq.1 h)

theorem msi_check_reservation_mode_md (domain : irq_domain) (info : msi_domain_info)
    (md : msi_device_data) :
    ∃ c, (msi_check_reservation_mode domain info md).2 = { md with __iter_idx := c } := by
  unfold msi_check_reservation_mode
  split
  · exact ⟨md.__iter_idx, rfl⟩
  · split
    · exact ⟨md.__iter_idx, rfl⟩
    · split
      · exact ⟨md.__iter_idx, rfl⟩
      · obtain ⟨c, hc⟩ := msi_find_desc_md { md with __iter_idx := 0 } MSI_DEFAULT_DOMAIN
          .MSI_DESC_ALL
        simp only
        split <;> exact ⟨c, hc⟩

theorem range_inv {h : Nat} {xa : xarray} (hs : store_inv h xa) (first last : Nat) :
    ∀ a ∈ xa_range xa first last, a.2.msi_index = a.1 ∧ a.1 < h :=
  fun _ ha => store_inv_mem hs (mem_xa_range.mp ha).1

theorem msi_domain_alloc_irqs_kpres (H : Nat → Nat) (e : env) (domain : irq_domain)
    (ks : kstate) (ctrl : msi_ctrl) (r : Int × kstate) (hk : kinv H ks.md)
    (h : __msi_domain_alloc_irqs e domain ks ctrl = some r) : kpres H ks.md r.2.md := by
  unfold __msi_domain_alloc_irqs at h
  simp only at h
  split at h
  · cases h; exact kpres_refl hk
  · obtain ⟨c, hc⟩ := msi_check_reservation_mode_md domain domain.host_data ks.md
    split at h
    · cases h
    · rename_i b md1 heq
      rw [heq] at hc
      simp only at hc
      subst hc
      have hk1 := kpres_cursor hk c
      exact kpres_trans hk1 (alloc_irqs_loop_kpres H e domain ctrl _ _ _
        { ks with md := { ks.md with __iter_idx := c } } r
        (range_inv (hk ctrl.domid).1 _ _) hk1.1 h)

theorem free_irqs_loop_kpres (H : Nat → Nat) (domain : irq_domain) (domid : Nat) :
    ∀ (M : xarray) (ks : kstate),
      (∀ a ∈ M, a.2.msi_index = a.1 ∧ a.1 < H domid) → kinv H ks.md →
      kpres H ks.md (free_irqs_loop domain domid M ks).md := by
  intro M
  induction M with
  | nil =>
    intro ks _ hk
    simp only [free_irqs_loop]
    exact kpres_refl hk
  | cons a rest ih =>
    intro ks hM hk
    obtain ⟨idx, desc⟩ := a
    have hhead := hM (idx, desc) (List.mem_cons_self _ _)
    have hrest : ∀ b ∈ rest, b.2.msi_index = b.1 ∧ b.1 < H domid :=
      fun b hb => hM b (List.mem_cons_of_mem _ hb)
    simp only [free_irqs_loop]
    split
    · exact ih _ hrest hk
    · have hmd : (irq_domain_free_irqs (deactivate_vectors desc.irq desc.nvec_used 0 ks)
          desc.irq desc.nvec_used).md = ks.md := by
        simp only [irq_domain_free_irqs]
        exact deactivate_vectors_md _ _ _ _
      rw [hmd]
      have hd : ({ (if domain.host_data.flags.DEV_SYSFS = true then
          { desc with sysfs_attrs := false } else desc) with irq := 0 } : msi_desc).msi_index =
          idx := by
        split_ifs <;> exact hhead.1
      have hs := kpres_set hk domid idx _ hd hhead.2
      refine kpres_trans hs ?_
      have := ih { irq_domain_free_irqs (deactivate_vectors desc.irq desc.nvec_used 0 ks)
          desc.irq desc.nvec_used with
          md := set_store ks.md domid (xa_store (ks.md.__domains domid).store idx
            { (if domain.host_data.flags.DEV_SYSFS = true then
                { desc with sysfs_attrs := false } else desc) with irq := 0 }) } hrest hs.1
      exact this

theorem msi_domain_free_locked_kpres (H : Nat → Nat) (dev : device) (ks : kstate)
    (ctrl : msi_ctrl) (hk : kinv H ks.md) (hcore : core_paths ks.md ctrl.domid) :
    kpres H ks.md (msi_domain_free_locked dev ks ctrl).md := by
  unfold msi_domain_free_locked
  by_cases hv : msi_ctrl_valid dev ks.md ctrl = true
  swap
  · rw [if_pos hv]
    exact kpres_refl hk
  · rw [if_neg (not_not.mpr hv)]
    cases hg : msi_get_device_domain ks.md ctrl.domid with
    | none => exact kpres_refl hk
    | some domain =>
      simp only
      rw [(core_paths_some hcore hg).2]
      simp only
      have h1 : kpres H ks.md (__msi_domain_free_irqs domain ks ctrl).md :=
        free_irqs_loop_kpres H domain ctrl.domid _ ks (range_inv (hk ctrl.domid).1 _ _) hk
      have h2 : kpres H ks.md
          (if domain.host_data.ops.msi_post_free = true then
            { __msi_domain_free_irqs domain ks ctrl with
              trace := (__msi_domain_free_irqs domain ks ctrl).trace ++ [event.post_free] }
           else __msi_domain_free_irqs domain ks ctrl).md := by
        split_ifs <;> exact h1
      split_ifs
      · exact kpres_trans h1 (msi_domain_free_descs_kpres H dev _ ctrl h1.1)
      · exact kpres_trans h1 (msi_domain_free_descs_kpres H dev _ ctrl h1.1)
      · exact h1
      · exact h1

theorem core_paths_congr {md md1 : msi_device_data} (h : same_domains md md1) {d : Nat}
    (hc : core_paths md d) : core_paths md1 d := by
  unfold core_paths at hc ⊢
  rw [msi_get_device_domain_congr (h d)]
  exact hc

theorem msi_domain_alloc_simple_msi_descs_kpres (H : Nat → Nat) (e : env) (dev : device)
    (info : msi_domain_info) (ks : kstate) (ctrl : msi_ctrl) (hk : kinv H ks.md) :
    kpres H ks.md (msi_domain_alloc_simple_msi_descs e dev info ks ctrl).2.md := by
  unfold msi_domain_alloc_simple_msi_descs
  split_ifs
  · exact msi_domain_add_simple_msi_descs_kpres H e dev ks ctrl hk
  · exact kpres_refl hk

theorem msi_domain_alloc_locked_inner_kpres (H : Nat → Nat) (e : env) (dev : device)
    (ks : kstate) (ctrl : msi_ctrl) (r : Int × kstate) (hk : kinv H ks.md)
    (hcore : core_paths ks.md ctrl.domid)
    (h : __msi_domain_alloc_locked e dev ks ctrl = some r) : kpres H ks.md r.2.md := by
  unfold __msi_domain_alloc_locked at h
  by_cases hv : msi_ctrl_valid dev ks.md ctrl = true
  swap
  · rw [if_pos hv] at h
    cases h
    exact kpres_refl hk
  · rw [if_neg (not_not.mpr hv)] at h
    cases hg : msi_get_device_domain ks.md ctrl.domid with
    | none =>
      rw [hg] at h
      cases h
      exact kpres_refl hk
    | some domain =>
      rw [hg] at h
      simp only at h
      have h1 := msi_domain_alloc_simple_msi_descs_kpres H e dev domain.host_data ks ctrl hk
      rw [(core_paths_some hcore hg).1] at h
      simp only at h
      split_ifs at h
      · cases h
        exact h1
      · exact kpres_trans h1 (msi_domain_alloc_irqs_kpres H e domain _ ctrl r h1.1 h)

theorem msi_domain_alloc_locked_kpres (H : Nat → Nat) (e : env) (dev : device)
    (ks : kstate) (ctrl : msi_ctrl) (r : Int × kstate) (hk : kinv H ks.md)
    (hcore : core_paths ks.md ctrl.domid)
    (h : msi_domain_alloc_locked e dev ks ctrl = some r) : kpres H ks.md r.2.md := by
  unfold msi_domain_alloc_locked at h
  cases ha : __msi_domain_alloc_locked e dev ks ctrl with
  | none => rw [ha] at h; cases h
  | some q =>
    rw [ha] at h
    simp only at h
    have h1 := msi_domain_alloc_locked_inner_kpres H e dev ks ctrl q hk hcore ha
    split_ifs at h
    · cases h
      exact kpres_trans h1 (msi_domain_free_locked_kpres H dev q.2 ctrl h1.1
        (core_paths_congr h1.2 hcore))
    · cases h
      exact h1

theorem msi_domain_alloc_irq_at_inner_kpres (H : Nat → Nat) (e : env) (dev : device)
    (ks : kstate) (domid index : Nat) (affdesc : Option (List Nat)) (icookie : Option Nat)
    (r : msi_map × kstate) (hk : kinv H ks.md) (hcore : core_paths ks.md domid)
    (h : __msi_domain_alloc_irq_at e dev ks domid index affdesc icookie = some r) :
    kpres H ks.md r.2.md := by
  unfold __msi_domain_alloc_irq_at at h
  cases hg : msi_get_device_domain ks.md domid with
  | none =>
    rw [hg] at h
    cases h
    exact kpres_refl hk
  | some domain =>
    rw [hg] at h
    simp only at h
    have hm := msi_alloc_desc_md e ks 1 affdesc
    cases ha : msi_alloc_desc e ks 1 affdesc with
    | mk o ks1 =>
      rw [ha] at hm h
      simp only at hm
      cases o with
      | none =>
        simp only at h
        cases h
        simp only
        rw [hm]
        exact kpres_refl hk
      | some desc =>
        simp only at h
        generalize (match icookie with
          | some c => ({ desc with icookie := c } : msi_desc)
          | none => desc) = desc1 at h
        have hi := msi_insert_desc_kpres H ks1 desc1 domid index (by rw [hm]; exact hk)
        rw [hm] at hi
        by_cases hz : (msi_insert_desc ks1 desc1 domid index).1 = 0
        · rw [if_neg (not_not.mpr hz)] at h
          cases hq : __msi_domain_alloc_irqs e domain (msi_insert_desc ks1 desc1 domid index).2
              { domid := domid, first := inserted_index ks1 desc1 domid index,
                last := inserted_index ks1 desc1 domid index, nirqs := 1 } with
          | none => rw [hq] at h; cases h
          | some a =>
            rw [hq] at h
            simp only at h
            have h2 := kpres_trans hi (msi_domain_alloc_irqs_kpres H e domain _ _ a hi.1 hq)
            by_cases hz2 : a.1 = 0
            · rw [if_neg (not_not.mpr hz2)] at h
              split at h
              · cases h
                exact h2
              · cases h
            · rw [if_pos hz2] at h
              cases h
              exact kpres_trans h2 (msi_domain_free_locked_kpres H dev a.2 _ h2.1
                (core_paths_congr h2.2 hcore))
        · rw [if_pos hz] at h
          cases h
          exact hi

/-- The operations which run under the descriptor mutex keep the invariant and
the domains, provided no domain with an override is in a slot. -/
theorem msi_call_step_locked (H : Nat → Nat) (e : env) (w w1 : msi_world) (c : msi_call)
    (md : msi_device_data) (hmd : w.dev.msi_data = some md) (hk : kinv H md)
    (hcore : ∀ d, core_paths md d)
    (hc : c ≠ .setup_device_data ∧ (∀ a b t, c ≠ .create_device_irq_domain a b t) ∧
      ∀ a, c ≠ .remove_device_irq_domain a)
    (h : msi_call_step e w c = some w1) :
    w1.dev.msi_domain = w.dev.msi_domain ∧
    ∃ md1, w1.dev.msi_data = some md1 ∧ kpres H md md1 := by
  obtain ⟨ks0, hl, hks⟩ : ∃ ks0, world_lock w = some ks0 ∧ ks0.md = md := by
    unfold world_lock
    rw [hmd]
    exact ⟨_, rfl, rfl⟩
  subst hks
  have hu : ∀ md1, kpres H ks0.md md1 → kpres H ks0.md (__msi_unlock_descs md1) :=
    fun md1 h1 => kpres_trans h1 (kpres_cursor h1.1 _)
  cases c with
  | setup_device_data => exact absurd rfl hc.1
  | create_device_irq_domain a b t => exact absurd rfl (hc.2.1 a b t)
  | remove_device_irq_domain a => exact absurd rfl (hc.2.2 a)
  | insert_msi_desc domid init_desc =>
    simp only [msi_call_step, hl, Option.map_some', Option.some.injEq] at h
    subst h
    exact ⟨rfl, _, rfl, msi_domain_insert_msi_desc_kpres H e _ domid init_desc hk⟩
  | free_msi_descs_range domid first last =>
    simp only [msi_call_step, hl, Option.map_some', Option.some.injEq] at h
    subst h
    exact ⟨rfl, _, rfl, msi_domain_free_descs_kpres H w.dev _ _ hk⟩
  | alloc_irq_at domid index affdesc icookie =>
    simp only [msi_call_step, hl, Option.some_bind, msi_domain_alloc_irq_at] at h
    cases hq : __msi_domain_alloc_irq_at e w.dev ks0 domid index affdesc icookie with
    | none => rw [hq] at h; cases h
    | some r =>
      rw [hq] at h
      simp only [Option.map_some', Option.some.injEq] at h
      subst h
      exact ⟨rfl, _, rfl, hu _ (msi_domain_alloc_irq_at_inner_kpres H e w.dev _ domid index
        affdesc icookie r hk (hcore domid) hq)⟩
  | alloc_irqs_range domid first last =>
    simp only [msi_call_step, hl, Option.some_bind, msi_domain_alloc_irqs_range,
      msi_domain_alloc_irqs_range_locked] at h
    cases hq : msi_domain_alloc_locked e w.dev ks0
        { domid := domid, first := first, last := last,
          nirqs := (last + 1 + 2 ^ 32 - first) % 2 ^ 32 } with
    | none => rw [hq] at h; cases h
    | some r =>
      rw [hq] at h
      simp only [Option.map_some', Option.some.injEq] at h
      subst h
      exact ⟨rfl, _, rfl, hu _ (msi_domain_alloc_locked_kpres H e w.dev _ _ r hk
        (hcore domid) hq)⟩
  | alloc_irqs_all_locked domid nirqs =>
    simp only [msi_call_step, hl, Option.some_bind, msi_domain_alloc_irqs_all_locked] at h
    cases hq : msi_domain_alloc_locked e w.dev ks0
        { domid := domid, first := 0,
          last := (msi_domain_get_hwsize ks0.md domid + 2 ^ 32 - 1) % 2 ^ 32,
          nirqs := nirqs } with
    | none => rw [hq] at h; cases h
    | some r =>
      rw [hq] at h
      simp only [Option.map_some', Option.some.injEq] at h
      subst h
      exact ⟨rfl, _, rfl, msi_domain_alloc_locked_kpres H e w.dev _ _ r hk (hcore domid) hq⟩
  | free_irqs_range domid first last =>
    simp only [msi_call_step, hl, Option.map_some', Option.some.injEq] at h
    subst h
    exact ⟨rfl, _, rfl, hu _ (msi_domain_free_locked_kpres H w.dev _ _ hk (hcore domid))⟩
  | free_irqs_all domid =>
    simp only [msi_call_step, hl, Option.map_some', Option.some.injEq] at h
    subst h
    exact ⟨rfl, _, rfl, hu _ (msi_domain_free_locked_kpres H w.dev _ _ hk (hcore domid))⟩

theorem core_paths_all {md : msi_device_data}
    (h : ∀ d, d < MSI_MAX_DEVICE_IRQDOMAINS → core_paths md d) (d : Nat) : core_paths md d := by
  by_cases hd : d < MSI_MAX_DEVICE_IRQDOMAINS
  · exact h d hd
  · unfold core_paths msi_get_device_domain
    rw [if_pos (by omega)]
    trivial

theorem msi_domain_get_hwsize_of_slot {md md1 : msi_device_data} {d : Nat}
    (h : md1.__domains d = md.__domains d) :
    msi_domain_get_hwsize md1 d = msi_domain_get_hwsize md d := by
  unfold msi_domain_get_hwsize msi_get_device_domain
  rw [h]

theorem msi_domain_get_hwsize_empty {md : msi_device_data} {d : Nat}
    (h : (md.__domains d).domain = none) : msi_domain_get_hwsize md d = MSI_XA_DOMAIN_SIZE := by
  unfold msi_domain_get_hwsize
  rw [msi_get_device_domain_of_empty h]

theorem msi_domain_get_hwsize_range {md : msi_device_data} {d : Nat}
    (h : ∀ domain, (md.__domains d).domain = some domain → domain.is_msi_parent = false →
      1 ≤ domain.host_data.hwsize ∧ domain.host_data.hwsize ≤ MSI_XA_DOMAIN_SIZE) :
    1 ≤ msi_domain_get_hwsize md d ∧ msi_domain_get_hwsize md d ≤ MSI_XA_DOMAIN_SIZE := by
  unfold msi_domain_get_hwsize
  cases hg : msi_get_device_domain md d with
  | none => exact ⟨by decide, Nat.le_refl _⟩
  | some domain =>
    obtain ⟨-, h2, h3⟩ := msi_get_device_domain_eq_some hg
    exact h domain h2 h3

theorem set_domain_set_domain (md : msi_device_data) (domid : Nat) (a b : Option irq_domain) :
    set_domain (set_domain md domid a) domid b = set_domain md domid b := by
  unfold set_domain
  congr 1
  funext d
  by_cases h : d = domid <;> simp [h]

/-- Replacing the domain of a slot keeps the invariant when the store of the slot
fits the new bound. -/
theorem kinv_set_domain {H H1 : Nat → Nat} {md : msi_device_data} (hk : kinv H md)
    (domid : Nat) (dom : Option irq_domain) (hH : ∀ d, d ≠ domid → H1 d = H d)
    (hs : store_inv (H1 domid) (md.__domains domid).store)
    (hw : 1 ≤ msi_domain_get_hwsize (set_domain md domid dom) domid ∧
      msi_domain_get_hwsize (set_domain md domid dom) domid ≤ H1 domid ∧
      H1 domid ≤ MSI_XA_DOMAIN_SIZE) :
    kinv H1 (set_domain md domid dom) := by
  intro d
  by_cases h : d = domid
  · subst h
    rw [set_domain_store]
    exact ⟨hs, hw⟩
  · rw [msi_domain_get_hwsize_of_slot (set_domain_other md domid d dom h), hH d h,
      set_domain_other md domid d dom h]
    exact hk d

theorem kinv_unlock {H : Nat → Nat} {md : msi_device_data} (hk : kinv H md) :
    kinv H (__msi_unlock_descs md) :=
  (kpres_cursor hk _).1

theorem kinv_new_device_data {dev : device} (hg : global_ok dev) (H : Nat → Nat)
    (hH : ∀ d, msi_domain_get_hwsize (new_device_data dev) d ≤ H d ∧
      H d ≤ MSI_XA_DOMAIN_SIZE) : kinv H (new_device_data dev) := by
  intro d
  refine ⟨store_inv_nil _, ?_, (hH d).1, (hH d).2⟩
  apply (msi_domain_get_hwsize_range _).1
  intro domain hs hp
  apply hg domain _ hp
  unfold new_device_data at hs
  simp only at hs
  split_ifs at hs
  cases hm : dev.msi_domain with
  | none => rw [hm] at hs; cases hs
  | some d0 =>
    rw [hm] at hs
    simp only at hs
    split_ifs at hs
    exact congrArg some (Option.some.inj hs)

theorem new_device_data_hwsize_le {dev : device} (hg : global_ok dev) (d : Nat) :
    msi_domain_get_hwsize (new_device_data dev) d ≤ MSI_XA_DOMAIN_SIZE := by
  apply (msi_domain_get_hwsize_range _).2
  intro domain hs hp
  apply hg domain _ hp
  unfold new_device_data at hs
  simp only at hs
  split_ifs at hs
  cases hm : dev.msi_domain with
  | none => rw [hm] at hs; cases hs
  | some d0 =>
    rw [hm] at hs
    simp only at hs
    split_ifs at hs
    exact congrArg some (Option.some.inj hs)

theorem msi_domain_get_hwsize_created {md : msi_device_data} {domid : Nat} {e : env}
    {info : msi_domain_info} {f : Bool} {domain : irq_domain}
    (hc : __msi_create_irq_domain e info f = some domain) :
    1 ≤ msi_domain_get_hwsize (set_domain md domid (some domain)) domid ∧
    msi_domain_get_hwsize (set_domain md domid (some domain)) domid ≤ MSI_XA_DOMAIN_SIZE := by
  apply msi_domain_get_hwsize_range
  intro d0 hs _
  rw [set_domain_domain] at hs
  cases hs
  exact msi_create_irq_domain_range e info f domain hc

/-- The device data `msi_create_device_irq_domain` and
`msi_remove_device_irq_domain` leave behind, in terms of the data they found
(for the creation: after `msi_setup_device_data`). -/
theorem msi_remove_device_irq_domain_cases (dev dev1 : device) (domid : Nat)
    (h : msi_remove_device_irq_domain dev domid = some dev1) :
    ∃ md, dev.msi_data = some md ∧
      (dev1 = with_data dev (__msi_unlock_descs md) ∨
       dev1 = with_data dev (__msi_unlock_descs (set_domain md domid none))) := by
  unfold msi_remove_device_irq_domain at h
  cases hd : dev.msi_data with
  | none => rw [hd] at h; cases h
  | some md =>
    rw [hd] at h
    simp only at h
    refine ⟨md, rfl, ?_⟩
    split at h
    · left
      exact (Option.some.inj h).symm
    · split_ifs at h
      · right
        exact (Option.some.inj h).symm
      · left
        exact (Option.some.inj h).symm

theorem msi_call_step_weak (e : env) (w w1 : msi_world) (c : msi_call)
    (hg : global_ok w.dev) (hcore : world_core w) (hinv : world_weak w)
    (h : msi_call_step e w c = some w1) :
    w1.dev.msi_domain = w.dev.msi_domain ∧ world_weak w1 := by
  have hnew : kinv (fun _ => MSI_XA_DOMAIN_SIZE) (new_device_data w.dev) :=
    kinv_new_device_data hg _ (fun d => ⟨new_device_data_hwsize_le hg d, Nat.le_refl _⟩)
  have hsetup : ∀ md, (msi_setup_device_data e w.dev).2.msi_data = some md →
      kinv (fun _ => MSI_XA_DOMAIN_SIZE) md := by
    intro md hmd
    cases hd : w.dev.msi_data with
    | some md0 =>
      rw [msi_setup_device_data_of_some e w.dev md0 hd] at hmd
      exact hinv md hmd
    | none =>
      rcases msi_setup_device_data_of_none e w.dev hd with ⟨-, k2, -⟩ | ⟨-, -, k3⟩
      · rw [k2, hd] at hmd
        cases hmd
      · rw [k3] at hmd
        simp only [with_data, Option.some.injEq] at hmd
        subst hmd
        exact hnew
  have hdom : ∀ md domid dom, kinv (fun _ => MSI_XA_DOMAIN_SIZE) md →
      (1 ≤ msi_domain_get_hwsize (set_domain md domid dom) domid ∧
        msi_domain_get_hwsize (set_domain md domid dom) domid ≤ MSI_XA_DOMAIN_SIZE) →
      kinv (fun _ => MSI_XA_DOMAIN_SIZE) (set_domain md domid dom) := by
    intro md domid dom hk hw
    exact kinv_set_domain hk domid dom (fun _ _ => rfl) (hk domid).1
      ⟨hw.1, hw.2, Nat.le_refl _⟩
  have hnone : ∀ md domid, kinv (fun _ => MSI_XA_DOMAIN_SIZE) md →
      kinv (fun _ => MSI_XA_DOMAIN_SIZE) (set_domain md domid none) := by
    intro md domid hk
    apply hdom md domid none hk
    rw [msi_domain_get_hwsize_empty (set_domain_domain md domid none)]
    exact ⟨by decide, Nat.le_refl _⟩
  by_cases hc : c ≠ .setup_device_data ∧ (∀ a b t, c ≠ .create_device_irq_domain a b t) ∧
      ∀ a, c ≠ .remove_device_irq_domain a
  · cases hd : w.dev.msi_data with
    | none =>
      exfalso
      have hl : world_lock w = none := by
        unfold world_lock
        rw [hd]
      cases c with
      | setup_device_data => exact hc.1 rfl
      | create_device_irq_domain a b t => exact hc.2.1 a b t rfl
      | remove_device_irq_domain a => exact hc.2.2 a rfl
      | insert_msi_desc _ _ => simp [msi_call_step, hl] at h
      | free_msi_descs_range _ _ _ => simp [msi_call_step, hl] at h
      | alloc_irq_at _ _ _ _ => simp [msi_call_step, hl] at h
      | alloc_irqs_range _ _ _ => simp [msi_call_step, hl] at h
      | alloc_irqs_all_locked _ _ => simp [msi_call_step, hl] at h
      | free_irqs_range _ _ _ => simp [msi_call_step, hl] at h
      | free_irqs_all _ => simp [msi_call_step, hl] at h
    | some md =>
      have hcp : ∀ d, core_paths md d := by
        unfold world_core at hcore
        rw [hd] at hcore
        exact core_paths_all hcore
      obtain ⟨h1, md1, h2, h3⟩ := msi_call_step_locked _ e w w1 c md hd (hinv md hd) hcp hc h
      refine ⟨h1, ?_⟩
      intro md2 hmd2
      rw [h2] at hmd2
      cases hmd2
      exact h3.1
  · cases c with
    | setup_device_data =>
      simp only [msi_call_step, Option.some.injEq] at h
      subst h
      refine ⟨?_, fun md hmd => hsetup md hmd⟩
      have := congrArg device.msi_domain (msi_setup_device_data_with e w.dev none)
      exact this
    | create_device_irq_domain domid template hwsize =>
      simp only [msi_call_step] at h
      cases hq : msi_create_device_irq_domain e w.dev domid template hwsize with
      | none => rw [hq] at h; cases h
      | some r =>
        rw [hq] at h
        simp only [Option.map_some', Option.some.injEq] at h
        subst h
        rcases msi_create_device_irq_domain_cases e w.dev domid template hwsize r hq with
          k | ⟨parent, pops, md, -, -, -, -, -, hs2, k⟩
        · rw [k]
          exact ⟨rfl, hinv⟩
        · have hk := hsetup md hs2
          rcases k with k | ⟨info1, domain, -, -, hcr, k | ⟨-, k⟩⟩
          · rw [k]
            refine ⟨rfl, ?_⟩
            intro md2 hmd2
            cases hmd2
            exact kinv_unlock hk
          · rw [k]
            refine ⟨rfl, ?_⟩
            intro md2 hmd2
            cases hmd2
            rw [set_domain_set_domain]
            exact kinv_unlock (hnone md domid hk)
          · rw [k]
            refine ⟨rfl, ?_⟩
            intro md2 hmd2
            cases hmd2
            exact kinv_unlock (hdom md domid _ hk (msi_domain_get_hwsize_created hcr))
    | remove_device_irq_domain domid =>
      simp only [msi_call_step] at h
      cases hq : msi_remove_device_irq_domain w.dev domid with
      | none => rw [hq] at h; cases h
      | some dev1 =>
        rw [hq] at h
        simp only [Option.map_some', Option.some.injEq] at h
        subst h
        obtain ⟨md, hmd, k | k⟩ := msi_remove_device_irq_domain_cases w.dev dev1 domid hq
        · rw [k]
          refine ⟨rfl, ?_⟩
          intro md2 hmd2
          cases hmd2
          exact kinv_unlock (hinv md hmd)
        · rw [k]
          refine ⟨rfl, ?_⟩
          intro md2 hmd2
          cases hmd2
          exact kinv_unlock (hnone md domid (hinv md hmd))
    | insert_msi_desc _ _ => exact absurd ⟨by simp, by simp, by simp⟩ hc
    | free_msi_descs_range _ _ _ => exact absurd ⟨by simp, by simp, by simp⟩ hc
    | alloc_irq_at _ _ _ _ => exact absurd ⟨by simp, by simp, by simp⟩ hc
    | alloc_irqs_range _ _ _ => exact absurd ⟨by simp, by simp, by simp⟩ hc
    | alloc_irqs_all_locked _ _ => exact absurd ⟨by simp, by simp, by simp⟩ hc
    | free_irqs_range _ _ _ => exact absurd ⟨by simp, by simp, by simp⟩ hc
    | free_irqs_all _ => exact absurd ⟨by simp, by simp, by simp⟩ hc

theorem kinv_strong_of_kpres {md md1 : msi_device_data}
    (h : kpres (msi_domain_get_hwsize md) md md1) : kinv (msi_domain_get_hwsize md1) md1 := by
  have : msi_domain_get_hwsize md1 = msi_domain_get_hwsize md :=
    funext (fun d => msi_domain_get_hwsize_congr h.2 d)
  rw [this]
  exact h.1

theorem kinv_strong_unlock {md : msi_device_data} (hk : kinv (msi_domain_get_hwsize md) md) :
    kinv (msi_domain_get_hwsize (__msi_unlock_descs md)) (__msi_unlock_descs md) :=
  kinv_strong_of_kpres (kpres_cursor hk _)

theorem kinv_strong_set_domain {md : msi_device_data}
    (hk : kinv (msi_domain_get_hwsize md) md) (domid : Nat) (dom : Option irq_domain)
    (hw : 1 ≤ msi_domain_get_hwsize (set_domain md domid dom) domid ∧
      msi_domain_get_hwsize (set_domain md domid dom) domid ≤ MSI_XA_DOMAIN_SIZE)
    (hs : store_inv (msi_domain_get_hwsize (set_domain md domid dom) domid)
      (md.__domains domid).store) :
    kinv (msi_domain_get_hwsize (set_domain md domid dom)) (set_domain md domid dom) :=
  kinv_set_domain hk domid dom
    (fun d hd => msi_domain_get_hwsize_of_slot (set_domain_other md domid d dom hd)) hs
    ⟨hw.1, Nat.le_refl _, hw.2⟩

theorem kinv_strong_set_none {md : msi_device_data}
    (hk : kinv (msi_domain_get_hwsize md) md) (domid : Nat) :
    kinv (msi_domain_get_hwsize (set_domain md domid none)) (set_domain md domid none) := by
  have he : msi_domain_get_hwsize (set_domain md domid none) domid = MSI_XA_DOMAIN_SIZE :=
    msi_domain_get_hwsize_empty (set_domain_domain md domid none)
  apply kinv_strong_set_domain hk domid none
  · rw [he]
    exact ⟨by decide, Nat.le_refl _⟩
  · rw [he]
    exact store_inv_mono (hk domid).1 (hk domid).2.2.2

theorem msi_call_step_strong (e : env) (w w1 : msi_world) (c : msi_call)
    (hg : global_ok w.dev) (hcore : world_core w) (hfresh : call_fresh w c)
    (hinv : world_strong w) (h : msi_call_step e w c = some w1) : world_strong w1 := by
  have hnew : kinv (msi_domain_get_hwsize (new_device_data w.dev)) (new_device_data w.dev) :=
    kinv_new_device_data hg _ (fun d => ⟨Nat.le_refl _, new_device_data_hwsize_le hg d⟩)
  have hsetup : ∀ md, (msi_setup_device_data e w.dev).2.msi_data = some md →
      kinv (msi_domain_get_hwsize md) md ∧
      ∀ domid, (∀ md0, w.dev.msi_data = some md0 → (md0.__domains domid).store = []) →
        (md.__domains domid).store = [] := by
    intro md hmd
    cases hd : w.dev.msi_data with
    | some md0 =>
      rw [msi_setup_device_data_of_some e w.dev md0 hd, hd] at hmd
      cases hmd
      exact ⟨hinv _ hd, fun domid hf => hf _ rfl⟩
    | none =>
      rcases msi_setup_device_data_of_none e w.dev hd with ⟨-, k2, -⟩ | ⟨-, -, k3⟩
      · rw [k2, hd] at hmd
        cases hmd
      · rw [k3] at hmd
        simp only [with_data, Option.some.injEq] at hmd
        subst hmd
        exact ⟨hnew, fun _ _ => rfl⟩
  by_cases hc : c ≠ .setup_device_data ∧ (∀ a b t, c ≠ .create_device_irq_domain a b t) ∧
      ∀ a, c ≠ .remove_device_irq_domain a
  · cases hd : w.dev.msi_data with
    | none =>
      exfalso
      have hl : world_lock w = none := by
        unfold world_lock
        rw [hd]
      cases c with
      | setup_device_data => exact hc.1 rfl
      | create_device_irq_domain a b t => exact hc.2.1 a b t rfl
      | remove_device_irq_domain a => exact hc.2.2 a rfl
      | insert_msi_desc _ _ => simp [msi_call_step, hl] at h
      | free_msi_descs_range _ _ _ => simp [msi_call_step, hl] at h
      | alloc_irq_at _ _ _ _ => simp [msi_call_step, hl] at h
      | alloc_irqs_range _ _ _ => simp [msi_call_step, hl] at h
      | alloc_irqs_all_locked _ _ => simp [msi_call_step, hl] at h
      | free_irqs_range _ _ _ => simp [msi_call_step, hl] at h
      | free_irqs_all _ => simp [msi_call_step, hl] at h
    | some md =>
      have hcp : ∀ d, core_paths md d := by
        unfold world_core at hcore
        rw [hd] at hcore
        exact core_paths_all hcore
      obtain ⟨-, md1, h2, h3⟩ := msi_call_step_locked _ e w w1 c md hd (hinv md hd) hcp hc h
      intro md2 hmd2
      rw [h2] at hmd2
      cases hmd2
      exact kinv_strong_of_kpres h3
  · cases c with
    | setup_device_data =>
      simp only [msi_call_step, Option.some.injEq] at h
      subst h
      exact fun md hmd => (hsetup md hmd).1
    | create_device_irq_domain domid template hwsize =>
      simp only [msi_call_step] at h
      cases hq : msi_create_device_irq_domain e w.dev domid template hwsize with
      | none => rw [hq] at h; cases h
      | some r =>
        rw [hq] at h
        simp only [Option.map_some', Option.some.injEq] at h
        subst h
        rcases msi_create_device_irq_domain_cases e w.dev domid template hwsize r hq with
          k | ⟨parent, pops, md, -, -, -, -, -, hs2, k⟩
        · rw [k]
          exact hinv
        · obtain ⟨hk, hempty⟩ := hsetup md hs2
          rcases k with k | ⟨info1, domain, -, -, hcr, k | ⟨-, k⟩⟩
          · rw [k]
            intro md2 hmd2
            cases hmd2
            exact kinv_strong_unlock hk
          · rw [k]
            intro md2 hmd2
            cases hmd2
            rw [set_domain_set_domain]
            exact kinv_strong_unlock (kinv_strong_set_none hk domid)
          · rw [k]
            intro md2 hmd2
            cases hmd2
            apply kinv_strong_unlock
            apply kinv_strong_set_domain hk domid _ (msi_domain_get_hwsize_created hcr)
            rw [hempty domid (by
              intro md0 h0
              unfold call_fresh at hfresh
              rw [h0] at hfresh
              exact hfresh)]
            exact store_inv_nil _
    | remove_device_irq_domain domid =>
      simp only [msi_call_step] at h
      cases hq : msi_remove_device_irq_domain w.dev domid with
      | none => rw [hq] at h; cases h
      | some dev1 =>
        rw [hq] at h
        simp only [Option.map_some', Option.some.injEq] at h
        subst h
        obtain ⟨md, hmd, k | k⟩ := msi_remove_device_irq_domain_cases w.dev dev1 domid hq
        · rw [k]
          intro md2 hmd2
          cases hmd2
          exact kinv_strong_unlock (hinv md hmd)
        · rw [k]
          intro md2 hmd2
          cases hmd2
          exact kinv_strong_unlock (kinv_strong_set_none (hinv md hmd) domid)
    | insert_msi_desc _ _ => exact absurd ⟨by simp, by simp, by simp⟩ hc
    | free_msi_descs_range _ _ _ => exact absurd ⟨by simp, by simp, by simp⟩ hc
    | alloc_irq_at _ _ _ _ => exact absurd ⟨by simp, by simp, by simp⟩ hc
    | alloc_irqs_range _ _ _ => exact absurd ⟨by simp, by simp, by simp⟩ hc
    | alloc_irqs_all_locked _ _ => exact absurd ⟨by simp, by simp, by simp⟩ hc
    | free_irqs_range _ _ _ => exact absurd ⟨by simp, by simp, by simp⟩ hc
    | free_irqs_all _ => exact absurd ⟨by simp, by simp, by simp⟩ hc

/-- The invariants along a run. -/
theorem msi_run_inv :
    ∀ (calls : List (env × msi_call)) (w w1 : msi_world),
      global_ok w.dev → run_core calls w → world_weak w → msi_run calls w = some w1 →
      world_weak w1 ∧ (world_strong w → run_fresh calls w → world_strong w1) := by
  intro calls
  induction calls with
  | nil =>
    intro w w1 _ _ hweak h
    simp only [msi_run, Option.some.injEq] at h
    subst h
    exact ⟨hweak, fun hs _ => hs⟩
  | cons a rest ih =>
    intro w w1 hg hcore hweak h
    obtain ⟨e, c⟩ := a
    simp only [msi_run] at h
    simp only [run_core] at hcore
    cases hq : msi_call_step e w c with
    | none => rw [hq] at h; cases h
    | some w2 =>
      rw [hq] at h hcore
      simp only at h hcore
      obtain ⟨hd2, hw2⟩ := msi_call_step_weak e w w2 c hg hcore.1 hweak hq
      have hg2 : global_ok w2.dev := by
        unfold global_ok
        rw [hd2]
        exact hg
      obtain ⟨r1, r2⟩ := ih w2 w1 hg2 hcore.2 hw2 h
      refine ⟨r1, ?_⟩
      intro hs hf
      simp only [run_fresh, hq] at hf
      exact r2 (msi_call_step_strong e w w2 c hg hcore.1 hf.1 hs hq) hf.2

/-- C11 (amended): take a device without MSI device data whose global domain,
if it is not an MSI parent, has a hardware size between 1 and
`MSI_XA_DOMAIN_SIZE`, and a run of the public operations during which no slot
holds a domain with a `domain_alloc_irqs` or `domain_free_irqs` override.  In the
state the run reaches, every descriptor of every store is stored under the key
equal to its `msi_index`, no two descriptors of a store have the same index,
every index is below `MSI_XA_DOMAIN_SIZE`, and the hardware size of every domain
id is between 1 and `MSI_XA_DOMAIN_SIZE`.  When moreover every device domain of
the run was created for a domain id whose store was empty, every index is below
the hardware size `msi_domain_get_hwsize` returns for its domain id. -/
theorem msi_run_store_invariant (calls : List (env × msi_call)) (w w1 : msi_world)
    (md : msi_device_data) (d : Nat)
    (hinit : w.dev.msi_data = none) (hglobal : global_ok w.dev)
    (hcore : run_core calls w) (hrun : msi_run calls w = some w1)
    (hmd : w1.dev.msi_data = some md) :
    (∀ k x, (k, x) ∈ (md.__domains d).store →
      x.msi_index = k ∧ x.msi_index < MSI_XA_DOMAIN_SIZE) ∧
    (md.__domains d).store.Pairwise (fun a b => a.2.msi_index ≠ b.2.msi_index) ∧
    1 ≤ msi_domain_get_hwsize md d ∧ msi_domain_get_hwsize md d ≤ MSI_XA_DOMAIN_SIZE ∧
    (run_fresh calls w → ∀ k x, (k, x) ∈ (md.__domains d).store →
      x.msi_index < msi_domain_get_hwsize md d) := by
  have hweak : world_weak w := by
    intro md0 h0
    rw [hinit] at h0
    cases h0
  have hstrong : world_strong w := by
    intro md0 h0
    rw [hinit] at h0
    cases h0
  obtain ⟨r1, r2⟩ := msi_run_inv calls w w1 hglobal hcore hweak hrun
  obtain ⟨⟨hwf, hld⟩, h1, h2, -⟩ := r1 md hmd d
  have hidx : ∀ k x, (k, x) ∈ (md.__domains d).store → x.msi_index = k := fun k x hm =>
    (hld k x (xa_load_eq_some_of_mem hwf hm)).1
  refine ⟨?_, ?_, h1, h2, ?_⟩
  · intro k x hm
    have := hld k x (xa_load_eq_some_of_mem hwf hm)
    exact ⟨this.1, by rw [this.1]; exact this.2⟩
  · unfold xa_wf at hwf
    refine List.Pairwise.imp_of_mem ?_ hwf
    intro a b ha hb hlt
    rw [hidx a.1 a.2 ha, hidx b.1 b.2 hb]
    exact Nat.ne_of_lt hlt
  · intro hf k x hm
    obtain ⟨⟨hwf2, hld2⟩, -⟩ := r2 hstrong hf md hmd d
    have := hld2 k x (xa_load_eq_some_of_mem hwf2 hm)
    rw [this.1]
    exact this.2

/-! ## The allocation callback of the MSI domain -/

theorem msi_free_down_eq (virq : Nat) :
    ∀ k, msi_free_down virq k =
      (List.range k).reverse.map (fun i => alloc_event.msi_free ((virq + i) % 2 ^ 32)) := by
  intro k
  induction k with
  | zero => rfl
  | succ k ih =>
    rw [msi_free_down, ih, List.range_succ, List.reverse_append]
    rfl

theorem msi_init_loop_ok (o : alloc_ops) (virq nr_irqs hwirq : Nat) :
    ∀ (n i : Nat) (tr : List alloc_event),
      (∀ j, i ≤ j → j < i + n → 0 ≤ o.msi_init ((virq + j) % 2 ^ 32) ((hwirq + j) % 2 ^ 64)) →
      msi_init_loop o virq nr_irqs hwirq n i tr =
        (0, tr ++ (List.range' i n).map
          (fun j => alloc_event.msi_init ((virq + j) % 2 ^ 32) ((hwirq + j) % 2 ^ 64))) := by
  intro n
  induction n with
  | zero =>
    intro i tr _
    simp [msi_init_loop]
  | succ n ih =>
    intro i tr hok
    have h0 := hok i (Nat.le_refl _) (by omega)
    rw [msi_init_loop]
    simp only [Int.not_lt.mpr h0, if_false]
    rw [ih (i + 1) _ (fun j h1 h2 => hok j (by omega) (by omega))]
    simp [List.range']

theorem msi_init_loop_fail (o : alloc_ops) (virq nr_irqs hwirq k : Nat)
    (hfail : o.msi_init ((virq + k) % 2 ^ 32) ((hwirq + k) % 2 ^ 64) < 0) :
    ∀ (n i : Nat) (tr : List alloc_event), i ≤ k → k < i + n →
      (∀ j, i ≤ j → j < k → 0 ≤ o.msi_init ((virq + j) % 2 ^ 32) ((hwirq + j) % 2 ^ 64)) →
      msi_init_loop o virq nr_irqs hwirq n i tr =
        (o.msi_init ((virq + k) % 2 ^ 32) ((hwirq + k) % 2 ^ 64),
          tr ++ (List.range' i (k + 1 - i)).map
              (fun j => alloc_event.msi_init ((virq + j) % 2 ^ 32) ((hwirq + j) % 2 ^ 64)) ++
            (if o.msi_free = true then msi_free_down virq k else []) ++
            [alloc_event.free_irqs_top virq nr_irqs]) := by
  intro n
  induction n with
  | zero =>
    intro i tr h1 h2 _
    omega
  | succ n ih =>
    intro i tr h1 h2 hok
    rw [msi_init_loop]
    by_cases hik : i = k
    · subst hik
      simp only [hfail, if_true]
      have : i + 1 - i = 1 := by omega
      rw [this]
      simp [List.range']
    · have h0 := hok i (Nat.le_refl _) (by omega)
      simp only [Int.not_lt.mpr h0, if_false]
      rw [ih (i + 1) _ (by omega) (by omega) (fun j h3 h4 => hok j (by omega) h4)]
      have : k + 1 - i = (k + 1 - (i + 1)) + 1 := by omega
      rw [this, List.range'_succ]
      simp

/-- C30: if `msi_init` first fails at position `k` below `nr_irqs`,
`msi_domain_alloc` has called it for the positions 0 to `k`, then calls `msi_free`,
when that callback is set, for the interrupts `virq + k - 1` down to `virq` and
for no other, frees the whole range in the hierarchy and returns the error of
`msi_init`.  It returns `-EEXIST` without any call when the hardware interrupt is
mapped in the domain, and the error of the parent, without a call to `msi_init`,
when the parent allocation fails; when every `msi_init` succeeds it returns 0 and
frees nothing. -/
theorem msi_domain_alloc_unwind (o : alloc_ops) (virq nr_irqs : Nat) :
    (o.irq_find_mapping o.get_hwirq > 0 → msi_domain_alloc o virq nr_irqs = (-EEXIST, [])) ∧
    (o.irq_find_mapping o.get_hwirq = 0 → o.parent = true →
      o.irq_domain_alloc_irqs_parent < 0 →
      msi_domain_alloc o virq nr_irqs =
        (o.irq_domain_alloc_irqs_parent, [alloc_event.alloc_irqs_parent virq nr_irqs])) ∧
    (o.irq_find_mapping o.get_hwirq = 0 →
      (o.parent = true → 0 ≤ o.irq_domain_alloc_irqs_parent) →
      ((∀ k, k < nr_irqs →
          (∀ j, j < k →
            0 ≤ o.msi_init ((virq + j) % 2 ^ 32) ((o.get_hwirq + j) % 2 ^ 64)) →
          o.msi_init ((virq + k) % 2 ^ 32) ((o.get_hwirq + k) % 2 ^ 64) < 0 →
          msi_domain_alloc o virq nr_irqs =
            (o.msi_init ((virq + k) % 2 ^ 32) ((o.get_hwirq + k) % 2 ^ 64),
              (if o.parent = true then [alloc_event.alloc_irqs_parent virq nr_irqs] else []) ++
              (List.range (k + 1)).map (fun j =>
                alloc_event.msi_init ((virq + j) % 2 ^ 32) ((o.get_hwirq + j) % 2 ^ 64)) ++
              (if o.msi_free = true then
                (List.range k).reverse.map
                  (fun j => alloc_event.msi_free ((virq + j) % 2 ^ 32))
               else []) ++
              [alloc_event.free_irqs_top virq nr_irqs]) ∧
          (virq + nr_irqs ≤ 2 ^ 32 → ∀ j,
            alloc_event.msi_free (virq + j) ∈ (msi_domain_alloc o virq nr_irqs).2 ↔
              (o.msi_free = true ∧ j < k))) ∧
       ((∀ j, j < nr_irqs →
          0 ≤ o.msi_init ((virq + j) % 2 ^ 32) ((o.get_hwirq + j) % 2 ^ 64)) →
        msi_domain_alloc o virq nr_irqs =
          (0, (if o.parent = true then [alloc_event.alloc_irqs_parent virq nr_irqs] else []) ++
            (List.range nr_irqs).map (fun j =>
              alloc_event.msi_init ((virq + j) % 2 ^ 32) ((o.get_hwirq + j) % 2 ^ 64)))))) := by
  refine ⟨?_, ?_, ?_⟩
  · intro h
    unfold msi_domain_alloc
    simp only [h, if_true]
  · intro h0 hp hret
    unfold msi_domain_alloc
    simp only [h0, Nat.lt_irrefl, gt_iff_lt, if_false, hp, hret, and_self, if_true]
  · intro h0 hp
    have hpre : msi_domain_alloc o virq nr_irqs =
        msi_init_loop o virq nr_irqs o.get_hwirq nr_irqs 0
          (if o.parent = true then [alloc_event.alloc_irqs_parent virq nr_irqs] else []) := by
      unfold msi_domain_alloc
      simp only [h0, Nat.lt_irrefl, gt_iff_lt, if_false]
      rw [if_neg]
      rintro ⟨h1, h2⟩
      exact absurd (hp h1) (Int.not_le.mpr h2)
    constructor
    · intro k hk hok hfail
      have heq := msi_init_loop_fail o virq nr_irqs o.get_hwirq k hfail nr_irqs 0
        (if o.parent = true then [alloc_event.alloc_irqs_parent virq nr_irqs] else [])
        (Nat.zero_le _) (by omega) (fun j _ h2 => hok j h2)
      rw [← hpre] at heq
      have hr : List.range' 0 (k + 1 - 0) = List.range (k + 1) := by
        rw [Nat.sub_zero, List.range_eq_range']
      rw [hr, msi_free_down_eq] at heq
      refine ⟨heq, ?_⟩
      intro hnw j
      rw [heq]
      by_cases hf : o.msi_free = true
      · simp only [hf, if_true, List.mem_append, List.mem_map, List.mem_range,
          List.mem_singleton, List.mem_reverse, true_and]
        constructor
        · rintro (((h | h) | h) | h)
          · split_ifs at h <;> simp at h
          · obtain ⟨_, _, h⟩ := h
            cases h
          · obtain ⟨i, hi, h⟩ := h
            simp only [alloc_event.msi_free.injEq] at h
            rw [Nat.mod_eq_of_lt (by omega)] at h
            omega
          · cases h
        · intro hj
          left
          right
          exact ⟨j, hj, by rw [Nat.mod_eq_of_lt (by omega)]⟩
      · simp only [hf, Bool.false_eq_true, if_false, List.append_nil, false_and, iff_false,
          List.mem_append, List.mem_map, List.mem_range, List.mem_singleton, not_or]
        refine ⟨⟨?_, ?_⟩, ?_⟩
        · split_ifs <;> simp
        · rintro ⟨_, _, h⟩
          cases h
        · intro h
          cases h
    · intro hok
      rw [hpre, msi_init_loop_ok o virq nr_irqs o.get_hwirq nr_irqs 0 _
        (fun j _ h2 => hok j (by omega)), List.range_eq_range']

/-! ## The cursor -/

/-- C21 (amended): `__msi_unlock_descs` leaves the cursor at the sentinel
`MSI_XA_MAX_INDEX` and the slots and stores as they are; so do the operations
which take the descriptor guard.  The sentinel is `ULONG_MAX - 1`, one below the
largest `unsigned long`, and above every index of a store. -/
theorem msi_unlock_descs_sentinel (md : msi_device_data) :
    (__msi_unlock_descs md).__iter_idx = MSI_XA_MAX_INDEX ∧
    (∀ d, (__msi_unlock_descs md).__domains d = md.__domains d) ∧
    MSI_XA_MAX_INDEX = ULONG_MAX - 1 ∧ MSI_XA_MAX_INDEX + 1 = ULONG_MAX ∧
    ULONG_MAX + 1 = 2 ^ 64 ∧ MSI_MAX_INDEX < MSI_XA_MAX_INDEX ∧
    (∀ (dev : device) (domid index : Nat), dev.msi_data = some md →
      index ≤ MSI_MAX_INDEX → domid < MSI_MAX_DEVICE_IRQDOMAINS →
      cursor (msi_domain_get_virq dev domid index).2 = MSI_XA_MAX_INDEX) ∧
    (∀ (e : env) (dev : device) (ks : kstate) (domid first last : Nat) (r : Int × kstate),
      msi_domain_alloc_irqs_range e dev ks domid first last = some r →
      r.2.md.__iter_idx = MSI_XA_MAX_INDEX) ∧
    (∀ (dev : device) (ks : kstate) (domid first last : Nat),
      (msi_domain_free_irqs_range dev ks domid first last).md.__iter_idx = MSI_XA_MAX_INDEX) ∧
    (∀ (e : env) (dev : device) (ks : kstate) (domid index : Nat) (a : Option (List Nat))
      (c : Option Nat) (r : msi_map × kstate),
      msi_domain_alloc_irq_at e dev ks domid index a c = some r →
      r.2.md.__iter_idx = MSI_XA_MAX_INDEX) := by
  refine ⟨rfl, fun _ => rfl, rfl, by decide, by decide, by decide, ?_, ?_, fun _ _ _ _ _ => rfl,
    ?_⟩
  · intro dev domid index hmd hi hd
    unfold msi_domain_get_virq
    rw [hmd]
    simp only
    rw [if_neg (by omega)]
    rfl
  · intro e dev ks domid first last r h
    unfold msi_domain_alloc_irqs_range at h
    cases hq : msi_domain_alloc_irqs_range_locked e dev ks domid first last with
    | none => rw [hq] at h; cases h
    | some q =>
      rw [hq] at h
      cases h
      rfl
  · intro e dev ks domid index a c r h
    unfold msi_domain_alloc_irq_at at h
    cases hq : __msi_domain_alloc_irq_at e dev ks domid index a c with
    | none => rw [hq] at h; cases h
    | some q =>
      rw [hq] at h
      cases h
      rfl

theorem msi_find_desc_some (md : msi_device_data) (domid : Nat) (filter : msi_desc_filter)
    (d : msi_desc) (h : (msi_find_desc md domid filter).1 = some d) :
    md.__iter_idx ≤ (msi_find_desc md domid filter).2.__iter_idx ∧
    ((msi_find_desc md domid filter).2.__iter_idx, d) ∈ (md.__domains domid).store ∧
    msi_desc_match d filter = true ∧
    (∀ c, (msi_find_desc md domid filter).2.__domains c = md.__domains c) := by
  unfold msi_find_desc at h ⊢
  cases hf : (xa_range (md.__domains domid).store md.__iter_idx ULONG_MAX).find?
      (fun e => msi_desc_match e.2 filter) with
  | none =>
    rw [hf] at h
    cases h
  | some x =>
    obtain ⟨idx, desc⟩ := x
    rw [hf] at h
    simp only [Option.some.injEq] at h
    subst h
    have hm := List.mem_of_find?_eq_some hf
    have hp := List.find?_some hf
    obtain ⟨h1, h2, -⟩ := mem_xa_range.mp hm
    exact ⟨h2, h1, hp, fun _ => rfl⟩

theorem msi_find_desc_none (md : msi_device_data) (domid : Nat) (filter : msi_desc_filter)
    (h : (msi_find_desc md domid filter).1 = none) :
    (msi_find_desc md domid filter).2.__iter_idx = MSI_XA_MAX_INDEX := by
  unfold msi_find_desc at h ⊢
  cases hf : (xa_range (md.__domains domid).store md.__iter_idx ULONG_MAX).find?
      (fun e => msi_desc_match e.2 filter) with
  | none => rfl
  | some x =>
    rw [hf] at h
    cases h

/-- C29 (amended): the cursor is `MSI_XA_MAX_INDEX` after `__msi_unlock_descs` and
after a `msi_domain_first_desc` which returned `NULL` for a domain id below
`MSI_MAX_DEVICE_IRQDOMAINS`, and it is at least `MSI_MAX_INDEX` after such a
`msi_next_desc`.  With the cursor at least `MSI_MAX_INDEX`, and on a device without
MSI device data, `msi_next_desc` returns `NULL` for every domain id and filter and
leaves the device as it is, whatever the stores hold.  A descriptor returned by
`msi_next_desc` is stored under the new value of the cursor, which is above the
old one; one returned by `msi_domain_first_desc` is stored under the new value of
the cursor.  A call of `msi_next_desc` or of `msi_domain_first_desc` with a domain
id not below `MSI_MAX_DEVICE_IRQDOMAINS` returns `NULL` and leaves the device, and
with it the cursor, as it is, so that the walk goes on after it from where it
was. -/
theorem msi_next_desc_invalidated (dev : device) (md : msi_device_data) (domid : Nat)
    (filter : msi_desc_filter) (hmd : dev.msi_data = some md) :
    cursor (with_data dev (__msi_unlock_descs md)) = MSI_XA_MAX_INDEX ∧
    (domid < MSI_MAX_DEVICE_IRQDOMAINS → (msi_domain_first_desc dev domid filter).1 = none →
      cursor (msi_domain_first_desc dev domid filter).2 = MSI_XA_MAX_INDEX) ∧
    (domid < MSI_MAX_DEVICE_IRQDOMAINS → (msi_next_desc dev domid filter).1 = none →
      MSI_MAX_INDEX ≤ cursor (msi_next_desc dev domid filter).2) ∧
    (MSI_MAX_INDEX ≤ cursor dev → msi_next_desc dev domid filter = (none, dev)) ∧
    (∀ (dev0 : device), dev0.msi_data = none → msi_next_desc dev0 domid filter = (none, dev0)) ∧
    (∀ d, (msi_next_desc dev domid filter).1 = some d →
      cursor dev < cursor (msi_next_desc dev domid filter).2 ∧
      (cursor (msi_next_desc dev domid filter).2, d) ∈ (md.__domains domid).store) ∧
    (∀ d, (msi_domain_first_desc dev domid filter).1 = some d →
      (cursor (msi_domain_first_desc dev domid filter).2, d) ∈ (md.__domains domid).store) ∧
    (domid ≥ MSI_MAX_DEVICE_IRQDOMAINS →
      msi_next_desc dev domid filter = (none, dev) ∧
      msi_domain_first_desc dev domid filter = (none, dev) ∧
      ∀ (domid1 : Nat) (filter1 : msi_desc_filter),
        msi_next_desc (msi_next_desc dev domid filter).2 domid1 filter1 =
          msi_next_desc dev domid1 filter1) := by
  refine ⟨rfl, ?_, ?_, ?_, ?_, ?_, ?_, ?_⟩
  · intro hd h
    unfold msi_domain_first_desc at h ⊢
    rw [hmd] at h ⊢
    simp only at h ⊢
    rw [if_neg (by omega)] at h ⊢
    simp only at h ⊢
    exact msi_find_desc_none _ _ _ h
  · intro hd h
    unfold msi_next_desc at h ⊢
    rw [hmd] at h ⊢
    simp only at h ⊢
    rw [if_neg (by omega)] at h ⊢
    by_cases hc : md.__iter_idx ≥ MSI_MAX_INDEX
    · rw [if_pos hc]
      unfold cursor
      rw [hmd]
      exact hc
    · rw [if_neg hc] at h ⊢
      simp only at h ⊢
      have := msi_find_desc_none _ _ _ h
      unfold cursor
      simp only
      rw [this]
      decide
  · intro hc
    unfold cursor at hc
    rw [hmd] at hc
    simp only at hc
    unfold msi_next_desc
    rw [hmd]
    simp only
    split_ifs
    · rfl
    · rfl
  · intro dev0 h0
    unfold msi_next_desc
    rw [h0]
  · intro d h
    unfold msi_next_desc at h ⊢
    rw [hmd] at h ⊢
    simp only at h ⊢
    by_cases hd : domid ≥ MSI_MAX_DEVICE_IRQDOMAINS
    · rw [if_pos hd] at h
      cases h
    · rw [if_neg hd] at h ⊢
      by_cases hc : md.__iter_idx ≥ MSI_MAX_INDEX
      · rw [if_pos hc] at h
        cases h
      · rw [if_neg hc] at h ⊢
        simp only at h ⊢
        obtain ⟨h1, h2, -, -⟩ := msi_find_desc_some _ _ _ d h
        unfold cursor
        rw [hmd]
        simp only at h1 h2 ⊢
        exact ⟨by omega, h2⟩
  · intro d h
    unfold msi_domain_first_desc at h ⊢
    rw [hmd] at h ⊢
    simp only at h ⊢
    by_cases hd : domid ≥ MSI_MAX_DEVICE_IRQDOMAINS
    · rw [if_pos hd] at h
      cases h
    · rw [if_neg hd] at h ⊢
      simp only at h ⊢
      obtain ⟨-, h2, -, -⟩ := msi_find_desc_some _ _ _ d h
      exact h2
  · intro hd
    have h1 : msi_next_desc dev domid filter = (none, dev) := by
      unfold msi_next_desc
      rw [hmd]
      simp only
      rw [if_pos hd]
    have h2 : msi_domain_first_desc dev domid filter = (none, dev) := by
      unfold msi_domain_first_desc
      rw [hmd]
      simp only
      rw [if_pos hd]
    refine ⟨h1, h2, fun domid1 filter1 => ?_⟩
    rw [h1]

/-! ## Rejected allocations -/

theorem msi_domain_alloc_locked_rejected (e : env) (dev : device) (ks : kstate) (ctrl : msi_ctrl)
    (hv : msi_ctrl_valid dev ks.md ctrl = false) :
    msi_domain_alloc_locked e dev ks ctrl = some (-EINVAL, ks) := by
  have hz : ¬ (-EINVAL : Int) = 0 := by decide
  unfold msi_domain_alloc_locked __msi_domain_alloc_locked
  simp only [hv, Bool.false_eq_true, not_false_eq_true, if_true, ne_eq, hz]
  rw [msi_domain_free_locked_skip dev ks ctrl (Or.inl hv)]

theorem msi_domain_alloc_locked_no_domain (e : env) (dev : device) (ks : kstate)
    (ctrl : msi_ctrl) (hv : msi_ctrl_valid dev ks.md ctrl = true)
    (hd : msi_get_device_domain ks.md ctrl.domid = none) :
    msi_domain_alloc_locked e dev ks ctrl = some (-ENODEV, ks) := by
  have hz : ¬ (-ENODEV : Int) = 0 := by decide
  unfold msi_domain_alloc_locked __msi_domain_alloc_locked
  simp only [hv, not_true_eq_false, if_false, hd, ne_eq, hz, not_false_eq_true, if_true]
  rw [msi_domain_free_locked_skip dev ks ctrl (Or.inr hd)]

theorem msi_ctrl_valid_eq_false (dev : device) (md : msi_device_data) (ctrl : msi_ctrl)
    (h : ctrl.domid ≥ MSI_MAX_DEVICE_IRQDOMAINS ∨
      (dev.msi_domain.isSome = true ∧ (md.__domains ctrl.domid).domain.isNone = true) ∨
      ctrl.first > ctrl.last ∨ ctrl.first ≥ msi_domain_get_hwsize md ctrl.domid ∨
      ctrl.last ≥ msi_domain_get_hwsize md ctrl.domid) :
    msi_ctrl_valid dev md ctrl = false := by
  cases hv : msi_ctrl_valid dev md ctrl with
  | false => rfl
  | true =>
    obtain ⟨h1, h2, h3, h4⟩ := (msi_ctrl_valid_iff dev md ctrl).mp hv
    rcases h with h | h | h | h | h
    · omega
    · exact absurd h h2
    · omega
    · omega
    · omega

/-- C24: `msi_domain_alloc_irqs_range_locked` returns `-EINVAL` and leaves the
state as it is when the domain id is not below `MSI_MAX_DEVICE_IRQDOMAINS`, when
`first > last`, and when `first` or `last` is not below the hardware size.  For
`first <= last` with `last + 1` an `unsigned int`, in particular for every range
`msi_ctrl_valid` accepts, the number of interrupts it asks for is
`last + 1 - first`, the number of indices of the range. -/
theorem msi_domain_alloc_irqs_range_locked_invalid (e : env) (dev : device) (ks : kstate)
    (domid first last : Nat) :
    ((domid ≥ MSI_MAX_DEVICE_IRQDOMAINS ∨ first > last ∨
        first ≥ msi_domain_get_hwsize ks.md domid ∨
        last ≥ msi_domain_get_hwsize ks.md domid) →
      msi_domain_alloc_irqs_range_locked e dev ks domid first last = some (-EINVAL, ks)) ∧
    (first ≤ last → last + 1 < 2 ^ 32 →
      msi_domain_alloc_irqs_range_locked e dev ks domid first last =
        msi_domain_alloc_locked e dev ks
          { domid := domid, first := first, last := last, nirqs := last + 1 - first } ∧
      (List.range' first (last + 1 - first)).length = last + 1 - first ∧
      ∀ j, j ∈ List.range' first (last + 1 - first) ↔ (first ≤ j ∧ j ≤ last)) ∧
    (msi_ctrl_valid dev ks.md { domid := domid, first := first, last := last, nirqs := 0 } =
        true →
      msi_domain_get_hwsize ks.md domid < 2 ^ 32 → first ≤ last ∧ last + 1 < 2 ^ 32) := by
  refine ⟨?_, ?_, ?_⟩
  · intro h
    unfold msi_domain_alloc_irqs_range_locked
    apply msi_domain_alloc_locked_rejected
    apply msi_ctrl_valid_eq_false
    rcases h with h | h | h | h
    · exact Or.inl h
    · exact Or.inr (Or.inr (Or.inl h))
    · exact Or.inr (Or.inr (Or.inr (Or.inl h)))
    · exact Or.inr (Or.inr (Or.inr (Or.inr h)))
  · intro h1 h2
    refine ⟨?_, List.length_range' _ _ _, ?_⟩
    · unfold msi_domain_alloc_irqs_range_locked
      have : (last + 1 + 2 ^ 32 - first) % 2 ^ 32 = last + 1 - first := by omega
      rw [this]
    · intro j
      rw [List.mem_range']
      constructor
      · rintro ⟨i, hi, rfl⟩
        omega
      · rintro ⟨h3, h4⟩
        exact ⟨j - first, by omega, by omega⟩
  · intro hv hu
    obtain ⟨-, -, h3, h4⟩ := (msi_ctrl_valid_iff dev ks.md _).mp hv
    simp only at h3 h4
    exact ⟨h3, by omega⟩

/-- C25 (amended): with the slot of a domain id below `MSI_MAX_DEVICE_IRQDOMAINS`
empty, `msi_domain_alloc_irq_at` fails with `-ENODEV` and a zero interrupt number.
`msi_domain_alloc_irqs_range_locked` and `msi_domain_alloc_irqs_all_locked` fail
with `-EINVAL` when the device has a domain in `dev->msi.domain` or the range is
not accepted, and with `-ENODEV` when `dev->msi.domain` is `NULL` and the range is
accepted.  The locked operations leave the state as it is, and
`msi_domain_alloc_irq_at` changes nothing but the cursor, which the release of
the guard invalidates. -/
theorem msi_domain_alloc_empty_slot (e : env) (dev : device) (ks : kstate) (domid : Nat)
    (hd : domid < MSI_MAX_DEVICE_IRQDOMAINS)
    (hempty : (ks.md.__domains domid).domain = none) :
    (∀ index affdesc icookie,
      __msi_domain_alloc_irq_at e dev ks domid index affdesc icookie =
        some ({ index := -ENODEV, virq := 0 }, ks) ∧
      msi_domain_alloc_irq_at e dev ks domid index affdesc icookie =
        some ({ index := -ENODEV, virq := 0 }, { ks with md := __msi_unlock_descs ks.md })) ∧
    (∀ first last,
      (dev.msi_domain.isSome = true →
        msi_domain_alloc_irqs_range_locked e dev ks domid first last = some (-EINVAL, ks)) ∧
      (dev.msi_domain = none → first ≤ last → last < MSI_XA_DOMAIN_SIZE →
        msi_domain_alloc_irqs_range_locked e dev ks domid first last = some (-ENODEV, ks)) ∧
      (dev.msi_domain = none → (first > last ∨ last ≥ MSI_XA_DOMAIN_SIZE) →
        msi_domain_alloc_irqs_range_locked e dev ks domid first last = some (-EINVAL, ks))) ∧
    (∀ nirqs,
      (dev.msi_domain.isSome = true →
        msi_domain_alloc_irqs_all_locked e dev ks domid nirqs = some (-EINVAL, ks)) ∧
      (dev.msi_domain = none →
        msi_domain_alloc_irqs_all_locked e dev ks domid nirqs = some (-ENODEV, ks))) := by
  have hg : msi_get_device_domain ks.md domid = none := msi_get_device_domain_of_empty hempty
  have hw : msi_domain_get_hwsize ks.md domid = MSI_XA_DOMAIN_SIZE :=
    msi_domain_get_hwsize_empty hempty
  have hvalid : ∀ first last nirqs, dev.msi_domain = none → first ≤ last →
      last < MSI_XA_DOMAIN_SIZE →
      msi_ctrl_valid dev ks.md
        { domid := domid, first := first, last := last, nirqs := nirqs } = true := by
    intro first last nirqs h1 h2 h3
    rw [msi_ctrl_valid_iff]
    refine ⟨hd, ?_, h2, by rw [hw]; exact h3⟩
    rw [h1]
    rintro ⟨h, -⟩
    cases h
  have hsome : ∀ ctrl : msi_ctrl, ctrl.domid = domid → dev.msi_domain.isSome = true →
      msi_ctrl_valid dev ks.md ctrl = false := by
    intro ctrl hc h
    apply msi_ctrl_valid_eq_false
    right
    left
    rw [hc, hempty]
    exact ⟨h, rfl⟩
  refine ⟨?_, ?_, ?_⟩
  · intro index affdesc icookie
    have h1 : __msi_domain_alloc_irq_at e dev ks domid index affdesc icookie =
        some ({ index := -ENODEV, virq := 0 }, ks) := by
      unfold __msi_domain_alloc_irq_at
      rw [hg]
    refine ⟨h1, ?_⟩
    unfold msi_domain_alloc_irq_at
    rw [h1]
  · intro first last
    refine ⟨?_, ?_, ?_⟩
    · intro h
      exact msi_domain_alloc_locked_rejected e dev ks _ (hsome _ rfl h)
    · intro h1 h2 h3
      exact msi_domain_alloc_locked_no_domain e dev ks _ (hvalid _ _ _ h1 h2 h3) hg
    · intro _ h
      apply msi_domain_alloc_locked_rejected
      apply msi_ctrl_valid_eq_false
      simp only [hw]
      rcases h with h | h
      · exact Or.inr (Or.inr (Or.inl h))
      · exact Or.inr (Or.inr (Or.inr (Or.inr h)))
  · intro nirqs
    refine ⟨?_, ?_⟩
    · intro h
      exact msi_domain_alloc_locked_rejected e dev ks _ (hsome _ rfl h)
    · intro h1
      unfold msi_domain_alloc_irqs_all_locked
      apply msi_domain_alloc_locked_no_domain e dev ks _ _ hg
      rw [hw]
      exact hvalid 0 _ nirqs h1 (Nat.zero_le _) (by decide)

/-! ## Simple descriptors, a full store -/

theorem msi_alloc_desc_simple (e : env) (ks : kstate) (desc : msi_desc)
    (h : (msi_alloc_desc e ks 1 none).1 = some desc) : desc = simple_desc 0 := by
  unfold msi_alloc_desc at h
  simp only at h
  split_ifs at h
  simp only [Option.some.injEq] at h
  rw [← h]
  rfl

theorem add_simple_loop_content (e : env) (domid : Nat) :
    ∀ (n idx : Nat) (ks : kstate), idx + n ≤ MSI_ANY_INDEX →
      (add_simple_loop e domid n idx ks).1 = 0 →
      ∀ j, idx ≤ j → j < idx + n →
        xa_load ((add_simple_loop e domid n idx ks).2.md.__domains domid).store j =
          some (simple_desc j) := by
  intro n
  induction n with
  | zero =>
    intro idx ks _ _ j h1 h2
    omega
  | succ n ih =>
    intro idx ks hb hz j hj1 hj2
    have hany : idx ≠ MSI_ANY_INDEX := by omega
    have hmd := msi_alloc_desc_md e ks 1 none
    cases ha : msi_alloc_desc e ks 1 none with
    | mk od ks1 =>
      rw [ha] at hmd
      simp only at hmd
      cases od with
      | none =>
        have hres : add_simple_loop e domid (n + 1) idx ks = (-ENOMEM, ks1) := by
          simp [add_simple_loop, ha]
        rw [hres] at hz
        have hne : ¬ (-ENOMEM : Int) = 0 := by decide
        exact absurd hz hne
      | some desc =>
        have hd : desc = simple_desc 0 := msi_alloc_desc_simple e ks desc (by rw [ha])
        have hins := msi_insert_desc_at_eq ks1 desc domid idx hany
        rw [hmd] at hins
        by_cases h1 : idx ≥ msi_domain_get_hwsize ks.md domid
        · rw [if_pos h1] at hins
          have hne : ¬ (-ERANGE : Int) = 0 := by decide
          have hres : add_simple_loop e domid (n + 1) idx ks =
              (-ERANGE, msi_free_desc ks1 desc) := by
            simp [add_simple_loop, ha, hins, hne]
          rw [hres] at hz
          exact absurd hz hne
        · rw [if_neg h1] at hins
          by_cases h2 : (xa_load (ks.md.__domains domid).store idx).isSome = true
          · rw [if_pos h2] at hins
            have hne : ¬ (-EBUSY : Int) = 0 := by decide
            have hres : add_simple_loop e domid (n + 1) idx ks =
                (-EBUSY, msi_free_desc ks1 { desc with msi_index := idx }) := by
              simp [add_simple_loop, ha, hins, hne]
            rw [hres] at hz
            exact absurd hz hne
          · rw [if_neg h2] at hins
            have hres : add_simple_loop e domid (n + 1) idx ks =
                add_simple_loop e domid n (idx + 1)
                  { ks1 with md := (set_store ks.md domid
                      (xa_store (ks.md.__domains domid).store idx
                        { desc with msi_index := idx })) } := by
              simp [add_simple_loop, ha, hins]
            rw [hres] at hz ⊢
            by_cases hj : j = idx
            · subst hj
              obtain ⟨-, -, i3, -⟩ := add_simple_loop_spec e domid n (j + 1)
                { ks1 with md := (set_store ks.md domid
                    (xa_store (ks.md.__domains domid).store j
                      { desc with msi_index := j })) } (by omega)
              simp only at i3
              rw [i3 j (by omega), set_store_store, xa_load_store_same, hd]
              rfl
            · exact ih (idx + 1) _ (by omega) hz j (by omega) (by omega)

/-- C28: for a control range `msi_ctrl_valid` accepts, when
`msi_domain_add_simple_msi_descs` returns 0 every index of the range was free and
now holds a new descriptor of one vector, without affinity or interrupt, whose
`msi_index` is the index; when it fails no index of the range holds a descriptor
afterwards.  Nothing outside the range changes.  The allocation engine calls it
exactly for domains with `MSI_FLAG_ALLOC_SIMPLE_MSI_DESCS`; for a domain without
the flag (and without a `domain_alloc_irqs` override) the engine adds no index
to the store and removes none. -/
theorem msi_domain_add_simple_msi_descs_result (e : env) (dev : device) (ks : kstate)
    (ctrl : msi_ctrl) (hv : msi_ctrl_valid dev ks.md ctrl = true)
    (hu32 : msi_domain_get_hwsize ks.md ctrl.domid < 2 ^ 32) :
    ((msi_domain_add_simple_msi_descs e dev ks ctrl).1 = 0 →
      ∀ j, ctrl.first ≤ j → j ≤ ctrl.last →
        xa_load (ks.md.__domains ctrl.domid).store j = none ∧
        xa_load ((msi_domain_add_simple_msi_descs e dev ks ctrl).2.md.__domains
          ctrl.domid).store j = some (simple_desc j)) ∧
    ((msi_domain_add_simple_msi_descs e dev ks ctrl).1 ≠ 0 →
      ∀ j, ctrl.first ≤ j → j ≤ ctrl.last →
        xa_load ((msi_domain_add_simple_msi_descs e dev ks ctrl).2.md.__domains
          ctrl.domid).store j = none) ∧
    md_frame ctrl.domid ctrl.first ctrl.last ks.md
      (msi_domain_add_simple_msi_descs e dev ks ctrl).2.md ∧
    (∀ info : msi_domain_info,
      (info.flags.ALLOC_SIMPLE_MSI_DESCS = true →
        msi_domain_alloc_simple_msi_descs e dev info ks ctrl =
          msi_domain_add_simple_msi_descs e dev ks ctrl) ∧
      (info.flags.ALLOC_SIMPLE_MSI_DESCS = false →
        msi_domain_alloc_simple_msi_descs e dev info ks ctrl = (0, ks))) ∧
    (∀ (domain : irq_domain) (r : Int × kstate),
      msi_get_device_domain ks.md ctrl.domid = some domain →
      domain.host_data.flags.ALLOC_SIMPLE_MSI_DESCS = false →
      domain.host_data.ops.domain_alloc_irqs = none →
      __msi_domain_alloc_locked e dev ks ctrl = some r →
      same_keys (ks.md.__domains ctrl.domid).store (r.2.md.__domains ctrl.domid).store) := by
  obtain ⟨s1, s2, s3⟩ := msi_domain_add_simple_msi_descs_spec e dev ks ctrl hv hu32
  obtain ⟨-, -, h3, h4⟩ := (msi_ctrl_valid_iff dev ks.md ctrl).mp hv
  refine ⟨?_, s3, s1, ?_, ?_⟩
  · intro hz j hj1 hj2
    refine ⟨s2 hz j hj1 hj2, ?_⟩
    have hres : msi_domain_add_simple_msi_descs e dev ks ctrl =
        (0, (add_simple_loop e ctrl.domid (ctrl.last + 1 - ctrl.first) ctrl.first ks).2) ∧
        (add_simple_loop e ctrl.domid (ctrl.last + 1 - ctrl.first) ctrl.first ks).1 = 0 := by
      unfold msi_domain_add_simple_msi_descs at hz ⊢
      rw [if_neg (not_not.mpr hv)] at hz ⊢
      simp only at hz ⊢
      by_cases hl : (add_simple_loop e ctrl.domid (ctrl.last + 1 - ctrl.first) ctrl.first
          ks).1 = 0
      · rw [if_neg (not_not.mpr hl)]
        exact ⟨rfl, hl⟩
      · rw [if_pos hl] at hz
        exact absurd hz hl
    rw [hres.1]
    have hany : MSI_ANY_INDEX = 4294967295 := rfl
    exact add_simple_loop_content e ctrl.domid _ _ ks (by omega) hres.2 j hj1 (by omega)
  · intro info
    constructor
    · intro hf
      unfold msi_domain_alloc_simple_msi_descs
      rw [if_neg (not_not.mpr hf)]
    · intro hf
      unfold msi_domain_alloc_simple_msi_descs
      rw [if_pos (by simp [hf])]
  · intro domain r hd hf hno h
    have hs : ¬ domain.host_data.flags.ALLOC_SIMPLE_MSI_DESCS = true := by simp [hf]
    unfold __msi_domain_alloc_locked at h
    simp only [hv, not_true_eq_false, if_false, hd, hno] at h
    have hsim : msi_domain_alloc_simple_msi_descs e dev domain.host_data ks ctrl = (0, ks) := by
      simp [msi_domain_alloc_simple_msi_descs, hs]
    rw [hsim] at h
    simp only [ne_eq, not_true_eq_false, if_false] at h
    exact (msi_domain_alloc_irqs_upd e domain _ ctrl r h).2

theorem msi_insert_desc_cases (ks : kstate) (desc : msi_desc) (domid index : Nat)
    (hsz : 1 ≤ msi_domain_get_hwsize ks.md domid)
    (hu32 : msi_domain_get_hwsize ks.md domid < 2 ^ 32) :
    ((msi_insert_desc ks desc domid index).1 < 0 ∧
      (msi_insert_desc ks desc domid index).2.md = ks.md) ∨
    ((msi_insert_desc ks desc domid index).1 = 0 ∧
      inserted_index ks desc domid index < msi_domain_get_hwsize ks.md domid ∧
      xa_load (ks.md.__domains domid).store (inserted_index ks desc domid index) = none ∧
      (index = MSI_ANY_INDEX → ∀ m, m < inserted_index ks desc domid index →
        xa_load (ks.md.__domains domid).store m ≠ none) ∧
      (index ≠ MSI_ANY_INDEX → inserted_index ks desc domid index = index) ∧
      (msi_insert_desc ks desc domid index).2.md =
        set_store ks.md domid
          (xa_store (ks.md.__domains domid).store (inserted_index ks desc domid index)
            { desc with msi_index := inserted_index ks desc domid index })) := by
  by_cases hany : index = MSI_ANY_INDEX
  · subst hany
    have hmax : (msi_domain_get_hwsize ks.md domid + 4294967295) % 4294967296 + 1 =
        msi_domain_get_hwsize ks.md domid := by omega
    have hz : ¬ (-ENOSPC : Int) = 0 := by decide
    have hneg : (-ENOSPC : Int) < 0 := by decide
    cases hf : xa_find_free (ks.md.__domains domid).store 0
        (msi_domain_get_hwsize ks.md domid) with
    | none =>
      left
      have hres : msi_insert_desc ks desc domid MSI_ANY_INDEX =
          (-ENOSPC, msi_free_desc ks desc) := by
        simp [msi_insert_desc, xa_alloc, hmax, hf, hz]
      rw [hres]
      exact ⟨hneg, rfl⟩
    | some r =>
      right
      obtain ⟨-, h2, h3, h4⟩ := xa_find_free_some _ _ _ hf
      have hi : inserted_index ks desc domid MSI_ANY_INDEX = r := by
        simp [inserted_index, xa_alloc, hmax, hf]
      have hres : msi_insert_desc ks desc domid MSI_ANY_INDEX =
          (0, { ks with md := (set_store ks.md domid
                  (xa_store (ks.md.__domains domid).store r { desc with msi_index := r })) }) := by
        simp [msi_insert_desc, xa_alloc, hmax, hf, xa_store_store]
      rw [hi, hres]
      exact ⟨rfl, by omega, h3, fun _ m hm => h4 m (by omega) hm, fun h => absurd rfl h, rfl⟩
  · have hi : inserted_index ks desc domid index = index := by
      simp [inserted_index, hany]
    rw [hi, msi_insert_desc_at_eq ks desc domid index hany]
    by_cases h1 : index ≥ msi_domain_get_hwsize ks.md domid
    · rw [if_pos h1]
      left
      have hneg : (-ERANGE : Int) < 0 := by decide
      exact ⟨hneg, rfl⟩
    · rw [if_neg h1]
      by_cases h2 : (xa_load (ks.md.__domains domid).store index).isSome = true
      · rw [if_pos h2]
        left
        have hneg : (-EBUSY : Int) < 0 := by decide
        exact ⟨hneg, rfl⟩
      · rw [if_neg h2]
        right
        refine ⟨rfl, by omega, ?_, fun h => absurd h hany, fun _ => rfl, rfl⟩
        cases hx : xa_load (ks.md.__domains domid).store index with
        | none => rfl
        | some _ => rw [hx] at h2; exact absurd rfl h2

theorem xa_range_single {xa : xarray} (hwf : xa_wf xa) {i : Nat} {d : msi_desc}
    (h : xa_load xa i = some d) : xa_range xa i i = [(i, d)] := by
  induction xa with
  | nil => simp [xa_load] at h
  | cons x rest ih =>
    obtain ⟨k, c⟩ := x
    unfold xa_wf at hwf
    rw [List.pairwise_cons] at hwf
    by_cases hk : k = i
    · subst hk
      have hd : c = d := by simpa [xa_load] using h
      subst hd
      have hrest : xa_range rest k k = [] := by
        unfold xa_range
        rw [List.filter_eq_nil_iff]
        intro a ha
        have := hwf.1 a ha
        simp only [Bool.and_eq_true, decide_eq_true_eq, not_and, not_le]
        intro _
        exact this
      have : xa_range ((k, c) :: rest) k k = (k, c) :: xa_range rest k k := by
        simp [xa_range]
      rw [this, hrest]
    · have h2 : xa_load rest i = some d := by simpa [xa_load, hk] using h
      have : xa_range ((k, c) :: rest) i i = xa_range rest i i := by
        unfold xa_range
        rw [List.filter_cons_of_neg]
        simp only [Bool.and_eq_true, decide_eq_true_eq, not_and, not_le]
        intro h3
        omega
      rw [this]
      exact ih hwf.2 h2

theorem irq_domain_activate_irq_ret (e : env) (ks : kstate) (irq : Nat) (x : irq_data)
    (b : Bool) : (irq_domain_activate_irq e ks irq x b).1 = e.activate_ret irq b := by
  unfold irq_domain_activate_irq
  simp only
  by_cases h : e.activate_ret irq b = 0
  · rw [if_neg (not_not.mpr h), h]
  · rw [if_pos h]

theorem msi_init_virq_ret (e : env) (ks : kstate) (virq vflags : Nat) (r : Int × kstate)
    (h : msi_init_virq e ks virq vflags = some r) :
    r.1 = 0 ∨ ∃ b, r.1 = e.activate_ret virq b := by
  unfold msi_init_virq at h
  cases hx : ks.irqd virq with
  | none => rw [hx] at h; cases h
  | some irqd =>
    rw [hx] at h
    simp only at h
    generalize (if vflags &&& VIRQ_CAN_RESERVE = 0 then
      ({ irqd with can_reserve := false } : irq_data) else irqd) = irqd1 at h
    have hact := irq_domain_activate_irq_ret e (set_irqd ks virq (some irqd1)) virq irqd1
      (decide (vflags &&& VIRQ_CAN_RESERVE ≠ 0))
    generalize irq_domain_activate_irq e (set_irqd ks virq (some irqd1)) virq irqd1
      (decide (vflags &&& VIRQ_CAN_RESERVE ≠ 0)) = act at h hact
    split_ifs at h
    · cases h; left; rfl
    · cases h; left; rfl
    · cases h; right; exact ⟨_, hact⟩
    · cases hy : act.2.irqd virq with
      | none => rw [hy] at h; cases h
      | some y => rw [hy] at h; cases h; left; rfl
    · cases h; left; rfl
theorem init_vectors_one (e : env) (domid idx virq vflags : Nat) (desc : msi_desc)
    (ks : kstate) :
    init_vectors e domid idx virq vflags 1 0 desc ks =
      match msi_init_virq e (irq_set_msi_desc_off ks domid idx desc virq 0).2 (virq + 0)
          vflags with
      | none => none
      | some r => some (r.1, (irq_set_msi_desc_off ks domid idx desc virq 0).1, r.2) := by
  unfold init_vectors
  simp only
  cases msi_init_virq e (irq_set_msi_desc_off ks domid idx desc virq 0).2 (virq + 0) vflags with
  | none => rfl
  | some r =>
    simp only
    by_cases h : r.1 = 0
    · rw [if_neg (not_not.mpr h)]
      unfold init_vectors
      rw [h]
    · rw [if_pos h]

theorem alloc_irqs_loop_single (e : env) (domain : irq_domain) (ctrl : msi_ctrl) (vflags : Nat)
    (idx : Nat) (d0 : msi_desc) (ks : kstate) (r : Int × kstate) (hc : env_conv e)
    (hirq : d0.irq = 0) (hn : d0.nvec_used = 1) (hnirqs : 0 < ctrl.nirqs)
    (h : alloc_irqs_loop e domain ctrl vflags [(idx, d0)] 0 ks = some r) :
    r.1 < 0 ∨
    (r.1 = 0 ∧ ∃ v s, v ≠ 0 ∧ v < 2 ^ 31 ∧
      xa_load (r.2.md.__domains ctrl.domid).store idx =
        some { d0 with irq := v, sysfs_attrs := s }) := by
  obtain ⟨c1, c2, c3⟩ := hc
  have hm : msi_desc_match d0 .MSI_DESC_NOTASSOCIATED = true := by
    simp [msi_desc_match, hirq]
  have hnn : ¬ (0 ≥ ctrl.nirqs) := by omega
  unfold alloc_irqs_loop at h
  rw [if_neg (not_not.mpr hm), if_neg hnn] at h
  simp only at h
  have ha1 : (__irq_domain_alloc_irqs e ks d0.nvec_used).1 =
      e.irq_alloc_ret ks.n_irq_alloc d0.nvec_used := by
    unfold __irq_domain_alloc_irqs
    simp only
    split_ifs <;> rfl
  generalize __irq_domain_alloc_irqs e ks d0.nvec_used = a at h ha1
  by_cases hneg : a.1 < 0
  · rw [if_pos hneg] at h
    cases h
    left
    have hp : msi_handle_pci_fail e domain d0 0 = -ENOSPC := by
      unfold msi_handle_pci_fail
      rw [hn]
      simp
    simp only [hp]
    decide
  · rw [if_neg hneg] at h
    have hv0 : a.1.toNat ≠ 0 := by
      have := (c1 ks.n_irq_alloc d0.nvec_used).1
      rw [← ha1] at this
      omega
    have hv1 : a.1.toNat < 2 ^ 31 := by
      have := (c1 ks.n_irq_alloc d0.nvec_used).2
      rw [← ha1] at this
      omega
    rw [hn, init_vectors_one] at h
    have hb : irq_set_msi_desc_off a.2 ctrl.domid idx d0 a.1.toNat 0 =
        ({ d0 with irq := a.1.toNat },
         { a.2 with md := (set_store a.2.md ctrl.domid
            (xa_store (a.2.md.__domains ctrl.domid).store idx { d0 with irq := a.1.toNat })) }) := by
      simp [irq_set_msi_desc_off]
    rw [hb] at h
    simp only at h
    cases hi : msi_init_virq e
        { a.2 with md := (set_store a.2.md ctrl.domid
            (xa_store (a.2.md.__domains ctrl.domid).store idx { d0 with irq := a.1.toNat })) }
        (a.1.toNat + 0) vflags with
    | none => rw [hi] at h; cases h
    | some q =>
      rw [hi] at h
      simp only at h
      have hqmd := msi_init_virq_md e _ _ _ q hi
      have hqret := msi_init_virq_ret e _ _ _ q hi
      simp only at hqmd
      by_cases hq : q.1 = 0
      · rw [if_neg (not_not.mpr hq)] at h
        by_cases hs : domain.host_data.flags.DEV_SYSFS = true
        · rw [if_pos hs] at h
          unfold msi_sysfs_populate_desc at h
          simp only at h
          by_cases hp : e.sysfs_populate_ret a.1.toNat = 0
          · rw [if_neg (not_not.mpr hp)] at h
            unfold alloc_irqs_loop at h
            cases h
            right
            refine ⟨rfl, a.1.toNat, decide (e.sysfs_populate_ret a.1.toNat = 0), hv0, hv1, ?_⟩
            simp only [set_store_store, xa_load_store_same]
          · rw [if_pos hp] at h
            cases h
            left
            have := c3 a.1.toNat
            simp only
            omega
        · rw [if_neg hs] at h
          unfold alloc_irqs_loop at h
          cases h
          right
          refine ⟨rfl, a.1.toNat, d0.sysfs_attrs, hv0, hv1, ?_⟩
          rw [hqmd]
          simp only [set_store_store, xa_load_store_same]
      · rw [if_pos hq] at h
        cases h
        left
        rcases hqret with h0 | ⟨b, hb2⟩
        · exact absurd h0 hq
        · have := c2 (a.1.toNat + 0) b
          simp only
          omega
theorem msi_alloc_desc_fields (e : env) (ks : kstate) (nvec : Nat) (aff : Option (List Nat))
    (d : msi_desc) (h : (msi_alloc_desc e ks nvec aff).1 = some d) :
    d.irq = 0 ∧ d.nvec_used = nvec % 2 ^ 16 ∧ d.icookie = 0 := by
  unfold msi_alloc_desc at h
  by_cases h1 : e.kzalloc_ok ks.n_kzalloc = true
  · cases aff with
    | none =>
      simp [h1] at h
      rw [← h]
      exact ⟨rfl, rfl, rfl⟩
    | some a =>
      by_cases h2 : e.kzalloc_ok (ks.n_kzalloc + 1) = true
      · simp [h1, h2] at h
        rw [← h]
        exact ⟨rfl, rfl, rfl⟩
      · simp [h1, h2] at h
  · simp [h1] at h

theorem msi_domain_alloc_irqs_single (e : env) (domain : irq_domain) (ks : kstate)
    (ctrl : msi_ctrl) (d0 : msi_desc) (a : Int × kstate) (hc : env_conv e)
    (hprep : ∀ n, domain.host_data.ops.msi_prepare n ≤ 0)
    (hfl : ctrl.last = ctrl.first) (hni : ctrl.nirqs = 1)
    (hwf : xa_wf (ks.md.__domains ctrl.domid).store)
    (hl : xa_load (ks.md.__domains ctrl.domid).store ctrl.first = some d0)
    (hirq : d0.irq = 0) (hn : d0.nvec_used = 1)
    (h : __msi_domain_alloc_irqs e domain ks ctrl = some a) :
    a.1 < 0 ∨
    (a.1 = 0 ∧ ∃ v s, v ≠ 0 ∧ v < 2 ^ 31 ∧
      xa_load (a.2.md.__domains ctrl.domid).store ctrl.first =
        some { d0 with irq := v, sysfs_attrs := s }) := by
  unfold __msi_domain_alloc_irqs at h
  simp only at h
  by_cases hp : populate_alloc_info domain ctrl.nirqs = 0
  · rw [if_neg (not_not.mpr hp)] at h
    split at h
    · cases h
    · rw [hfl, xa_range_single hwf hl] at h
      exact alloc_irqs_loop_single e domain ctrl _ _ d0 _ a hc hirq hn (by omega) h
  · rw [if_pos hp] at h
    cases h
    left
    have hle : populate_alloc_info domain ctrl.nirqs ≤ 0 := by
      unfold populate_alloc_info
      split_ifs
      · exact le_refl _
      · exact hprep _
    simp only
    omega

theorem alloc_irq_at_tail (e : env) (dev : device) (ks1 : kstate) (domid index : Nat)
    (desc1 : msi_desc) (icookie : Option Nat) (domain : irq_domain) (r : msi_map × kstate)
    (hd : msi_get_device_domain ks1.md domid = some domain)
    (hc : env_conv e) (hprep : ∀ n, domain.host_data.ops.msi_prepare n ≤ 0)
    (hwf : xa_wf (ks1.md.__domains domid).store)
    (hsz : 1 ≤ msi_domain_get_hwsize ks1.md domid)
    (hu32 : msi_domain_get_hwsize ks1.md domid < 2 ^ 32)
    (hirq : desc1.irq = 0) (hn : desc1.nvec_used = 1) (hck : desc1.icookie = icookie.getD 0)
    (h : (let r0 := msi_insert_desc ks1 desc1 domid index
      if r0.1 ≠ 0 then some (({ index := r0.1, virq := 0 } : msi_map), r0.2)
      else
        let idx := inserted_index ks1 desc1 domid index
        let ctrl : msi_ctrl := { domid := domid, first := idx, last := idx, nirqs := 1 }
        match __msi_domain_alloc_irqs e domain r0.2 ctrl with
        | none => none
        | some a =>
          if a.1 ≠ 0 then
            some ({ index := a.1, virq := 0 }, msi_domain_free_locked dev a.2 ctrl)
          else
            match xa_load (a.2.md.__domains domid).store idx with
            | some d => some ({ index := (d.msi_index : Int), virq := d.irq }, a.2)
            | none => none) = some r) :
    alloc_irq_at_post ks1 domid index icookie domain r := by
  simp only at h
  unfold alloc_irq_at_post
  rcases msi_insert_desc_cases ks1 desc1 domid index hsz hu32 with
    ⟨hneg, hmd⟩ | ⟨hz, hi1, hi2, hi3, hi4, hmd⟩
  · rw [if_pos (by omega)] at h
    cases h
    left
    exact ⟨hneg, rfl, hmd⟩
  · rw [if_neg (not_not.mpr hz)] at h
    generalize inserted_index ks1 desc1 domid index = i at h hi1 hi2 hi3 hi4 hmd
    right
    refine ⟨i, hi1, hi2, hi3, hi4, ?_⟩
    cases hq : __msi_domain_alloc_irqs e domain (msi_insert_desc ks1 desc1 domid index).2
        { domid := domid, first := i, last := i, nirqs := 1 } with
    | none => rw [hq] at h; cases h
    | some a =>
      rw [hq] at h
      simp only at h
      have hf1 : md_frame domid i i ks1.md (msi_insert_desc ks1 desc1 domid index).2.md := by
        rw [hmd]
        refine md_frame_set_store _ _ _ _ _ (fun j hj => ?_)
        apply xa_load_store_other
        intro hji
        exact hj ⟨by omega, by omega⟩
      have hup := msi_domain_alloc_irqs_upd e domain _ _ a hq
      simp only at hup
      have hf2 : md_frame domid i i ks1.md a.2.md := md_frame_trans hf1 hup.1
      have hl0 : xa_load ((msi_insert_desc ks1 desc1 domid index).2.md.__domains domid).store i =
          some { desc1 with msi_index := i } := by
        rw [hmd, set_store_store, xa_load_store_same]
      have hwf1 : xa_wf ((msi_insert_desc ks1 desc1 domid index).2.md.__domains domid).store := by
        rw [hmd, set_store_store]
        exact xa_wf_store hwf _ _
      rcases msi_domain_alloc_irqs_single e domain _ _ { desc1 with msi_index := i } a hc hprep
        rfl rfl hwf1 hl0 hirq hn hq with hneg | ⟨hz2, v, s, hv0, hv1, hl2⟩
      · rw [if_pos (by omega)] at h
        cases h
        left
        refine ⟨hneg, rfl, fun hno => ?_⟩
        have hda : msi_get_device_domain a.2.md domid = some domain := by
          rw [md_frame_get_device_domain hf2]; exact hd
        obtain ⟨g1, g2, -⟩ := msi_get_device_domain_eq_some hda
        have hv : msi_ctrl_valid dev a.2.md
            { domid := domid, first := i, last := i, nirqs := 1 } = true := by
          rw [msi_ctrl_valid_iff]
          refine ⟨g1, ?_, le_refl _, ?_⟩
          · rintro ⟨-, h2⟩
            simp only at h2
            rw [g2] at h2
            cases h2
          · simp only
            rw [md_frame_get_hwsize hf2]
            exact hi1
        obtain ⟨f1, f2⟩ := msi_domain_free_locked_store dev a.2 _ domain hv hda hno
        simp only at f1 f2
        refine ⟨md_frame_trans hf2 f1, ?_⟩
        rw [f2 i ⟨le_refl _, le_refl _⟩]
        have hsome : (xa_load (a.2.md.__domains domid).store i).isSome = true := by
          rw [hup.2 i, hl0]
          rfl
        cases hx : xa_load (a.2.md.__domains domid).store i with
        | none => rw [hx] at hsome; cases hsome
        | some x => simp [irq_of, hx]
      · rw [if_neg (not_not.mpr hz2)] at h
        simp only at hl2
        rw [hl2] at h
        cases h
        right
        exact ⟨rfl, hv0, hv1, hf2, _, hl2, rfl, rfl, hn, hck⟩

theorem alloc_irq_at_cases (e : env) (dev : device) (ks : kstate) (domid index : Nat)
    (affdesc : Option (List Nat)) (icookie : Option Nat) (domain : irq_domain)
    (r : msi_map × kstate)
    (hd : msi_get_device_domain ks.md domid = some domain)
    (hc : env_conv e) (hprep : ∀ n, domain.host_data.ops.msi_prepare n ≤ 0)
    (hwf : xa_wf (ks.md.__domains domid).store)
    (hsz : 1 ≤ msi_domain_get_hwsize ks.md domid)
    (hu32 : msi_domain_get_hwsize ks.md domid < 2 ^ 32)
    (h : __msi_domain_alloc_irq_at e dev ks domid index affdesc icookie = some r) :
    alloc_irq_at_post ks domid index icookie domain r := by
  unfold __msi_domain_alloc_irq_at at h
  rw [hd] at h
  simp only at h
  have hm := msi_alloc_desc_md e ks 1 affdesc
  cases ha : msi_alloc_desc e ks 1 affdesc with
  | mk o ks1 =>
    rw [ha] at hm h
    simp only at hm h
    have hpost : alloc_irq_at_post ks1 domid index icookie domain r →
        alloc_irq_at_post ks domid index icookie domain r := by
      unfold alloc_irq_at_post
      rw [hm]
      exact fun x => x
    cases o with
    | none =>
      simp only at h
      cases h
      left
      have hneg : (-ENOMEM : Int) < 0 := by decide
      exact ⟨hneg, rfl, hm⟩
    | some desc =>
      simp only at h
      obtain ⟨d1, d2, d3⟩ := msi_alloc_desc_fields e ks 1 affdesc desc (by rw [ha])
      apply hpost
      cases icookie with
      | none =>
        exact alloc_irq_at_tail e dev ks1 domid index desc none domain r (by rw [hm]; exact hd)
          hc hprep (by rw [hm]; exact hwf) (by rw [hm]; exact hsz) (by rw [hm]; exact hu32)
          d1 d2 d3 h
      | some c =>
        exact alloc_irq_at_tail e dev ks1 domid index { desc with icookie := c } (some c)
          domain r (by rw [hm]; exact hd)
          hc hprep (by rw [hm]; exact hwf) (by rw [hm]; exact hsz) (by rw [hm]; exact hu32)
          d1 d2 rfl h

theorem get_virq_of_bound (dev : device) (md : msi_device_data) (domid index : Nat)
    (d : msi_desc) (hdom : domid < MSI_MAX_DEVICE_IRQDOMAINS) (hidx : index ≤ MSI_MAX_INDEX)
    (hk : virq_key dev domid index = index)
    (hl : xa_load (md.__domains domid).store index = some d)
    (hirq : d.irq ≠ 0) (h32 : d.irq < 2 ^ 32) (hn : 0 < d.nvec_used) :
    (msi_domain_get_virq (with_data dev md) domid index).1 = d.irq := by
  unfold virq_key at hk
  unfold msi_domain_get_virq with_data
  simp only
  generalize (if dev.is_pci = true ∧ domid = MSI_DEFAULT_DOMAIN then dev.msi_enabled
    else false) = b at hk ⊢
  have h1 : ¬ (index > MSI_MAX_INDEX ∨ domid ≥ MSI_MAX_DEVICE_IRQDOMAINS) := by omega
  rw [if_neg h1]
  cases b with
  | false =>
    simp [hl, hirq]
  | true =>
    simp only [if_true] at hk
    subst hk
    simp only [if_true, hl]
    rw [if_pos hirq]
    simp only [not_true_eq_false, if_false]
    rw [if_pos hn]
    omega

/-- C22 (amended): let the slot `domid` hold a domain whose hardware size is at
least 1 and at most `MSI_XA_DOMAIN_SIZE`, let the hierarchy hand out non-zero
interrupt numbers and the callbacks return 0 or a negative error, and let the
keys of the store be distinct.  When `msi_domain_alloc_irq_at` returns a map with
`index >= 0`, `map.index` is an index `i` below the hardware size which was free
before the call, the requested one when that is not `MSI_ANY_INDEX` and the lowest
free one otherwise; the descriptor now stored at `i` has `msi_index == i` and is
bound to `map.virq`, which is not 0.  When `msi_domain_get_virq` looks at the
index it is asked for (the device is not a PCI device in MSI mode looked up in the
default domain, or `i` is 0), `msi_domain_get_virq(dev, domid, i)` returns
`map.virq`, and after `msi_domain_free_irqs_range(dev, domid, i, i)` on a domain
without a `domain_free_irqs` override it returns 0. -/
theorem msi_domain_alloc_irq_at_lookup (e : env) (dev : device) (ks : kstate)
    (domid index : Nat) (affdesc : Option (List Nat)) (icookie : Option Nat)
    (domain : irq_domain) (r : msi_map × kstate)
    (hd : msi_get_device_domain ks.md domid = some domain)
    (hc : env_conv e) (hprep : ∀ n, domain.host_data.ops.msi_prepare n ≤ 0)
    (hwf : xa_wf (ks.md.__domains domid).store)
    (hsz : 1 ≤ msi_domain_get_hwsize ks.md domid)
    (hmax : msi_domain_get_hwsize ks.md domid ≤ MSI_XA_DOMAIN_SIZE)
    (h : msi_domain_alloc_irq_at e dev ks domid index affdesc icookie = some r)
    (hok : 0 ≤ r.1.index) :
    ∃ i : Nat, r.1.index = (i : Int) ∧ i < msi_domain_get_hwsize ks.md domid ∧
      xa_load (ks.md.__domains domid).store i = none ∧
      (index ≠ MSI_ANY_INDEX → i = index) ∧
      (index = MSI_ANY_INDEX → ∀ m, m < i → xa_load (ks.md.__domains domid).store m ≠ none) ∧
      r.1.virq ≠ 0 ∧
      (∃ d, xa_load (r.2.md.__domains domid).store i = some d ∧ d.irq = r.1.virq ∧
        d.msi_index = i) ∧
      (∀ j, j ≠ i →
        xa_load (r.2.md.__domains domid).store j = xa_load (ks.md.__domains domid).store j) ∧
      (virq_key dev domid i = i →
        (msi_domain_get_virq (with_data dev r.2.md) domid i).1 = r.1.virq ∧
        (domain.host_data.ops.domain_free_irqs = none →
          (msi_domain_get_virq
            (with_data dev (msi_domain_free_irqs_range dev r.2 domid i i).md) domid i).1 = 0)) := by
  have hX : MSI_XA_DOMAIN_SIZE = 65536 := rfl
  have hM : MSI_MAX_INDEX = 65535 := rfl
  unfold msi_domain_alloc_irq_at at h
  cases h0 : __msi_domain_alloc_irq_at e dev ks domid index affdesc icookie with
  | none => rw [h0] at h; cases h
  | some r0 =>
    rw [h0] at h
    simp only [Option.some.injEq] at h
    subst h
    simp only at hok ⊢
    have hpost := alloc_irq_at_cases e dev ks domid index affdesc icookie domain r0 hd hc hprep
      hwf hsz (by omega) h0
    unfold alloc_irq_at_post at hpost
    rcases hpost with ⟨hneg, -, -⟩ | ⟨i, hi1, hi2, hi3, hi4, hpost⟩
    · omega
    · rcases hpost with ⟨hneg, -, -⟩ | ⟨hidx, hv0, hv1, hfr, d, hl, hdi, hdm, hdn, -⟩
      · omega
      · have hl1 : xa_load ((__msi_unlock_descs r0.2.md).__domains domid).store i = some d := hl
        obtain ⟨g1, g2, -⟩ := msi_get_device_domain_eq_some hd
        refine ⟨i, hidx, hi1, hi2, hi4, hi3, hv0, ⟨d, hl1, hdi, hdm⟩, ?_, ?_⟩
        · intro j hj
          exact hfr.2.2 j (fun hc2 => hj (by omega))
        · intro hk
          refine ⟨?_, fun hno => ?_⟩
          · rw [← hdi]
            exact get_virq_of_bound dev _ domid i d g1 (by omega) hk hl1 (by rw [hdi]; exact hv0)
              (by rw [hdi]; omega) (by omega)
          · have hfu : md_frame domid i i ks.md (__msi_unlock_descs r0.2.md) :=
              md_frame_trans hfr (md_frame_unlock _ _ _ _)
            have hda : msi_get_device_domain (__msi_unlock_descs r0.2.md) domid = some domain := by
              rw [md_frame_get_device_domain hfu]; exact hd
            have hv : msi_ctrl_valid dev (__msi_unlock_descs r0.2.md)
                { domid := domid, first := i, last := i, nirqs := 0 } = true := by
              rw [msi_ctrl_valid_iff]
              refine ⟨g1, ?_, le_refl _, ?_⟩
              · rintro ⟨-, h2⟩
                simp only at h2
                rw [hfu.1 domid, g2] at h2
                cases h2
              · simp only
                rw [md_frame_get_hwsize hfu]
                exact hi1
            obtain ⟨-, f2⟩ := msi_domain_free_locked_store dev
              { r0.2 with md := __msi_unlock_descs r0.2.md } _ domain hv hda hno
            have f3 := f2 i ⟨le_refl _, le_refl _⟩
            simp only at f3
            apply get_virq_eq_zero
            rw [hk]
            intro x hx
            have hx2 : xa_load ((msi_domain_free_locked dev
                { r0.2 with md := __msi_unlock_descs r0.2.md }
                { domid := domid, first := i, last := i, nirqs := 0 }).md.__domains domid).store i =
                some x := hx
            unfold irq_of at f3
            rw [hx2, hl1] at f3
            simp only [Option.map_some'] at f3
            split_ifs at f3
            simp only [Option.some.injEq] at f3
            exact f3

/-- C27 (amended): let the hierarchy hand out non-zero interrupt numbers and the
callbacks return 0 or a negative error, let the keys of the store be distinct,
and let the domain of the slot `domid`, when there is one, have a hardware size
between 1 and `MSI_XA_DOMAIN_SIZE`, the flag `MSI_FLAG_FREE_MSI_DESCS` and no
`domain_free_irqs` override.  When the map `msi_domain_alloc_irq_at` returns has a
negative `index` or a zero `virq`, it has both, every index of the store of
`domid` holds what it held before the call (so the descriptor created for the
request is not in the store and no descriptor is bound which was not), and the
other stores and the domains are unchanged. -/
theorem msi_domain_alloc_irq_at_fail (e : env) (dev : device) (ks : kstate)
    (domid index : Nat) (affdesc : Option (List Nat)) (icookie : Option Nat)
    (r : msi_map × kstate)
    (hc : env_conv e)
    (hdom : ∀ domain, msi_get_device_domain ks.md domid = some domain →
      (∀ n, domain.host_data.ops.msi_prepare n ≤ 0) ∧
      domain.host_data.ops.domain_free_irqs = none ∧
      domain.host_data.flags.FREE_MSI_DESCS = true)
    (hwf : xa_wf (ks.md.__domains domid).store)
    (hsz : 1 ≤ msi_domain_get_hwsize ks.md domid)
    (hmax : msi_domain_get_hwsize ks.md domid ≤ MSI_XA_DOMAIN_SIZE)
    (h : msi_domain_alloc_irq_at e dev ks domid index affdesc icookie = some r)
    (hfail : r.1.index < 0 ∨ r.1.virq = 0) :
    r.1.index < 0 ∧ r.1.virq = 0 ∧
    (∀ j, xa_load (r.2.md.__domains domid).store j = xa_load (ks.md.__domains domid).store j) ∧
    (∀ d, d ≠ domid → (r.2.md.__domains d).store = (ks.md.__domains d).store) ∧
    (∀ d, (r.2.md.__domains d).domain = (ks.md.__domains d).domain) := by
  have hX : MSI_XA_DOMAIN_SIZE = 65536 := rfl
  unfold msi_domain_alloc_irq_at at h
  cases h0 : __msi_domain_alloc_irq_at e dev ks domid index affdesc icookie with
  | none => rw [h0] at h; cases h
  | some r0 =>
    rw [h0] at h
    simp only [Option.some.injEq] at h
    subst h
    simp only at hfail ⊢
    cases hd : msi_get_device_domain ks.md domid with
    | none =>
      unfold __msi_domain_alloc_irq_at at h0
      rw [hd] at h0
      cases h0
      have hneg : (-ENODEV : Int) < 0 := by decide
      exact ⟨hneg, rfl, fun _ => rfl, fun _ _ => rfl, fun _ => rfl⟩
    | some domain =>
      obtain ⟨hprep, hno, hfree⟩ := hdom domain hd
      have hpost := alloc_irq_at_cases e dev ks domid index affdesc icookie domain r0 hd hc
        hprep hwf hsz (by omega) h0
      unfold alloc_irq_at_post at hpost
      rcases hpost with ⟨hneg, hz, hmd⟩ | ⟨i, hi1, hi2, hi3, hi4, hpost⟩
      · refine ⟨hneg, hz, fun j => ?_, fun d _ => ?_, fun d => ?_⟩
        · show xa_load (r0.2.md.__domains domid).store j = _
          rw [hmd]
        · show (r0.2.md.__domains d).store = _
          rw [hmd]
        · show (r0.2.md.__domains d).domain = _
          rw [hmd]
      · rcases hpost with ⟨hneg, hz, hrb⟩ | ⟨hidx, hv0, -, -⟩
        · obtain ⟨hfr, hirq⟩ := hrb hno
          rw [if_pos hfree] at hirq
          refine ⟨hneg, hz, fun j => ?_, fun d hdd => hfr.2.1 d hdd, fun d => hfr.1 d⟩
          show xa_load (r0.2.md.__domains domid).store j = _
          by_cases hj : j = i
          · subst hj
            rw [hi2]
            unfold irq_of at hirq
            cases hx : xa_load (r0.2.md.__domains domid).store j with
            | none => rfl
            | some x => rw [hx] at hirq; cases hirq
          · exact hfr.2.2 j (fun hc2 => hj (by omega))
        · rcases hfail with hf | hf
          · omega
          · exact absurd hf hv0

theorem wired_cookie_eq (hwirq type : Nat) (hh : hwirq < 2 ^ 32) (ht : type < 2 ^ 32) :
    wired_cookie hwirq type = type * 2 ^ 32 + hwirq := by
  unfold wired_cookie
  rw [Nat.shiftLeft_eq, Nat.mod_eq_of_lt (by omega), Nat.mul_comm,
    ← Nat.mul_add_lt_is_or hh]

theorem int_of_uint_small (v : Nat) (h : v < 2 ^ 31) : int_of_uint v = (v : Int) := by
  unfold int_of_uint
  have h1 : v % 2 ^ 32 = v := Nat.mod_eq_of_lt (by omega)
  rw [h1, if_pos h]

/-- C26: for a 32-bit `hwirq` and a 32-bit `type` the cookie
`((u64)type << 32) | hwirq` is `type * 2^32 + hwirq`: it fits 64 bits, its low 32
bits are `hwirq`, its high 32 bits are `type`, and distinct pairs give distinct
cookies.  `msi_device_domain_alloc_wired` returns `-EINVAL` and leaves the stores
as they are when the domain has no device, when its bus token is not
`DOMAIN_BUS_WIRED_TO_MSI`, and when slot 0 of the device does not hold that
domain.  Otherwise it calls `__msi_domain_alloc_irq_at` on the default domain with
`MSI_ANY_INDEX`, no affinity and that cookie, and returns `map.virq` when
`map.index >= 0` and `map.index` otherwise.  With a hierarchy that hands out
positive interrupt numbers which fit an `int` and callbacks which return 0 or a
negative error, the result is either negative, or it is the interrupt number of
the descriptor stored at the lowest index that was free, which carries the
cookie. -/
theorem msi_device_domain_alloc_wired_cookie (e : env) (domain : irq_domain) (ks : kstate)
    (hwirq type : Nat) (hh : hwirq < 2 ^ 32) (ht : type < 2 ^ 32) :
    (wired_cookie hwirq type < 2 ^ 64 ∧
      wired_cookie hwirq type = type * 2 ^ 32 + hwirq ∧
      wired_cookie hwirq type % 2 ^ 32 = hwirq ∧
      wired_cookie hwirq type / 2 ^ 32 = type ∧
      (∀ hwirq1 type1, hwirq1 < 2 ^ 32 → type1 < 2 ^ 32 →
        wired_cookie hwirq1 type1 = wired_cookie hwirq type →
        hwirq1 = hwirq ∧ type1 = type)) ∧
    msi_device_domain_alloc_wired e domain none ks hwirq type = some (-EINVAL, ks) ∧
    (∀ dev, domain.bus_token ≠ .DOMAIN_BUS_WIRED_TO_MSI →
      msi_device_domain_alloc_wired e domain (some dev) ks hwirq type = some (-EINVAL, ks)) ∧
    (∀ dev, domain.bus_token = .DOMAIN_BUS_WIRED_TO_MSI →
      (∀ d, msi_get_device_domain ks.md MSI_DEFAULT_DOMAIN = some d → d.id ≠ domain.id) →
      msi_device_domain_alloc_wired e domain (some dev) ks hwirq type =
        some (-EINVAL, { ks with md := __msi_unlock_descs ks.md })) ∧
    (∀ dev d, domain.bus_token = .DOMAIN_BUS_WIRED_TO_MSI →
      msi_get_device_domain ks.md MSI_DEFAULT_DOMAIN = some d → d.id = domain.id →
      msi_device_domain_alloc_wired e domain (some dev) ks hwirq type =
        (__msi_domain_alloc_irq_at e dev ks MSI_DEFAULT_DOMAIN MSI_ANY_INDEX none
            (some (wired_cookie hwirq type))).map
          (fun r => (if r.1.index ≥ 0 then int_of_uint r.1.virq else r.1.index,
            { r.2 with md := __msi_unlock_descs r.2.md }))) ∧
    (∀ dev d ret ks1, domain.bus_token = .DOMAIN_BUS_WIRED_TO_MSI →
      msi_get_device_domain ks.md MSI_DEFAULT_DOMAIN = some d → d.id = domain.id →
      env_conv e → (∀ n, d.host_data.ops.msi_prepare n ≤ 0) →
      xa_wf (ks.md.__domains MSI_DEFAULT_DOMAIN).store →
      1 ≤ msi_domain_get_hwsize ks.md MSI_DEFAULT_DOMAIN →
      msi_domain_get_hwsize ks.md MSI_DEFAULT_DOMAIN ≤ MSI_XA_DOMAIN_SIZE →
      msi_device_domain_alloc_wired e domain (some dev) ks hwirq type = some (ret, ks1) →
      ret < 0 ∨
      (0 < ret ∧ ∃ i dsc, i < msi_domain_get_hwsize ks.md MSI_DEFAULT_DOMAIN ∧
        xa_load (ks.md.__domains MSI_DEFAULT_DOMAIN).store i = none ∧
        (∀ m, m < i → xa_load (ks.md.__domains MSI_DEFAULT_DOMAIN).store m ≠ none) ∧
        xa_load (ks1.md.__domains MSI_DEFAULT_DOMAIN).store i = some dsc ∧
        (dsc.irq : Int) = ret ∧ dsc.msi_index = i ∧
        dsc.icookie = wired_cookie hwirq type)) := by
  have hce := wired_cookie_eq hwirq type hh ht
  have hhm : hwirq % 2 ^ 32 = hwirq := Nat.mod_eq_of_lt hh
  have htm : type % 2 ^ 32 = type := Nat.mod_eq_of_lt ht
  have hbranch : ∀ dev d, domain.bus_token = .DOMAIN_BUS_WIRED_TO_MSI →
      msi_get_device_domain ks.md MSI_DEFAULT_DOMAIN = some d → d.id = domain.id →
      msi_device_domain_alloc_wired e domain (some dev) ks hwirq type =
        (__msi_domain_alloc_irq_at e dev ks MSI_DEFAULT_DOMAIN MSI_ANY_INDEX none
            (some (wired_cookie hwirq type))).map
          (fun r => (if r.1.index ≥ 0 then int_of_uint r.1.virq else r.1.index,
            { r.2 with md := __msi_unlock_descs r.2.md })) := by
    intro dev d htok hd hid
    unfold msi_device_domain_alloc_wired
    simp only [htok, ne_eq, not_true_eq_false, if_false, hd, hid, decide_True, hhm, htm,
      Bool.true_eq_false]
    cases __msi_domain_alloc_irq_at e dev ks MSI_DEFAULT_DOMAIN MSI_ANY_INDEX none
        (some (wired_cookie hwirq type)) with
    | none => rfl
    | some r => rfl
  refine ⟨⟨?_, hce, ?_, ?_, ?_⟩, rfl, ?_, ?_, hbranch, ?_⟩
  · rw [hce]; omega
  · rw [hce]; omega
  · rw [hce]; omega
  · intro hwirq1 type1 hh1 ht1 heq
    rw [hce, wired_cookie_eq hwirq1 type1 hh1 ht1] at heq
    omega
  · intro dev htok
    unfold msi_device_domain_alloc_wired
    simp only [ne_eq, htok, not_false_eq_true, if_true]
  · intro dev htok hne
    unfold msi_device_domain_alloc_wired
    simp only [htok, ne_eq, not_true_eq_false, if_false]
    cases hd : msi_get_device_domain ks.md MSI_DEFAULT_DOMAIN with
    | none => simp
    | some d =>
      have := hne d hd
      simp [this]
  · intro dev d ret ks1 htok hd hid hc hprep hwf hsz hmax h
    have hX : MSI_XA_DOMAIN_SIZE = 65536 := rfl
    rw [hbranch dev d htok hd hid] at h
    cases h0 : __msi_domain_alloc_irq_at e dev ks MSI_DEFAULT_DOMAIN MSI_ANY_INDEX none
        (some (wired_cookie hwirq type)) with
    | none => rw [h0] at h; cases h
    | some r0 =>
      rw [h0] at h
      simp only [Option.map_some', Option.some.injEq, Prod.mk.injEq] at h
      obtain ⟨hret, hks⟩ := h
      have hpost := alloc_irq_at_cases e dev ks MSI_DEFAULT_DOMAIN MSI_ANY_INDEX none
        (some (wired_cookie hwirq type)) d r0 hd hc hprep hwf hsz (by omega) h0
      unfold alloc_irq_at_post at hpost
      rcases hpost with ⟨hneg, -, -⟩ | ⟨i, hi1, hi2, hi3, -, hpost⟩
      · left
        rw [if_neg (by omega)] at hret
        omega
      · rcases hpost with ⟨hneg, -, -⟩ | ⟨hidx, hv0, hv1, hfr, dsc, hl, hdi, hdm, -, hck⟩
        · left
          rw [if_neg (by omega)] at hret
          omega
        · right
          rw [if_pos (by omega), int_of_uint_small _ hv1] at hret
          refine ⟨by omega, i, dsc, hi1, hi2, hi3 rfl, ?_, ?_, hdm, hck⟩
          · rw [← hks]
            exact hl
          · rw [hdi]
            exact hret

/-! ## The theorems at concrete states -/

theorem msi_walk_yields_matching_witness :
    (msi_walk 3 (ex_dev false false ex_store none) 0 .MSI_DESC_ASSOCIATED).1 =
        ex_store.filter (fun e => msi_desc_match e.2 .MSI_DESC_ASSOCIATED) ∧
      ((msi_walk 3 (ex_dev false false ex_store none) 0 .MSI_DESC_ASSOCIATED).1).Pairwise
        (fun a b => a.1 < b.1) ∧
      (∀ e, e ∈ (msi_walk 3 (ex_dev false false ex_store none) 0 .MSI_DESC_ASSOCIATED).1 ↔
        (xa_load ex_store e.1 = some e.2 ∧
          msi_desc_match e.2 .MSI_DESC_ASSOCIATED = true)) :=
  msi_walk_yields_matching (ex_dev false false ex_store none) (ex_md ex_store none) 0
    .MSI_DESC_ASSOCIATED 3 rfl (by decide) (by decide) (by decide) (by decide)

theorem msi_insert_desc_any_lowest_free_witness :
    (msi_insert_desc (ex_ks ex_store none) (ex_desc 0 0) 0 MSI_ANY_INDEX).1 = 0 ∧
    ∃ i, i < msi_domain_get_hwsize (ex_ks ex_store none).md 0 ∧
      xa_load ex_store i = none ∧
      (∀ m, m < i → xa_load ex_store m ≠ none) ∧
      xa_load (((msi_insert_desc (ex_ks ex_store none) (ex_desc 0 0) 0
          MSI_ANY_INDEX).2.md.__domains 0).store) i =
        some { ex_desc 0 0 with msi_index := i } ∧
      (∀ m, m ≠ i →
        xa_load (((msi_insert_desc (ex_ks ex_store none) (ex_desc 0 0) 0
            MSI_ANY_INDEX).2.md.__domains 0).store) m = xa_load ex_store m) ∧
      (∀ d, d ≠ 0 →
        (msi_insert_desc (ex_ks ex_store none) (ex_desc 0 0) 0 MSI_ANY_INDEX).2.md.__domains d =
          (ex_ks ex_store none).md.__domains d) ∧
      (msi_insert_desc (ex_ks ex_store none) (ex_desc 0 0) 0 MSI_ANY_INDEX).2.trace = [] :=
  msi_insert_desc_any_lowest_free (ex_ks ex_store none) (ex_desc 0 0) 0 1
    (by decide) (by decide) (by decide) (by decide)

theorem msi_insert_desc_at_witness :
    (msi_insert_desc (ex_ks ex_store none) (ex_desc 0 0) 0 2).1 = -EBUSY ∧
    (msi_insert_desc (ex_ks ex_store none) (ex_desc 0 0) 0 3).1 = 0 ∧
    (msi_insert_desc (ex_ks ex_store none) (ex_desc 0 0) 0 70000).1 = -ERANGE :=
  ⟨((msi_insert_desc_at (ex_ks ex_store none) (ex_desc 0 0) 0 2 (by decide)).2.1
      (by decide) (by decide)).1,
   ((msi_insert_desc_at (ex_ks ex_store none) (ex_desc 0 0) 0 3 (by decide)).2.2
      (by decide) (by decide)).1,
   ((msi_insert_desc_at (ex_ks ex_store none) (ex_desc 0 0) 0 70000 (by decide)).1
      (by decide)).1⟩

theorem msi_domain_get_virq_lookup_witness :
    (msi_domain_get_virq (ex_dev false false ex_store none) 0 5).1 = 9 ∧
    (msi_domain_get_virq (ex_dev false false ex_store none) 0 0).1 = 0 ∧
    (msi_domain_get_virq (ex_dev true true [(0, { ex_desc 40 0 with nvec_used := 4 })] none)
      0 3).1 = 43 ∧
    (msi_domain_get_virq (ex_dev true true [(0, { ex_desc 40 0 with nvec_used := 4 })] none)
      0 4).1 = 0 :=
  ⟨(((msi_domain_get_virq_lookup (ex_dev false false ex_store none) 0 5).2 _ rfl
      (by decide) (by decide)).1 (by decide)).trans (by decide),
   (((msi_domain_get_virq_lookup (ex_dev false false ex_store none) 0 0).2 _ rfl
      (by decide) (by decide)).1 (by decide)).trans (by decide),
   (((msi_domain_get_virq_lookup
      (ex_dev true true [(0, { ex_desc 40 0 with nvec_used := 4 })] none) 0 3).2 _ rfl
      (by decide) (by decide)).2 (by decide)).2 _ rfl (by decide) (by decide) (by decide),
   ((((msi_domain_get_virq_lookup
      (ex_dev true true [(0, { ex_desc 40 0 with nvec_used := 4 })] none) 0 4).2 _ rfl
      (by decide) (by decide)).2 (by decide)).1).trans (by decide)⟩

/-- C9 (as stated): a control range with the domain id in range and
`first <= last < hwsize` is rejected by `msi_ctrl_valid` when the device has an MSI
domain and the slot is empty; the entry of the range is then still in the store. -/
theorem msi_domain_free_descs_range_counterexample :
    (0 < MSI_MAX_DEVICE_IRQDOMAINS ∧ 0 ≤ 0 ∧
      0 < msi_domain_get_hwsize (ex_ks ex_store none).md 0) ∧
    xa_load (((msi_domain_free_msi_descs_range (ex_dev false false ex_store none)
      (ex_ks ex_store none) 0 0 0).md.__domains 0).store) 0 = some (ex_desc 0 0) := by
  decide

theorem msi_domain_free_descs_range_frame_witness :
    (∀ j, 0 ≤ j → j ≤ 10 →
      xa_load (((msi_domain_free_msi_descs_range
        (ex_dev false false ex_store (some (ex_domain ex_flags ex_ops)))
        (ex_ks ex_store (some (ex_domain ex_flags ex_ops))) 0 0 10).md.__domains 0).store) j =
          none) ∧
    msi_domain_free_msi_descs_range (ex_dev false false ex_store none)
      (ex_ks ex_store none) 0 0 10 = ex_ks ex_store none :=
  ⟨((msi_domain_free_descs_range_frame
      (ex_dev false false ex_store (some (ex_domain ex_flags ex_ops)))
      (ex_ks ex_store (some (ex_domain ex_flags ex_ops))) 0 0 10).1 (by decide)).1,
   (msi_domain_free_descs_range_frame (ex_dev false false ex_store none)
      (ex_ks ex_store none) 0 0 10).2 (by decide)⟩

/-- C5 (as stated): on a domain with a `domain_alloc_irqs` override that binds an
interrupt and fails and a `domain_free_irqs` override that frees nothing, the call
returns a non-zero value and index 0, not associated before, is associated after. -/
theorem msi_domain_alloc_fail_rolls_back_counterexample :
    (msi_domain_get_virq
      (with_data (ex_dev false false [(0, ex_desc 0 0)]
          (some (ex_domain ex_flags ex_override_ops)))
        (ex_ks [(0, ex_desc 0 0)] (some (ex_domain ex_flags ex_override_ops))).md) 0 0).1 = 0 ∧
    (msi_domain_alloc_irqs_range_locked (ex_env 10)
      (ex_dev false false [(0, ex_desc 0 0)] (some (ex_domain ex_flags ex_override_ops)))
      (ex_ks [(0, ex_desc 0 0)] (some (ex_domain ex_flags ex_override_ops))) 0 0 0).map
        (fun r => (r.1, (msi_domain_get_virq
          (with_data (ex_dev false false [(0, ex_desc 0 0)]
            (some (ex_domain ex_flags ex_override_ops))) r.2.md) 0 0).1)) =
      some (-ENOSPC, 7) := by
  decide

theorem msi_domain_alloc_fail_rolls_back_witness :
    (msi_domain_alloc_irqs_range_locked (ex_env (-1))
      (ex_dev false false ex_bound_store (some (ex_domain ex_flags ex_ops)))
      (ex_ks ex_bound_store (some (ex_domain ex_flags ex_ops))) 0 0 1).map
        (fun r => (r.1, (msi_domain_get_virq
          (with_data (ex_dev false false ex_bound_store (some (ex_domain ex_flags ex_ops)))
            r.2.md) 0 1).1)) = some (-ENOSPC, 0) := by
  have T := (msi_domain_alloc_fail_rolls_back (ex_env (-1))
    (ex_dev false false ex_bound_store (some (ex_domain ex_flags ex_ops)))
    (ex_ks ex_bound_store (some (ex_domain ex_flags ex_ops))) 0 0 1 0
    (by decide) (by decide)).1
  have hret : (msi_domain_alloc_irqs_range_locked (ex_env (-1))
      (ex_dev false false ex_bound_store (some (ex_domain ex_flags ex_ops)))
      (ex_ks ex_bound_store (some (ex_domain ex_flags ex_ops))) 0 0 1).map (fun r => r.1) =
        some (-ENOSPC) := by decide
  cases h : msi_domain_alloc_irqs_range_locked (ex_env (-1))
      (ex_dev false false ex_bound_store (some (ex_domain ex_flags ex_ops)))
      (ex_ks ex_bound_store (some (ex_domain ex_flags ex_ops))) 0 0 1 with
  | none => rw [h] at hret; cases hret
  | some r =>
    obtain ⟨ret, ks1⟩ := r
    rw [h] at hret
    have hr : ret = -ENOSPC := by simpa using hret
    subst hr
    have := T _ ks1 h (by decide) 1 (by decide) (by decide) (by decide)
    simp [this]

/-- C7 (as stated): index 0 is bound to interrupt 5 before a successful allocation of
`[0, 1]`; after the free of the same range its binding is gone. -/
theorem alloc_free_pairs_restore_counterexample :
    irq_of ((ex_ks ex_bound_store (some (ex_domain ex_flags ex_ops))).md.__domains 0).store 0 =
      some 5 ∧
    (alloc_free_pairs (ex_env 10)
      (ex_dev false false ex_bound_store (some (ex_domain ex_flags ex_ops))) 0 0 1 1
      (ex_ks ex_bound_store (some (ex_domain ex_flags ex_ops)))).map
        (fun k => irq_of (k.md.__domains 0).store 0) = some (some 0) := by
  decide

theorem alloc_free_pairs_restore_witness :
    (alloc_free_pairs (ex_env 10)
      (ex_dev false false ex_unbound_store (some (ex_domain ex_flags ex_ops))) 0 0 1 2
      (ex_ks ex_unbound_store (some (ex_domain ex_flags ex_ops)))).map
        (fun k => irq_of (k.md.__domains 0).store 1) = some (some 0) := by
  have hsome : (alloc_free_pairs (ex_env 10)
      (ex_dev false false ex_unbound_store (some (ex_domain ex_flags ex_ops))) 0 0 1 2
      (ex_ks ex_unbound_store (some (ex_domain ex_flags ex_ops)))).isSome = true := by decide
  cases h : alloc_free_pairs (ex_env 10)
      (ex_dev false false ex_unbound_store (some (ex_domain ex_flags ex_ops))) 0 0 1 2
      (ex_ks ex_unbound_store (some (ex_domain ex_flags ex_ops))) with
  | none => rw [h] at hsome; cases hsome
  | some k =>
    have hun : range_unbound
        ((ex_ks ex_unbound_store (some (ex_domain ex_flags ex_ops))).md.__domains 0).store
        0 1 := by
      intro j h1 h2 x hx
      have hj : j = 0 ∨ j = 1 := by omega
      rcases hj with hj | hj <;> subst hj <;>
        · simp [ex_ks, ex_md, ex_unbound_store, xa_load] at hx
          rw [← hx]
          rfl
    have T := alloc_free_pairs_restore (ex_env 10)
      (ex_dev false false ex_unbound_store (some (ex_domain ex_flags ex_ops))) 0 0 1 2
      (ex_ks ex_unbound_store (some (ex_domain ex_flags ex_ops))) k
      (by decide) (by decide) (by decide) hun h 1
    simp only [Option.map_some']
    rw [T]
    rfl

theorem msi_domain_free_irqs_range_locked_protocol_witness :
    xa_load ((msi_domain_free_irqs_range_locked
        (ex_dev false false ex_assoc_store (some (ex_domain ex_flags ex_ops)))
        { ex_ks ex_assoc_store (some (ex_domain ex_flags ex_ops)) with irqd := ex_irqd }
        0 0 1).md.__domains 0).store 2 = some (ex_desc 50 2) ∧
    (msi_domain_free_irqs_range_locked
        (ex_dev false false ex_assoc_store (some (ex_domain ex_flags ex_ops)))
        { ex_ks ex_assoc_store (some (ex_domain ex_flags ex_ops)) with irqd := ex_irqd }
        0 0 2).trace =
      [event.irq_deactivate 40, event.irq_free 40 2, event.irq_deactivate 50,
        event.irq_free 50 1] :=
  ⟨((msi_domain_free_irqs_range_locked_protocol
      (ex_dev false false ex_assoc_store (some (ex_domain ex_flags ex_ops)))
      { ex_ks ex_assoc_store (some (ex_domain ex_flags ex_ops)) with irqd := ex_irqd }
      0 0 1 (ex_domain ex_flags ex_ops) (by decide) (by decide) rfl rfl).2.1 2
      (by decide)).trans (by decide),
   by decide⟩

/-- C11 (as stated): after the set-up a descriptor is inserted at index 50 while
the slot is empty, then a device domain of 32 entries is created for the slot:
the store holds index 50 and `msi_domain_get_hwsize` returns 32. -/
theorem msi_run_store_invariant_counterexample :
    (ex_world (ex_new_dev (some ex_parent))).dev.msi_data.isNone = true ∧
    (msi_run ex_late_calls (ex_world (ex_new_dev (some ex_parent)))).map
      (fun w => w.dev.msi_data.map (fun md =>
        (msi_domain_get_hwsize md 0,
          (md.__domains 0).store.map (fun p => (p.1, p.2.msi_index))))) =
      some (some (32, [(50, 50)])) := by
  decide

theorem msi_run_store_invariant_witness :
    ∃ w1 md, msi_run ex_calls (ex_world (ex_new_dev (some ex_parent))) = some w1 ∧
      w1.dev.msi_data = some md ∧
      (∀ k x, (k, x) ∈ (md.__domains 0).store →
        x.msi_index = k ∧ x.msi_index < MSI_XA_DOMAIN_SIZE) ∧
      (md.__domains 0).store.Pairwise (fun a b => a.2.msi_index ≠ b.2.msi_index) ∧
      1 ≤ msi_domain_get_hwsize md 0 ∧ msi_domain_get_hwsize md 0 ≤ MSI_XA_DOMAIN_SIZE ∧
      (run_fresh ex_calls (ex_world (ex_new_dev (some ex_parent))) →
        ∀ k x, (k, x) ∈ (md.__domains 0).store → x.msi_index < msi_domain_get_hwsize md 0) := by
  have hg : global_ok (ex_world (ex_new_dev (some ex_parent))).dev := by
    intro domain hd hp
    simp only [ex_world, ex_new_dev, Option.some.injEq] at hd
    subst hd
    exact absurd hp (by decide)
  have hs : (msi_run ex_calls (ex_world (ex_new_dev (some ex_parent)))).map
      (fun w => w.dev.msi_data.isSome) = some true := by decide
  cases h : msi_run ex_calls (ex_world (ex_new_dev (some ex_parent))) with
  | none => rw [h] at hs; cases hs
  | some w1 =>
    rw [h] at hs
    cases hmd : w1.dev.msi_data with
    | none => simp [hmd] at hs
    | some md =>
      exact ⟨w1, md, rfl, hmd,
        msi_run_store_invariant ex_calls _ w1 md 0 rfl hg (by decide) h hmd⟩

theorem msi_create_irq_domain_hwsize_witness :
    ∃ domain, __msi_create_irq_domain (ex_env 0) ex_template.info true = some domain :=
  (msi_create_irq_domain_hwsize (ex_env 0) ex_template.info true).2.1 (by decide) rfl

theorem msi_check_reservation_mode_iff_witness :
    ∃ b, (msi_check_reservation_mode ex_pci_domain ex_pci_domain.host_data
        (ex_ks ex_multi_store (some ex_pci_domain)).md).1 = some b ∧
      (b = true ↔
        ((ex_pci_domain.bus_token = .DOMAIN_BUS_PCI_MSI ∨
          ex_pci_domain.bus_token = .DOMAIN_BUS_PCI_DEVICE_MSI ∨
          ex_pci_domain.bus_token = .DOMAIN_BUS_PCI_DEVICE_MSIX ∨
          ex_pci_domain.bus_token = .DOMAIN_BUS_VMD_MSI) ∧
        ex_pci_domain.host_data.flags.MUST_REACTIVATE = true ∧
        ex_pci_domain.host_data.flags.NO_MASK = false ∧
        (({ ex_desc 0 0 with nvec_used := 4, can_mask := true } : msi_desc).is_msix = true ∨
          ({ ex_desc 0 0 with nvec_used := 4, can_mask := true } : msi_desc).can_mask =
            true))) :=
  (msi_check_reservation_mode_iff (ex_env 40) ex_pci_domain ex_pci_domain.host_data
    (ex_ks ex_multi_store (some ex_pci_domain))
    { domid := 0, first := 0, last := 0, nirqs := 1 } 0
    { ex_desc 0 0 with nvec_used := 4, can_mask := true } [] rfl (by decide)).1

/-- C14 (as stated): the bus token is not of the PCI family, the descriptor has
one vector and two interrupts were allocated before the failure: the result is
`-ENOSPC`, not the count 2. -/
theorem msi_handle_pci_fail_result_counterexample :
    (ex_env 0).config_pci_msi = true ∧
    is_pci_family (ex_domain ex_flags ex_ops).bus_token = false ∧
    (ex_desc 0 0).nvec_used = 1 ∧
    msi_handle_pci_fail (ex_env 0) (ex_domain ex_flags ex_ops) (ex_desc 0 0) 2 = -ENOSPC := by
  decide

theorem msi_handle_pci_fail_result_witness :
    msi_handle_pci_fail (ex_env 0) ex_pci_domain (ex_desc 0 0) 2 = 2 :=
  (msi_handle_pci_fail_result (ex_env 0) ex_pci_domain (ex_desc 0 0) 2 rfl).1.trans
    (by decide)

/-- C15 (as stated): `VIRQ_CAN_RESERVE` and `VIRQ_ACTIVATE` are clear, the interrupt
is managed and none of its CPUs is online: `msi_init_virq` returns 0 and clears
`can_reserve`, but the interrupt is not marked managed-shutdown. -/
theorem msi_init_virq_no_reserve_counterexample :
    ex_managed_irqd.affinity_managed = true ∧ ex_managed_irqd.affinity_online = false ∧
    (msi_init_virq (ex_env 0)
      { ex_ks [] none with irqd := fun _ => some ex_managed_irqd } 40 0).map
        (fun r => (r.1, r.2.irqd 40)) =
      some (0, some { ex_managed_irqd with can_reserve := false, managed_shutdown := false }) := by
  decide

theorem msi_init_virq_no_reserve_witness :
    ∃ r, msi_init_virq (ex_env 0)
        { ex_ks [] none with irqd := fun _ => some ex_managed_irqd } 40 VIRQ_ACTIVATE = some r ∧
      r.1 = 0 ∧ r.2.trace = [] ∧
      r.2.irqd 40 =
        some { ex_managed_irqd with can_reserve := false, managed_shutdown := true } := by
  obtain ⟨r, hr, -, h, -⟩ := msi_init_virq_no_reserve (ex_env 0)
    { ex_ks [] none with irqd := fun _ => some ex_managed_irqd } 40 VIRQ_ACTIVATE
    ex_managed_irqd rfl (by decide)
  exact ⟨r, hr, h (by decide) rfl rfl⟩

theorem msi_init_virq_activate_witness :
    ∃ r, msi_init_virq (ex_env 0)
        { ex_ks [] none with irqd := fun _ => some ex_managed_irqd } 40
        (VIRQ_ACTIVATE ||| VIRQ_CAN_RESERVE) = some r ∧
      r.1 = 0 ∧ r.2.trace = [event.irq_activate 40 true] ∧
      ∃ x, r.2.irqd 40 = some x ∧ x.activated = false ∧ x.can_reserve = true := by
  obtain ⟨r, hr, -, h, hc⟩ := (msi_init_virq_activate (ex_env 0)
    { ex_ks [] none with irqd := fun _ => some ex_managed_irqd } 40
    (VIRQ_ACTIVATE ||| VIRQ_CAN_RESERVE) ex_managed_irqd rfl).1
  obtain ⟨h1, -, h3⟩ := h (by decide) (by decide)
  obtain ⟨h4, x, hx, hxa⟩ := h3 rfl
  obtain ⟨y, hy, hyc⟩ := hc (by decide)
  rw [hx] at hy
  cases hy
  exact ⟨r, hr, h4, h1, x, hx, hxa.mpr (by decide), hyc⟩

/-- C17 (as stated): the device has no MSI device data, its parent rejects the
info: the call returns false and the device has MSI device data afterwards. -/
theorem msi_create_device_irq_domain_rejected_counterexample :
    (ex_new_dev (some ex_rejecting_parent)).msi_data.isNone = true ∧
    (msi_create_device_irq_domain (ex_env 0) (ex_new_dev (some ex_rejecting_parent)) 0
      ex_template 32).map (fun r => (r.1, r.2.msi_data.isSome)) = some (false, true) := by
  decide

theorem msi_create_device_irq_domain_rejected_witness :
    ∃ dev1, msi_create_device_irq_domain (ex_env 0) (ex_new_dev (some ex_rejecting_parent)) 0
        ex_template 32 = some (false, dev1) ∧
      dev1.msi_data.isSome = true ∧
      ∀ md1, dev1.msi_data = some md1 → ∀ d, md1.__domains d = { store := [], domain := none } := by
  obtain ⟨dev1, h1, -, -, h4, h5⟩ := msi_create_device_irq_domain_rejected (ex_env 0)
    (ex_new_dev (some ex_rejecting_parent)) 0 ex_template 32 ex_rejecting_parent
    { init_dev_msi_info := fun _ => none } rfl rfl rfl
  exact ⟨dev1, h1, h5 rfl rfl (by decide) rfl rfl rfl rfl, h4 rfl⟩

/-- C18 (as stated): the slot is empty and the store holds two descriptors: the
creation succeeds, and after the removal the store still holds them. -/
theorem create_remove_device_irq_domain_counterexample :
    ((ex_md ex_unbound_store none).__domains 0).domain.isNone = true ∧
    (msi_create_device_irq_domain (ex_env 0) (ex_dev false false ex_unbound_store none) 0
      ex_template 32).bind
        (fun r => (msi_remove_device_irq_domain r.2 0).map
          (fun d => (r.1, d.msi_data.map
            (fun md => ((md.__domains 0).domain.isNone, (md.__domains 0).store))))) =
      some (true, some (true, ex_unbound_store)) := by
  decide

theorem create_remove_device_irq_domain_witness :
    ∃ dev1 md2,
      msi_create_device_irq_domain (ex_env 0) (ex_new_dev (some ex_parent)) 0 ex_template 32 =
        some (true, dev1) ∧
      msi_remove_device_irq_domain dev1 0 = some (with_data (ex_new_dev (some ex_parent)) md2) ∧
      (md2.__domains 0).domain = none ∧ (md2.__domains 0).store = [] := by
  have hs : (msi_create_device_irq_domain (ex_env 0) (ex_new_dev (some ex_parent)) 0
      ex_template 32).map (fun r => r.1) = some true := by decide
  cases h : msi_create_device_irq_domain (ex_env 0) (ex_new_dev (some ex_parent)) 0
      ex_template 32 with
  | none => rw [h] at hs; cases hs
  | some r =>
    obtain ⟨b, dev1⟩ := r
    rw [h] at hs
    simp only [Option.map_some', Option.some.injEq] at hs
    subst hs
    obtain ⟨md2, h1, h2, -, h4⟩ := (create_remove_device_irq_domain (ex_env 0)
      (ex_new_dev (some ex_parent)) 0 ex_template 32 dev1 h).1
    exact ⟨dev1, md2, rfl, h1, h2, by rw [h4 rfl 0]⟩

theorem msi_match_device_irq_domain_iff_witness :
    (msi_match_device_irq_domain (ex_dev false false [] (some (ex_domain ex_flags ex_ops))) 0
      .DOMAIN_BUS_DEVICE_MSI).map (fun r => r.1) = some true := by
  obtain ⟨b, hb, hiff, -⟩ := msi_match_device_irq_domain_iff
    (ex_dev false false [] (some (ex_domain ex_flags ex_ops)))
    (ex_md [] (some (ex_domain ex_flags ex_ops))) 0 .DOMAIN_BUS_DEVICE_MSI rfl
    (by
      intro domain h
      simp only [ex_md, if_true, Option.some.injEq] at h
      subst h
      rfl)
  have hbt : b = true := hiff.mpr ⟨by decide, ex_domain ex_flags ex_ops, rfl, rfl, rfl⟩
  rw [hb, hbt]
  rfl

theorem msi_setup_device_data_idempotent_witness :
    msi_setup_device_data (ex_env (-1))
        (msi_setup_device_data (ex_env 0) (ex_new_dev (some ex_parent))).2 =
      (0, (msi_setup_device_data (ex_env 0) (ex_new_dev (some ex_parent))).2) :=
  (msi_setup_device_data_idempotent (ex_env 0) (ex_env (-1))
    (ex_new_dev (some ex_parent))).2.1 (by decide)

theorem env_conv_ex_env_40 : env_conv (ex_env 40) := by
  have h1 : (40 : Int) ≠ 0 := by decide
  have h2 : (40 : Int) < 2 ^ 31 := by decide
  exact ⟨fun _ _ => ⟨h1, h2⟩, fun _ _ => le_refl _, fun _ => le_refl _⟩

theorem env_conv_ex_env_neg : env_conv (ex_env (-1)) := by
  have h1 : (-1 : Int) ≠ 0 := by decide
  have h2 : (-1 : Int) < 2 ^ 31 := by decide
  exact ⟨fun _ _ => ⟨h1, h2⟩, fun _ _ => le_refl _, fun _ => le_refl _⟩

/-- C21 (as stated): the cursor after `__msi_unlock_descs` is `ULONG_MAX - 1`, which
is not the largest value of an `unsigned long`. -/
theorem msi_unlock_descs_sentinel_counterexample :
    (__msi_unlock_descs { ex_md ex_store none with __iter_idx := 0 }).__iter_idx =
      ULONG_MAX - 1 ∧
    (__msi_unlock_descs { ex_md ex_store none with __iter_idx := 0 }).__iter_idx ≠ ULONG_MAX ∧
    ULONG_MAX + 1 = 2 ^ 64 := by
  decide

theorem msi_unlock_descs_sentinel_witness :
    (__msi_unlock_descs { ex_md ex_store none with __iter_idx := 0 }).__iter_idx =
      MSI_XA_MAX_INDEX ∧
    MSI_XA_MAX_INDEX + 1 = ULONG_MAX ∧
    cursor (msi_domain_get_virq (ex_dev false false ex_store none) 0 2).2 = MSI_XA_MAX_INDEX :=
  ⟨(msi_unlock_descs_sentinel { ex_md ex_store none with __iter_idx := 0 }).1,
   (msi_unlock_descs_sentinel (ex_md ex_store none)).2.2.2.1,
   (msi_unlock_descs_sentinel (ex_md ex_store none)).2.2.2.2.2.2.1
     (ex_dev false false ex_store none) 0 2 rfl (by decide) (by decide)⟩

/-- C29 (as stated): a walk of the store with entries at 0, 2 and 5 has returned
the first one; `msi_next_desc` with the domain id 7 returns `NULL`, and the
`msi_next_desc` after it returns the descriptor at index 2. -/
theorem msi_next_desc_invalidated_counterexample :
    (msi_domain_first_desc (ex_dev false false ex_store none) 0 .MSI_DESC_ALL).1 =
      some (ex_desc 0 0) ∧
    (msi_next_desc (msi_domain_first_desc (ex_dev false false ex_store none) 0
      .MSI_DESC_ALL).2 7 .MSI_DESC_ALL).1 = none ∧
    (msi_next_desc (msi_next_desc (msi_domain_first_desc (ex_dev false false ex_store none) 0
      .MSI_DESC_ALL).2 7 .MSI_DESC_ALL).2 0 .MSI_DESC_ALL).1 = some (ex_desc 7 2) := by
  decide

theorem msi_next_desc_invalidated_witness :
    (ex_dev false false ex_store none).msi_data = some (ex_md ex_store none) ∧
    msi_next_desc (ex_dev false false ex_store none) 0 .MSI_DESC_ALL =
      (none, ex_dev false false ex_store none) ∧
    msi_next_desc (ex_dev false false ex_store none) 7 .MSI_DESC_ALL =
      (none, ex_dev false false ex_store none) :=
  ⟨rfl, (msi_next_desc_invalidated (ex_dev false false ex_store none) (ex_md ex_store none) 0
    .MSI_DESC_ALL rfl).2.2.2.1 (by decide),
   ((msi_next_desc_invalidated (ex_dev false false ex_store none) (ex_md ex_store none) 7
    .MSI_DESC_ALL rfl).2.2.2.2.2.2.2 (by decide)).1⟩

theorem msi_domain_alloc_irqs_range_locked_invalid_witness :
    msi_domain_alloc_irqs_range_locked (ex_env 40)
        (ex_dev false false [] (some (ex_domain ex_flags ex_ops)))
        (ex_ks [] (some (ex_domain ex_flags ex_ops))) 0 5 3 =
      some (-EINVAL, ex_ks [] (some (ex_domain ex_flags ex_ops))) ∧
    msi_domain_alloc_irqs_range_locked (ex_env 40)
        (ex_dev false false [] (some (ex_domain ex_flags ex_ops)))
        (ex_ks [] (some (ex_domain ex_flags ex_ops))) 0 3 32 =
      some (-EINVAL, ex_ks [] (some (ex_domain ex_flags ex_ops))) :=
  ⟨(msi_domain_alloc_irqs_range_locked_invalid (ex_env 40)
      (ex_dev false false [] (some (ex_domain ex_flags ex_ops)))
      (ex_ks [] (some (ex_domain ex_flags ex_ops))) 0 5 3).1 (Or.inr (Or.inl (by decide))),
   (msi_domain_alloc_irqs_range_locked_invalid (ex_env 40)
      (ex_dev false false [] (some (ex_domain ex_flags ex_ops)))
      (ex_ks [] (some (ex_domain ex_flags ex_ops))) 0 3 32).1
      (Or.inr (Or.inr (Or.inr (by decide))))⟩

/-- C25 (as stated): the device has a domain in `dev->msi.domain` and the slot 0 is
empty: `msi_domain_alloc_irqs_range_locked` and `msi_domain_alloc_irqs_all_locked`
return `-EINVAL`, not `-ENODEV`. -/
theorem msi_domain_alloc_empty_slot_counterexample :
    ((ex_ks [] none).md.__domains 0).domain.isNone = true ∧
    (msi_domain_alloc_irqs_range_locked (ex_env 40) (ex_dev false false [] none)
      (ex_ks [] none) 0 0 0).map (fun r => r.1) = some (-EINVAL) ∧
    (msi_domain_alloc_irqs_all_locked (ex_env 40) (ex_dev false false [] none)
      (ex_ks [] none) 0 1).map (fun r => r.1) = some (-EINVAL) := by
  decide

theorem msi_domain_alloc_empty_slot_witness :
    msi_domain_alloc_irq_at (ex_env 40) (ex_new_dev none) (ex_ks [] none) 0 0 none none =
      some ({ index := -ENODEV, virq := 0 },
        { ex_ks [] none with md := __msi_unlock_descs (ex_ks [] none).md }) ∧
    msi_domain_alloc_irqs_range_locked (ex_env 40) (ex_new_dev none) (ex_ks [] none) 0 0 0 =
      some (-ENODEV, ex_ks [] none) :=
  ⟨((msi_domain_alloc_empty_slot (ex_env 40) (ex_new_dev none) (ex_ks [] none) 0 (by decide)
      rfl).1 0 none none).2,
   ((msi_domain_alloc_empty_slot (ex_env 40) (ex_new_dev none) (ex_ks [] none) 0 (by decide)
      rfl).2.1 0 0).2.1 rfl (le_refl _) (by decide)⟩

theorem msi_domain_add_simple_msi_descs_result_witness :
    (msi_domain_add_simple_msi_descs (ex_env 40)
      (ex_dev false false [] (some (ex_domain ex_managed_flags ex_ops)))
      (ex_ks [] (some (ex_domain ex_managed_flags ex_ops)))
      { domid := 0, first := 0, last := 2, nirqs := 3 }).1 = 0 ∧
    xa_load ((msi_domain_add_simple_msi_descs (ex_env 40)
      (ex_dev false false [] (some (ex_domain ex_managed_flags ex_ops)))
      (ex_ks [] (some (ex_domain ex_managed_flags ex_ops)))
      { domid := 0, first := 0, last := 2, nirqs := 3 }).2.md.__domains 0).store 1 =
      some (simple_desc 1) :=
  ⟨by decide,
   ((msi_domain_add_simple_msi_descs_result (ex_env 40)
      (ex_dev false false [] (some (ex_domain ex_managed_flags ex_ops)))
      (ex_ks [] (some (ex_domain ex_managed_flags ex_ops)))
      { domid := 0, first := 0, last := 2, nirqs := 3 } (by decide) (by decide)).1
      (by decide) 1 (by decide) (by decide)).2⟩

theorem msi_domain_alloc_unwind_witness :
    msi_domain_alloc ex_alloc_ops 10 5 =
      (-EINVAL,
        [alloc_event.alloc_irqs_parent 10 5, alloc_event.msi_init 10 100,
         alloc_event.msi_init 11 101, alloc_event.msi_init 12 102,
         alloc_event.msi_free 11, alloc_event.msi_free 10,
         alloc_event.free_irqs_top 10 5]) :=
  ((((msi_domain_alloc_unwind ex_alloc_ops 10 5).2.2 rfl (fun _ => le_refl _)).1 2 (by decide)
    (by decide) (by decide)).1).trans (by decide)
/-- C22 (as stated): a PCI device in MSI mode with a domain of hardware size 32 in
slot 0 and an empty store: the allocation at index 3 succeeds with interrupt 40,
and `msi_domain_get_virq(dev, 0, 3)` returns 0. -/
theorem msi_domain_alloc_irq_at_lookup_counterexample :
    (msi_domain_alloc_irq_at (ex_env 40) (ex_dev true true [] (some ex_pci_domain))
      (ex_ks [] (some ex_pci_domain)) 0 3 none none).map
        (fun r => (r.1, (msi_domain_get_virq
          (with_data (ex_dev true true [] (some ex_pci_domain)) r.2.md) 0 3).1)) =
      some ({ index := 3, virq := 40 }, 0) := by
  decide

theorem msi_domain_alloc_irq_at_lookup_witness :
    ∃ r, msi_domain_alloc_irq_at (ex_env 40)
        (ex_dev false false [] (some (ex_domain ex_flags ex_ops)))
        (ex_ks [] (some (ex_domain ex_flags ex_ops))) 0 MSI_ANY_INDEX none none = some r ∧
      r.1 = { index := 0, virq := 40 } ∧
      (msi_domain_get_virq
        (with_data (ex_dev false false [] (some (ex_domain ex_flags ex_ops))) r.2.md) 0 0).1 =
        40 ∧
      (msi_domain_get_virq
        (with_data (ex_dev false false [] (some (ex_domain ex_flags ex_ops)))
          (msi_domain_free_irqs_range
            (ex_dev false false [] (some (ex_domain ex_flags ex_ops))) r.2 0 0 0).md) 0 0).1 =
        0 := by
  have hs : (msi_domain_alloc_irq_at (ex_env 40)
      (ex_dev false false [] (some (ex_domain ex_flags ex_ops)))
      (ex_ks [] (some (ex_domain ex_flags ex_ops))) 0 MSI_ANY_INDEX none none).map
        (fun r => r.1) = some { index := 0, virq := 40 } := by decide
  cases h : msi_domain_alloc_irq_at (ex_env 40)
      (ex_dev false false [] (some (ex_domain ex_flags ex_ops)))
      (ex_ks [] (some (ex_domain ex_flags ex_ops))) 0 MSI_ANY_INDEX none none with
  | none => rw [h] at hs; cases hs
  | some r =>
    rw [h] at hs
    simp only [Option.map_some', Option.some.injEq] at hs
    obtain ⟨i, hi, -, -, -, -, -, -, -, hk⟩ := msi_domain_alloc_irq_at_lookup (ex_env 40)
      (ex_dev false false [] (some (ex_domain ex_flags ex_ops)))
      (ex_ks [] (some (ex_domain ex_flags ex_ops))) 0 MSI_ANY_INDEX none none
      (ex_domain ex_flags ex_ops) r rfl env_conv_ex_env_40 (fun _ => le_refl _) (by decide)
      (by decide) (by decide) h (by rw [hs])
    have hi0 : i = 0 := by
      rw [hs] at hi
      have : (0 : Int) = (i : Int) := hi
      omega
    subst hi0
    obtain ⟨k1, k2⟩ := hk rfl
    rw [hs] at k1
    exact ⟨r, rfl, hs, k1, k2 rfl⟩

/-- C27 (as stated): a domain without `MSI_FLAG_FREE_MSI_DESCS`, an empty store and
a hierarchy which fails: `msi_domain_alloc_irq_at` returns `-ENOSPC`, and the
descriptor it has created is in the store at index 0 afterwards. -/
theorem msi_domain_alloc_irq_at_fail_counterexample :
    ((ex_ks [] (some (ex_domain ex_flags ex_ops))).md.__domains 0).store = [] ∧
    (msi_domain_alloc_irq_at (ex_env (-1))
      (ex_dev false false [] (some (ex_domain ex_flags ex_ops)))
      (ex_ks [] (some (ex_domain ex_flags ex_ops))) 0 MSI_ANY_INDEX none none).map
        (fun r => (r.1, (r.2.md.__domains 0).store)) =
      some ({ index := -ENOSPC, virq := 0 }, [(0, ex_desc 0 0)]) := by
  decide

theorem msi_domain_alloc_irq_at_fail_witness :
    ∃ r, msi_domain_alloc_irq_at (ex_env (-1))
        (ex_dev false false ex_store (some (ex_domain ex_managed_flags ex_ops)))
        (ex_ks ex_store (some (ex_domain ex_managed_flags ex_ops))) 0 MSI_ANY_INDEX none none =
          some r ∧
      r.1 = { index := -ENOSPC, virq := 0 } ∧
      ∀ j, xa_load (r.2.md.__domains 0).store j = xa_load ex_store j := by
  have hs : (msi_domain_alloc_irq_at (ex_env (-1))
      (ex_dev false false ex_store (some (ex_domain ex_managed_flags ex_ops)))
      (ex_ks ex_store (some (ex_domain ex_managed_flags ex_ops))) 0 MSI_ANY_INDEX none none).map
        (fun r => r.1) = some { index := -ENOSPC, virq := 0 } := by decide
  cases h : msi_domain_alloc_irq_at (ex_env (-1))
      (ex_dev false false ex_store (some (ex_domain ex_managed_flags ex_ops)))
      (ex_ks ex_store (some (ex_domain ex_managed_flags ex_ops))) 0 MSI_ANY_INDEX none none with
  | none => rw [h] at hs; cases hs
  | some r =>
    rw [h] at hs
    simp only [Option.map_some', Option.some.injEq] at hs
    obtain ⟨-, -, h3, -, -⟩ := msi_domain_alloc_irq_at_fail (ex_env (-1))
      (ex_dev false false ex_store (some (ex_domain ex_managed_flags ex_ops)))
      (ex_ks ex_store (some (ex_domain ex_managed_flags ex_ops))) 0 MSI_ANY_INDEX none none r
      env_conv_ex_env_neg
      (by
        intro domain hd
        have h2 : some (ex_domain ex_managed_flags ex_ops) = some domain := hd
        cases h2
        exact ⟨fun _ => le_refl _, rfl, rfl⟩)
      (by decide) (by decide) (by decide) h (Or.inr (by rw [hs]))
    exact ⟨r, rfl, hs, h3⟩

theorem msi_device_domain_alloc_wired_cookie_witness :
    wired_cookie 5 4 = 17179869189 ∧
    (msi_device_domain_alloc_wired (ex_env 40) ex_wired_domain
      (some (ex_dev false false [] (some ex_wired_domain)))
      (ex_ks [] (some ex_wired_domain)) 5 4).map
        (fun r => (r.1, xa_load (r.2.md.__domains 0).store 0)) =
      some (40, some { ex_desc 40 0 with icookie := 17179869189 }) ∧
    msi_device_domain_alloc_wired (ex_env 40) (ex_domain ex_flags ex_ops)
      (some (ex_dev false false [] (some ex_wired_domain)))
      (ex_ks [] (some ex_wired_domain)) 5 4 = some (-EINVAL, ex_ks [] (some ex_wired_domain)) :=
  ⟨(msi_device_domain_alloc_wired_cookie (ex_env 40) ex_wired_domain
      (ex_ks [] (some ex_wired_domain)) 5 4 (by decide) (by decide)).1.2.1,
   by decide,
   (msi_device_domain_alloc_wired_cookie (ex_env 40) (ex_domain ex_flags ex_ops)
      (ex_ks [] (some ex_wired_domain)) 5 4 (by decide) (by decide)).2.2.1 _ (by decide)⟩

end MSI
